import Mathlib

/-!
The out-of-process plugin host `goproc`.

A shallow embedding of the frame codec (`plugin/communication.go`), the plugin
instance (`plugin/instance.go`), the pool (`plugin/pool.go`), the manager
(`plugin/manager.go`) and the worker SDK wire helpers (`sdk/plugin_sdk.go`,
`sdk/types.go`), followed by theorems about them.

Conventions of the embedding.

* Go's `int` is the 64-bit signed integer of the platforms the repository
  targets.  Every shift and `|` in the codec stays below `2^32`, so natural
  numbers model it without wrap-around; `byte(n)` is `n % 256`.
* A `net.Conn` is a record holding the script of outcomes its `Read` calls will
  produce and the log of its `Write` calls.  Deadlines carry no state: a read
  that runs into its deadline is a `fail` event of the script whose error
  reports `Timeout() = true`.
* Go's `error` values are kept with their message text, so that wrapping with
  `fmt.Errorf` can be followed to the caller.
-/

namespace Goproc

/-! ## Bytes and errors -/

/-- One octet on the wire. -/
abbrev Byte := Fin 256

/-- Go's conversion `byte(n)` of a non-negative `int`: the low eight bits. -/
def byte (n : Nat) : Byte := ⟨n % 256, Nat.mod_lt n (by decide)⟩

/-- Errors a connection hands back from `Read` and `Write`. -/
inductive IOError where
  /-- The value `io.EOF`. -/
  | eof
  /-- The value `io.ErrUnexpectedEOF`. -/
  | unexpectedEOF
  /-- A `net.Error`; `timeout` is what its `Timeout()` method reports. -/
  | net (timeout : Bool) (text : String)
  deriving DecidableEq, Repr

/-- The message of an I/O error (`err.Error()`). -/
def IOError.Error : IOError → String
  | .eof => "EOF"
  | .unexpectedEOF => "unexpected EOF"
  | .net _ text => text

/-- The type assertion `err.(net.Error)` followed by `Timeout()`. -/
def IOError.isNetTimeout : IOError → Bool
  | .net t _ => t
  | _ => false

/-- The error of an operation on a connection that was closed locally. -/
def errClosed : IOError := .net false "use of closed network connection"

/-! ## Connections -/

/-- The outcome of one `Read` call as the environment scripts it. -/
inductive ReadEvent where
  /-- Bytes that are ready; a `Read` takes as many of them as its buffer holds. -/
  | data (bs : List Byte)
  /-- The `Read` returns this error and no byte. -/
  | fail (e : IOError)
  deriving DecidableEq, Repr

/-- One `Write` call: the bytes handed to it and whether it reported success. -/
structure WriteRec where
  data : List Byte
  ok : Bool
  deriving DecidableEq, Repr

/-- A duplex byte stream (`net.Conn`). `script` is consumed by `Read`; once it
is exhausted the peer has closed the stream and `Read` reports `io.EOF`.
`wscript` decides the outcome of successive `Write` calls (`none`: success; an
exhausted list: success). `writes` logs every `Write` call, oldest first. -/
structure Conn where
  script : List ReadEvent
  wscript : List (Option IOError)
  writes : List WriteRec
  closed : Bool
  deriving DecidableEq, Repr

/-- The call `conn.Read(buf)` with `len(buf) = k`: the bytes placed in `buf`,
the error, and the connection afterwards. -/
def Conn.Read (c : Conn) (k : Nat) : (List Byte × Option IOError) × Conn :=
  if c.closed then (([], some errClosed), c)
  else
    match c.script with
    | [] => (([], some .eof), c)
    | .fail e :: rest => (([], some e), { c with script := rest })
    | .data bs :: rest =>
      if bs.length ≤ k then ((bs, none), { c with script := rest })
      else ((bs.take k, none), { c with script := .data (bs.drop k) :: rest })

/-- The call `conn.Write(b)`. -/
def Conn.Write (c : Conn) (b : List Byte) : Option IOError × Conn :=
  if c.closed then (some errClosed, { c with writes := c.writes ++ [⟨b, false⟩] })
  else
    match c.wscript with
    | some e :: ws => (some e, { c with wscript := ws, writes := c.writes ++ [⟨b, false⟩] })
    | none :: ws => (none, { c with wscript := ws, writes := c.writes ++ [⟨b, true⟩] })
    | [] => (none, { c with writes := c.writes ++ [⟨b, true⟩] })

/-- The call `conn.Close()`. -/
def Conn.Close (c : Conn) : Conn := { c with closed := true }

/-- The error `io.ReadAtLeast` returns when its loop stops on `e` with `n`
bytes read and `n < min`: `io.EOF` after some bytes becomes
`io.ErrUnexpectedEOF`. -/
def shortReadError (n : Nat) (e : IOError) : IOError :=
  if 0 < n ∧ e = .eof then .unexpectedEOF else e

/-- The loop of `io.ReadAtLeast(r, buf, len(buf))` run on an open connection's
script: `need` bytes are still missing and `got` holds the bytes read so far.
Each round is one `Read` into the unfilled part of the buffer; a round that
does not fill the buffer has consumed its whole event, so the recursion follows
the script (`readFullScript_step` states the loop equation against
`Conn.Read`). -/
def readFullScript : List ReadEvent → Nat → List Byte →
    Except IOError (List Byte) × List ReadEvent
  | script, 0, got => (.ok got, script)
  | [], _ + 1, got => (.error (shortReadError got.length .eof), [])
  | .fail e :: rest, _ + 1, got => (.error (shortReadError got.length e), rest)
  | .data bs :: rest, need + 1, got =>
    if bs.length ≤ need + 1 then readFullScript rest (need + 1 - bs.length) (got ++ bs)
    else (.ok (got ++ bs.take (need + 1)), .data (bs.drop (need + 1)) :: rest)

/-- The call `io.ReadFull(conn, buf)` with `len(buf) = n`. -/
def ReadFull (c : Conn) (n : Nat) : Except IOError (List Byte) × Conn :=
  if n = 0 then (.ok [], c)
  else if c.closed then (.error errClosed, c)
  else
    let r := readFullScript c.script n []
    (r.1, { c with script := r.2 })

/-! ## Frame codec (`plugin/communication.go`) -/

/-- The method `MessageProtocol.SendMessage`: a 4-byte length header and the data, in
one `Write`. -/
def MessageProtocol.SendMessage (conn : Conn) (data : List Byte) : Option IOError × Conn :=
  let length := data.length
  let header : List Byte :=
    [byte (length >>> 24), byte (length >>> 16), byte (length >>> 8), byte length]
  let fullData := header ++ data
  match conn.Write fullData with
  | (some err, conn') => (some err, conn')
  | (none, conn') => (none, conn')

/-- The length a 4-byte header declares:
`int(header[0])<<24 | int(header[1])<<16 | int(header[2])<<8 | int(header[3])`. -/
def headerLength (header : List Byte) : Nat :=
  (header.getD 0 0).val <<< 24 ||| (header.getD 1 0).val <<< 16 |||
    (header.getD 2 0).val <<< 8 ||| (header.getD 3 0).val

/-- The method `MessageProtocol.ReceiveMessage`: read the header, then a body of the
declared length. -/
def MessageProtocol.ReceiveMessage (conn : Conn) : Except IOError (List Byte) × Conn :=
  match ReadFull conn 4 with
  | (.error err, conn1) => (.error err, conn1)
  | (.ok header, conn1) =>
    let length := headerLength header
    match ReadFull conn1 length with
    | (.error err, conn2) => (.error err, conn2)
    | (.ok data, conn2) => (.ok data, conn2)

/-! ## Messages (`sdk/types.go`) -/

/-- A value of Go's `interface{}` as `encoding/json` produces it. -/
inductive JValue where
  | null
  | bool (b : Bool)
  | num (n : Int)
  | str (s : String)
  | arr (xs : List JValue)
  | obj (kvs : List (String × JValue))

/-- Go's `error` values, kept with the text of their message. -/
inductive GoError where
  /-- An error returned by a connection's `Read` or `Write`. -/
  | io (e : IOError)
  /-- An error returned by `encoding/json`. -/
  | json (text : String)
  /-- The result of `fmt.Errorf` with no `%w` verb; `text` is the formatted message. -/
  | errorf (text : String)
  /-- The result of `fmt.Errorf(text + "%w", inner)`. -/
  | wrapf (text : String) (inner : GoError)
  /-- A run-time fault: a method called through a nil `net.Conn` or `*exec.Cmd`. -/
  | nilDeref
  /-- No Go value: the result of a receive loop of this embedding that was cut
  off by its round counter. The counter starts above the size of the read
  script, and `callLoop_fuel` and `waitForResponseLoop_fuel` show that the
  loops never get there. -/
  | cutOff

/-- The method `Error()` of an error value. -/
def GoError.Error : GoError → String
  | .io e => e.Error
  | .json text => text
  | .errorf text => text
  | .wrapf text inner => text ++ inner.Error
  | .nilDeref => "invalid memory address or nil pointer dereference"
  | .cutOff => ""

def MessageTypeRegister : String := "register"
def MessageTypeRegisterAck : String := "register_ack"
def MessageTypeCall : String := "call"
def MessageTypeResult : String := "result"
def MessageTypeError : String := "error"
def MessageTypePing : String := "ping"
def MessageTypePong : String := "pong"
def MessageTypeStop : String := "stop"

/-- The envelope `sdk.Message`. The field `Type` of the source is `Type_` here;
a nil `Params` map is the empty list and a nil `Result` is `JValue.null`. -/
structure Message where
  Type_ : String
  ID : String := ""
  Function : String := ""
  Params : List (String × JValue) := []
  Result : JValue := .null
  Error : String := ""

/-- The two functions of `encoding/json` the envelope goes through. They are
not part of the repository and are taken as a parameter. -/
structure Codec where
  Marshal : Message → Except String (List Byte)
  Unmarshal : List Byte → Except String Message

/-- The function `sdk.EncodeMessage`. -/
def EncodeMessage (j : Codec) (msg : Message) : Except GoError (List Byte) :=
  match j.Marshal msg with
  | .ok data => .ok data
  | .error text => .error (.json text)

/-- The function `sdk.DecodeMessage`. -/
def DecodeMessage (j : Codec) (data : List Byte) : Except GoError Message :=
  match j.Unmarshal data with
  | .error text => .error (.json text)
  | .ok msg => .ok msg

/-- The index expression `m[key]` on a Go map: the zero value (nil) when the
key is absent. -/
def mapIndex (m : List (String × JValue)) (key : String) : JValue :=
  match m.lookup key with
  | some v => v
  | none => .null

/-! ## Plugin configuration (`config/config.go`) -/

def PluginTypeBinary : String := "binary"
def PluginTypeScript : String := "script"

/-- The record `config.PluginConfig`. -/
structure PluginConfig where
  Type_ : String
  Path : String := ""
  Interpreter : String := ""
  ScriptPath : String := ""
  PoolSize : Int := 0
  MaxInstances : Int := 0
  HealthCheckInterval : Int := 0
  Args : List String := []
  Functions : List String := []
  Environment : List (String × String) := []
  deriving DecidableEq, Repr

/-- The method `PluginConfig.GetPluginCommand`. -/
def PluginConfig.GetPluginCommand (p : PluginConfig) : String × List String :=
  if p.Type_ = PluginTypeBinary then (p.Path, p.Args)
  else if p.Type_ = PluginTypeScript then
    let args := [p.ScriptPath]
    let args := args ++ p.Args
    (p.Interpreter, args)
  else ("", [])

/-! ## Path functions of the POSIX build (`path/filepath`) -/

/-- The elements of a path between its separators. -/
def splitSlash (cs : List Char) : List (List Char) :=
  cs.foldr (fun c acc =>
    if c = '/' then [] :: acc
    else match acc with
      | [] => [[c]]
      | e :: es => (c :: e) :: es) [[]]

/-- One step of `filepath.Clean` on the elements kept so far (innermost
first): empty and `.` elements vanish, `..` removes the element before it,
stays in front of a relative path and vanishes at the root. -/
def cleanStep (rooted : Bool) (kept : List (List Char)) (e : List Char) : List (List Char) :=
  if e = [] ∨ e = ['.'] then kept
  else if e = ['.', '.'] then
    match kept with
    | [] => if rooted then [] else [e]
    | k :: ks => if k = ['.', '.'] then e :: k :: ks else ks
  else e :: kept

/-- The function `filepath.Clean`. -/
def filepathClean (path : String) : String :=
  let cs := path.toList
  let rooted := cs.head? = some '/'
  let kept := ((splitSlash cs).foldl (cleanStep rooted) []).reverse
  let body := String.intercalate "/" (kept.map String.mk)
  if rooted then "/" ++ body
  else if body = "" then "." else body

/-- The function `filepath.Join` of a non-empty directory and one more element. -/
def filepathJoin (dir elem : String) : String :=
  if elem = "" then filepathClean dir else filepathClean (dir ++ "/" ++ elem)

/-- The function `filepath.Dir`: the path up to the last separator, cleaned. -/
def filepathDir (path : String) : String :=
  let cs := path.toList.reverse.dropWhile (fun c => c ≠ '/')
  filepathClean (String.mk cs.reverse)

/-! ## Transport (`plugin/communication_unix.go`, `plugin/communication_windows.go`) -/

/-- The implementation behind the interface `CommunicationChannel`. -/
inductive CommunicationType where
  | pipe
  | unix
  deriving DecidableEq, Repr

/-- A `CommunicationChannel` value: its implementation and the log of
addresses its `Cleanup` was called on, oldest first. -/
structure CommunicationChannel where
  kind : CommunicationType
  cleaned : List String := []
  deriving DecidableEq, Repr

/-- The method `UnixCommunication.GenerateAddress`. -/
def UnixCommunication.GenerateAddress (pluginName instanceID : String) : String :=
  let socketsDir := "/tmp/goproc_sockets"
  filepathJoin socketsDir (pluginName ++ "-" ++ instanceID ++ ".sock")

/-- The method `PipeCommunication.GenerateAddress`. -/
def PipeCommunication.GenerateAddress (_pluginName instanceID : String) : String :=
  "\\\\.\\pipe\\" ++ instanceID

/-- The interface method `CommunicationChannel.GenerateAddress`. -/
def CommunicationChannel.GenerateAddress (ch : CommunicationChannel)
    (pluginName instanceID : String) : String :=
  match ch.kind with
  | .unix => UnixCommunication.GenerateAddress pluginName instanceID
  | .pipe => PipeCommunication.GenerateAddress pluginName instanceID

/-- The interface method `CommunicationChannel.Cleanup`; the call is logged. -/
def CommunicationChannel.Cleanup (ch : CommunicationChannel) (address : String) :
    CommunicationChannel :=
  { ch with cleaned := ch.cleaned ++ [address] }

/-! ## Plugin instance (`plugin/instance.go`) -/

/-- The child process handle `*exec.Cmd`. `started` stands for
`Process != nil`, `killed` for a `Process.Kill()` call and `waited` for a
`Wait()` that has returned (which also sets `ProcessState`). -/
structure Cmd where
  Path : String
  Args : List String
  Env : List String := []
  Dir : String := ""
  started : Bool := false
  killed : Bool := false
  waited : Bool := false
  deriving DecidableEq, Repr

/-- The record `PluginInstance`, without its two locks. `retired` is a ghost
field: the connections the instance held before the present one, oldest
first. -/
structure PluginInstance where
  ID : String
  PluginName : String
  Config : PluginConfig
  Process : Option Cmd := none
  Conn : Option Conn := none
  Address : String := ""
  IsRunning : Bool := false
  IsConnected : Bool := false
  Functions : List String := []
  LastUsed : Nat := 0
  Communication : CommunicationChannel
  retired : List Goproc.Conn := []
  deriving DecidableEq, Repr

/-- What the operating system and the clock decide during `Start`. -/
structure StartEnv where
  /-- The result of `os.Environ()`. -/
  environ : List String
  /-- The error of `exec.Cmd.Start`, if it fails. -/
  spawnError : Option String
  /-- Whether the 500 ms deadline of `waitForProcessReady` passes before the
  loop has seen 100 ms go by. -/
  readyDeadline : Bool
  /-- The connection a `Dial` attempt yields before the 10 s deadline of
  `connectToPlugin`, if any attempt succeeds: what its `Read` and `Write`
  calls are going to meet. -/
  dial : Option (List ReadEvent × List (Option IOError))
  /-- The number of rounds of `waitForRegistration` that begin before its 10 s
  deadline. -/
  regRounds : Nat

/-- What the operating system and the clock decide during `Stop`. -/
structure StopEnv where
  /-- The reading of `time.Now().UnixNano()`. -/
  now : Nat
  /-- Whether the child exits within 2 s of the stop frame. -/
  exitsInTime : Bool
  /-- Whether the killed child is reaped within 5 s. -/
  reapedInTime : Bool

/-- The constructor `NewPluginInstance`; `now` is the reading of `time.Now()`
and `kind` the transport of the build. -/
def NewPluginInstance (kind : CommunicationType) (now : Nat) (pluginName : String)
    (config : PluginConfig) (instanceID : String) : PluginInstance :=
  { ID := instanceID
    PluginName := pluginName
    Config := config
    IsRunning := false
    IsConnected := false
    Functions := []
    LastUsed := now
    Communication := { kind := kind } }

/-- The method `PluginInstance.sendMessage`. -/
def PluginInstance.sendMessage (j : Codec) (pi : PluginInstance) (msg : Message) :
    Option GoError × PluginInstance :=
  match EncodeMessage j msg with
  | .error err => (some err, pi)
  | .ok data =>
    match pi.Conn with
    | none => (some .nilDeref, pi)
    | some conn =>
      match MessageProtocol.SendMessage conn data with
      | (some err, conn') => (some (.io err), { pi with Conn := some conn' })
      | (none, conn') => (none, { pi with Conn := some conn' })

/-- The method `PluginInstance.hasFunction`. -/
def PluginInstance.hasFunction (pi : PluginInstance) (functionName : String) : Bool :=
  pi.Functions.any (fun fn => fn == functionName)

/-- The method `PluginInstance.RegisterFunctions`. -/
def PluginInstance.RegisterFunctions (pi : PluginInstance) (functions : List String) :
    PluginInstance :=
  { pi with Functions := functions }

/-- The method `PluginInstance.startProcess`. -/
def PluginInstance.startProcess (env : StartEnv) (pi : PluginInstance) :
    Option GoError × PluginInstance :=
  let (command, args) := pi.Config.GetPluginCommand
  let args := args ++ [pi.Address]
  let cmd : Cmd := { Path := command, Args := command :: args }
  let env1 := env.environ
  let env1 := env1 ++ ["GOPROC_PLUGIN_ADDRESS=" ++ pi.Address]
  let env1 := pi.Config.Environment.foldl (fun acc kv => acc ++ [kv.1 ++ "=" ++ kv.2]) env1
  let cmd := { cmd with Env := env1 }
  let cmd := if cmd.Dir = "" then { cmd with Dir := filepathDir command } else cmd
  match env.spawnError with
  | some text =>
    (some (.wrapf "启动进程失败: " (.errorf text)), { pi with Process := some cmd })
  | none => (none, { pi with Process := some { cmd with started := true } })

/-- The method `PluginInstance.waitForProcessReady`. -/
def PluginInstance.waitForProcessReady (env : StartEnv) (pi : PluginInstance) : Option GoError :=
  if env.readyDeadline then some (.errorf "等待进程启动超时")
  else
    match pi.Process with
    | none => some .nilDeref
    | some cmd =>
      if cmd.started then
        if cmd.waited then some (.errorf "进程已退出")
        else none
      else some (.errorf "进程对象为空")

/-- The method `PluginInstance.connectToPlugin`. -/
def PluginInstance.connectToPlugin (env : StartEnv) (pi : PluginInstance) :
    Option GoError × PluginInstance :=
  match env.dial with
  | some (script, wscript) =>
    let conn : Goproc.Conn := { script := script, wscript := wscript, writes := [], closed := false }
    (none, { pi with Conn := some conn, retired := pi.retired ++ pi.Conn.toList })
  | none => (some (.errorf "连接到插件进程超时"), pi)

/-- The call `pi.Process.Process.Kill()`. -/
def PluginInstance.kill (pi : PluginInstance) : PluginInstance :=
  { pi with Process := pi.Process.map (fun cmd => { cmd with killed := true }) }

/-- The call `pi.Conn.Close()`. -/
def PluginInstance.closeConn (pi : PluginInstance) : PluginInstance :=
  { pi with Conn := pi.Conn.map Conn.Close }

/-- The names `waitForRegistration` takes from a `functions` parameter of type
`[]interface{}`: an element that is no string leaves the empty string. -/
def functionNamesOf (functions : List JValue) : List String :=
  functions.map (fun fn => match fn with
    | .str name => name
    | _ => "")

/-- The method `PluginInstance.waitForRegistration`. `rounds` is the number of loop
rounds that begin before the 10 s deadline. A `functions` parameter decoded
from JSON is nil or an array; any other value takes the `default` branch. -/
def PluginInstance.waitForRegistration (j : Codec) :
    Nat → PluginInstance → Option GoError × PluginInstance
  | 0, pi => (some (.errorf "等待插件注册超时"), pi)
  | rounds + 1, pi =>
    match pi.Conn with
    | none => (some .nilDeref, pi)
    | some conn =>
      match MessageProtocol.ReceiveMessage conn with
      | (.error err, conn') =>
        if err.isNetTimeout then
          PluginInstance.waitForRegistration j rounds { pi with Conn := some conn' }
        else (some (.io err), { pi with Conn := some conn' })
      | (.ok data, conn') =>
        let pi1 := { pi with Conn := some conn' }
        match DecodeMessage j data with
        | .error _ => PluginInstance.waitForRegistration j rounds pi1
        | .ok msg =>
          if msg.Type_ = MessageTypeRegister then
            match mapIndex msg.Params "functions" with
            | .null => PluginInstance.waitForRegistration j rounds pi1
            | .arr functions =>
              let functionNames := functionNamesOf functions
              if functionNames.length > 0 then
                let pi2 := pi1.RegisterFunctions functionNames
                let ackMsg : Message := { Type_ := MessageTypeRegisterAck }
                match pi2.sendMessage j ackMsg with
                | (some err, pi3) => (some err, pi3)
                | (none, pi3) => (none, pi3)
              else PluginInstance.waitForRegistration j rounds pi1
            | _ => PluginInstance.waitForRegistration j rounds pi1
          else PluginInstance.waitForRegistration j rounds pi1

/-- The method `PluginInstance.Start`. -/
def PluginInstance.Start (j : Codec) (env : StartEnv) (pi : PluginInstance) :
    Option GoError × PluginInstance :=
  if pi.IsRunning then (some (.errorf ("插件实例 " ++ pi.ID ++ " 已经在运行")), pi)
  else
    let pi := { pi with Address := pi.Communication.GenerateAddress pi.PluginName pi.ID }
    match pi.startProcess env with
    | (some err, pi) => (some (.wrapf "启动插件进程失败: " err), pi)
    | (none, pi) =>
      match pi.waitForProcessReady env with
      | some err => (some (.wrapf "等待进程启动失败: " err), pi.kill)
      | none =>
        match pi.connectToPlugin env with
        | (some err, pi) => (some (.wrapf "连接到插件进程失败: " err), pi.kill)
        | (none, pi) =>
          match pi.waitForRegistration j env.regRounds with
          | (some err, pi) => (some (.wrapf "等待插件注册失败: " err), pi.closeConn.kill)
          | (none, pi) => (none, { pi with IsRunning := true, IsConnected := true })

/-- The size of a read script: its events and the bytes they hold. Every
frame received takes at least four bytes off it. -/
def scriptSize : List ReadEvent → Nat
  | [] => 0
  | .data bs :: rest => bs.length + 1 + scriptSize rest
  | .fail _ :: rest => 1 + scriptSize rest

/-- The round counter a receive loop starts with. -/
def PluginInstance.loopFuel (pi : PluginInstance) : Nat :=
  match pi.Conn with
  | some conn => scriptSize conn.script + 1
  | none => 1

/-- The response loop of `PluginInstance.CallFunction` (the `for` statement after the
call frame was sent). `later` is the reading of `time.Now()` stored in
`LastUsed`. -/
def PluginInstance.callLoop (j : Codec) (messageID : String) (later : Nat) :
    Nat → PluginInstance → Except GoError JValue × PluginInstance
  | 0, pi => (.error .cutOff, pi)
  | fuel + 1, pi =>
    match pi.Conn with
    | none => (.error .nilDeref, pi)
    | some conn =>
      match MessageProtocol.ReceiveMessage conn with
      | (.error err, conn') =>
        if err.isNetTimeout then
          (.error (.errorf "等待响应超时"), { pi with Conn := some conn' })
        else (.error (.wrapf "接收响应失败: " (.io err)), { pi with Conn := some conn' })
      | (.ok data, conn') =>
        match DecodeMessage j data with
        | .error _ => PluginInstance.callLoop j messageID later fuel { pi with Conn := some conn' }
        | .ok msg =>
          if msg.ID = messageID then
            let pi1 := { pi with Conn := some conn', LastUsed := later }
            if msg.Type_ = MessageTypeResult then (.ok msg.Result, pi1)
            else if msg.Type_ = MessageTypeError then
              (.error (.errorf ("插件返回错误: " ++ msg.Error)), pi1)
            else (.error (.errorf ("收到未知的响应类型: " ++ msg.Type_)), pi1)
          else if msg.Type_ = MessageTypePing then
            let pongMsg : Message := { Type_ := MessageTypePong }
            let pongData := match EncodeMessage j pongMsg with
              | .ok data => data
              | .error _ => []
            let conn'' := (MessageProtocol.SendMessage conn' pongData).2
            PluginInstance.callLoop j messageID later fuel { pi with Conn := some conn'' }
          else PluginInstance.callLoop j messageID later fuel { pi with Conn := some conn' }

/-- The method `PluginInstance.CallFunction`. `now` is the reading of
`time.Now().UnixNano()` the message id is minted from. -/
def PluginInstance.CallFunction (j : Codec) (now later : Nat) (pi : PluginInstance)
    (functionName : String) (params : List (String × JValue)) :
    Except GoError JValue × PluginInstance :=
  let isConnected := pi.IsConnected && pi.Conn.isSome
  let hasFunc := pi.hasFunction functionName
  if !isConnected then (.error (.errorf ("插件实例 " ++ pi.ID ++ " 未连接")), pi)
  else if !hasFunc then
    (.error (.errorf ("插件实例 " ++ pi.ID ++ " 不支持函数 " ++ functionName)), pi)
  else
    let messageID := "call-" ++ toString now
    let callMsg : Message :=
      { Type_ := MessageTypeCall, ID := messageID, Function := functionName, Params := params }
    match pi.sendMessage j callMsg with
    | (some err, pi1) => (.error (.wrapf "发送调用消息失败: " err), pi1)
    | (none, pi1) => pi1.callLoop j messageID later pi1.loopFuel

/-- The `for` loop of `PluginInstance.waitForResponse`. -/
def PluginInstance.waitForResponseLoop (j : Codec) (messageID : String) :
    Nat → PluginInstance → Except GoError JValue × PluginInstance
  | 0, pi => (.error .cutOff, pi)
  | fuel + 1, pi =>
    match pi.Conn with
    | none => (.error .nilDeref, pi)
    | some conn =>
      match MessageProtocol.ReceiveMessage conn with
      | (.error err, conn') => (.error (.io err), { pi with Conn := some conn' })
      | (.ok data, conn') =>
        let pi1 := { pi with Conn := some conn' }
        match DecodeMessage j data with
        | .error err => (.error err, pi1)
        | .ok msg =>
          if msg.ID = messageID then
            if msg.Type_ = MessageTypeResult then (.ok msg.Result, pi1)
            else if msg.Type_ = MessageTypeError then
              (.error (.errorf ("插件返回错误: " ++ msg.Error)), pi1)
            else (.error (.errorf ("收到未知的响应类型: " ++ msg.Type_)), pi1)
          else PluginInstance.waitForResponseLoop j messageID fuel pi1

/-- The method `PluginInstance.waitForResponse` with its round counter set. -/
def PluginInstance.waitForResponse (j : Codec) (pi : PluginInstance) (messageID : String) :
    Except GoError JValue × PluginInstance :=
  pi.waitForResponseLoop j messageID pi.loopFuel

/-- The method `PluginInstance.HealthCheck`. -/
def PluginInstance.HealthCheck (j : Codec) (now : Nat) (pi : PluginInstance) :
    Bool × PluginInstance :=
  if !pi.IsConnected || pi.Conn.isNone then (false, pi)
  else
    let pingMsg : Message := { Type_ := MessageTypePing, ID := "healthcheck-" ++ toString now }
    match pi.sendMessage j pingMsg with
    | (some _, pi1) => (false, pi1)
    | (none, pi1) =>
      match pi1.waitForResponse j pingMsg.ID with
      | (.error _, pi2) => (false, pi2)
      | (.ok _, pi2) => (true, pi2)

/-- The call `pi.Process.Wait()` that has returned. -/
def PluginInstance.reap (pi : PluginInstance) : PluginInstance :=
  { pi with Process := pi.Process.map (fun cmd => { cmd with waited := true }) }

/-- The test `pi.Process != nil && pi.Process.Process != nil`. -/
def PluginInstance.hasProcess (pi : PluginInstance) : Bool :=
  match pi.Process with
  | some cmd => cmd.started
  | none => false

/-- The method `PluginInstance.Stop`. -/
def PluginInstance.Stop (j : Codec) (env : StopEnv) (pi : PluginInstance) :
    Option GoError × PluginInstance :=
  if !pi.IsRunning then (none, pi)
  else
    let connected := pi.IsConnected && pi.Conn.isSome
    let stopMsg : Message := { Type_ := MessageTypeStop, ID := "stop-" ++ toString env.now }
    let pi1 := if connected then (pi.sendMessage j stopMsg).2 else pi
    if connected && (!pi1.hasProcess || env.exitsInTime) then
      let pi2 := if pi1.hasProcess then pi1.reap else pi1
      let pi2 := { pi2 with IsRunning := false, IsConnected := false }
      let pi2 := { pi2 with Communication := pi2.Communication.Cleanup pi2.Address }
      (none, pi2)
    else
      let pi2 :=
        if pi1.hasProcess then
          let pi2 := pi1.closeConn
          let pi2 := pi2.kill
          if env.reapedInTime then pi2.reap else pi2
        else pi1
      let pi3 := { pi2 with Communication := pi2.Communication.Cleanup pi2.Address }
      let pi3 := { pi3 with IsRunning := false, IsConnected := false }
      (none, pi3)

/-- One operation of a caller on an instance, with what the environment
decides during it. -/
inductive InstanceOp where
  | start (env : StartEnv)
  | call (now later : Nat) (functionName : String) (params : List (String × JValue))
  | healthCheck (now : Nat)
  | stop (env : StopEnv)

/-- The instance after one operation. -/
def PluginInstance.step (j : Codec) (pi : PluginInstance) : InstanceOp → PluginInstance
  | .start env => (pi.Start j env).2
  | .call now later functionName params => (pi.CallFunction j now later functionName params).2
  | .healthCheck now => (pi.HealthCheck j now).2
  | .stop env => (pi.Stop j env).2

/-- The instance after a sequence of operations. -/
def PluginInstance.run (j : Codec) (pi : PluginInstance) (ops : List InstanceOp) :
    PluginInstance :=
  ops.foldl (PluginInstance.step j) pi

/-- Every connection the instance has held, the present one last. -/
def PluginInstance.connections (pi : PluginInstance) : List Goproc.Conn :=
  pi.retired ++ pi.Conn.toList

/-! ## Plugin pool (`plugin/pool.go`) -/

/-- A `*PluginInstance`: the position of the instance in the heap of its pool. -/
abbrev Ptr := Nat

/-- A buffered channel of `*PluginInstance`: `make(chan *PluginInstance, cap)`. -/
structure Chan where
  buf : List Ptr := []
  cap : Nat
  closed : Bool := false
  deriving DecidableEq, Repr

/-- How a call ends in the sequential runs of this embedding: it returns, it
panics, or its goroutine waits for ever on a channel operation that no other
goroutine is there to complete. -/
inductive Outcome (α : Type) where
  | returns (a : α)
  | panics (text : String)
  | blocks

/-- A receive in a `select` with a `default` branch: the value received (nil
from a closed and drained channel), or `none` when `default` is taken. -/
def Chan.tryRecv (ch : Chan) : Option (Option Ptr × Chan) :=
  match ch.buf with
  | p :: rest => some (some p, { ch with buf := rest })
  | [] => if ch.closed then some (none, ch) else none

/-- The data structure `PluginPool`, without its lock. `heap` holds the instance
objects the pointers of the map and of the channels refer to. -/
structure PluginPool where
  PluginName : String
  Config : PluginConfig
  Instances : List (String × Ptr) := []
  Available : Chan
  IsRunning : Bool := false
  MaxInstances : Int
  waitQueue : Chan
  heap : List PluginInstance := []
  deriving DecidableEq, Repr

/-- The assignment `m[key] = p` on a map kept as a list with one entry for a
key. -/
def mapInsert (m : List (String × Ptr)) (key : String) (p : Ptr) : List (String × Ptr) :=
  if m.any (fun kv => kv.1 == key) then m.map (fun kv => if kv.1 == key then (key, p) else kv)
  else m ++ [(key, p)]

/-- The constructor `NewPluginPool`. -/
def NewPluginPool (pluginName : String) (config : PluginConfig) : PluginPool :=
  let queueCapacity := if config.MaxInstances < 10 then 10 else config.MaxInstances
  let waitQueueCapacity := if config.MaxInstances < 10 then 10 else config.MaxInstances
  { PluginName := pluginName
    Config := config
    Instances := []
    Available := { cap := queueCapacity.toNat }
    waitQueue := { cap := waitQueueCapacity.toNat }
    IsRunning := false
    MaxInstances := config.MaxInstances }

/-- What the environment decides while an instance is created. -/
structure CreateEnv where
  /-- The result of `uuid.NewRandom()`: its error, or the 36 characters of
  `String()`. -/
  uuid : Except String String
  /-- The reading of `time.Now()` in `NewPluginInstance`. -/
  now : Nat
  start : StartEnv

/-- The expression
`uuidStr[:8] + uuidStr[9:13] + uuidStr[14:18] + uuidStr[19:23] + uuidStr[24:]`. -/
def stripHyphens (uuidStr : String) : String :=
  let cs := uuidStr.toList
  String.mk (cs.take 8 ++ (cs.drop 9).take 4 ++ (cs.drop 14).take 4 ++ (cs.drop 19).take 4
    ++ cs.drop 24)

/-- The method `PluginPool.createNewInstance`. -/
def PluginPool.createNewInstance (j : Codec) (kind : CommunicationType) (env : CreateEnv)
    (pp : PluginPool) : Outcome (Except GoError Ptr) × PluginPool :=
  let currentCount : Int := pp.Instances.length
  if currentCount ≥ pp.MaxInstances then
    (.returns (.error (.errorf ("已达到最大实例数 " ++ toString pp.MaxInstances))), pp)
  else
    match env.uuid with
    | .error text => (.returns (.error (.wrapf "生成实例ID失败: " (.errorf text))), pp)
    | .ok uuidStr =>
      let uuidStr := stripHyphens uuidStr
      let instanceID := pp.PluginName ++ uuidStr
      let inst := NewPluginInstance kind env.now pp.PluginName pp.Config instanceID
      match inst.Start j env.start with
      | (some err, _) =>
        (.returns (.error (.wrapf ("启动实例 " ++ instanceID ++ " 失败: ") err)), pp)
      | (none, inst) =>
        let ptr := pp.heap.length
        let pp := { pp with heap := pp.heap ++ [inst],
                            Instances := mapInsert pp.Instances instanceID ptr }
        if pp.Available.closed then (.panics "send on closed channel", pp)
        else if pp.Available.buf.length < pp.Available.cap then
          (.returns (.ok ptr),
            { pp with Available := { pp.Available with buf := pp.Available.buf ++ [ptr] } })
        else (.blocks, pp)

/-- The method `PluginPool.waitForAvailableInstance`, with no other goroutine at work
during the wait: a channel that is ready is received from (`pick` settles the
choice when both are), and otherwise the 5 s timer fires. -/
def PluginPool.waitForAvailableInstance (pick : Bool) (pp : PluginPool) :
    Outcome (Except GoError (Option Ptr)) × PluginPool :=
  match pp.Available.tryRecv, pp.waitQueue.tryRecv with
  | some (inst, ch), none => (.returns (.ok inst), { pp with Available := ch })
  | none, some (inst, ch) => (.returns (.ok inst), { pp with waitQueue := ch })
  | some (inst, ch), some (inst', ch') =>
    if pick then (.returns (.ok inst), { pp with Available := ch })
    else (.returns (.ok inst'), { pp with waitQueue := ch' })
  | none, none => (.returns (.error (.errorf "等待可用实例超时")), pp)

/-- The method `PluginPool.GetInstance`. -/
def PluginPool.GetInstance (j : Codec) (kind : CommunicationType) (env : CreateEnv)
    (pick : Bool) (pp : PluginPool) : Outcome (Except GoError (Option Ptr)) × PluginPool :=
  if !pp.IsRunning then
    (.returns (.error (.errorf ("插件池 " ++ pp.PluginName ++ " 未运行"))), pp)
  else
    match pp.Available.tryRecv with
    | some (inst, ch) => (.returns (.ok inst), { pp with Available := ch })
    | none =>
      let currentCount : Int := pp.Instances.length
      if currentCount < pp.MaxInstances then
        match pp.createNewInstance j kind env with
        | (.returns (.ok ptr), pp) => (.returns (.ok (some ptr)), pp)
        | (.returns (.error err), pp) => (.returns (.error err), pp)
        | (.panics text, pp) => (.panics text, pp)
        | (.blocks, pp) => (.blocks, pp)
      else pp.waitForAvailableInstance pick

/-- The method `PluginPool.ReturnInstance`. -/
def PluginPool.ReturnInstance (pp : PluginPool) (ptr : Ptr) : Outcome Unit × PluginPool :=
  if !pp.IsRunning then (.returns (), pp)
  else
    match pp.heap[ptr]? with
    | none => (.panics "invalid memory address or nil pointer dereference", pp)
    | some inst =>
      let found := (pp.Instances.lookup inst.ID).isSome
      if !found then (.returns (), pp)
      else if pp.waitQueue.closed then (.panics "send on closed channel", pp)
      else if pp.waitQueue.buf.length < pp.waitQueue.cap then
        (.returns (), { pp with waitQueue := { pp.waitQueue with buf := pp.waitQueue.buf ++ [ptr] } })
      else if pp.Available.closed then (.panics "send on closed channel", pp)
      else if pp.Available.buf.length < pp.Available.cap then
        (.returns (), { pp with Available := { pp.Available with buf := pp.Available.buf ++ [ptr] } })
      else (.returns (), pp)

/-- What the environment decides during `PluginPool.CallFunction`. -/
structure PoolCallEnv where
  create : CreateEnv
  pick : Bool
  /-- The reading of `time.Now().UnixNano()` the message id is minted from. -/
  now : Nat
  /-- The reading of `time.Now()` stored in `LastUsed`. -/
  later : Nat

/-- The method `PluginPool.CallFunction`; the deferred `ReturnInstance` runs on both
paths out of the call. -/
def PluginPool.CallFunction (j : Codec) (kind : CommunicationType) (env : PoolCallEnv)
    (pp : PluginPool) (functionName : String) (params : List (String × JValue)) :
    Outcome (Except GoError JValue) × PluginPool :=
  match pp.GetInstance j kind env.create env.pick with
  | (.panics text, pp) => (.panics text, pp)
  | (.blocks, pp) => (.blocks, pp)
  | (.returns (.error err), pp) => (.returns (.error err), pp)
  | (.returns (.ok none), pp) => (.returns (.error (.errorf "获取到的插件实例为nil")), pp)
  | (.returns (.ok (some ptr)), pp) =>
    match pp.heap[ptr]? with
    | none => (.panics "invalid memory address or nil pointer dereference", pp)
    | some inst =>
      let (result, inst) := inst.CallFunction j env.now env.later functionName params
      let pp := { pp with heap := pp.heap.set ptr inst }
      match pp.ReturnInstance ptr with
      | (.returns _, pp) => (.returns result, pp)
      | (.panics text, pp) => (.panics text, pp)
      | (.blocks, pp) => (.blocks, pp)

/-- The loop of `PluginPool.Start`: `remaining` rounds are left, `i` is the loop
variable and `successCount` the count so far; `envs i` is what the environment
decides during round `i`. -/
def PluginPool.startLoop (j : Codec) (kind : CommunicationType) (envs : Nat → CreateEnv) :
    Nat → Nat → PluginPool → Nat → Outcome Nat × PluginPool
  | 0, _, pp, successCount => (.returns successCount, pp)
  | remaining + 1, i, pp, successCount =>
    match pp.createNewInstance j kind (envs i) with
    | (.returns (.ok _), pp) =>
      PluginPool.startLoop j kind envs remaining (i + 1) pp (successCount + 1)
    | (.returns (.error _), pp) =>
      PluginPool.startLoop j kind envs remaining (i + 1) pp successCount
    | (.panics text, pp) => (.panics text, pp)
    | (.blocks, pp) => (.blocks, pp)

/-- The method `PluginPool.Start`. -/
def PluginPool.Start (j : Codec) (kind : CommunicationType) (envs : Nat → CreateEnv)
    (pp : PluginPool) : Outcome (Option GoError) × PluginPool :=
  if pp.IsRunning then
    (.returns (some (.errorf ("插件池 " ++ pp.PluginName ++ " 已经在运行"))), pp)
  else
    match pp.startLoop j kind envs pp.Config.PoolSize.toNat 0 0 with
    | (.returns successCount, pp) =>
      if successCount = 0 then
        (.returns (some (.errorf
          ("插件池 " ++ pp.PluginName ++ " 启动失败：无法创建任何插件实例"))), pp)
      else (.returns none, { pp with IsRunning := true })
    | (.panics text, pp) => (.panics text, pp)
    | (.blocks, pp) => (.blocks, pp)

/-- The loop of `PluginPool.Stop` over the instances of the map: each is stopped in
place. -/
def stopInstances (j : Codec) (envs : Ptr → StopEnv) :
    List (String × Ptr) → List PluginInstance → List PluginInstance
  | [], heap => heap
  | (_, p) :: rest, heap =>
    match heap[p]? with
    | some inst => stopInstances j envs rest (heap.set p (inst.Stop j (envs p)).2)
    | none => stopInstances j envs rest heap

/-- The method `PluginPool.Stop`; `envs p` is what the environment decides while the
instance at `p` stops. Closing a closed channel panics. -/
def PluginPool.Stop (j : Codec) (envs : Ptr → StopEnv) (pp : PluginPool) :
    Outcome Unit × PluginPool :=
  if !pp.IsRunning then (.returns (), pp)
  else
    let pp := { pp with IsRunning := false }
    if pp.waitQueue.closed then (.panics "close of closed channel", pp)
    else
      let pp := { pp with waitQueue := { pp.waitQueue with closed := true } }
      let pp := { pp with heap := stopInstances j envs pp.Instances pp.heap }
      let pp := { pp with Instances := [] }
      if pp.Available.closed then (.panics "close of closed channel", pp)
      else (.returns (), { pp with Available := { pp.Available with closed := true } })

/-- One operation of a caller on a pool, with what the environment decides
during it. -/
inductive PoolOp where
  | start (envs : Nat → CreateEnv)
  | getInstance (env : CreateEnv) (pick : Bool)
  | returnInstance (ptr : Ptr)
  | callFunction (env : PoolCallEnv) (functionName : String) (params : List (String × JValue))
  | stop (envs : Ptr → StopEnv)

/-- An outcome without its value. -/
def Outcome.void {α : Type} : Outcome α → Outcome Unit
  | .returns _ => .returns ()
  | .panics text => .panics text
  | .blocks => .blocks

/-- The pool after one operation, and how the operation ended. -/
def PluginPool.step (j : Codec) (kind : CommunicationType) (pp : PluginPool) :
    PoolOp → Outcome Unit × PluginPool
  | .start envs => ((pp.Start j kind envs).1.void, (pp.Start j kind envs).2)
  | .getInstance env pick =>
    ((pp.GetInstance j kind env pick).1.void, (pp.GetInstance j kind env pick).2)
  | .returnInstance ptr => pp.ReturnInstance ptr
  | .callFunction env functionName params =>
    ((pp.CallFunction j kind env functionName params).1.void,
      (pp.CallFunction j kind env functionName params).2)
  | .stop envs => pp.Stop j envs

/-- The pool after a sequence of operations by one caller. An operation that
panics or blocks ends the run, with the pool as it was left. -/
def PluginPool.run (j : Codec) (kind : CommunicationType) :
    PluginPool → List PoolOp → Outcome Unit × PluginPool
  | pp, [] => (.returns (), pp)
  | pp, op :: ops =>
    match pp.step j kind op with
    | (.returns _, pp') => PluginPool.run j kind pp' ops
    | (.panics text, pp') => (.panics text, pp')
    | (.blocks, pp') => (.blocks, pp')

/-- The identifier `uuid.NewRandom` yields in `env` is new to the pool: it makes no
instance id that is a key of the map. -/
def PluginPool.freshEnv (pp : PluginPool) (env : CreateEnv) : Bool :=
  match env.uuid with
  | .ok uuidStr => (pp.Instances.lookup (pp.PluginName ++ stripHyphens uuidStr)).isNone
  | .error _ => true

/-- Every identifier drawn during `remaining` successive creations, from round `i`
on, is new to the pool at the time it is drawn. -/
def PluginPool.freshLoop (j : Codec) (kind : CommunicationType) (envs : Nat → CreateEnv) :
    Nat → Nat → PluginPool → Bool
  | 0, _, _ => true
  | remaining + 1, i, pp =>
    pp.freshEnv (envs i) &&
      PluginPool.freshLoop j kind envs remaining (i + 1) (pp.createNewInstance j kind (envs i)).2

/-- Every identifier drawn during the operation is new to the pool at the time it
is drawn. -/
def PluginPool.freshOp (j : Codec) (kind : CommunicationType) (pp : PluginPool) : PoolOp → Bool
  | .start envs => pp.IsRunning || pp.freshLoop j kind envs pp.Config.PoolSize.toNat 0
  | .getInstance env _ => pp.freshEnv env
  | .returnInstance _ => true
  | .callFunction env _ _ => pp.freshEnv env.create
  | .stop _ => true

/-- Every identifier drawn during the run is new to the pool at the time it is
drawn: `uuid.NewRandom` never repeats itself. -/
def PluginPool.freshRun (j : Codec) (kind : CommunicationType) : PluginPool → List PoolOp → Bool
  | _, [] => true
  | pp, op :: ops =>
    pp.freshOp j kind op && PluginPool.freshRun j kind (pp.step j kind op).2 ops

/-- The fields of a pool that `NewPluginPool` sets for good are the same in both
pools. -/
def PluginPool.sameShape (pp pp' : PluginPool) : Prop :=
  pp'.PluginName = pp.PluginName ∧ pp'.Config = pp.Config ∧ pp'.MaxInstances = pp.MaxInstances ∧
  pp'.Available.cap = pp.Available.cap ∧ pp'.waitQueue.cap = pp.waitQueue.cap

/-- The running flag and the open or closed state of both channels are the same
in both pools. -/
def PluginPool.sameFlags (pp pp' : PluginPool) : Prop :=
  pp'.IsRunning = pp.IsRunning ∧ pp'.Available.closed = pp.Available.closed ∧
  pp'.waitQueue.closed = pp.waitQueue.closed

/-- What holds of a pool at every moment of a sequential run: the map is not
above the ceiling (and empty under a negative ceiling), the two channels are
open or closed together and open while the pool runs, and the channels hold
pointers into the heap. -/
def PluginPool.inv (pp : PluginPool) : Prop :=
  (pp.Instances.length : Int) ≤ max pp.MaxInstances 0 ∧
  pp.Available.closed = pp.waitQueue.closed ∧
  (pp.IsRunning = true → pp.Available.closed = false) ∧
  (∀ p ∈ pp.Available.buf, p < pp.heap.length) ∧
  (∀ p ∈ pp.waitQueue.buf, p < pp.heap.length)

/-- Until the channels are closed, every instance the pool has made is a value
of the map. -/
def PluginPool.allMapped (pp : PluginPool) : Prop :=
  pp.Available.closed = false → ∀ i, i < pp.heap.length → i ∈ pp.Instances.map Prod.snd

/-- The outcomes of `remaining` successive calls of `createNewInstance`, from round `i`
on: the creation attempts of `Start`, one after the other. -/
def PluginPool.creationAttempts (j : Codec) (kind : CommunicationType) (envs : Nat → CreateEnv) :
    Nat → Nat → PluginPool → List (Outcome (Except GoError Ptr))
  | 0, _, _ => []
  | remaining + 1, i, pp =>
    (pp.createNewInstance j kind (envs i)).1 ::
      PluginPool.creationAttempts j kind envs remaining (i + 1)
        (pp.createNewInstance j kind (envs i)).2

/-- The instance a creation attempt returned, if it returned one. -/
def createdBy : Outcome (Except GoError Ptr) → Option Ptr
  | .returns (.ok ptr) => some ptr
  | _ => none

/-! ## Plugin manager (`plugin/manager.go`) -/

/-- The record `config.SystemConfig`. Its settings records `System`, `Platform` and
`Development` are read by no function of the core and are left out. -/
structure SystemConfig where
  Version : String := ""
  Plugins : List (String × PluginConfig) := []
  deriving DecidableEq, Repr

/-- The data structure `PluginManager`, without its lock. -/
structure PluginManager where
  Config : SystemConfig
  Pools : List (String × PluginPool) := []
  IsRunning : Bool := false
  deriving DecidableEq, Repr

/-- The pool of a plugin after a call has worked on it (the map holds a
pointer, the pool is changed in place). -/
def setPool (pools : List (String × PluginPool)) (pluginName : String) (pool : PluginPool) :
    List (String × PluginPool) :=
  pools.map (fun kv => if kv.1 == pluginName then (pluginName, pool) else kv)

/-- The method `PluginManager.CallFunction`. -/
def PluginManager.CallFunction (j : Codec) (kind : CommunicationType) (env : PoolCallEnv)
    (pm : PluginManager) (pluginName functionName : String)
    (params : List (String × JValue)) : Outcome (Except GoError JValue) × PluginManager :=
  match pm.Pools.lookup pluginName with
  | none => (.returns (.error (.errorf ("插件 " ++ pluginName ++ " 不存在"))), pm)
  | some pool =>
    if !pm.IsRunning then (.returns (.error (.errorf "插件管理器未运行")), pm)
    else
      match pool.CallFunction j kind env functionName params with
      | (.returns (.error err), pool) =>
        (.returns (.error (.wrapf ("调用函数 " ++ functionName ++ " 失败: ") err)),
          { pm with Pools := setPool pm.Pools pluginName pool })
      | (.returns (.ok result), pool) =>
        (.returns (.ok result), { pm with Pools := setPool pm.Pools pluginName pool })
      | (.panics text, pool) => (.panics text, { pm with Pools := setPool pm.Pools pluginName pool })
      | (.blocks, pool) => (.blocks, { pm with Pools := setPool pm.Pools pluginName pool })

/-- The body of the loop of `ValidateConfig` for one plugin: its error, or the copy
of the record the loop works on, after the defaults were filled in. The copy
is the loop variable; it is dropped at the end of the round. -/
def validatePlugin (name : String) (pluginConfig : PluginConfig) : Except GoError PluginConfig :=
  let failure : Option GoError :=
    if pluginConfig.Type_ = PluginTypeBinary then
      if pluginConfig.Path = "" then
        some (.errorf ("二进制插件 " ++ name ++ " 的路径不能为空"))
      else none
    else if pluginConfig.Type_ = PluginTypeScript then
      if pluginConfig.Interpreter = "" then
        some (.errorf ("脚本插件 " ++ name ++ " 的解释器不能为空"))
      else if pluginConfig.ScriptPath = "" then
        some (.errorf ("脚本插件 " ++ name ++ " 的脚本路径不能为空"))
      else none
    else some (.errorf ("插件 " ++ name ++ " 的类型 " ++ pluginConfig.Type_ ++ " 不支持"))
  match failure with
  | some err => .error err
  | none =>
    let pluginConfig :=
      if pluginConfig.PoolSize ≤ 0 then { pluginConfig with PoolSize := 3 } else pluginConfig
    let pluginConfig :=
      if pluginConfig.MaxInstances ≤ 0 then { pluginConfig with MaxInstances := 10 }
      else pluginConfig
    let pluginConfig :=
      if pluginConfig.HealthCheckInterval ≤ 0 then
        { pluginConfig with HealthCheckInterval := 30 * 1000000000 }
      else pluginConfig
    if pluginConfig.Functions.length = 0 then
      .error (.errorf ("插件 " ++ name ++ " 必须至少提供一个函数"))
    else .ok pluginConfig

/-- The loop of `ValidateConfig` over the plugins, in the order `range` visits
them. -/
def validatePlugins : List (String × PluginConfig) → Option GoError
  | [] => none
  | (name, pluginConfig) :: rest =>
    match validatePlugin name pluginConfig with
    | .error err => some err
    | .ok _ => validatePlugins rest

/-- The function `ValidateConfig`. No statement of it writes to the configuration
it is given: the configuration is the same afterwards. -/
def ValidateConfig (config : SystemConfig) : Option GoError :=
  if config.Plugins.length = 0 then some (.errorf "至少需要配置一个插件")
  else validatePlugins config.Plugins

/-- The constructor `NewPluginManager`. -/
def NewPluginManager (config : SystemConfig) : PluginManager :=
  { Config := config, Pools := [], IsRunning := false }

/-- The assignment `pm.Pools[pluginName] = pool`. -/
def poolsInsert (pools : List (String × PluginPool)) (pluginName : String) (pool : PluginPool) :
    List (String × PluginPool) :=
  if pools.any (fun kv => kv.1 == pluginName) then setPool pools pluginName pool
  else pools ++ [(pluginName, pool)]

/-- The assignment `pm.Config.Plugins[pluginName] = pluginConfig`. -/
def pluginsInsert (plugins : List (String × PluginConfig)) (pluginName : String)
    (pluginConfig : PluginConfig) : List (String × PluginConfig) :=
  if plugins.any (fun kv => kv.1 == pluginName) then
    plugins.map (fun kv => if kv.1 == pluginName then (pluginName, pluginConfig) else kv)
  else plugins ++ [(pluginName, pluginConfig)]

/-- The statement `delete(m, key)`. -/
def mapDelete {α : Type} (m : List (String × α)) (key : String) : List (String × α) :=
  m.filter (fun kv => !(kv.1 == key))

/-- The loop of `PluginManager.Start` over the plugins of the configuration, in the
order `range` visits them; `create pluginName` is what the environment decides
during the creations of that pool. Each pool keeps the record of its own
round. -/
def startPools (j : Codec) (kind : CommunicationType) (create : String → Nat → CreateEnv) :
    List (String × PluginConfig) → List (String × PluginPool) →
      Outcome Unit × List (String × PluginPool)
  | [], pools => (.returns (), pools)
  | (pluginName, pluginConfig) :: rest, pools =>
    match (NewPluginPool pluginName pluginConfig).Start j kind (create pluginName) with
    | (.returns (some _), _) => startPools j kind create rest pools
    | (.returns none, pool) =>
      startPools j kind create rest (poolsInsert pools pluginName pool)
    | (.panics text, _) => (.panics text, pools)
    | (.blocks, _) => (.blocks, pools)

/-- The method `PluginManager.Start`. -/
def PluginManager.Start (j : Codec) (kind : CommunicationType)
    (create : String → Nat → CreateEnv) (pm : PluginManager) :
    Outcome (Option GoError) × PluginManager :=
  if pm.IsRunning then (.returns (some (.errorf "插件管理器已经在运行")), pm)
  else
    match ValidateConfig pm.Config with
    | some err => (.returns (some (.wrapf "配置验证失败: " err)), pm)
    | none =>
      match startPools j kind create pm.Config.Plugins pm.Pools with
      | (.returns _, pools) =>
        if pools.length = 0 then
          (.returns (some (.errorf "没有成功启动任何插件池")), { pm with Pools := pools })
        else (.returns none, { pm with Pools := pools, IsRunning := true })
      | (.panics text, pools) => (.panics text, { pm with Pools := pools })
      | (.blocks, pools) => (.blocks, { pm with Pools := pools })

/-- The loop of `PluginManager.Stop` over the pools of the map; `stop pluginName` is
what the environment decides while the instances of that pool stop. -/
def stopPools (j : Codec) (stop : String → Ptr → StopEnv) :
    List (String × PluginPool) → Outcome Unit × List (String × PluginPool)
  | [] => (.returns (), [])
  | (pluginName, pool) :: rest =>
    match pool.Stop j (stop pluginName) with
    | (.returns _, pool) =>
      ((stopPools j stop rest).1, (pluginName, pool) :: (stopPools j stop rest).2)
    | (.panics text, pool) => (.panics text, (pluginName, pool) :: rest)
    | (.blocks, pool) => (.blocks, (pluginName, pool) :: rest)

/-- The method `PluginManager.Stop`. -/
def PluginManager.Stop (j : Codec) (stop : String → Ptr → StopEnv) (pm : PluginManager) :
    Outcome Unit × PluginManager :=
  if !pm.IsRunning then (.returns (), pm)
  else
    match stopPools j stop pm.Pools with
    | (.returns _, _) => (.returns (), { pm with Pools := [], IsRunning := false })
    | (.panics text, pools) => (.panics text, { pm with Pools := pools })
    | (.blocks, pools) => (.blocks, { pm with Pools := pools })

/-- The method `PluginManager.RestartPlugin`. -/
def PluginManager.RestartPlugin (j : Codec) (kind : CommunicationType) (stop : Ptr → StopEnv)
    (create : Nat → CreateEnv) (pm : PluginManager) (pluginName : String) :
    Outcome (Option GoError) × PluginManager :=
  if !pm.IsRunning then (.returns (some (.errorf "插件管理器未运行")), pm)
  else
    match pm.Pools.lookup pluginName with
    | none => (.returns (some (.errorf ("插件 " ++ pluginName ++ " 不存在"))), pm)
    | some pool =>
      match pool.Stop j stop with
      | (.panics text, pool) =>
        (.panics text, { pm with Pools := setPool pm.Pools pluginName pool })
      | (.blocks, pool) => (.blocks, { pm with Pools := setPool pm.Pools pluginName pool })
      | (.returns _, pool) =>
        let pm := { pm with Pools := setPool pm.Pools pluginName pool }
        match pm.Config.Plugins.lookup pluginName with
        | none => (.returns (some (.errorf ("插件 " ++ pluginName ++ " 的配置不存在"))), pm)
        | some pluginConfig =>
          match (NewPluginPool pluginName pluginConfig).Start j kind create with
          | (.returns (some err), _) =>
            (.returns (some (.wrapf ("重启插件池 " ++ pluginName ++ " 失败: ") err)), pm)
          | (.returns none, newPool) =>
            (.returns none, { pm with Pools := poolsInsert pm.Pools pluginName newPool })
          | (.panics text, _) => (.panics text, pm)
          | (.blocks, _) => (.blocks, pm)

/-- The method `PluginManager.AddPlugin`. -/
def PluginManager.AddPlugin (j : Codec) (kind : CommunicationType) (create : Nat → CreateEnv)
    (pm : PluginManager) (pluginName : String) (pluginConfig : PluginConfig) :
    Outcome (Option GoError) × PluginManager :=
  if !pm.IsRunning then (.returns (some (.errorf "插件管理器未运行")), pm)
  else if (pm.Pools.lookup pluginName).isSome then
    (.returns (some (.errorf ("插件 " ++ pluginName ++ " 已存在"))), pm)
  else
    let pm := { pm with Config := { pm.Config with
                  Plugins := pluginsInsert pm.Config.Plugins pluginName pluginConfig } }
    match (NewPluginPool pluginName pluginConfig).Start j kind create with
    | (.returns (some err), _) =>
      (.returns (some (.wrapf ("启动插件池 " ++ pluginName ++ " 失败: ") err)),
        { pm with Config := { pm.Config with
            Plugins := mapDelete pm.Config.Plugins pluginName } })
    | (.returns none, pool) =>
      (.returns none, { pm with Pools := poolsInsert pm.Pools pluginName pool })
    | (.panics text, _) => (.panics text, pm)
    | (.blocks, _) => (.blocks, pm)

/-- The method `PluginManager.RemovePlugin`. -/
def PluginManager.RemovePlugin (j : Codec) (stop : Ptr → StopEnv) (pm : PluginManager)
    (pluginName : String) : Outcome (Option GoError) × PluginManager :=
  if !pm.IsRunning then (.returns (some (.errorf "插件管理器未运行")), pm)
  else
    match pm.Pools.lookup pluginName with
    | none => (.returns (some (.errorf ("插件 " ++ pluginName ++ " 不存在"))), pm)
    | some pool =>
      match pool.Stop j stop with
      | (.panics text, pool) =>
        (.panics text, { pm with Pools := setPool pm.Pools pluginName pool })
      | (.blocks, pool) => (.blocks, { pm with Pools := setPool pm.Pools pluginName pool })
      | (.returns _, _) =>
        (.returns none,
          { pm with Config := { pm.Config with
                      Plugins := mapDelete pm.Config.Plugins pluginName },
                    Pools := mapDelete pm.Pools pluginName })

/-- One operation of a caller on a manager, with what the environment decides
during it. -/
inductive ManagerOp where
  | start (create : String → Nat → CreateEnv)
  | stop (stop : String → Ptr → StopEnv)
  | restartPlugin (pluginName : String) (stop : Ptr → StopEnv) (create : Nat → CreateEnv)
  | addPlugin (pluginName : String) (pluginConfig : PluginConfig) (create : Nat → CreateEnv)
  | removePlugin (pluginName : String) (stop : Ptr → StopEnv)
  | callFunction (env : PoolCallEnv) (pluginName functionName : String)
      (params : List (String × JValue))

/-- The manager after one operation, and how the operation ended. -/
def PluginManager.step (j : Codec) (kind : CommunicationType) (pm : PluginManager) :
    ManagerOp → Outcome Unit × PluginManager
  | .start create => ((pm.Start j kind create).1.void, (pm.Start j kind create).2)
  | .stop stop => pm.Stop j stop
  | .restartPlugin pluginName stop create =>
    ((pm.RestartPlugin j kind stop create pluginName).1.void,
      (pm.RestartPlugin j kind stop create pluginName).2)
  | .addPlugin pluginName pluginConfig create =>
    ((pm.AddPlugin j kind create pluginName pluginConfig).1.void,
      (pm.AddPlugin j kind create pluginName pluginConfig).2)
  | .removePlugin pluginName stop =>
    ((pm.RemovePlugin j stop pluginName).1.void, (pm.RemovePlugin j stop pluginName).2)
  | .callFunction env pluginName functionName params =>
    ((pm.CallFunction j kind env pluginName functionName params).1.void,
      (pm.CallFunction j kind env pluginName functionName params).2)

/-- The manager after a sequence of operations by one caller. An operation that
panics or blocks ends the run, with the manager as it was left. -/
def PluginManager.run (j : Codec) (kind : CommunicationType) :
    PluginManager → List ManagerOp → Outcome Unit × PluginManager
  | pm, [] => (.returns (), pm)
  | pm, op :: ops =>
    match pm.step j kind op with
    | (.returns _, pm') => PluginManager.run j kind pm' ops
    | (.panics text, pm') => (.panics text, pm')
    | (.blocks, pm') => (.blocks, pm')

/-- The pool of the plugin starts: `Start` on the pool `NewPluginPool` builds for it
returns nil. -/
def poolStarts (j : Codec) (kind : CommunicationType) (create : String → Nat → CreateEnv)
    (plugin : String × PluginConfig) : Bool :=
  match (NewPluginPool plugin.1 plugin.2).Start j kind (create plugin.1) with
  | (.returns none, _) => true
  | _ => false

/-- The pool of the plugin after its `Start`. -/
def startedPool (j : Codec) (kind : CommunicationType) (create : String → Nat → CreateEnv)
    (plugin : String × PluginConfig) : String × PluginPool :=
  (plugin.1, ((NewPluginPool plugin.1 plugin.2).Start j kind (create plugin.1)).2)

/-! ## Worker SDK wire helpers (`sdk/plugin_sdk.go`) -/

/-- The method `PluginSDK.sendMessage`, on the connection of the SDK. -/
def PluginSDK.sendMessage (j : Codec) (conn : Conn) (msg : Message) : Option GoError × Conn :=
  match EncodeMessage j msg with
  | .error err => (some err, conn)
  | .ok data =>
    let length := data.length
    let header : List Byte :=
      [byte (length >>> 24), byte (length >>> 16), byte (length >>> 8), byte length]
    match conn.Write (header ++ data) with
    | (some err, conn') => (some (.io err), conn')
    | (none, conn') => (none, conn')

/-! ## Notions used in the statements -/

/-- The bytes `SendMessage` puts on the wire for a payload. -/
def frameOf (data : List Byte) : List Byte :=
  [byte (data.length >>> 24), byte (data.length >>> 16), byte (data.length >>> 8),
    byte data.length] ++ data

/-- The method `ReceiveMessage` seen on the read script of an open connection. -/
def receiveScript (script : List ReadEvent) : Except IOError (List Byte) × List ReadEvent :=
  let r := MessageProtocol.ReceiveMessage ⟨script, [], [], false⟩
  (r.1, r.2.script)

/-- The payloads `fs` are what successive `ReceiveMessage` calls return, in
this order, on a connection with the read script `script`. -/
def incomingFrames : List ReadEvent → List (List Byte) → Prop
  | _, [] => True
  | script, f :: fs =>
    ∃ script', receiveScript script = (.ok f, script') ∧ incomingFrames script' fs

/-- The connection `c'` is the connection `c` after some more reads and
writes: the log of writes was only appended to and nobody closed it. -/
def connGrows : Option Conn → Option Conn → Prop
  | none, none => True
  | some c, some c' => (∃ extra, c'.writes = c.writes ++ extra) ∧ c'.closed = c.closed
  | _, _ => False

/-- The instance `pi'` is `pi` after reads and writes on its connection: only
the connection and `LastUsed` may differ. -/
def PluginInstance.onlyConnUsed (pi pi' : PluginInstance) : Prop :=
  pi'.ID = pi.ID ∧ pi'.PluginName = pi.PluginName ∧ pi'.Config = pi.Config ∧
    pi'.Process = pi.Process ∧ pi'.Address = pi.Address ∧ pi'.IsRunning = pi.IsRunning ∧
    pi'.IsConnected = pi.IsConnected ∧ pi'.Functions = pi.Functions ∧
    pi'.Communication = pi.Communication ∧ pi'.retired = pi.retired ∧
    connGrows pi.Conn pi'.Conn

/-- The write `w` put a frame on the wire whose payload decodes to an envelope
of type `t`. -/
def writtenFrame (j : Codec) (t : String) (w : WriteRec) : Prop :=
  ∃ (payload : List Byte) (msg : Message),
    w.data = frameOf payload ∧ DecodeMessage j payload = .ok msg ∧ msg.Type_ = t

/-- The log of writes of a connection opens with a register_ack frame that was
written with success. -/
def ackFirst (j : Codec) (ws : List WriteRec) : Prop :=
  ∃ (data : List Byte) (rest : List WriteRec),
    EncodeMessage j { Type_ := MessageTypeRegisterAck } = .ok data ∧
      ws = ⟨frameOf data, true⟩ :: rest

/-- The log of writes of a connection is empty, or holds one failed attempt to
write the register_ack frame, or opens with a register_ack frame written with
success. -/
def ackOnly (j : Codec) (ws : List WriteRec) : Prop :=
  ws = [] ∨
    (∃ data : List Byte, EncodeMessage j { Type_ := MessageTypeRegisterAck } = .ok data ∧
      ws = [⟨frameOf data, false⟩]) ∨
    ackFirst j ws

/-- The invariant behind the handshake precedence. -/
def PluginInstance.handshakeInv (j : Codec) (pi : PluginInstance) : Prop :=
  (∀ c ∈ pi.connections, ackOnly j c.writes) ∧
    (pi.IsConnected = true → ∃ c, pi.Conn = some c ∧ ackFirst j c.writes) ∧
    (pi.IsRunning = false → pi.IsConnected = false)

/-- The instances `pi` and `pi'` hold the same retired connections and the
same log of writes on the present connection. -/
def PluginInstance.sameLogs (pi pi' : PluginInstance) : Prop :=
  pi'.retired = pi.retired ∧ pi'.Conn.map Conn.writes = pi.Conn.map Conn.writes

/-- The ASCII text of an example as bytes. -/
def asciiBytes (s : String) : List Byte := s.toList.map (fun c => byte c.toNat)

/-- The JSON texts of the strings of an example array. -/
def sampleStringTexts : List JValue → Option (List String)
  | [] => some []
  | .str s :: rest => (sampleStringTexts rest).map (fun items => ("\"" ++ s ++ "\"") :: items)
  | _ :: _ => none

/-- The JSON text of an example value: numbers, strings without escapes,
booleans and arrays of such strings; nil gives no text. -/
def sampleValueText : JValue → Option String
  | .null => some ""
  | .num n => some (toString n)
  | .str s => some ("\"" ++ s ++ "\"")
  | .bool b => some (if b then "true" else "false")
  | .arr xs => (sampleStringTexts xs).map (fun items => "[" ++ String.intercalate "," items ++ "]")
  | .obj _ => none

/-- The JSON texts of the entries of an example `params` map. -/
def sampleEntryTexts : List (String × JValue) → Option (List String)
  | [] => some []
  | (key, value) :: rest =>
    match sampleValueText value, sampleEntryTexts rest with
    | some v, some items => some (("\"" ++ key ++ "\":" ++ v) :: items)
    | _, _ => none

/-- The JSON text of an example `params` map, its keys in the given order; an
empty map gives no text. -/
def sampleParamsText (params : List (String × JValue)) : Option String :=
  (sampleEntryTexts params).map
    (fun items => if items = [] then "" else "\x7b" ++ String.intercalate "," items ++ "\x7d")

/-- The JSON text `json.Marshal` gives for an envelope whose strings need no
escape and whose values are those of `sampleValueText`: the fields in the
order of the struct, the empty ones left out (`omitempty`). -/
def sampleText (msg : Message) : Option (List Byte) :=
  match sampleParamsText msg.Params, sampleValueText msg.Result with
  | some params, some result =>
    some (asciiBytes ("\x7b\"type\":\"" ++ msg.Type_ ++ "\""
      ++ (if msg.ID = "" then "" else ",\"id\":\"" ++ msg.ID ++ "\"")
      ++ (if msg.Function = "" then "" else ",\"function\":\"" ++ msg.Function ++ "\"")
      ++ (if params = "" then "" else ",\"params\":" ++ params)
      ++ (if result = "" then "" else ",\"result\":" ++ result)
      ++ (if msg.Error = "" then "" else ",\"error\":\"" ++ msg.Error ++ "\"")
      ++ "\x7d"))
  | _, _ => none

/-- The encoding of an example. -/
def sampleMarshal (msg : Message) : Except String (List Byte) :=
  match sampleText msg with
  | some data => .ok data
  | none => .error "json: unsupported value"

/-- The decoding of an example: the envelope among `known` whose JSON text the
bytes are; any other input is rejected. -/
def sampleUnmarshal (known : List Message) (data : List Byte) : Except String Message :=
  match known.find? (fun msg => sampleText msg == some data) with
  | some msg => .ok msg
  | none => .error "invalid character"

/-- The codec of the examples: `encoding/json` on the envelopes `known`. -/
def sampleCodec (known : List Message) : Codec :=
  { Marshal := sampleMarshal, Unmarshal := sampleUnmarshal known }

/-- The envelopes the examples exchange. -/
def sampleKnown : List Message :=
  [ { Type_ := MessageTypeRegister, Params := [("functions", .arr [.str "add"])] },
    { Type_ := MessageTypeRegisterAck },
    { Type_ := MessageTypeCall, ID := "call-5", Function := "add" },
    { Type_ := MessageTypeResult, ID := "call-4", Result := .num 99 },
    { Type_ := MessageTypeResult, ID := "call-5", Result := .num 15 },
    { Type_ := MessageTypeError, ID := "call-5", Error := "divide by zero" },
    { Type_ := MessageTypePing, ID := "hb-1" },
    { Type_ := MessageTypePong },
    { Type_ := MessageTypePing, ID := "healthcheck-7" },
    { Type_ := MessageTypePong, ID := "healthcheck-7" },
    { Type_ := MessageTypeStop, ID := "stop-9" } ]

/-- An instance of the examples: plugin `math`, running and connected, the
function `add` registered, with the given read script on its connection and
no write made so far. -/
def sampleInstance (script : List ReadEvent) : PluginInstance :=
  { ID := "math1"
    PluginName := "math"
    Config := { Type_ := PluginTypeBinary, Path := "/opt/math", PoolSize := 1, MaxInstances := 1,
                Functions := ["add"] }
    Process := some { Path := "/opt/math", Args := ["/opt/math"], started := true }
    Conn := some ⟨script, [], [], false⟩
    Address := "/tmp/goproc_sockets/math-math1.sock"
    IsRunning := true
    IsConnected := true
    Functions := ["add"]
    Communication := { kind := .unix } }

/-- The frame of an example envelope, as one data event. -/
def sampleFrame (msg : Message) : ReadEvent :=
  .data (frameOf ((sampleText msg).getD []))

/-- The configuration of the example plugin `math`. -/
def sampleConfig : PluginConfig :=
  { Type_ := PluginTypeBinary, Path := "/opt/math", PoolSize := 1, MaxInstances := 1,
    Functions := ["add"] }

/-- A start that succeeds: the worker registers `add`; later it answers the
call `call-5` with `15`. -/
def sampleStartEnv : StartEnv :=
  { environ := ["PATH=/usr/bin"]
    spawnError := none
    readyDeadline := false
    dial := some
      ([sampleFrame { Type_ := MessageTypeRegister, Params := [("functions", .arr [.str "add"])] },
        sampleFrame { Type_ := MessageTypeResult, ID := "call-5", Result := .num 15 }], [])
    regRounds := 3 }

/-- A life of the example instance: a call before the start, the start, a
call, the stop. -/
def sampleOps : List InstanceOp :=
  [ .call 4 4 "add" [],
    .start sampleStartEnv,
    .call 5 6 "add" [],
    .stop { now := 9, exitsInTime := true, reapedInTime := true } ]

/-- A pool of the examples: running, one instance `math1` in the map and in
`Available`, with the given read script on the connection of the instance. -/
def samplePool (script : List ReadEvent) : PluginPool :=
  { PluginName := "math"
    Config := sampleConfig
    Instances := [("math1", 0)]
    Available := { buf := [0], cap := 10 }
    IsRunning := true
    MaxInstances := 1
    waitQueue := { cap := 10 }
    heap := [sampleInstance script] }

/-- A manager of the examples: running, with the pool of `math`. -/
def sampleManager (script : List ReadEvent) : PluginManager :=
  { Config := { Plugins := [("math", sampleConfig)] }
    Pools := [("math", samplePool script)]
    IsRunning := true }

/-- The environment of an example call through the pool: the id is `call-5`. -/
def samplePoolCallEnv : PoolCallEnv :=
  { create := { uuid := .ok "123e4567-e89b-12d3-a456-426614174000", now := 1,
                start := sampleStartEnv }
    pick := true
    now := 5
    later := 6 }

/-- A start that fails at the handshake: the worker is spawned and the
connection is made, but the worker closes the stream without registering. -/
def sampleFailingStartEnv : StartEnv :=
  { environ := ["PATH=/usr/bin"]
    spawnError := none
    readyDeadline := false
    dial := some ([], [])
    regRounds := 3 }

/-- A pool of the examples whose one instance is checked out: running, `math1`
in the map, both channels empty, room for a second instance. -/
def sampleBusyPool : PluginPool :=
  { PluginName := "math"
    Config := sampleConfig
    Instances := [("math1", 0)]
    Available := { cap := 10 }
    IsRunning := true
    MaxInstances := 2
    waitQueue := { cap := 10 }
    heap := [sampleInstance []] }

/-- The environment of the creations of an example: every round draws the
identifier of `samplePoolCallEnv` and starts a worker that registers `add`. -/
def sampleCreateEnvs : Nat → CreateEnv := fun _ => samplePoolCallEnv.create

/-- The environment of the stops of an example: every worker exits in time. -/
def sampleStopEnvs : Ptr → StopEnv := fun _ => { now := 9, exitsInTime := true, reapedInTime := true }

/-- A running pool between two calls: the channels have room up to the ceiling,
and together they hold fewer than twice as many instances as the map. -/
def PluginPool.served (pp : PluginPool) : Prop :=
  pp.inv ∧ pp.IsRunning = true ∧ pp.MaxInstances ≤ (pp.Available.cap : Int) ∧
  pp.MaxInstances ≤ (pp.waitQueue.cap : Int) ∧
  pp.Available.buf.length + pp.waitQueue.buf.length < 2 * pp.Instances.length

/-- A running pool during a call, one instance handed out: as `served`, with the
place of the instance that is out counted in. -/
def PluginPool.lent (pp : PluginPool) : Prop :=
  pp.inv ∧ pp.IsRunning = true ∧ pp.MaxInstances ≤ (pp.Available.cap : Int) ∧
  pp.MaxInstances ≤ (pp.waitQueue.cap : Int) ∧
  pp.Available.buf.length + pp.waitQueue.buf.length + 1 < 2 * pp.Instances.length

/-- The operation `CallFunction` of a caller, for one entry of a list of calls. -/
def callOp (c : PoolCallEnv × String × List (String × JValue)) : PoolOp :=
  .callFunction c.1 c.2.1 c.2.2

/-- The environment of a later call of the examples: as `samplePoolCallEnv`, with
an identifier of its own. -/
def sampleNextCallEnv : PoolCallEnv :=
  { create := { uuid := .ok "223e4567-e89b-12d3-a456-426614174000", now := 2,
                start := sampleStartEnv }
    pick := true
    now := 5
    later := 6 }

/-- The environment of creations that fail: every worker is spawned and closes
the stream without registering. -/
def sampleFailingCreateEnvs : Nat → CreateEnv := fun _ =>
  { uuid := .ok "323e4567-e89b-12d3-a456-426614174000", now := 3, start := sampleFailingStartEnv }

/-- The system configuration of the examples: the one plugin `math`. -/
def sampleSystemConfig : SystemConfig := { Plugins := [("math", sampleConfig)] }

/-- A plugin record that the data model of the specification rejects, in the
words of the specification: a type other than binary or script, a binary
plugin without a path, a script plugin without an interpreter or without a
script path, or an empty list of functions. -/
def PluginConfig.rejected (c : PluginConfig) : Prop :=
  (c.Type_ ≠ PluginTypeBinary ∧ c.Type_ ≠ PluginTypeScript) ∨
  (c.Type_ = PluginTypeBinary ∧ c.Path = "") ∨
  (c.Type_ = PluginTypeScript ∧ (c.Interpreter = "" ∨ c.ScriptPath = "")) ∨
  c.Functions = []

/-- A record of the examples whose sizes are left at zero. -/
def sampleUnsizedConfig : PluginConfig :=
  { Type_ := PluginTypeBinary, Path := "/opt/math", PoolSize := 0, MaxInstances := 0,
    Functions := ["add"] }

/-- A record of the examples whose pool size is above its ceiling. -/
def sampleOversizedConfig : PluginConfig :=
  { Type_ := PluginTypeBinary, Path := "/opt/math", PoolSize := 5, MaxInstances := 2,
    Functions := ["add"] }

/-- A record of the examples that lists no function. -/
def sampleNoFunctionsConfig : PluginConfig :=
  { Type_ := PluginTypeBinary, Path := "/opt/calc", PoolSize := 1, MaxInstances := 1,
    Functions := [] }

/-- A record of the examples whose pool size 2 is above its ceiling 1. -/
def sampleOverCeilingConfig : PluginConfig :=
  { Type_ := PluginTypeBinary, Path := "/opt/calc", PoolSize := 2, MaxInstances := 1,
    Functions := ["add"] }

/-- The name of an environment entry `key=value`: the text before its first
`=`. -/
def entryKey (entry : String) : String :=
  String.mk (entry.toList.takeWhile (fun c => c ≠ '='))

/-- The value of an environment entry `key=value`: the text behind its first
`=`. -/
def entryValue (entry : String) : String :=
  String.mk ((entry.toList.dropWhile (fun c => c ≠ '=')).drop 1)

/-- The value of the variable `key` in effect for a child that `os/exec` starts
with the environment list `env`: of several entries for one key the last one
counts. -/
def effectiveEnv (env : List String) (key : String) : Option String :=
  (env.reverse.find? (fun e => e.toList.contains '=' && entryKey e == key)).map entryValue

/-- An instance of the examples whose record sets `GOPROC_PLUGIN_ADDRESS` in its
`Environment`. -/
def sampleOverridingInstance : PluginInstance :=
  { ID := "math1"
    PluginName := "math"
    Config := { Type_ := PluginTypeBinary, Path := "/opt/math", PoolSize := 1, MaxInstances := 1,
                Functions := ["add"],
                Environment := [("GOPROC_PLUGIN_ADDRESS", "/tmp/other.sock")] }
    Address := "/tmp/goproc_sockets/math-math1.sock"
    Communication := { kind := .unix } }

/-! ## Worker SDK (`sdk/plugin_sdk.go`) -/

/-- The type `sdk.FunctionHandler`: the value or the error a handler returns for
the parameters of a call. -/
abbrev FunctionHandler := List (String × JValue) → Except String JValue

/-- The record `PluginSDK` once its connection is accepted; the listener and the
platform object are left out. `functions` is the map of handlers. -/
structure PluginSDK where
  functions : List (String × FunctionHandler)
  conn : Conn
  isRunning : Bool := false

/-- The method `PluginSDK.sendResultMessage`. -/
def PluginSDK.sendResultMessage (j : Codec) (sdk : PluginSDK) (id : String) (result : JValue) :
    PluginSDK :=
  let msg : Message := { Type_ := MessageTypeResult, ID := id, Result := result }
  { sdk with conn := (PluginSDK.sendMessage j sdk.conn msg).2 }

/-- The method `PluginSDK.sendErrorMessage`. -/
def PluginSDK.sendErrorMessage (j : Codec) (sdk : PluginSDK) (id errorMsg : String) :
    PluginSDK :=
  let msg : Message := { Type_ := MessageTypeError, ID := id, Error := errorMsg }
  { sdk with conn := (PluginSDK.sendMessage j sdk.conn msg).2 }

/-- The method `PluginSDK.handleCallMessage`. The goroutine it starts for a
registered function is run to its end at once. -/
def PluginSDK.handleCallMessage (j : Codec) (sdk : PluginSDK) (msg : Message) : PluginSDK :=
  match sdk.functions.lookup msg.Function with
  | none => sdk.sendErrorMessage j msg.ID ("函数 " ++ msg.Function ++ " 不存在")
  | some handler =>
    match handler msg.Params with
    | .error text => sdk.sendErrorMessage j msg.ID text
    | .ok result => sdk.sendResultMessage j msg.ID result

/-- The method `PluginSDK.handlePingMessage`. -/
def PluginSDK.handlePingMessage (j : Codec) (sdk : PluginSDK) (msg : Message) : PluginSDK :=
  let pongMsg : Message := { Type_ := MessageTypePong, ID := msg.ID }
  { sdk with conn := (PluginSDK.sendMessage j sdk.conn pongMsg).2 }

/-- The method `PluginSDK.handlePongMessage`. -/
def PluginSDK.handlePongMessage (sdk : PluginSDK) (_msg : Message) : PluginSDK := sdk

/-- The method `PluginSDK.handleStopMessage`. -/
def PluginSDK.handleStopMessage (sdk : PluginSDK) (_msg : Message) : PluginSDK :=
  { sdk with isRunning := false }

/-- The method `PluginSDK.handleMessage`. -/
def PluginSDK.handleMessage (j : Codec) (sdk : PluginSDK) (data : List Byte) : PluginSDK :=
  match DecodeMessage j data with
  | .error _ => sdk
  | .ok msg =>
    if msg.Type_ = MessageTypeCall then sdk.handleCallMessage j msg
    else if msg.Type_ = MessageTypePing then sdk.handlePingMessage j msg
    else if msg.Type_ = MessageTypePong then sdk.handlePongMessage msg
    else if msg.Type_ = MessageTypeStop then sdk.handleStopMessage msg
    else sdk

/-- The inner loop of `messageLoop` (`for len(messageBuffer) >= 4`): every complete
frame at the head of `messageBuffer` is cut off and handled. A round takes at
least four bytes off the buffer; `rounds` starts at the length of the
buffer. -/
def PluginSDK.handleFrames (j : Codec) : Nat → PluginSDK → List Byte → PluginSDK × List Byte
  | 0, sdk, messageBuffer => (sdk, messageBuffer)
  | rounds + 1, sdk, messageBuffer =>
    if messageBuffer.length ≥ 4 then
      let length := headerLength messageBuffer
      if messageBuffer.length < 4 + length then (sdk, messageBuffer)
      else
        let messageData := (messageBuffer.drop 4).take length
        let messageBuffer := messageBuffer.drop (4 + length)
        PluginSDK.handleFrames j rounds (sdk.handleMessage j messageData) messageBuffer
    else (sdk, messageBuffer)

/-- The outer loop of `messageLoop` (`for sdk.isRunning`): one `Read` into a buffer of
4096 bytes, then the inner loop. A `Read` takes an event or 4096 bytes off the
script; `rounds` starts above the size of the script. -/
def PluginSDK.messageLoopRounds (j : Codec) : Nat → PluginSDK → List Byte → PluginSDK
  | 0, sdk, _ => sdk
  | rounds + 1, sdk, messageBuffer =>
    if sdk.isRunning then
      match sdk.conn.Read 4096 with
      | ((_, some _), conn) => { sdk with conn := conn }
      | ((bytes, none), conn) =>
        let sdk := { sdk with conn := conn }
        let messageBuffer := messageBuffer ++ bytes
        let handled := PluginSDK.handleFrames j messageBuffer.length sdk messageBuffer
        PluginSDK.messageLoopRounds j rounds handled.1 handled.2
    else sdk

/-- The method `PluginSDK.messageLoop`: its `messageBuffer` starts empty; at the end
`isRunning` is cleared and the deferred `Close` runs. -/
def PluginSDK.messageLoop (j : Codec) (sdk : PluginSDK) : PluginSDK :=
  let sdk := PluginSDK.messageLoopRounds j (scriptSize sdk.conn.script + 1) sdk []
  let sdk := { sdk with isRunning := false }
  { sdk with conn := sdk.conn.Close }

/-- The method `PluginSDK.sendRegisterMessage`. -/
def PluginSDK.sendRegisterMessage (j : Codec) (sdk : PluginSDK) : Option GoError × PluginSDK :=
  let functions := sdk.functions.map (fun kv => JValue.str kv.1)
  let msg : Message :=
    { Type_ := MessageTypeRegister, Params := [("functions", .arr functions)] }
  ((PluginSDK.sendMessage j sdk.conn msg).1,
    { sdk with conn := (PluginSDK.sendMessage j sdk.conn msg).2 })

/-- The inner loop of `sendRegisterMessageAndWait`: complete frames are cut off the
head of `messageBuffer` until one of them ends the function (`some` with the
error it returns, nil for a `register_ack`) or no complete frame is left
(`none`). -/
def ackFrames (j : Codec) : Nat → List Byte → Option (Option GoError) × List Byte
  | 0, messageBuffer => (none, messageBuffer)
  | rounds + 1, messageBuffer =>
    if messageBuffer.length ≥ 4 then
      let length := headerLength messageBuffer
      if messageBuffer.length < 4 + length then (none, messageBuffer)
      else
        let messageData := (messageBuffer.drop 4).take length
        let messageBuffer := messageBuffer.drop (4 + length)
        match DecodeMessage j messageData with
        | .error err => (some (some (.wrapf "解码注册确认消息失败: " err)), messageBuffer)
        | .ok msg =>
          if msg.Type_ = MessageTypeRegisterAck then (some none, messageBuffer)
          else ackFrames j rounds messageBuffer
    else (none, messageBuffer)

/-- The outer loop of `sendRegisterMessageAndWait`. When the function returns, its
local variable `messageBuffer` is gone with whatever bytes it still holds. -/
def PluginSDK.waitAckRounds (j : Codec) :
    Nat → PluginSDK → List Byte → Option GoError × PluginSDK
  | 0, sdk, _ => (some .cutOff, sdk)
  | rounds + 1, sdk, messageBuffer =>
    match sdk.conn.Read 4096 with
    | ((_, some err), conn) =>
      if err = .eof then (some (.errorf "连接已关闭"), { sdk with conn := conn })
      else (some (.wrapf "读取注册确认失败: " (.io err)), { sdk with conn := conn })
    | ((bytes, none), conn) =>
      let sdk := { sdk with conn := conn }
      let messageBuffer := messageBuffer ++ bytes
      match ackFrames j messageBuffer.length messageBuffer with
      | (some result, _) => (result, sdk)
      | (none, messageBuffer) => PluginSDK.waitAckRounds j rounds sdk messageBuffer

/-- The method `PluginSDK.sendRegisterMessageAndWait`. -/
def PluginSDK.sendRegisterMessageAndWait (j : Codec) (sdk : PluginSDK) :
    Option GoError × PluginSDK :=
  match sdk.sendRegisterMessage j with
  | (some err, sdk) => (some (.wrapf "发送注册消息失败: " err), sdk)
  | (none, sdk) => PluginSDK.waitAckRounds j (scriptSize sdk.conn.script + 1) sdk []

/-- The method `PluginSDK.Start` from the point where the connection of the host
is accepted; the goroutine of `messageLoop` is run to its end. -/
def PluginSDK.Start (j : Codec) (sdk : PluginSDK) : Option GoError × PluginSDK :=
  if sdk.isRunning then (some (.errorf "插件已启动"), sdk)
  else
    let sdk := { sdk with isRunning := true }
    match sdk.sendRegisterMessageAndWait j with
    | (some err, sdk) => (some (.wrapf "注册失败: " err), sdk)
    | (none, sdk) => (none, sdk.messageLoop j)

/-- A worker of the examples: the function `add` answers 15, the function `div`
fails. -/
def sampleSDK (script : List ReadEvent) : PluginSDK :=
  { functions := [("add", fun _ => .ok (.num 15)), ("div", fun _ => .error "divide by zero")]
    conn := ⟨script, [], [], false⟩ }

/-- The bytes of the frame of an example envelope. -/
def sampleFrameBytes (msg : Message) : List Byte :=
  frameOf ((sampleText msg).getD [])

/-- The register envelope of the worker of the examples. -/
def sampleSDKRegister : Message :=
  { Type_ := MessageTypeRegister, Params := [("functions", .arr [.str "add", .str "div"])] }

/-- The worker `sdk'` is the worker `sdk` after one reply: the connection went
through one `sendMessage` of the envelope `reply`, which is one `Write` of the frame
of `reply` when the envelope can be encoded and no `Write` otherwise; nothing
else changed. -/
def PluginSDK.repliedWith (j : Codec) (sdk sdk' : PluginSDK) (reply : Message) : Prop :=
  sdk'.conn = (PluginSDK.sendMessage j sdk.conn reply).2 ∧
  sdk'.isRunning = sdk.isRunning ∧
  (∀ data, EncodeMessage j reply = .ok data →
    sdk'.conn.writes =
      sdk.conn.writes ++ [⟨frameOf data, (MessageProtocol.SendMessage sdk.conn data).1.isNone⟩]) ∧
  (∀ err, EncodeMessage j reply = .error err → sdk'.conn = sdk.conn)

/-! ## Locks of an instance (`plugin/instance.go`) -/

/-- A statement of a method of `PluginInstance` that takes or gives back one of
the two locks of the instance (`Mutex`, a `sync.RWMutex`, and `ConnMutex`, a
`sync.Mutex`), or the begin or the end of a `Write` or `Read` on `pi.Conn`. -/
inductive LockStep where
  /-- The call `pi.Mutex.RLock()`. -/
  | rLock
  /-- The call `pi.Mutex.RUnlock()`. -/
  | rUnlock
  /-- The call `pi.Mutex.Lock()`. -/
  | lock
  /-- The call `pi.Mutex.Unlock()`. -/
  | unlock
  /-- The call `pi.ConnMutex.Lock()`. -/
  | connLock
  /-- The call `pi.ConnMutex.Unlock()`. -/
  | connUnlock
  /-- A `Write` or `Read` on `pi.Conn` begins. -/
  | ioBegin
  /-- The `Write` or `Read` returns. -/
  | ioEnd
  deriving DecidableEq, Repr

/-- The lock and connection statements of `PluginInstance.CallFunction` in program
order, on a connected instance that has the function: the flags are read
under the read lock, which is given back; then `ConnMutex` is held while the
call frame is written and the response is read. -/
def CallFunctionSteps : List LockStep :=
  [.rLock, .rUnlock, .connLock, .ioBegin, .ioEnd, .ioBegin, .ioEnd, .connUnlock]

/-- The lock and connection statements of `PluginInstance.HealthCheck` in program
order, on a connected instance: the read lock is held while the ping is
written and the response is read; `ConnMutex` is not taken. -/
def HealthCheckSteps : List LockStep :=
  [.rLock, .ioBegin, .ioEnd, .ioBegin, .ioEnd, .rUnlock]

/-- The lock and connection statements of `PluginInstance.Stop` in program order, on
a running and connected instance: the write lock is held while the stop
frame is written; `ConnMutex` is not taken. -/
def StopSteps : List LockStep :=
  [.lock, .ioBegin, .ioEnd, .unlock]

/-- The two locks of an instance and the goroutines at work on it: for each
goroutine the statements it still has to run and whether it is inside a
`Write` or `Read` on the connection. -/
structure LockState where
  readers : Nat := 0
  writer : Bool := false
  connHeld : Bool := false
  threads : List (List LockStep × Bool)
  deriving DecidableEq, Repr

/-- The goroutine `t` runs its next statement; `none` when it has none left or
the statement has to wait for a lock. -/
def LockState.step (s : LockState) (t : Nat) : Option LockState :=
  match s.threads[t]? with
  | some (st :: rest, inIO) =>
    match st with
    | .rLock =>
      if s.writer then none
      else some { s with readers := s.readers + 1, threads := s.threads.set t (rest, inIO) }
    | .rUnlock => some { s with readers := s.readers - 1, threads := s.threads.set t (rest, inIO) }
    | .lock =>
      if s.writer || s.readers != 0 then none
      else some { s with writer := true, threads := s.threads.set t (rest, inIO) }
    | .unlock => some { s with writer := false, threads := s.threads.set t (rest, inIO) }
    | .connLock =>
      if s.connHeld then none
      else some { s with connHeld := true, threads := s.threads.set t (rest, inIO) }
    | .connUnlock => some { s with connHeld := false, threads := s.threads.set t (rest, inIO) }
    | .ioBegin => some { s with threads := s.threads.set t (rest, true) }
    | .ioEnd => some { s with threads := s.threads.set t (rest, false) }
  | _ => none

/-- The state after the goroutines ran one statement each time they are named
in `schedule`; `none` when a goroutine is named that cannot run. -/
def LockState.run : LockState → List Nat → Option LockState
  | s, [] => some s
  | s, t :: schedule =>
    match s.step t with
    | some s' => LockState.run s' schedule
    | none => none

/-- The number of goroutines that are inside a `Write` or `Read` on the
connection. -/
def LockState.usingConn (s : LockState) : Nat :=
  (s.threads.filter (fun th => th.2)).length

/-- A record of the examples with room to grow: one instance at the start,
two at most. -/
def sampleElasticConfig : PluginConfig :=
  { Type_ := PluginTypeBinary, Path := "/opt/math", PoolSize := 1, MaxInstances := 2,
    Functions := ["add"] }

/-- The elastic pool of the examples after `Start` and one call that has
returned: no call is outstanding. -/
def sampleServedPool : PluginPool :=
  ((NewPluginPool "math" sampleElasticConfig).run (sampleCodec sampleKnown) .unix
    (.start sampleCreateEnvs :: [(sampleNextCallEnv, "add", [])].map callOp)).2

/-- Whether a call returned a result and no error. -/
def Outcome.succeeded {α ε : Type} : Outcome (Except ε α) → Bool
  | .returns (.ok _) => true
  | _ => false

/-! ## Callers of a pool side by side (`plugin/pool.go`) -/

/-- Where a goroutine stands inside `PluginPool.CallFunction`. The points are the
places at which another goroutine can run before this one goes on: in front
of each section under `pp.Mutex`, each channel operation, and the calls
`instance.Start()` and `instance.CallFunction` that run under no lock of the
pool. -/
inductive CallPoint where
  /-- In front of `GetInstance`: the test of `IsRunning` and the receive from
  `Available` with a `default` branch. -/
  | atGetInstance
  /-- In `GetInstance`, `Available` was empty: in front of the read of
  `len(pp.Instances)` under `RLock`. -/
  | atCount
  /-- In front of `createNewInstance` and its own read of `len(pp.Instances)` under
  `RLock`. -/
  | atCreate
  /-- In `createNewInstance`, the test against `MaxInstances` has passed and the
  lock is released: in front of `uuid.NewRandom()` and `instance.Start()`. -/
  | atStart
  /-- In `createNewInstance`, the instance has started: in front of
  `pp.Instances[instanceID] = instance` under `Lock`. -/
  | atInsert (instanceID : String) (inst : PluginInstance)
  /-- In `createNewInstance`, in front of `pp.Available <- instance`. -/
  | atSend (ptr : Ptr)
  /-- In front of the `select` of `waitForAvailableInstance`. -/
  | atWait
  /-- The caller holds the instance `GetInstance` returned: in front of
  `instance.CallFunction`. -/
  | atCall (ptr : Ptr)
  /-- In the deferred `ReturnInstance`, in front of its section under `RLock`. -/
  | atReturn (ptr : Ptr) (result : Except GoError JValue)
  /-- In `ReturnInstance`, in front of the `select` that offers the instance to
  `waitQueue` and then to `Available`. -/
  | atOffer (ptr : Ptr) (result : Except GoError JValue)
  /-- The call has returned `result`; `dropped` tells whether `ReturnInstance` took
  its innermost `default` branch. -/
  | returned (result : Except GoError JValue) (dropped : Bool)
  /-- The goroutine panicked. -/
  | panicked (text : String)

/-- A goroutine that calls `PluginPool.CallFunction(functionName, params)`, with what
the environment decides during its call and the point it has reached. -/
structure Caller where
  env : PoolCallEnv
  functionName : String
  params : List (String × JValue)
  point : CallPoint := .atGetInstance

/-- The caller at another point of its call. -/
def Caller.moveTo (c : Caller) (point : CallPoint) : Caller := { c with point := point }

/-- The caller once its call has returned the error `err` without holding an
instance. -/
def Caller.fails (c : Caller) (err : GoError) : Caller := c.moveTo (.returned (.error err) false)

/-- Whether the goroutine panicked. -/
def CallPoint.isPanicked : CallPoint → Bool
  | .panicked _ => true
  | _ => false

/-- Whether the call has returned. -/
def CallPoint.isReturned : CallPoint → Bool
  | .returned _ _ => true
  | _ => false

/-- Whether the call has returned and its `ReturnInstance` dropped the instance in
the innermost `default` branch. -/
def CallPoint.isDropped : CallPoint → Bool
  | .returned _ dropped => dropped
  | _ => false

/-- Whether the caller has passed the test against `MaxInstances` in
`createNewInstance` and has not yet started its instance. -/
def CallPoint.isAdmitted : CallPoint → Bool
  | .atStart => true
  | _ => false

/-- The instance the caller holds: the one `GetInstance` returned to it and that
its `ReturnInstance` has not yet offered to a channel. -/
def CallPoint.held : CallPoint → Option Ptr
  | .atCall ptr => some ptr
  | .atReturn ptr _ => some ptr
  | .atOffer ptr _ => some ptr
  | _ => none

/-- The next move of one goroutine inside `PluginPool.CallFunction`, from the point it
has reached to the next one; the statements are those of `GetInstance`,
`createNewInstance`, `waitForAvailableInstance`, `CallFunction` and `ReturnInstance`. A
send that finds `Available` full leaves the goroutine where it is. -/
def PluginPool.callerStep (j : Codec) (kind : CommunicationType) (pp : PluginPool)
    (c : Caller) : PluginPool × Caller :=
  match c.point with
  | .atGetInstance =>
    if !pp.IsRunning then
      (pp, c.fails (.errorf ("插件池 " ++ pp.PluginName ++ " 未运行")))
    else
      match pp.Available.tryRecv with
      | some (some ptr, ch) => ({ pp with Available := ch }, c.moveTo (.atCall ptr))
      | some (none, ch) =>
        ({ pp with Available := ch },
          c.fails (.errorf "获取到的插件实例为nil"))
      | none => (pp, c.moveTo .atCount)
  | .atCount =>
    let currentCount : Int := pp.Instances.length
    if currentCount < pp.MaxInstances then (pp, c.moveTo .atCreate)
    else (pp, c.moveTo .atWait)
  | .atCreate =>
    let currentCount : Int := pp.Instances.length
    if currentCount ≥ pp.MaxInstances then
      (pp, c.fails (.errorf ("已达到最大实例数 " ++ toString pp.MaxInstances)))
    else (pp, c.moveTo .atStart)
  | .atStart =>
    match c.env.create.uuid with
    | .error text =>
      (pp, c.fails (.wrapf "生成实例ID失败: " (.errorf text)))
    | .ok uuidStr =>
      let uuidStr := stripHyphens uuidStr
      let instanceID := pp.PluginName ++ uuidStr
      let inst := NewPluginInstance kind c.env.create.now pp.PluginName pp.Config instanceID
      match inst.Start j c.env.create.start with
      | (some err, _) =>
        (pp, c.fails (.wrapf ("启动实例 " ++ instanceID ++ " 失败: ") err))
      | (none, inst) => (pp, c.moveTo (.atInsert instanceID inst))
  | .atInsert instanceID inst =>
    let ptr := pp.heap.length
    ({ pp with heap := pp.heap ++ [inst], Instances := mapInsert pp.Instances instanceID ptr },
      c.moveTo (.atSend ptr))
  | .atSend ptr =>
    if pp.Available.closed then (pp, c.moveTo (.panicked "send on closed channel"))
    else if pp.Available.buf.length < pp.Available.cap then
      ({ pp with Available := { pp.Available with buf := pp.Available.buf ++ [ptr] } },
        c.moveTo (.atCall ptr))
    else (pp, c)
  | .atWait =>
    match pp.waitForAvailableInstance c.env.pick with
    | (.returns (.ok (some ptr)), pp) => (pp, c.moveTo (.atCall ptr))
    | (.returns (.ok none), pp) =>
      (pp, c.fails (.errorf "获取到的插件实例为nil"))
    | (.returns (.error err), pp) => (pp, c.fails err)
    | (.panics text, pp) => (pp, c.moveTo (.panicked text))
    | (.blocks, pp) => (pp, c)
  | .atCall ptr =>
    match pp.heap[ptr]? with
    | none =>
      (pp, c.moveTo (.panicked "invalid memory address or nil pointer dereference"))
    | some inst =>
      let (result, inst) := inst.CallFunction j c.env.now c.env.later c.functionName c.params
      ({ pp with heap := pp.heap.set ptr inst }, c.moveTo (.atReturn ptr result))
  | .atReturn ptr result =>
    if !pp.IsRunning then (pp, c.moveTo (.returned result false))
    else
      match pp.heap[ptr]? with
      | none =>
        (pp, c.moveTo (.panicked "invalid memory address or nil pointer dereference"))
      | some inst =>
        let found := (pp.Instances.lookup inst.ID).isSome
        if !found then (pp, c.moveTo (.returned result false))
        else (pp, c.moveTo (.atOffer ptr result))
  | .atOffer ptr result =>
    if pp.waitQueue.closed then (pp, c.moveTo (.panicked "send on closed channel"))
    else if pp.waitQueue.buf.length < pp.waitQueue.cap then
      ({ pp with waitQueue := { pp.waitQueue with buf := pp.waitQueue.buf ++ [ptr] } },
        c.moveTo (.returned result false))
    else if pp.Available.closed then (pp, c.moveTo (.panicked "send on closed channel"))
    else if pp.Available.buf.length < pp.Available.cap then
      ({ pp with Available := { pp.Available with buf := pp.Available.buf ++ [ptr] } },
        c.moveTo (.returned result false))
    else (pp, c.moveTo (.returned result true))
  | .returned _ _ => (pp, c)
  | .panicked _ => (pp, c)

/-- The moves of one goroutine with no other goroutine at work: `n` moves in a
row. -/
def PluginPool.callerRun (j : Codec) (kind : CommunicationType) :
    Nat → PluginPool → Caller → PluginPool × Caller
  | 0, pp, c => (pp, c)
  | n + 1, pp, c =>
    PluginPool.callerRun j kind n (pp.callerStep j kind c).1 (pp.callerStep j kind c).2

/-- How the call of a goroutine has ended, if it has: it returned, it panicked,
or it stands in front of the send into `Available`, which waits for room. -/
def CallPoint.outcome : CallPoint → Option (Outcome (Except GoError JValue))
  | .returned result _ => some (.returns result)
  | .panicked text => some (.panics text)
  | .atSend _ => some .blocks
  | _ => none

/-- A pool and the goroutines that are inside `CallFunction` on it. -/
structure PoolSystem where
  pool : PluginPool
  callers : List Caller

/-- The scheduler lets goroutine `i` make its next move. A panic of any goroutine
has ended the program: nothing moves after it. -/
def PoolSystem.step (j : Codec) (kind : CommunicationType) (sys : PoolSystem) (i : Nat) :
    PoolSystem :=
  if sys.callers.any (fun c => c.point.isPanicked) then sys
  else
    match sys.callers[i]? with
    | none => sys
    | some c =>
      { pool := (sys.pool.callerStep j kind c).1
        callers := sys.callers.set i (sys.pool.callerStep j kind c).2 }

/-- The system after the moves of a schedule: the goroutines named by the list
move one after the other. -/
def PoolSystem.run (j : Codec) (kind : CommunicationType) (sys : PoolSystem)
    (schedule : List Nat) : PoolSystem :=
  schedule.foldl (PoolSystem.step j kind) sys

/-- The environment of caller `k` of the examples: as `sampleNextCallEnv`, with an
identifier of its own. -/
def sampleCallerEnv (k : Nat) : PoolCallEnv :=
  { create := { uuid := .ok (String.mk [Char.ofNat (48 + k / 10), Char.ofNat (48 + k % 10)] ++
                  "0e4567-e89b-12d3-a456-426614174000"),
                now := 2, start := sampleStartEnv }
    pick := true
    now := 5
    later := 6 }

/-- The first `n` callers of the examples, each in front of its call of
`CallFunction("add", nil)`. -/
def sampleCallers (n : Nat) : List Caller :=
  (List.range n).map (fun k => { env := sampleCallerEnv k, functionName := "add", params := [] })

/-- The elastic pool of the examples after `Start`, with three callers. -/
def sampleElasticSystem : PoolSystem :=
  { pool := ((NewPluginPool "math" sampleElasticConfig).Start (sampleCodec sampleKnown) .unix
      sampleCreateEnvs).2
    callers := sampleCallers 3 }

/-- A schedule of three callers. Caller 0 receives the instance of `Start` from
`Available`. Callers 1 and 2 find `Available` empty and each of them reads the count
in `GetInstance` and again in `createNewInstance` before the other has inserted
anything; then each starts its instance, inserts it and sends it. -/
def sampleElasticSchedule : List Nat :=
  [0, 1, 1, 1, 2, 2, 2, 1, 1, 1, 2, 2, 2]

/-- A record of the examples with one instance at the start and ten at most. -/
def sampleRaceConfig : PluginConfig :=
  { Type_ := PluginTypeBinary, Path := "/opt/math", PoolSize := 1, MaxInstances := 10,
    Functions := ["add"] }

/-- The pool of `sampleRaceConfig` after `Start`, with nineteen callers. -/
def sampleRaceSystem : PoolSystem :=
  { pool := ((NewPluginPool "math" sampleRaceConfig).Start (sampleCodec sampleKnown) .unix
      sampleCreateEnvs).2
    callers := sampleCallers 19 }

/-- The moves that take callers 0 to 16 through `GetInstance`, one caller after
the other: a caller with an even number receives an instance from `Available`
(one move), a caller with an odd number finds `Available` empty and creates an
instance (six moves). -/
def sampleAcquireSchedule : List Nat :=
  (List.range 17).flatMap (fun k => List.replicate (if k % 2 = 0 then 1 else 6) k)

/-- The moves of callers 17 and 18 through `GetInstance`: both find `Available`
empty and read the count in `GetInstance` and in `createNewInstance` before either
inserts; then each starts its instance, inserts it and sends it. -/
def sampleCeilingRaceSchedule : List Nat :=
  [17, 17, 17, 18, 18, 18, 17, 17, 17, 18, 18, 18]

/-- The moves in which the nineteen callers, one after the other, call the
function on the instance they hold and return it. -/
def sampleReturnSchedule : List Nat :=
  (List.range 19).flatMap (fun k => List.replicate 3 k)

/-! ## Theorems -/

/-! ### Frame codec -/

/-- The loop equation of `io.ReadAtLeast`: with bytes still missing, one round
is a `Read` into the unfilled part of the buffer; the loop goes on after a
`Read` without error and stops with the (adjusted) error otherwise. -/
theorem readFullScript_step (c : Conn) (need : Nat) (got : List Byte) (hc : c.closed = false) :
    readFullScript c.script (need + 1) got =
      match c.Read (need + 1) with
      | ((bs, none), c') => readFullScript c'.script (need + 1 - bs.length) (got ++ bs)
      | ((bs, some e), c') => (.error (shortReadError (got ++ bs).length e), c'.script) := by
  rcases c with ⟨script, ws, wr, cl⟩
  simp only at hc
  subst hc
  cases script with
  | nil => simp [readFullScript, Conn.Read]
  | cons ev rest =>
    cases ev with
    | fail e => simp [readFullScript, Conn.Read]
    | data bs =>
      by_cases h : bs.length ≤ need + 1
      · simp [readFullScript, Conn.Read, h]
      · have h2 : need + 1 - (bs.take (need + 1)).length = 0 := by
          simp [List.length_take]; omega
        simp only [readFullScript, Conn.Read, h, if_false, Bool.false_eq_true, h2]

theorem readFullScript_zero (script : List ReadEvent) (got : List Byte) :
    readFullScript script 0 got = (.ok got, script) := by
  cases script with
  | nil => simp [readFullScript]
  | cons ev rest => cases ev <;> simp [readFullScript]

/-- Reading `n` bytes from a script that opens with data events holding at
least `n` bytes succeeds, whatever the chunking, and leaves the other bytes. -/
theorem readFullScript_chunks (chunks : List (List Byte)) (rest : List ReadEvent) :
    ∀ (n : Nat) (got : List Byte), n ≤ chunks.flatten.length →
      ∃ chunks' : List (List Byte),
        readFullScript (chunks.map ReadEvent.data ++ rest) n got =
          (.ok (got ++ chunks.flatten.take n), chunks'.map ReadEvent.data ++ rest) ∧
        chunks'.flatten = chunks.flatten.drop n := by
  induction chunks with
  | nil =>
    intro n got h
    have hn : n = 0 := by simpa using h
    subst hn
    exact ⟨[], by simp [readFullScript_zero], by simp⟩
  | cons bs cs ih =>
    intro n got h
    cases n with
    | zero => exact ⟨bs :: cs, by simp [readFullScript_zero], by simp⟩
    | succ m =>
      by_cases hle : bs.length ≤ m + 1
      · have hlen : m + 1 - bs.length ≤ cs.flatten.length := by
          simp only [List.flatten_cons, List.length_append] at h
          omega
        obtain ⟨chunks', h1, h2⟩ := ih (m + 1 - bs.length) (got ++ bs) hlen
        refine ⟨chunks', ?_, ?_⟩
        · simp only [List.map_cons, List.cons_append, readFullScript, hle, if_true,
            List.flatten_cons]
          rw [List.take_append_eq_append_take, List.take_of_length_le hle, ← List.append_assoc]
          exact h1
        · rw [h2, List.flatten_cons, List.drop_append_eq_append_drop, List.drop_of_length_le hle]
          simp
      · refine ⟨bs.drop (m + 1) :: cs, ?_, ?_⟩
        · have hz : m + 1 - bs.length = 0 := by omega
          simp [readFullScript, hle, List.take_append_eq_append_take, hz]
        · have hz : m + 1 - bs.length = 0 := by omega
          simp [List.drop_append_eq_append_drop, hz]

/-- A big-endian header of four octets is the sum of its weighted octets. -/
theorem headerLength_eq (a b c d : Byte) :
    headerLength [a, b, c, d] = a.val * 2 ^ 24 + b.val * 2 ^ 16 + c.val * 2 ^ 8 + d.val := by
  have ha := a.isLt
  have hb := b.isLt
  have hc := c.isLt
  have hd := d.isLt
  simp only [headerLength, List.getD_cons_zero, List.getD_cons_succ, Nat.shiftLeft_eq]
  have e1 : a.val * 2 ^ 24 ||| b.val * 2 ^ 16 = 2 ^ 16 * (a.val * 2 ^ 8 + b.val) := by
    have := Nat.mul_add_lt_is_or (i := 24) (b := b.val * 2 ^ 16) (by omega) a.val
    rw [Nat.mul_comm (a.val) (2 ^ 24), ← this]
    ring
  have e2 : 2 ^ 16 * (a.val * 2 ^ 8 + b.val) ||| c.val * 2 ^ 8 =
      2 ^ 8 * (a.val * 2 ^ 16 + b.val * 2 ^ 8 + c.val) := by
    have := Nat.mul_add_lt_is_or (i := 16) (b := c.val * 2 ^ 8) (by omega) (a.val * 2 ^ 8 + b.val)
    rw [← this]
    ring
  have e3 : 2 ^ 8 * (a.val * 2 ^ 16 + b.val * 2 ^ 8 + c.val) ||| d.val =
      a.val * 2 ^ 24 + b.val * 2 ^ 16 + c.val * 2 ^ 8 + d.val := by
    have := Nat.mul_add_lt_is_or (i := 8) (b := d.val) (by omega)
      (a.val * 2 ^ 16 + b.val * 2 ^ 8 + c.val)
    rw [← this]
    ring
  rw [e1, e2, e3]

/-- The header `SendMessage` builds declares the length it was built from, as
long as that length fits in 32 bits. -/
theorem headerLength_byte (n : Nat) (h : n < 2 ^ 32) :
    headerLength [byte (n >>> 24), byte (n >>> 16), byte (n >>> 8), byte n] = n := by
  rw [headerLength_eq]
  simp only [byte, Nat.shiftRight_eq_div_pow]
  omega

/-- The call `ReadFull` on an open connection whose script opens with enough data. -/
theorem ReadFull_chunks (conn : Conn) (chunks : List (List Byte)) (rest : List ReadEvent)
    (n : Nat) (hopen : conn.closed = false)
    (hscript : conn.script = chunks.map ReadEvent.data ++ rest)
    (hn : n ≤ chunks.flatten.length) :
    ∃ chunks' : List (List Byte),
      ReadFull conn n =
        (.ok (chunks.flatten.take n), { conn with script := chunks'.map ReadEvent.data ++ rest }) ∧
      chunks'.flatten = chunks.flatten.drop n := by
  by_cases h0 : n = 0
  · subst h0
    refine ⟨chunks, ?_, by simp⟩
    rcases conn with ⟨script, ws, wr, cl⟩
    simp only at hscript
    simp [ReadFull, hscript]
  · obtain ⟨chunks', h1, h2⟩ := readFullScript_chunks chunks rest n [] hn
    refine ⟨chunks', ?_, h2⟩
    simp [ReadFull, h0, hopen, hscript, h1]

/-- A frame (header, then as many bytes as the header declares) at the front of
an open connection's script is received whole, whatever the chunking. -/
theorem ReceiveMessage_frame (conn : Conn) (header body extra : List Byte)
    (chunks : List (List Byte)) (rest : List ReadEvent)
    (hopen : conn.closed = false)
    (hscript : conn.script = chunks.map ReadEvent.data ++ rest)
    (hheader : header.length = 4)
    (hbody : body.length = headerLength header)
    (hbytes : chunks.flatten = header ++ body ++ extra) :
    ∃ chunks' : List (List Byte),
      MessageProtocol.ReceiveMessage conn =
        (.ok body, { conn with script := chunks'.map ReadEvent.data ++ rest }) ∧
      chunks'.flatten = extra := by
  have h4 : 4 ≤ chunks.flatten.length := by simp [hbytes, hheader]
  obtain ⟨chunks1, r1, f1⟩ := ReadFull_chunks conn chunks rest 4 hopen hscript h4
  have t4 : chunks.flatten.take 4 = header := by
    rw [hbytes, List.append_assoc, List.take_append_eq_append_take, hheader]
    simp [← hheader]
  have d4 : chunks1.flatten = body ++ extra := by
    rw [f1, hbytes, List.append_assoc, List.drop_append_eq_append_drop, hheader]
    simp [← hheader]
  rw [t4] at r1
  have hlen : headerLength header ≤ chunks1.flatten.length := by simp [d4, hbody]
  obtain ⟨chunks2, r2, f2⟩ := ReadFull_chunks
    { conn with script := chunks1.map ReadEvent.data ++ rest } chunks1 rest
    (headerLength header) hopen rfl hlen
  refine ⟨chunks2, ?_, ?_⟩
  · simp only [MessageProtocol.ReceiveMessage, r1, r2]
    rw [d4, ← hbody]
    simp
  · rw [f2, d4, ← hbody]
    simp

/-- What `SendMessage` hands to `Write`. -/
theorem SendMessage_writes (conn : Conn) (data : List Byte) :
    (MessageProtocol.SendMessage conn data).2.writes =
      conn.writes ++
        [⟨[byte (data.length >>> 24), byte (data.length >>> 16), byte (data.length >>> 8),
            byte data.length] ++ data,
          (MessageProtocol.SendMessage conn data).1.isNone⟩] := by
  rcases conn with ⟨script, ws, wr, cl⟩
  cases cl
  · rcases ws with _ | ⟨w, ws⟩
    · simp [MessageProtocol.SendMessage, Conn.Write]
    · cases w <;> simp [MessageProtocol.SendMessage, Conn.Write]
  · simp [MessageProtocol.SendMessage, Conn.Write]

/-- C1. Frame round trip: when the bytes at the front of an open connection's
read script are what `SendMessage d` writes (with `len d < 2^32`), however they
are split into chunks, `ReceiveMessage` returns exactly `d`, the frame is
`4 + len d` bytes long, and exactly the bytes behind the frame stay in the
script. -/
theorem receive_after_send_roundtrip (d : List Byte) (sender conn : Conn) (w : WriteRec)
    (chunks : List (List Byte)) (extra : List Byte) (rest : List ReadEvent)
    (hd : d.length < 2 ^ 32)
    (hs : (MessageProtocol.SendMessage sender d).2.writes = sender.writes ++ [w])
    (hopen : conn.closed = false)
    (hscript : conn.script = chunks.map ReadEvent.data ++ rest)
    (hbytes : chunks.flatten = w.data ++ extra) :
    w.data.length = 4 + d.length ∧
    ∃ chunks' : List (List Byte),
      MessageProtocol.ReceiveMessage conn =
        (.ok d, { conn with script := chunks'.map ReadEvent.data ++ rest }) ∧
      chunks'.flatten = extra := by
  rw [SendMessage_writes] at hs
  have hw : w.data = [byte (d.length >>> 24), byte (d.length >>> 16), byte (d.length >>> 8),
      byte d.length] ++ d := by
    have := List.append_cancel_left hs
    simp only [List.cons.injEq, and_true] at this
    rw [← this]
  refine ⟨by rw [hw]; simp; omega, ?_⟩
  refine ReceiveMessage_frame conn [byte (d.length >>> 24), byte (d.length >>> 16),
    byte (d.length >>> 8), byte d.length] d extra chunks rest hopen hscript rfl ?_ ?_
  · rw [headerLength_byte _ hd]
  · rw [hbytes, hw]

/-- Witness for C1: the frame of `[7, 8, 9]` arrives as the chunks `[0, 0]`,
`[0, 3, 7]`, `[8]` and `[9, 42]`; the byte `42` stays in the script. -/
theorem receive_after_send_roundtrip_witness :
    ([0, 0, 0, 3, 7, 8, 9] : List Byte).length = 4 + ([7, 8, 9] : List Byte).length ∧
    ∃ chunks' : List (List Byte),
      MessageProtocol.ReceiveMessage
          ⟨[.data [0, 0], .data [0, 3, 7], .data [8], .data [9, 42], .fail .eof], [], [], false⟩ =
        (.ok [7, 8, 9], ⟨chunks'.map ReadEvent.data ++ [.fail .eof], [], [], false⟩) ∧
      chunks'.flatten = [42] :=
  receive_after_send_roundtrip [7, 8, 9] ⟨[], [], [], false⟩
    ⟨[.data [0, 0], .data [0, 3, 7], .data [8], .data [9, 42], .fail .eof], [], [], false⟩
    ⟨[0, 0, 0, 3, 7, 8, 9], true⟩ [[0, 0], [0, 3, 7], [8], [9, 42]] [42] [.fail .eof]
    (by decide) (by decide) rfl (by decide) (by decide)

/-- C2. Frame header format: `SendMessage d` makes exactly one `Write` call,
whose bytes are the four octets of `len d` from the most significant to the
least significant followed by exactly `d`; read as a big-endian number the
header is `len d` modulo `2^32`, hence `len d` itself whenever
`len d < 2^32`. -/
theorem SendMessage_header_format (conn : Conn) (d : List Byte) :
    ∃ h0 h1 h2 h3 : Byte,
      (MessageProtocol.SendMessage conn d).2.writes =
        conn.writes ++ [⟨[h0, h1, h2, h3] ++ d, (MessageProtocol.SendMessage conn d).1.isNone⟩] ∧
      h0.val = d.length / 2 ^ 24 % 256 ∧ h1.val = d.length / 2 ^ 16 % 256 ∧
      h2.val = d.length / 2 ^ 8 % 256 ∧ h3.val = d.length % 256 ∧
      h0.val * 2 ^ 24 + h1.val * 2 ^ 16 + h2.val * 2 ^ 8 + h3.val = d.length % 2 ^ 32 ∧
      (d.length < 2 ^ 32 → headerLength [h0, h1, h2, h3] = d.length) := by
  refine ⟨byte (d.length >>> 24), byte (d.length >>> 16), byte (d.length >>> 8),
    byte d.length, SendMessage_writes conn d, ?_, ?_, ?_, ?_, ?_, ?_⟩
  · simp [byte, Nat.shiftRight_eq_div_pow]
  · simp [byte, Nat.shiftRight_eq_div_pow]
  · simp [byte, Nat.shiftRight_eq_div_pow]
  · simp [byte]
  · simp only [byte, Nat.shiftRight_eq_div_pow]
    omega
  · exact headerLength_byte d.length

/-- The bytes of C2 are `frameOf d`. -/
theorem SendMessage_writes_frameOf (conn : Conn) (data : List Byte) :
    (MessageProtocol.SendMessage conn data).2.writes =
      conn.writes ++ [⟨frameOf data, (MessageProtocol.SendMessage conn data).1.isNone⟩] :=
  SendMessage_writes conn data

/-- The SDK's `sendMessage` frames its payload the way `SendMessage` does: the
same single `Write` of the header and the encoded envelope. -/
theorem PluginSDK_sendMessage_frame (j : Codec) (conn : Conn) (msg : Message)
    (data : List Byte) (h : EncodeMessage j msg = .ok data) :
    (PluginSDK.sendMessage j conn msg).2 = (MessageProtocol.SendMessage conn data).2 ∧
      (PluginSDK.sendMessage j conn msg).2.writes =
        conn.writes ++ [⟨frameOf data, (MessageProtocol.SendMessage conn data).1.isNone⟩] := by
  have h1 : (PluginSDK.sendMessage j conn msg).2 = (MessageProtocol.SendMessage conn data).2 := by
    simp only [PluginSDK.sendMessage, h, MessageProtocol.SendMessage]
    rcases conn.Write _ with ⟨e, c⟩
    cases e <;> rfl
  exact ⟨h1, by rw [h1]; exact SendMessage_writes conn data⟩

/-- Witness for C2: the frame of a payload of 258 bytes opens with
`0, 0, 1, 2`. -/
theorem SendMessage_header_format_witness :
    ∃ h0 h1 h2 h3 : Byte,
      (MessageProtocol.SendMessage ⟨[], [], [], false⟩ (List.replicate 258 7)).2.writes =
        ([] : List WriteRec) ++
          [⟨[h0, h1, h2, h3] ++ List.replicate 258 7,
            (MessageProtocol.SendMessage ⟨[], [], [], false⟩ (List.replicate 258 7)).1.isNone⟩] ∧
      h0.val = (List.replicate 258 (7 : Byte)).length / 2 ^ 24 % 256 ∧
      h1.val = (List.replicate 258 (7 : Byte)).length / 2 ^ 16 % 256 ∧
      h2.val = (List.replicate 258 (7 : Byte)).length / 2 ^ 8 % 256 ∧
      h3.val = (List.replicate 258 (7 : Byte)).length % 256 ∧
      h0.val * 2 ^ 24 + h1.val * 2 ^ 16 + h2.val * 2 ^ 8 + h3.val =
        (List.replicate 258 (7 : Byte)).length % 2 ^ 32 ∧
      ((List.replicate 258 (7 : Byte)).length < 2 ^ 32 →
        headerLength [h0, h1, h2, h3] = (List.replicate 258 (7 : Byte)).length) :=
  SendMessage_header_format ⟨[], [], [], false⟩ (List.replicate 258 7)

/-- C3, counterexample: a header `04 00 00 01` declares 67108865 bytes, one
more than 64 MiB; with the body in the stream `ReceiveMessage` returns the
body, not an error. -/
theorem ReceiveMessage_size_limit_counterexample :
    headerLength [4, 0, 0, 1] = 67108865 ∧ 67108864 < headerLength [4, 0, 0, 1] ∧
    (MessageProtocol.ReceiveMessage
        ⟨[.data ([4, 0, 0, 1] ++ List.replicate 67108865 0)], [], [], false⟩).1 =
      .ok (List.replicate 67108865 0) := by
  have hl : headerLength [4, 0, 0, 1] = 67108865 := by decide
  refine ⟨hl, by rw [hl]; exact Nat.lt_succ_self _, ?_⟩
  obtain ⟨chunks', h, _⟩ := ReceiveMessage_frame
    ⟨[.data ([4, 0, 0, 1] ++ List.replicate 67108865 0)], [], [], false⟩
    [4, 0, 0, 1] (List.replicate 67108865 0) []
    [[4, 0, 0, 1] ++ List.replicate 67108865 0] [] rfl rfl rfl
    (by rw [List.length_replicate, hl]) rfl
  rw [h]

/-- C3, amended. `ReceiveMessage` applies no size limit: whatever length the
four header bytes declare (any value below `2^32`, also above 64 MiB), when
that many body bytes follow in the stream of an open connection it returns
exactly those bytes, with no error. -/
theorem ReceiveMessage_any_declared_length (conn : Conn) (header body extra : List Byte)
    (chunks : List (List Byte)) (rest : List ReadEvent)
    (hopen : conn.closed = false)
    (hscript : conn.script = chunks.map ReadEvent.data ++ rest)
    (hheader : header.length = 4)
    (hbody : body.length = headerLength header)
    (hbytes : chunks.flatten = header ++ body ++ extra) :
    (MessageProtocol.ReceiveMessage conn).1 = .ok body ∧
      (MessageProtocol.ReceiveMessage conn).2.closed = false ∧
      (MessageProtocol.ReceiveMessage conn).2.writes = conn.writes := by
  obtain ⟨chunks', h, _⟩ :=
    ReceiveMessage_frame conn header body extra chunks rest hopen hscript hheader hbody hbytes
  rw [h]
  exact ⟨rfl, hopen, rfl⟩

/-- Witness for C3 (amended): a header declaring two bytes, read in two
chunks. -/
theorem ReceiveMessage_any_declared_length_witness :
    (MessageProtocol.ReceiveMessage ⟨[.data [0, 0, 0], .data [2, 5, 6, 9]], [], [], false⟩).1 =
        .ok [5, 6] ∧
      (MessageProtocol.ReceiveMessage
        ⟨[.data [0, 0, 0], .data [2, 5, 6, 9]], [], [], false⟩).2.closed = false ∧
      (MessageProtocol.ReceiveMessage
        ⟨[.data [0, 0, 0], .data [2, 5, 6, 9]], [], [], false⟩).2.writes = [] :=
  ReceiveMessage_any_declared_length ⟨[.data [0, 0, 0], .data [2, 5, 6, 9]], [], [], false⟩
    [0, 0, 0, 2] [5, 6] [9] [[0, 0, 0], [2, 5, 6, 9]] [] rfl rfl rfl (by decide) (by decide)

/-! ### Plugin instance: receiving -/

theorem ReceiveMessage_closed (conn : Conn) (h : conn.closed = true) :
    MessageProtocol.ReceiveMessage conn = (.error errClosed, conn) := by
  simp [MessageProtocol.ReceiveMessage, ReadFull, h]

/-- On an open connection `ReceiveMessage` is `receiveScript` on the script;
nothing else of the connection changes. -/
theorem ReceiveMessage_open (conn : Conn) (h : conn.closed = false) :
    MessageProtocol.ReceiveMessage conn =
      ((receiveScript conn.script).1, { conn with script := (receiveScript conn.script).2 }) := by
  rcases conn with ⟨script, ws, wr, cl⟩
  simp only at h
  subst h
  simp only [MessageProtocol.ReceiveMessage, receiveScript, ReadFull]
  simp only [show (4 : Nat) ≠ 0 by decide, if_false, Bool.false_eq_true]
  rcases h1 : readFullScript script 4 [] with ⟨r, s1⟩
  cases r with
  | error e => simp
  | ok header =>
    simp only
    by_cases h0 : headerLength header = 0
    · simp [h0]
    · simp only [h0, if_false]
      rcases h2 : readFullScript s1 (headerLength header) [] with ⟨r2, s2⟩
      cases r2 <;> simp

theorem ReceiveMessage_ok_open (conn conn' : Conn) (data : List Byte)
    (h : MessageProtocol.ReceiveMessage conn = (.ok data, conn')) :
    conn.closed = false ∧ receiveScript conn.script = (.ok data, conn'.script) ∧
      conn' = { conn with script := conn'.script } := by
  cases hc : conn.closed with
  | true => rw [ReceiveMessage_closed conn hc] at h; simp at h
  | false =>
    rw [ReceiveMessage_open conn hc] at h
    simp only [Prod.mk.injEq] at h
    obtain ⟨h1, h2⟩ := h
    refine ⟨rfl, ?_, ?_⟩
    · rw [← h2]
      exact Prod.ext h1 rfl
    · rw [← h2, hc]

/-- A successful `ReadFull` of `n` bytes takes at least `n` off the size of
the script. -/
theorem readFullScript_size (script : List ReadEvent) :
    ∀ (n : Nat) (got out : List Byte) (script' : List ReadEvent),
      readFullScript script n got = (.ok out, script') →
        scriptSize script' + n ≤ scriptSize script := by
  induction script with
  | nil =>
    intro n got out script' h
    cases n with
    | zero => simp [readFullScript] at h; simp [← h.2]
    | succ m => simp [readFullScript] at h
  | cons ev rest ih =>
    intro n got out script' h
    cases n with
    | zero => rw [readFullScript_zero] at h; simp at h; simp [← h.2]
    | succ m =>
      cases ev with
      | fail e => simp [readFullScript] at h
      | data bs =>
        by_cases hle : bs.length ≤ m + 1
        · simp only [readFullScript, hle, if_true] at h
          have := ih _ _ _ _ h
          simp only [scriptSize]
          omega
        · simp only [readFullScript, hle, if_false, Prod.mk.injEq] at h
          rw [← h.2]
          simp only [scriptSize, List.length_drop]
          omega

/-- Every frame received takes at least its four header bytes off the script. -/
theorem receiveScript_size (script script' : List ReadEvent) (data : List Byte)
    (h : receiveScript script = (.ok data, script')) :
    scriptSize script' + 4 ≤ scriptSize script := by
  simp only [receiveScript, MessageProtocol.ReceiveMessage, ReadFull,
    show (4 : Nat) ≠ 0 by decide, if_false, Bool.false_eq_true] at h
  rcases h1 : readFullScript script 4 [] with ⟨r, s1⟩
  rw [h1] at h
  cases r with
  | error e => simp at h
  | ok header =>
    have hs1 := readFullScript_size script 4 [] header s1 h1
    simp only at h
    by_cases h0 : headerLength header = 0
    · simp only [h0, if_true, Prod.mk.injEq] at h
      rw [← h.2]
      exact hs1
    · simp only [h0, if_false] at h
      rcases h2 : readFullScript s1 (headerLength header) [] with ⟨r2, s2⟩
      rw [h2] at h
      cases r2 with
      | error e => simp at h
      | ok body =>
        have hs2 := readFullScript_size s1 _ [] body s2 h2
        simp only [Bool.false_eq_true, if_false, Prod.mk.injEq] at h
        rw [← h.2]
        omega

theorem SendMessage_script (conn : Conn) (data : List Byte) :
    (MessageProtocol.SendMessage conn data).2.script = conn.script ∧
      (MessageProtocol.SendMessage conn data).2.closed = conn.closed := by
  rcases conn with ⟨script, ws, wr, cl⟩
  cases cl
  · rcases ws with _ | ⟨w, ws⟩
    · simp [MessageProtocol.SendMessage, Conn.Write]
    · cases w <;> simp [MessageProtocol.SendMessage, Conn.Write]
  · simp [MessageProtocol.SendMessage, Conn.Write]

/-- When the response loop returns a value, the frames it read end with a
result frame carrying the awaited id, and no decodable frame before it carried
that id. -/
theorem callLoop_ok_frames (j : Codec) (messageID : String) (later : Nat) :
    ∀ (fuel : Nat) (pi pi' : PluginInstance) (r : JValue),
      pi.callLoop j messageID later fuel = (.ok r, pi') →
      ∃ (conn : Conn) (before : List (List Byte)) (payload : List Byte) (msg : Message),
        pi.Conn = some conn ∧ conn.closed = false ∧
        incomingFrames conn.script (before ++ [payload]) ∧
        (∀ b ∈ before, ∀ m, DecodeMessage j b = .ok m → m.ID ≠ messageID) ∧
        DecodeMessage j payload = .ok msg ∧ msg.ID = messageID ∧
        msg.Type_ = MessageTypeResult ∧ msg.Result = r := by
  intro fuel
  induction fuel with
  | zero =>
    intro pi pi' r h
    simp [PluginInstance.callLoop] at h
  | succ fuel ih =>
    intro pi pi' r h
    rw [PluginInstance.callLoop] at h
    cases hconn : pi.Conn with
    | none => simp [hconn] at h
    | some conn =>
      simp only [hconn] at h
      rcases hrecv : MessageProtocol.ReceiveMessage conn with ⟨res, conn'⟩
      rw [hrecv] at h
      cases res with
      | error err =>
        simp only at h
        split at h <;> simp at h
      | ok data =>
        obtain ⟨hopen, hrs, _⟩ := ReceiveMessage_ok_open conn conn' data hrecv
        simp only at h
        cases hdec : DecodeMessage j data with
        | error e =>
          rw [hdec] at h
          simp only at h
          obtain ⟨c2, before, payload, msg, h1, _, h3, h4, h5⟩ := ih _ _ _ h
          simp only [Option.some.injEq] at h1
          subst h1
          refine ⟨conn, data :: before, payload, msg, rfl, hopen, ⟨_, hrs, h3⟩, ?_, h5⟩
          intro b hb m hm
          rcases List.mem_cons.1 hb with hb | hb
          · subst hb
            rw [hdec] at hm
            cases hm
          · exact h4 b hb m hm
        | ok msg =>
          rw [hdec] at h
          simp only at h
          by_cases hid : msg.ID = messageID
          · simp only [hid, if_true] at h
            by_cases ht : msg.Type_ = MessageTypeResult
            · simp only [ht, if_true, Prod.mk.injEq, Except.ok.injEq] at h
              exact ⟨conn, [], data, msg, rfl, hopen, ⟨_, hrs, trivial⟩, by simp, hdec, hid, ht, h.1⟩
            · simp only [ht, if_false] at h
              split at h <;> simp at h
          · simp only [hid, if_false] at h
            by_cases hp : msg.Type_ = MessageTypePing
            · simp only [hp, if_true] at h
              obtain ⟨c2, before, payload, msg2, h1, _, h3, h4, h5⟩ := ih _ _ _ h
              simp only [Option.some.injEq] at h1
              subst h1
              rw [(SendMessage_script conn' _).1] at h3
              refine ⟨conn, data :: before, payload, msg2, rfl, hopen, ⟨_, hrs, h3⟩, ?_, h5⟩
              intro b hb m hm
              rcases List.mem_cons.1 hb with hb | hb
              · subst hb
                rw [hdec] at hm
                cases hm
                exact hid
              · exact h4 b hb m hm
            · simp only [hp, if_false] at h
              obtain ⟨c2, before, payload, msg2, h1, _, h3, h4, h5⟩ := ih _ _ _ h
              simp only [Option.some.injEq] at h1
              subst h1
              refine ⟨conn, data :: before, payload, msg2, rfl, hopen, ⟨_, hrs, h3⟩, ?_, h5⟩
              intro b hb m hm
              rcases List.mem_cons.1 hb with hb | hb
              · subst hb
                rw [hdec] at hm
                cases hm
                exact hid
              · exact h4 b hb m hm

/-- What a successful `sendMessage` did: it encoded the message and wrote its
frame on the connection of the instance. -/
theorem sendMessage_ok (j : Codec) (pi pi1 : PluginInstance) (msg : Message)
    (h : pi.sendMessage j msg = (none, pi1)) :
    ∃ (conn0 conn1 : Conn) (data : List Byte),
      pi.Conn = some conn0 ∧ EncodeMessage j msg = .ok data ∧
      MessageProtocol.SendMessage conn0 data = (none, conn1) ∧
      pi1 = { pi with Conn := some conn1 } := by
  unfold PluginInstance.sendMessage at h
  cases henc : EncodeMessage j msg with
  | error e => rw [henc] at h; simp at h
  | ok data =>
    rw [henc] at h
    cases hconn : pi.Conn with
    | none => rw [hconn] at h; simp at h
    | some conn0 =>
      rw [hconn] at h
      simp only at h
      rcases hsend : MessageProtocol.SendMessage conn0 data with ⟨e, conn1⟩
      rw [hsend] at h
      cases e with
      | some e => simp at h
      | none =>
        simp only [Prod.mk.injEq, true_and] at h
        exact ⟨conn0, conn1, data, rfl, rfl, hsend, h.symm⟩

/-- C4. Response correlation: when `PluginInstance.CallFunction` returns a value `r`
with no error, this invocation wrote a call frame with the id `call-<now>` and
the frames it then read are `before ++ [payload]`, where `payload` decodes to
a frame of type `result` with that same id and the result `r`, and no frame of
`before` decodes to a frame with that id (each carries another id or does not
decode). So a result frame carrying any other id is never what is returned. -/
theorem CallFunction_result_correlated (j : Codec) (now later : Nat) (pi pi' : PluginInstance)
    (functionName : String) (params : List (String × JValue)) (r : JValue)
    (h : pi.CallFunction j now later functionName params = (.ok r, pi')) :
    ∃ (conn0 conn1 : Conn) (callData : List Byte) (before : List (List Byte))
        (payload : List Byte) (msg : Message),
      pi.Conn = some conn0 ∧
      EncodeMessage j
        { Type_ := MessageTypeCall, ID := "call-" ++ toString now, Function := functionName,
          Params := params } = .ok callData ∧
      MessageProtocol.SendMessage conn0 callData = (none, conn1) ∧
      incomingFrames conn1.script (before ++ [payload]) ∧
      (∀ b ∈ before, ∀ m, DecodeMessage j b = .ok m → m.ID ≠ "call-" ++ toString now) ∧
      DecodeMessage j payload = .ok msg ∧ msg.Type_ = MessageTypeResult ∧
      msg.ID = "call-" ++ toString now ∧ msg.Result = r := by
  unfold PluginInstance.CallFunction at h
  simp only at h
  split at h
  · simp at h
  · split at h
    · simp at h
    · split at h
      · simp at h
      · rename_i pi1 hsend
        obtain ⟨conn0, conn1, data, hc0, henc, hs, hpi1⟩ := sendMessage_ok j pi pi1 _ hsend
        obtain ⟨c, before, payload, msg, h1, _, h3, h4, h5, h6, h7, h8⟩ :=
          callLoop_ok_frames j _ later _ _ _ _ h
        rw [hpi1] at h1
        simp only [Option.some.injEq] at h1
        subst h1
        exact ⟨conn0, conn1, data, before, payload, msg, hc0, henc, hs, h3, h4, h5, h7, h6, h8⟩

/-- Witness for C4: the call `call-5` first reads the stale result of
`call-4`, then its own result `15`. -/
theorem CallFunction_result_correlated_witness :
    ∃ (before : List (List Byte)) (payload : List Byte) (msg : Message),
      incomingFrames
        [sampleFrame { Type_ := MessageTypeResult, ID := "call-4", Result := .num 99 },
          sampleFrame { Type_ := MessageTypeResult, ID := "call-5", Result := .num 15 }]
        (before ++ [payload]) ∧
      DecodeMessage (sampleCodec sampleKnown) payload = .ok msg ∧
      msg.Type_ = MessageTypeResult ∧ msg.ID = "call-5" ∧ msg.Result = .num 15 := by
  obtain ⟨conn0, conn1, callData, before, payload, msg, h0, _, h2, h3, _, h5, h6, h7, h8⟩ :=
    CallFunction_result_correlated (sampleCodec sampleKnown) 5 6
      (sampleInstance
        [sampleFrame { Type_ := MessageTypeResult, ID := "call-4", Result := .num 99 },
          sampleFrame { Type_ := MessageTypeResult, ID := "call-5", Result := .num 15 }])
      ((sampleInstance
        [sampleFrame { Type_ := MessageTypeResult, ID := "call-4", Result := .num 99 },
          sampleFrame { Type_ := MessageTypeResult, ID := "call-5", Result := .num 15 }]).CallFunction
        (sampleCodec sampleKnown) 5 6 "add" []).2
      "add" [] (.num 15) rfl
  have hs := (SendMessage_script conn0 callData).1
  rw [h2] at hs
  have hc : conn0.script =
      [sampleFrame { Type_ := MessageTypeResult, ID := "call-4", Result := .num 99 },
        sampleFrame { Type_ := MessageTypeResult, ID := "call-5", Result := .num 15 }] :=
    (congrArg Conn.script (Option.some.inj h0)).symm
  rw [hs, hc] at h3
  exact ⟨before, payload, msg, h3, h5, h6, h7, h8⟩

/-- C5, the code at the failing input. The call `call-5` reads a ping frame
with the id `hb-1` and then its own result. It returns the result; the writes
it made are the call frame and a pong frame whose JSON text holds no id at
all, and which decodes to an envelope with the empty id, not `hb-1`. -/
theorem CallFunction_pong_without_id :
    ((sampleInstance
        [sampleFrame { Type_ := MessageTypePing, ID := "hb-1" },
          sampleFrame { Type_ := MessageTypeResult, ID := "call-5", Result := .num 15 }]).CallFunction
        (sampleCodec sampleKnown) 5 6 "add" []).1 = .ok (.num 15) ∧
    ((sampleInstance
        [sampleFrame { Type_ := MessageTypePing, ID := "hb-1" },
          sampleFrame { Type_ := MessageTypeResult, ID := "call-5", Result := .num 15 }]).CallFunction
        (sampleCodec sampleKnown) 5 6 "add" []).2.Conn.map Conn.writes =
      some
        [⟨frameOf (asciiBytes "\x7b\"type\":\"call\",\"id\":\"call-5\",\"function\":\"add\"\x7d"), true⟩,
          ⟨frameOf (asciiBytes "\x7b\"type\":\"pong\"\x7d"), true⟩] ∧
    (DecodeMessage (sampleCodec sampleKnown) (asciiBytes "\x7b\"type\":\"pong\"\x7d")).toOption.map
        (fun msg => (msg.Type_, msg.ID)) = some ("pong", "") := by
  refine ⟨rfl, ?_, ?_⟩ <;> decide

/-- C6, the code at the failing input. A connected instance sends the ping
`healthcheck-7` and the next incoming frame is the pong with the id
`healthcheck-7`: `HealthCheck` returns false, because `waitForResponse`
accepts only a result frame under the awaited id. -/
theorem HealthCheck_rejects_matching_pong :
    (DecodeMessage (sampleCodec sampleKnown)
        (asciiBytes "\x7b\"type\":\"pong\",\"id\":\"healthcheck-7\"\x7d")).toOption.map
        (fun msg => (msg.Type_, msg.ID)) = some ("pong", "healthcheck-7") ∧
    ((sampleInstance
        [.data (frameOf (asciiBytes "\x7b\"type\":\"pong\",\"id\":\"healthcheck-7\"\x7d"))]).HealthCheck
        (sampleCodec sampleKnown) 7).1 = false ∧
    ((sampleInstance
        [.data (frameOf (asciiBytes "\x7b\"type\":\"pong\",\"id\":\"healthcheck-7\"\x7d"))]).HealthCheck
        (sampleCodec sampleKnown) 7).2.Conn.map Conn.writes =
      some [⟨frameOf (asciiBytes "\x7b\"type\":\"ping\",\"id\":\"healthcheck-7\"\x7d"), true⟩] := by
  refine ⟨?_, ?_, ?_⟩ <;> decide

theorem hasFunction_iff (pi : PluginInstance) (functionName : String) :
    pi.hasFunction functionName = true ↔ functionName ∈ pi.Functions := by
  simp only [PluginInstance.hasFunction, List.any_eq_true, beq_iff_eq]
  constructor
  · rintro ⟨x, hx, rfl⟩
    exact hx
  · intro h
    exact ⟨_, h, rfl⟩

/-- C7. Call preconditions: when the instance is not connected (the flag is
false or there is no connection) or the function is not registered,
`PluginInstance.CallFunction` returns an error and leaves the instance, its connection
and the log of writes exactly as they were. A not-connected instance gets the
not-connected error whether or not the function is known; the
unknown-function error is for a connected instance only. -/
theorem CallFunction_preconditions (j : Codec) (now later : Nat) (pi : PluginInstance)
    (functionName : String) (params : List (String × JValue))
    (h : pi.IsConnected = false ∨ pi.Conn = none ∨ functionName ∉ pi.Functions) :
    ∃ e : GoError,
      pi.CallFunction j now later functionName params = (.error e, pi) ∧
      ((pi.IsConnected = false ∨ pi.Conn = none) →
        e = .errorf ("插件实例 " ++ pi.ID ++ " 未连接")) ∧
      ((pi.IsConnected = true ∧ pi.Conn ≠ none) →
        e = .errorf ("插件实例 " ++ pi.ID ++ " 不支持函数 " ++ functionName)) := by
  by_cases hc : pi.IsConnected = true ∧ pi.Conn ≠ none
  · obtain ⟨h1, h2⟩ := hc
    have hf : pi.hasFunction functionName = false := by
      rcases h with h | h | h
      · rw [h1] at h; cases h
      · exact absurd h h2
      · cases hh : pi.hasFunction functionName
        · rfl
        · exact absurd ((hasFunction_iff pi functionName).1 hh) h
    have h3 : pi.Conn.isSome = true := Option.isSome_iff_ne_none.2 h2
    refine ⟨_, ?_, ?_, fun _ => rfl⟩
    · simp [PluginInstance.CallFunction, h1, h3, hf]
    · rintro (h | h)
      · rw [h1] at h; cases h
      · exact absurd h h2
  · have h3 : (pi.IsConnected && pi.Conn.isSome) = false := by
      cases h1 : pi.IsConnected
      · rfl
      · cases h2 : pi.Conn
        · rfl
        · exact absurd ⟨h1, by simp [h2]⟩ hc
    refine ⟨_, ?_, fun _ => rfl, fun h => absurd h hc⟩
    simp [PluginInstance.CallFunction, h3]

/-- Witness for C7: an instance that is not connected and does not know the
function either gets the not-connected error and keeps its state. -/
theorem CallFunction_preconditions_witness :
    ∃ e : GoError,
      ({ sampleInstance [] with IsConnected := false }).CallFunction (sampleCodec sampleKnown) 5 6
          "mul" [] = (.error e, { sampleInstance [] with IsConnected := false }) ∧
      e = .errorf "插件实例 math1 未连接" := by
  obtain ⟨e, h1, h2, _⟩ := CallFunction_preconditions (sampleCodec sampleKnown) 5 6
    { sampleInstance [] with IsConnected := false } "mul" [] (Or.inl rfl)
  exact ⟨e, h1, h2 (Or.inl rfl)⟩

/-! ### Plugin instance: the receive loops end by themselves -/

theorem ReceiveMessage_ok_size (conn conn' : Conn) (data : List Byte)
    (h : MessageProtocol.ReceiveMessage conn = (.ok data, conn')) :
    scriptSize conn'.script + 4 ≤ scriptSize conn.script :=
  receiveScript_size _ _ data (ReceiveMessage_ok_open conn conn' data h).2.1

/-- The response loop of `CallFunction` is never cut off by its round counter
when the counter starts above the size of the read script. -/
theorem callLoop_fuel (j : Codec) (messageID : String) (later : Nat) :
    ∀ (fuel : Nat) (pi : PluginInstance), 0 < fuel →
      (∀ c, pi.Conn = some c → scriptSize c.script < fuel) →
      (pi.callLoop j messageID later fuel).1 ≠ .error .cutOff := by
  intro fuel
  induction fuel with
  | zero => intro pi h; exact absurd h (Nat.lt_irrefl 0)
  | succ fuel ih =>
    intro pi _ hsize
    rw [PluginInstance.callLoop]
    cases hconn : pi.Conn with
    | none => simp
    | some conn =>
      simp only
      have hlt := hsize conn hconn
      rcases hrecv : MessageProtocol.ReceiveMessage conn with ⟨res, conn'⟩
      cases res with
      | error err =>
        simp only
        split <;> simp
      | ok data =>
        have hs := ReceiveMessage_ok_size conn conn' data hrecv
        have hpos : 0 < fuel := by omega
        have hlt' : scriptSize conn'.script < fuel := by omega
        simp only
        cases DecodeMessage j data with
        | error e =>
          exact ih _ hpos (fun c hc => by
            simp only [Option.some.injEq] at hc
            rw [← hc]
            exact hlt')
        | ok msg =>
          simp only
          split
          · split
            · simp
            · split <;> simp
          · split
            · exact ih _ hpos (fun c hc => by
                simp only [Option.some.injEq] at hc
                rw [← hc, (SendMessage_script conn' _).1]
                exact hlt')
            · exact ih _ hpos (fun c hc => by
                simp only [Option.some.injEq] at hc
                rw [← hc]
                exact hlt')

/-- The loop of `waitForResponse` is never cut off by its round counter when
the counter starts above the size of the read script. -/
theorem waitForResponseLoop_fuel (j : Codec) (messageID : String) :
    ∀ (fuel : Nat) (pi : PluginInstance), 0 < fuel →
      (∀ c, pi.Conn = some c → scriptSize c.script < fuel) →
      (pi.waitForResponseLoop j messageID fuel).1 ≠ .error .cutOff := by
  intro fuel
  induction fuel with
  | zero => intro pi h; exact absurd h (Nat.lt_irrefl 0)
  | succ fuel ih =>
    intro pi _ hsize
    rw [PluginInstance.waitForResponseLoop]
    cases hconn : pi.Conn with
    | none => simp
    | some conn =>
      simp only
      have hlt := hsize conn hconn
      rcases hrecv : MessageProtocol.ReceiveMessage conn with ⟨res, conn'⟩
      cases res with
      | error err => simp
      | ok data =>
        have hs := ReceiveMessage_ok_size conn conn' data hrecv
        have hpos : 0 < fuel := by omega
        have hlt' : scriptSize conn'.script < fuel := by omega
        simp only
        cases hdec : DecodeMessage j data with
        | error e =>
          simp only
          unfold DecodeMessage at hdec
          split at hdec
          · cases hdec
            simp
          · cases hdec
        | ok msg =>
          simp only
          split
          · split
            · simp
            · split <;> simp
          · exact ih _ hpos (fun c hc => by
              simp only [Option.some.injEq] at hc
              rw [← hc]
              exact hlt')

theorem loopFuel_enough (pi : PluginInstance) :
    0 < pi.loopFuel ∧ ∀ c, pi.Conn = some c → scriptSize c.script < pi.loopFuel := by
  unfold PluginInstance.loopFuel
  cases h : pi.Conn with
  | none => exact ⟨Nat.one_pos, fun c hc => by cases hc⟩
  | some conn =>
    refine ⟨Nat.succ_pos _, fun c hc => ?_⟩
    simp only [Option.some.injEq] at hc
    rw [← hc]
    exact Nat.lt_succ_self _

/-- The method `CallFunction` never returns the cut-off marker: its loop always ends
by a frame with the awaited id or by a failing read. -/
theorem CallFunction_not_cutOff (j : Codec) (now later : Nat) (pi : PluginInstance)
    (functionName : String) (params : List (String × JValue)) :
    (pi.CallFunction j now later functionName params).1 ≠ .error .cutOff := by
  unfold PluginInstance.CallFunction
  simp only
  split
  · simp
  · split
    · simp
    · split
      · simp
      · rename_i pi1 _
        exact callLoop_fuel j _ later _ pi1 (loopFuel_enough pi1).1 (loopFuel_enough pi1).2

/-- The method `waitForResponse` never returns the cut-off marker. -/
theorem waitForResponse_not_cutOff (j : Codec) (pi : PluginInstance) (messageID : String) :
    (pi.waitForResponse j messageID).1 ≠ .error .cutOff :=
  waitForResponseLoop_fuel j messageID _ pi (loopFuel_enough pi).1 (loopFuel_enough pi).2

/-! ### Plugin instance: what a call leaves untouched -/

theorem connGrows_refl (c : Option Conn) : connGrows c c := by
  cases c with
  | none => trivial
  | some c => exact ⟨⟨[], by simp⟩, rfl⟩

theorem connGrows_trans (a b c : Option Conn) (h1 : connGrows a b) (h2 : connGrows b c) :
    connGrows a c := by
  cases a <;> cases b <;> cases c <;> simp only [connGrows] at h1 h2 ⊢
  obtain ⟨⟨e1, h1⟩, h1c⟩ := h1
  obtain ⟨⟨e2, h2⟩, h2c⟩ := h2
  exact ⟨⟨e1 ++ e2, by rw [h2, h1, List.append_assoc]⟩, by rw [h2c, h1c]⟩

theorem ReceiveMessage_fields (c : Conn) :
    (MessageProtocol.ReceiveMessage c).2 =
      { c with script := (MessageProtocol.ReceiveMessage c).2.script } := by
  cases hc : c.closed with
  | true => rw [ReceiveMessage_closed c hc]; simp [← hc]
  | false => rw [ReceiveMessage_open c hc]; simp [← hc]

theorem ReceiveMessage_grows (c : Conn) :
    connGrows (some c) (some (MessageProtocol.ReceiveMessage c).2) := by
  rw [ReceiveMessage_fields]
  exact ⟨⟨[], by simp⟩, rfl⟩

theorem SendMessage_grows (c : Conn) (data : List Byte) :
    connGrows (some c) (some (MessageProtocol.SendMessage c data).2) :=
  ⟨⟨_, SendMessage_writes c data⟩, (SendMessage_script c data).2⟩

theorem onlyConnUsed_refl (pi : PluginInstance) : pi.onlyConnUsed pi :=
  ⟨rfl, rfl, rfl, rfl, rfl, rfl, rfl, rfl, rfl, rfl, connGrows_refl _⟩

theorem onlyConnUsed_trans (a b c : PluginInstance) (h1 : a.onlyConnUsed b)
    (h2 : b.onlyConnUsed c) : a.onlyConnUsed c := by
  obtain ⟨a1, a2, a3, a4, a5, a6, a7, a8, a9, a10, a11⟩ := h1
  obtain ⟨b1, b2, b3, b4, b5, b6, b7, b8, b9, b10, b11⟩ := h2
  exact ⟨b1.trans a1, b2.trans a2, b3.trans a3, b4.trans a4, b5.trans a5, b6.trans a6,
    b7.trans a7, b8.trans a8, b9.trans a9, b10.trans a10, connGrows_trans _ _ _ a11 b11⟩

theorem onlyConnUsed_set (pi : PluginInstance) (c : Conn) (t : Nat)
    (h : connGrows pi.Conn (some c)) :
    pi.onlyConnUsed { pi with Conn := some c } ∧
      pi.onlyConnUsed { pi with Conn := some c, LastUsed := t } :=
  ⟨⟨rfl, rfl, rfl, rfl, rfl, rfl, rfl, rfl, rfl, rfl, h⟩,
    ⟨rfl, rfl, rfl, rfl, rfl, rfl, rfl, rfl, rfl, rfl, h⟩⟩

/-- The method `sendMessage` touches nothing but the connection, which it only writes
to. -/
theorem sendMessage_frame (j : Codec) (pi : PluginInstance) (msg : Message) :
    pi.onlyConnUsed (pi.sendMessage j msg).2 := by
  unfold PluginInstance.sendMessage
  cases EncodeMessage j msg with
  | error e => exact onlyConnUsed_refl pi
  | ok data =>
    cases hconn : pi.Conn with
    | none => exact onlyConnUsed_refl pi
    | some conn =>
      simp only
      have hg := SendMessage_grows conn data
      rw [← hconn] at hg
      rcases hsend : MessageProtocol.SendMessage conn data with ⟨e, conn1⟩
      rw [hsend] at hg
      cases e <;> exact (onlyConnUsed_set pi conn1 0 hg).1

/-- The response loop touches nothing but the connection, which it only reads
and writes, and `LastUsed`. -/
theorem callLoop_frame (j : Codec) (messageID : String) (later : Nat) :
    ∀ (fuel : Nat) (pi : PluginInstance),
      pi.onlyConnUsed (pi.callLoop j messageID later fuel).2 := by
  intro fuel
  induction fuel with
  | zero => intro pi; exact onlyConnUsed_refl pi
  | succ fuel ih =>
    intro pi
    rw [PluginInstance.callLoop]
    cases hconn : pi.Conn with
    | none => exact onlyConnUsed_refl pi
    | some conn =>
      simp only
      have hg := ReceiveMessage_grows conn
      rw [← hconn] at hg
      rcases hrecv : MessageProtocol.ReceiveMessage conn with ⟨res, conn'⟩
      rw [hrecv] at hg
      cases res with
      | error err =>
        simp only
        split <;> exact (onlyConnUsed_set pi conn' 0 hg).1
      | ok data =>
        simp only
        cases DecodeMessage j data with
        | error e =>
          exact onlyConnUsed_trans _ _ _ (onlyConnUsed_set pi conn' 0 hg).1 (ih _)
        | ok msg =>
          simp only
          by_cases hid : msg.ID = messageID
          · simp only [hid, if_true]
            split
            · exact (onlyConnUsed_set pi conn' later hg).2
            · split <;> exact (onlyConnUsed_set pi conn' later hg).2
          · simp only [hid, if_false]
            by_cases hp : msg.Type_ = MessageTypePing
            · simp only [hp, if_true]
              refine onlyConnUsed_trans _ _ _ (onlyConnUsed_set pi _ 0 ?_).1 (ih _)
              exact connGrows_trans _ _ _ hg (SendMessage_grows conn' _)
            · simp only [hp, if_false]
              exact onlyConnUsed_trans _ _ _ (onlyConnUsed_set pi conn' 0 hg).1 (ih _)

/-- The method `CallFunction` touches nothing but the connection, which it only reads
and writes, and `LastUsed`. -/
theorem CallFunction_frame (j : Codec) (now later : Nat) (pi : PluginInstance)
    (functionName : String) (params : List (String × JValue)) :
    pi.onlyConnUsed (pi.CallFunction j now later functionName params).2 := by
  unfold PluginInstance.CallFunction
  simp only
  split
  · exact onlyConnUsed_refl pi
  · split
    · exact onlyConnUsed_refl pi
    · have hs := sendMessage_frame j pi
        { Type_ := MessageTypeCall, ID := "call-" ++ toString now, Function := functionName,
          Params := params }
      split
      · rename_i err pi1 hsend
        rw [hsend] at hs
        exact hs
      · rename_i pi1 hsend
        rw [hsend] at hs
        exact onlyConnUsed_trans _ _ _ hs (callLoop_frame j _ later _ pi1)

/-- C9, counterexample. A connected instance whose peer has closed the stream
(`Read` reports `io.EOF`), and one whose read runs into the 30 s deadline:
`CallFunction` fails with the connection-lost error, respectively the timeout
error, and `IsConnected` is still true when it returns. -/
theorem CallFunction_io_error_counterexample :
    (((sampleInstance []).CallFunction (sampleCodec sampleKnown) 5 6 "add" []).1 =
        .error (.wrapf "接收响应失败: " (.io .eof)) ∧
      ((sampleInstance []).CallFunction (sampleCodec sampleKnown) 5 6 "add" []).2.IsConnected =
        true) ∧
    (((sampleInstance [.fail (.net true "i/o timeout")]).CallFunction
        (sampleCodec sampleKnown) 5 6 "add" []).1 = .error (.errorf "等待响应超时") ∧
      ((sampleInstance [.fail (.net true "i/o timeout")]).CallFunction
        (sampleCodec sampleKnown) 5 6 "add" []).2.IsConnected = true) :=
  ⟨⟨rfl, rfl⟩, ⟨rfl, rfl⟩⟩

/-- C9, amended. `PluginInstance.CallFunction` never changes `IsConnected` (nor
`IsRunning`): in particular, when it fails because receiving a frame returned
an I/O error (the timeout error or the connection-lost error), `IsConnected`
is still true when it returns. -/
theorem CallFunction_keeps_IsConnected (j : Codec) (now later : Nat) (pi : PluginInstance)
    (functionName : String) (params : List (String × JValue)) :
    (pi.CallFunction j now later functionName params).2.IsConnected = pi.IsConnected ∧
    (pi.CallFunction j now later functionName params).2.IsRunning = pi.IsRunning ∧
    (∀ e : IOError,
      ((pi.CallFunction j now later functionName params).1 = .error (.errorf "等待响应超时") ∨
        (pi.CallFunction j now later functionName params).1 =
          .error (.wrapf "接收响应失败: " (.io e))) →
      (pi.CallFunction j now later functionName params).2.IsConnected = true) := by
  obtain ⟨_, _, _, _, _, hrun, hconn, _⟩ := CallFunction_frame j now later pi functionName params
  refine ⟨hconn, hrun, ?_⟩
  intro e h
  rw [hconn]
  cases hc : pi.IsConnected with
  | true => rfl
  | false =>
    exfalso
    have hout : (pi.CallFunction j now later functionName params).1 =
        .error (.errorf ("插件实例 " ++ pi.ID ++ " 未连接")) := by
      simp [PluginInstance.CallFunction, hc]
    rw [hout] at h
    rcases h with h | h
    · simp only [Except.error.injEq, GoError.errorf.injEq] at h
      have := congrArg String.data h
      simp [String.data_append] at this
    · simp at h

/-- Witness for C9 (amended): the read of the call `call-5` fails with a
reset connection; the instance is still marked connected. -/
theorem CallFunction_keeps_IsConnected_witness :
    ((sampleInstance [.fail (.net false "connection reset by peer")]).CallFunction
        (sampleCodec sampleKnown) 5 6 "add" []).2.IsConnected = true :=
  (CallFunction_keeps_IsConnected (sampleCodec sampleKnown) 5 6
    (sampleInstance [.fail (.net false "connection reset by peer")]) "add" []).2.2
    (.net false "connection reset by peer") (Or.inr rfl)

/-! ### Plugin instance: handshake precedence -/

/-- The loop of `waitForResponse` touches nothing but the connection, which it
only reads. -/
theorem waitForResponseLoop_frame (j : Codec) (messageID : String) :
    ∀ (fuel : Nat) (pi : PluginInstance),
      pi.onlyConnUsed (pi.waitForResponseLoop j messageID fuel).2 := by
  intro fuel
  induction fuel with
  | zero => intro pi; exact onlyConnUsed_refl pi
  | succ fuel ih =>
    intro pi
    rw [PluginInstance.waitForResponseLoop]
    cases hconn : pi.Conn with
    | none => exact onlyConnUsed_refl pi
    | some conn =>
      simp only
      have hg := ReceiveMessage_grows conn
      rw [← hconn] at hg
      rcases hrecv : MessageProtocol.ReceiveMessage conn with ⟨res, conn'⟩
      rw [hrecv] at hg
      cases res with
      | error err => exact (onlyConnUsed_set pi conn' 0 hg).1
      | ok data =>
        simp only
        cases DecodeMessage j data with
        | error e => exact (onlyConnUsed_set pi conn' 0 hg).1
        | ok msg =>
          simp only
          split
          · split
            · exact (onlyConnUsed_set pi conn' 0 hg).1
            · split <;> exact (onlyConnUsed_set pi conn' 0 hg).1
          · exact onlyConnUsed_trans _ _ _ (onlyConnUsed_set pi conn' 0 hg).1 (ih _)

/-- The method `HealthCheck` touches nothing but the connection. -/
theorem HealthCheck_frame (j : Codec) (now : Nat) (pi : PluginInstance) :
    pi.onlyConnUsed (pi.HealthCheck j now).2 := by
  unfold PluginInstance.HealthCheck
  split
  · exact onlyConnUsed_refl pi
  · simp only
    have hs := sendMessage_frame j pi
      { Type_ := MessageTypePing, ID := "healthcheck-" ++ toString now }
    split
    · rename_i err pi1 hsend
      rw [hsend] at hs
      exact hs
    · rename_i pi1 hsend
      rw [hsend] at hs
      have hw := waitForResponseLoop_frame j ("healthcheck-" ++ toString now) pi1.loopFuel pi1
      unfold PluginInstance.waitForResponse
      split
      · rename_i e pi2 hwait
        rw [hwait] at hw
        exact onlyConnUsed_trans _ _ _ hs hw
      · rename_i v pi2 hwait
        rw [hwait] at hw
        exact onlyConnUsed_trans _ _ _ hs hw

theorem CallFunction_not_connected (j : Codec) (now later : Nat) (pi : PluginInstance)
    (functionName : String) (params : List (String × JValue)) (h : pi.IsConnected = false) :
    (pi.CallFunction j now later functionName params).2 = pi := by
  simp [PluginInstance.CallFunction, h]

theorem HealthCheck_not_connected (j : Codec) (now : Nat) (pi : PluginInstance)
    (h : pi.IsConnected = false) : (pi.HealthCheck j now).2 = pi := by
  simp [PluginInstance.HealthCheck, h]

theorem ackFirst_append (j : Codec) (ws extra : List WriteRec) (h : ackFirst j ws) :
    ackFirst j (ws ++ extra) := by
  obtain ⟨data, rest, h1, h2⟩ := h
  exact ⟨data, rest ++ extra, h1, by rw [h2]; rfl⟩

/-- Reads and writes on the connection of a connected instance keep the
invariant. -/
theorem handshakeInv_onlyConnUsed (j : Codec) (pi pi' : PluginInstance)
    (hinv : pi.handshakeInv j) (hc : pi.IsConnected = true) (h : pi.onlyConnUsed pi') :
    pi'.handshakeInv j := by
  obtain ⟨h1, h2, h3⟩ := hinv
  obtain ⟨_, _, _, _, _, hrun, hcon, _, _, hret, hgrow⟩ := h
  obtain ⟨c, hconn, hack⟩ := h2 hc
  rw [hconn] at hgrow
  cases hconn' : pi'.Conn with
  | none => rw [hconn'] at hgrow; exact absurd hgrow (by simp [connGrows])
  | some c' =>
    rw [hconn'] at hgrow
    obtain ⟨⟨extra, hw⟩, _⟩ := hgrow
    have hack' : ackFirst j c'.writes := by rw [hw]; exact ackFirst_append j _ _ hack
    refine ⟨?_, fun _ => ⟨c', hconn', hack'⟩, ?_⟩
    · intro x hx
      simp only [PluginInstance.connections, hret, hconn', List.mem_append, Option.toList,
        List.mem_singleton] at hx
      rcases hx with hx | hx
      · exact h1 x (by simp [PluginInstance.connections, hx])
      · rw [hx]
        exact Or.inr (Or.inr hack')
    · rw [hrun, hcon]
      exact h3

theorem handshakeInv_sameLogs (j : Codec) (pi pi' : PluginInstance)
    (hinv : pi.handshakeInv j) (h : pi.sameLogs pi') (hc : pi'.IsConnected = pi.IsConnected)
    (hr : pi'.IsRunning = pi.IsRunning) : pi'.handshakeInv j := by
  obtain ⟨h1, h2, h3⟩ := hinv
  obtain ⟨hret, hw⟩ := h
  refine ⟨?_, ?_, ?_⟩
  · intro x hx
    simp only [PluginInstance.connections, hret, List.mem_append] at hx
    rcases hx with hx | hx
    · exact h1 x (by simp [PluginInstance.connections, hx])
    · cases hc' : pi'.Conn with
      | none => simp [hc'] at hx
      | some c' =>
        simp only [hc', Option.toList, List.mem_singleton] at hx
        subst hx
        cases hcp : pi.Conn with
        | none => simp [hc', hcp] at hw
        | some c =>
          simp only [hc', hcp, Option.map_some', Option.some.injEq] at hw
          rw [hw]
          exact h1 c (by simp [PluginInstance.connections, hcp])
  · intro hcon
    rw [hc] at hcon
    obtain ⟨c, hcp, hack⟩ := h2 hcon
    cases hc' : pi'.Conn with
    | none => simp [hc', hcp] at hw
    | some c' =>
      simp only [hc', hcp, Option.map_some', Option.some.injEq] at hw
      exact ⟨c', rfl, by rw [hw]; exact hack⟩
  · rw [hr, hc]
    exact h3

theorem sameLogs_refl (pi : PluginInstance) : pi.sameLogs pi := ⟨rfl, rfl⟩

theorem sameLogs_trans (a b c : PluginInstance) (h1 : a.sameLogs b) (h2 : b.sameLogs c) :
    a.sameLogs c :=
  ⟨h2.1.trans h1.1, h2.2.trans h1.2⟩

theorem sameLogs_kill (pi : PluginInstance) : pi.sameLogs pi.kill := ⟨rfl, rfl⟩

theorem sameLogs_reap (pi : PluginInstance) : pi.sameLogs pi.reap := ⟨rfl, rfl⟩

theorem sameLogs_closeConn (pi : PluginInstance) : pi.sameLogs pi.closeConn := by
  refine ⟨rfl, ?_⟩
  cases h : pi.Conn <;> simp [PluginInstance.closeConn, h, Conn.Close]

/-- The method `Stop` keeps the invariant. -/
theorem Stop_handshakeInv (j : Codec) (env : StopEnv) (pi : PluginInstance)
    (hinv : pi.handshakeInv j) : (pi.Stop j env).2.handshakeInv j := by
  unfold PluginInstance.Stop
  by_cases hr : pi.IsRunning = true
  · simp only [hr, Bool.not_true, Bool.false_eq_true, if_false]
    have hpi1 : ∀ (msg : Message),
        (if (pi.IsConnected && pi.Conn.isSome) = true then (pi.sendMessage j msg).2
          else pi).handshakeInv j := by
      intro msg
      split
      · rename_i hconn
        have hc : pi.IsConnected = true := by
          cases h : pi.IsConnected
          · simp [h] at hconn
          · rfl
        exact handshakeInv_onlyConnUsed j pi _ hinv hc (sendMessage_frame j pi msg)
      · exact hinv
    generalize hp1 : (if (pi.IsConnected && pi.Conn.isSome) = true then
      (pi.sendMessage j { Type_ := MessageTypeStop, ID := "stop-" ++ toString env.now }).2
      else pi) = pi1
    have hinv1 : pi1.handshakeInv j := by rw [← hp1]; exact hpi1 _
    have key : ∀ p : PluginInstance, pi1.sameLogs p →
        ({ p with IsRunning := false, IsConnected := false } : PluginInstance).handshakeInv j ∧
        ({ p with Communication := p.Communication.Cleanup p.Address,
                  IsRunning := false, IsConnected := false } : PluginInstance).handshakeInv j := by
      intro p hp
      obtain ⟨h1, _, _⟩ := handshakeInv_sameLogs j pi1
        { p with IsConnected := pi1.IsConnected, IsRunning := pi1.IsRunning } hinv1 hp rfl rfl
      exact ⟨⟨h1, fun h => by simp at h, fun _ => rfl⟩, ⟨h1, fun h => by simp at h, fun _ => rfl⟩⟩
    split
    · split
      · exact (key _ (sameLogs_reap pi1)).2
      · exact (key _ (sameLogs_refl pi1)).2
    · split
      · split
        · exact (key _ (sameLogs_trans _ _ _ (sameLogs_closeConn pi1)
            (sameLogs_trans _ _ _ (sameLogs_kill _) (sameLogs_reap _)))).2
        · exact (key _ (sameLogs_trans _ _ _ (sameLogs_closeConn pi1) (sameLogs_kill _))).2
      · exact (key _ (sameLogs_refl pi1)).2
  · have hr' : pi.IsRunning = false := by
      cases h : pi.IsRunning
      · rfl
      · exact absurd h hr
    simp only [hr', Bool.not_false, if_true]
    exact hinv

/-- What `waitForRegistration` does to the log of writes: nothing when it
fails before the acknowledgement, and otherwise one write, the frame of the
register_ack envelope, which succeeded exactly when `waitForRegistration`
reports no error. -/
theorem waitForRegistration_log (j : Codec) :
    ∀ (rounds : Nat) (pi : PluginInstance) (c : Conn), pi.Conn = some c →
      ∃ c' : Conn,
        (pi.waitForRegistration j rounds).2.Conn = some c' ∧
        (pi.waitForRegistration j rounds).2.retired = pi.retired ∧
        (pi.waitForRegistration j rounds).2.IsRunning = pi.IsRunning ∧
        (pi.waitForRegistration j rounds).2.IsConnected = pi.IsConnected ∧
        (((pi.waitForRegistration j rounds).1 ≠ none ∧ c'.writes = c.writes) ∨
          ∃ data : List Byte,
            EncodeMessage j { Type_ := MessageTypeRegisterAck } = .ok data ∧
            c'.writes =
              c.writes ++ [⟨frameOf data, (pi.waitForRegistration j rounds).1.isNone⟩]) := by
  intro rounds
  induction rounds with
  | zero =>
    intro pi c hc
    exact ⟨c, hc, rfl, rfl, rfl, Or.inl ⟨by simp [PluginInstance.waitForRegistration], rfl⟩⟩
  | succ rounds ih =>
    intro pi c hc
    rw [PluginInstance.waitForRegistration]
    simp only [hc]
    have hf := ReceiveMessage_fields c
    rcases hrecv : MessageProtocol.ReceiveMessage c with ⟨res, conn'⟩
    rw [hrecv] at hf
    simp only at hf
    have hw : conn'.writes = c.writes := by rw [hf]
    have again : ∀ p : PluginInstance, p = { pi with Conn := some conn' } →
        ∃ c' : Conn,
          (p.waitForRegistration j rounds).2.Conn = some c' ∧
          (p.waitForRegistration j rounds).2.retired = pi.retired ∧
          (p.waitForRegistration j rounds).2.IsRunning = pi.IsRunning ∧
          (p.waitForRegistration j rounds).2.IsConnected = pi.IsConnected ∧
          (((p.waitForRegistration j rounds).1 ≠ none ∧ c'.writes = c.writes) ∨
            ∃ data : List Byte,
              EncodeMessage j { Type_ := MessageTypeRegisterAck } = .ok data ∧
              c'.writes =
                c.writes ++ [⟨frameOf data, (p.waitForRegistration j rounds).1.isNone⟩]) := by
      intro p hp
      obtain ⟨c', h1, h2, h3, h4, h5⟩ := ih p conn' (by rw [hp])
      rw [hw] at h5
      exact ⟨c', h1, by rw [h2, hp], by rw [h3, hp], by rw [h4, hp], h5⟩
    cases res with
    | error err =>
      simp only
      split
      · exact again _ rfl
      · exact ⟨conn', rfl, rfl, rfl, rfl, Or.inl ⟨by simp, hw⟩⟩
    | ok data =>
      simp only
      cases DecodeMessage j data with
      | error e => exact again _ rfl
      | ok msg =>
        simp only
        split
        · split
          · exact again _ rfl
          · split
            · rename_i functions _ hlen
              simp only [PluginInstance.sendMessage, PluginInstance.RegisterFunctions]
              cases henc : EncodeMessage j { Type_ := MessageTypeRegisterAck } with
              | error e =>
                exact ⟨conn', rfl, rfl, rfl, rfl, Or.inl ⟨by simp, hw⟩⟩
              | ok ackData =>
                simp only
                have hsw := SendMessage_writes_frameOf conn' ackData
                rcases hsend : MessageProtocol.SendMessage conn' ackData with ⟨e, conn''⟩
                rw [hsend] at hsw
                simp only at hsw
                rw [hw] at hsw
                cases e with
                | some e => exact ⟨conn'', rfl, rfl, rfl, rfl, Or.inr ⟨ackData, rfl, hsw⟩⟩
                | none => exact ⟨conn'', rfl, rfl, rfl, rfl, Or.inr ⟨ackData, rfl, hsw⟩⟩
            · exact again _ rfl
          · exact again _ rfl
        · exact again _ rfl

theorem startProcess_sameLogs (env : StartEnv) (pi : PluginInstance) :
    pi.sameLogs (pi.startProcess env).2 ∧
      (pi.startProcess env).2.IsConnected = pi.IsConnected ∧
      (pi.startProcess env).2.IsRunning = pi.IsRunning := by
  unfold PluginInstance.startProcess
  simp only
  split <;> exact ⟨⟨rfl, rfl⟩, rfl, rfl⟩

/-- The method `Start` keeps the invariant. -/
theorem Start_handshakeInv (j : Codec) (env : StartEnv) (pi : PluginInstance)
    (hinv : pi.handshakeInv j) : (pi.Start j env).2.handshakeInv j := by
  unfold PluginInstance.Start
  split
  · exact hinv
  · rename_i hrun
    have hr : pi.IsRunning = false := by
      cases h : pi.IsRunning
      · rfl
      · exact absurd h hrun
    have hc : pi.IsConnected = false := hinv.2.2 hr
    simp only
    generalize hp0 : ({ pi with Address := pi.Communication.GenerateAddress pi.PluginName pi.ID } :
      PluginInstance) = pi0
    have h0 : pi.sameLogs pi0 ∧ pi0.IsConnected = pi.IsConnected ∧
        pi0.IsRunning = pi.IsRunning := by
      rw [← hp0]
      exact ⟨⟨rfl, rfl⟩, rfl, rfl⟩
    obtain ⟨hs1, hc1, hr1⟩ := startProcess_sameLogs env pi0
    rcases hsp : pi0.startProcess env with ⟨e1, pi1⟩
    rw [hsp] at hs1 hc1 hr1
    simp only at hs1 hc1 hr1
    have hinv1 : pi1.handshakeInv j :=
      handshakeInv_sameLogs j pi pi1 hinv (sameLogs_trans _ _ _ h0.1 hs1)
        (hc1.trans h0.2.1) (hr1.trans h0.2.2)
    have hc1' : pi1.IsConnected = false := by rw [hc1, h0.2.1, hc]
    have hr1' : pi1.IsRunning = false := by rw [hr1, h0.2.2, hr]
    cases e1 with
    | some err => exact hinv1
    | none =>
      simp only
      split
      · exact handshakeInv_sameLogs j pi1 _ hinv1 (sameLogs_kill pi1) rfl rfl
      · unfold PluginInstance.connectToPlugin
        cases hdial : env.dial with
        | none =>
          simp only
          exact handshakeInv_sameLogs j pi1 _ hinv1 (sameLogs_kill pi1) rfl rfl
        | some d =>
          rcases d with ⟨script, wscript⟩
          simp only
          generalize hp2 : ({ pi1 with
            Conn := some { script := script, wscript := wscript, writes := [], closed := false },
            retired := pi1.retired ++ pi1.Conn.toList } : PluginInstance) = pi2
          have hret2 : ∀ x ∈ pi2.retired, ackOnly j x.writes := by
            intro x hx
            rw [← hp2] at hx
            exact hinv1.1 x hx
          have hconn2 : pi2.Conn =
              some { script := script, wscript := wscript, writes := [], closed := false } := by
            rw [← hp2]
          have hflags2 : pi2.IsConnected = false ∧ pi2.IsRunning = false := by
            rw [← hp2]
            exact ⟨hc1', hr1'⟩
          obtain ⟨c', w1, w2, w3, w4, w5⟩ :=
            waitForRegistration_log j env.regRounds pi2 _ hconn2
          rcases hreg : pi2.waitForRegistration j env.regRounds with ⟨e3, pi3⟩
          rw [hreg] at w1 w2 w3 w4 w5
          simp only at w1 w2 w3 w4 w5
          have hret3 : ∀ x ∈ pi3.retired, ackOnly j x.writes := by
            rw [w2]
            exact hret2
          cases e3 with
          | some err =>
            simp only
            have hw : ackOnly j c'.writes := by
              rcases w5 with ⟨_, h⟩ | ⟨data, h1, h2⟩
              · exact Or.inl (by rw [h])
              · exact Or.inr (Or.inl ⟨data, h1, by rw [h2]; rfl⟩)
            refine ⟨?_, ?_, fun _ => ?_⟩
            · intro x hx
              simp only [PluginInstance.connections, PluginInstance.kill,
                PluginInstance.closeConn, w1, Option.map_some', Option.toList,
                List.mem_append, List.mem_singleton] at hx
              rcases hx with hx | hx
              · exact hret3 x hx
              · rw [hx]
                exact hw
            · intro h
              have : pi3.IsConnected = true := h
              rw [w4, hflags2.1] at this
              cases this
            · show pi3.IsConnected = false
              rw [w4, hflags2.1]
          | none =>
            simp only
            have hw : ackFirst j c'.writes := by
              rcases w5 with ⟨h, _⟩ | ⟨data, h1, h2⟩
              · exact absurd rfl h
              · exact ⟨data, [], h1, by rw [h2]; rfl⟩
            refine ⟨?_, fun _ => ⟨c', w1, hw⟩, fun h => by cases h⟩
            intro x hx
            simp only [PluginInstance.connections, w1, Option.toList, List.mem_append,
              List.mem_singleton] at hx
            rcases hx with hx | hx
            · exact hret3 x hx
            · rw [hx]
              exact Or.inr (Or.inr hw)

theorem step_handshakeInv (j : Codec) (pi : PluginInstance) (op : InstanceOp)
    (hinv : pi.handshakeInv j) : (pi.step j op).handshakeInv j := by
  cases op with
  | start env => exact Start_handshakeInv j env pi hinv
  | stop env => exact Stop_handshakeInv j env pi hinv
  | call now later functionName params =>
    cases hc : pi.IsConnected with
    | false =>
      simp only [PluginInstance.step]
      rw [CallFunction_not_connected j now later pi functionName params hc]
      exact hinv
    | true =>
      exact handshakeInv_onlyConnUsed j pi _ hinv hc
        (CallFunction_frame j now later pi functionName params)
  | healthCheck now =>
    cases hc : pi.IsConnected with
    | false =>
      simp only [PluginInstance.step]
      rw [HealthCheck_not_connected j now pi hc]
      exact hinv
    | true => exact handshakeInv_onlyConnUsed j pi _ hinv hc (HealthCheck_frame j now pi)

theorem run_handshakeInv (j : Codec) (ops : List InstanceOp) :
    ∀ pi : PluginInstance, pi.handshakeInv j → (pi.run j ops).handshakeInv j := by
  induction ops with
  | nil => intro pi h; exact h
  | cons op ops ih =>
    intro pi h
    exact ih _ (step_handshakeInv j pi op h)

theorem frameOf_injective (a b : List Byte) (h : frameOf a = frameOf b) : a = b := by
  unfold frameOf at h
  exact List.append_inj_right h (by simp only [List.length_cons, List.length_nil])

theorem NewPluginInstance_handshakeInv (j : Codec) (kind : CommunicationType) (now : Nat)
    (pluginName : String) (config : PluginConfig) (instanceID : String) :
    (NewPluginInstance kind now pluginName config instanceID).handshakeInv j :=
  ⟨fun c hc => by simp [PluginInstance.connections, NewPluginInstance] at hc,
    fun h => by simp [NewPluginInstance] at h, fun _ => rfl⟩

/-- With a codec that reads the register_ack envelope back as one, a log that
satisfies `ackOnly` has a register_ack frame, written with success, before
every call frame. -/
theorem ackOnly_precedes (j : Codec)
    (hack : ∀ data, EncodeMessage j { Type_ := MessageTypeRegisterAck } = .ok data →
      ∃ msg, DecodeMessage j data = .ok msg ∧ msg.Type_ = MessageTypeRegisterAck)
    (ws : List WriteRec) (h : ackOnly j ws) (i : Nat) (w : WriteRec)
    (hi : ws[i]? = some w) (hw : writtenFrame j MessageTypeCall w) :
    ∃ (k : Nat) (a : WriteRec), k < i ∧ ws[k]? = some a ∧ a.ok = true ∧
      writtenFrame j MessageTypeRegisterAck a := by
  have notCall : ∀ (data : List Byte) (b : Bool),
      EncodeMessage j { Type_ := MessageTypeRegisterAck } = .ok data →
      ¬ writtenFrame j MessageTypeCall ⟨frameOf data, b⟩ := by
    intro data b henc ⟨payload, msg, h1, h2, h3⟩
    obtain ⟨msg', h4, h5⟩ := hack data henc
    have hp : data = payload := frameOf_injective _ _ h1
    subst hp
    rw [h2] at h4
    cases h4
    rw [h3] at h5
    exact absurd h5 (by decide)
  rcases h with h | ⟨data, h1, h2⟩ | ⟨data, rest, h1, h2⟩
  · subst h
    simp at hi
  · subst h2
    cases i with
    | zero =>
      simp only [List.getElem?_cons_zero, Option.some.injEq] at hi
      subst hi
      exact absurd hw (notCall data false h1)
    | succ i => simp at hi
  · subst h2
    cases i with
    | zero =>
      simp only [List.getElem?_cons_zero, Option.some.injEq] at hi
      subst hi
      exact absurd hw (notCall data true h1)
    | succ i =>
      obtain ⟨msg', h4, h5⟩ := hack data h1
      exact ⟨0, ⟨frameOf data, true⟩, Nat.succ_pos i, List.getElem?_cons_zero, rfl, data, msg',
        rfl, h4, h5⟩

/-- C10. Handshake precedence. Take a codec that reads the register_ack
envelope back as a register_ack envelope, a new instance and any sequence of
`Start`, `CallFunction`, `HealthCheck` and `Stop` operations. On every
connection the instance has held, every write of a call frame comes after a
write, on that same connection, of a register_ack frame that succeeded; and
when `IsConnected` is true, the present connection's first write is such a
register_ack frame. -/
theorem handshake_precedes_calls (j : Codec)
    (hack : ∀ data, EncodeMessage j { Type_ := MessageTypeRegisterAck } = .ok data →
      ∃ msg, DecodeMessage j data = .ok msg ∧ msg.Type_ = MessageTypeRegisterAck)
    (kind : CommunicationType) (now : Nat) (pluginName : String) (config : PluginConfig)
    (instanceID : String) (ops : List InstanceOp) :
    (∀ c ∈ ((NewPluginInstance kind now pluginName config instanceID).run j ops).connections,
      ∀ (i : Nat) (w : WriteRec), c.writes[i]? = some w → writtenFrame j MessageTypeCall w →
        ∃ (k : Nat) (a : WriteRec), k < i ∧ c.writes[k]? = some a ∧ a.ok = true ∧
          writtenFrame j MessageTypeRegisterAck a) ∧
    (((NewPluginInstance kind now pluginName config instanceID).run j ops).IsConnected = true →
      ∃ (c : Conn) (a : WriteRec),
        ((NewPluginInstance kind now pluginName config instanceID).run j ops).Conn = some c ∧
        c.writes[0]? = some a ∧ a.ok = true ∧ writtenFrame j MessageTypeRegisterAck a) := by
  obtain ⟨h1, h2, _⟩ := run_handshakeInv j ops _
    (NewPluginInstance_handshakeInv j kind now pluginName config instanceID)
  refine ⟨fun c hc i w hi hw => ackOnly_precedes j hack c.writes (h1 c hc) i w hi hw, ?_⟩
  intro hcon
  obtain ⟨c, hc, data, rest, h3, h4⟩ := h2 hcon
  obtain ⟨msg, h5, h6⟩ := hack data h3
  exact ⟨c, ⟨frameOf data, true⟩, hc, by rw [h4]; exact List.getElem?_cons_zero, rfl, data, msg,
    rfl, h5, h6⟩

/-- Witness for C10: the example codec reads the register_ack envelope back,
and in the example life of an instance the call made before the start writes
nothing, while the connection opened by the start carries the register_ack
frame, then the call frame, then the stop frame. -/
theorem handshake_precedes_calls_witness :
    ((∀ c ∈ ((NewPluginInstance .unix 0 "math" sampleConfig "math1").run
          (sampleCodec sampleKnown) sampleOps).connections,
        ∀ (i : Nat) (w : WriteRec), c.writes[i]? = some w →
          writtenFrame (sampleCodec sampleKnown) MessageTypeCall w →
          ∃ (k : Nat) (a : WriteRec), k < i ∧ c.writes[k]? = some a ∧ a.ok = true ∧
            writtenFrame (sampleCodec sampleKnown) MessageTypeRegisterAck a) ∧
      (((NewPluginInstance .unix 0 "math" sampleConfig "math1").run
          (sampleCodec sampleKnown) sampleOps).IsConnected = true →
        ∃ (c : Conn) (a : WriteRec),
          ((NewPluginInstance .unix 0 "math" sampleConfig "math1").run
            (sampleCodec sampleKnown) sampleOps).Conn = some c ∧
          c.writes[0]? = some a ∧ a.ok = true ∧
            writtenFrame (sampleCodec sampleKnown) MessageTypeRegisterAck a)) ∧
    ((NewPluginInstance .unix 0 "math" sampleConfig "math1").run
        (sampleCodec sampleKnown) sampleOps).connections.map Conn.writes =
      [[⟨frameOf (asciiBytes "\x7b\"type\":\"register_ack\"\x7d"), true⟩,
        ⟨frameOf (asciiBytes "\x7b\"type\":\"call\",\"id\":\"call-5\",\"function\":\"add\"\x7d"),
          true⟩,
        ⟨frameOf (asciiBytes "\x7b\"type\":\"stop\",\"id\":\"stop-9\"\x7d"), true⟩]] :=
  ⟨handshake_precedes_calls (sampleCodec sampleKnown)
      (fun data h => by
        have henc : EncodeMessage (sampleCodec sampleKnown) { Type_ := MessageTypeRegisterAck } =
            .ok (asciiBytes "\x7b\"type\":\"register_ack\"\x7d") := rfl
        rw [henc] at h
        cases h
        exact ⟨{ Type_ := MessageTypeRegisterAck }, rfl, rfl⟩)
      .unix 0 "math" sampleConfig "math1" sampleOps,
    by decide⟩

/-! ### Plugin errors on their way to the caller -/

theorem SendMessage_ok_open (conn conn' : Conn) (data : List Byte)
    (h : MessageProtocol.SendMessage conn data = (none, conn')) :
    conn.closed = false ∧ conn'.closed = false := by
  have hc := (SendMessage_script conn data).2
  rw [h] at hc
  have : conn.closed = false := by
    cases hcl : conn.closed with
    | false => rfl
    | true =>
      rcases conn with ⟨script, ws, wr, cl⟩
      simp only at hcl
      subst hcl
      simp [MessageProtocol.SendMessage, Conn.Write] at h
  exact ⟨this, hc.trans this⟩

/-- When the frames the response loop is going to read reach an error frame
with the awaited id before any other decodable frame with that id, the loop
returns the plugin error made from the message of that frame. -/
theorem callLoop_error_frame (j : Codec) (messageID : String) (later : Nat)
    (payload : List Byte) (msg : Message)
    (hdec : DecodeMessage j payload = .ok msg) (hid : msg.ID = messageID)
    (htype : msg.Type_ = MessageTypeError) :
    ∀ (before : List (List Byte)) (fuel : Nat) (pi : PluginInstance) (conn : Conn),
      pi.Conn = some conn → conn.closed = false →
      incomingFrames conn.script (before ++ [payload]) →
      (∀ b ∈ before, ∀ m, DecodeMessage j b = .ok m → m.ID ≠ messageID) →
      scriptSize conn.script < fuel →
      (pi.callLoop j messageID later fuel).1 =
        .error (.errorf ("插件返回错误: " ++ msg.Error)) := by
  have hne : ¬ msg.Type_ = MessageTypeResult := by rw [htype]; decide
  intro before
  induction before with
  | nil =>
    intro fuel pi conn hconn hopen hframes _ hfuel
    obtain ⟨script', hrs, _⟩ := hframes
    cases fuel with
    | zero => exact absurd hfuel (Nat.not_lt_zero _)
    | succ fuel =>
      rw [PluginInstance.callLoop]
      simp only [hconn, ReceiveMessage_open conn hopen, hrs, hdec, hid, if_true, hne,
        if_false, htype]
      rw [if_neg (by decide)]
  | cons b bs ih =>
    intro fuel pi conn hconn hopen hframes hbefore hfuel
    obtain ⟨script', hrs, hrest⟩ := hframes
    have hsz := receiveScript_size _ _ _ hrs
    cases fuel with
    | zero => exact absurd hfuel (Nat.not_lt_zero _)
    | succ fuel =>
      have hfuel' : scriptSize script' < fuel := by omega
      rw [PluginInstance.callLoop]
      simp only [hconn, ReceiveMessage_open conn hopen, hrs]
      cases hb : DecodeMessage j b with
      | error e =>
        exact ih fuel _ { conn with script := script' } rfl hopen hrest
          (fun x hx => hbefore x (List.mem_cons_of_mem _ hx)) hfuel'
      | ok m =>
        have hm : ¬ m.ID = messageID := hbefore b (List.mem_cons_self _ _) m hb
        simp only [hm, if_false]
        split
        · refine ih fuel _ (MessageProtocol.SendMessage { conn with script := script' } _).2 rfl
            ?_ ?_ (fun x hx => hbefore x (List.mem_cons_of_mem _ hx)) ?_
          · rw [(SendMessage_script _ _).2]
            exact hopen
          · rw [(SendMessage_script _ _).1]
            exact hrest
          · rw [(SendMessage_script _ _).1]
            exact hfuel'
        · exact ih fuel _ { conn with script := script' } rfl hopen hrest
            (fun x hx => hbefore x (List.mem_cons_of_mem _ hx)) hfuel'

/-- The instance level of C8: the call whose frames reach an error frame with
its id returns the plugin error made from the message of that frame. -/
theorem CallFunction_error_frame (j : Codec) (now later : Nat) (pi : PluginInstance)
    (functionName : String) (params : List (String × JValue))
    (conn0 conn1 : Conn) (callData : List Byte) (before : List (List Byte))
    (payload : List Byte) (msg : Message)
    (hcon : pi.IsConnected = true) (hfn : functionName ∈ pi.Functions)
    (hc0 : pi.Conn = some conn0)
    (henc : EncodeMessage j
      { Type_ := MessageTypeCall, ID := "call-" ++ toString now, Function := functionName,
        Params := params } = .ok callData)
    (hsend : MessageProtocol.SendMessage conn0 callData = (none, conn1))
    (hframes : incomingFrames conn1.script (before ++ [payload]))
    (hbefore : ∀ b ∈ before, ∀ m, DecodeMessage j b = .ok m → m.ID ≠ "call-" ++ toString now)
    (hdec : DecodeMessage j payload = .ok msg) (hid : msg.ID = "call-" ++ toString now)
    (htype : msg.Type_ = MessageTypeError) :
    (pi.CallFunction j now later functionName params).1 =
      .error (.errorf ("插件返回错误: " ++ msg.Error)) := by
  have hf : pi.hasFunction functionName = true := (hasFunction_iff pi functionName).2 hfn
  have hs : pi.sendMessage j
      { Type_ := MessageTypeCall, ID := "call-" ++ toString now, Function := functionName,
        Params := params } = (none, { pi with Conn := some conn1 }) := by
    simp [PluginInstance.sendMessage, henc, hc0, hsend]
  have h1 : (!(pi.IsConnected && pi.Conn.isSome)) = false := by simp [hcon, hc0]
  have h2 : (!pi.hasFunction functionName) = false := by simp [hf]
  unfold PluginInstance.CallFunction
  simp only [h1, h2, Bool.false_eq_true, if_false, hs]
  exact callLoop_error_frame j _ later payload msg hdec hid htype before _
    { pi with Conn := some conn1 } conn1 rfl
    (SendMessage_ok_open conn0 conn1 callData hsend).2 hframes hbefore
    ((loopFuel_enough { pi with Conn := some conn1 }).2 conn1 rfl)

/-- With open channels `ReturnInstance` returns. -/
theorem ReturnInstance_returns (pp : PluginPool) (ptr : Ptr) (inst : PluginInstance)
    (hinst : pp.heap[ptr]? = some inst) (hw : pp.waitQueue.closed = false)
    (ha : pp.Available.closed = false) :
    ∃ pp' : PluginPool, pp.ReturnInstance ptr = (.returns (), pp') := by
  unfold PluginPool.ReturnInstance
  simp only [hinst, hw, ha, Bool.false_eq_true, if_false]
  split
  · exact ⟨_, rfl⟩
  · split
    · exact ⟨_, rfl⟩
    · split
      · exact ⟨_, rfl⟩
      · split <;> exact ⟨_, rfl⟩

/-- The pool hands the error of the instance call on as it is. -/
theorem PoolCallFunction_error (j : Codec) (kind : CommunicationType) (env : PoolCallEnv)
    (pp pool1 : PluginPool) (functionName : String) (params : List (String × JValue))
    (ptr : Ptr) (inst : PluginInstance) (e : GoError)
    (hget : pp.GetInstance j kind env.create env.pick = (.returns (.ok (some ptr)), pool1))
    (hinst : pool1.heap[ptr]? = some inst)
    (hcall : (inst.CallFunction j env.now env.later functionName params).1 = .error e)
    (hw : pool1.waitQueue.closed = false) (ha : pool1.Available.closed = false) :
    ∃ pp' : PluginPool,
      pp.CallFunction j kind env functionName params = (.returns (.error e), pp') := by
  unfold PluginPool.CallFunction
  simp only [hget, hinst]
  rcases hc : inst.CallFunction j env.now env.later functionName params with ⟨r, inst'⟩
  rw [hc] at hcall
  simp only at hcall
  subst hcall
  have hlt : ptr < pool1.heap.length := by
    rcases Nat.lt_or_ge ptr pool1.heap.length with h | h
    · exact h
    · rw [List.getElem?_eq_none h] at hinst
      cases hinst
  obtain ⟨pp', hret⟩ := ReturnInstance_returns
    { pool1 with heap := pool1.heap.set ptr inst' } ptr inst'
    (List.getElem?_set_self hlt) hw ha
  simp only [hret]
  exact ⟨pp', rfl⟩

/-- C8, counterexample. The worker answers the call `call-5` of the function
`divide` with an error frame whose message is `divide by zero`. The error
`PluginManager.CallFunction` returns does not have this message: its message is the
worker's text behind two prefixes, one of the instance and one of the
manager. -/
theorem ManagerCallFunction_error_counterexample :
    ∃ e : GoError,
      ((sampleManager [sampleFrame
          { Type_ := MessageTypeError, ID := "call-5", Error := "divide by zero" }]).CallFunction
        (sampleCodec sampleKnown) .unix samplePoolCallEnv "math" "add" []).1 =
        .returns (.error e) ∧
      e.Error = "调用函数 add 失败: 插件返回错误: divide by zero" ∧
      e.Error ≠ "divide by zero" :=
  ⟨.wrapf "调用函数 add 失败: " (.errorf "插件返回错误: divide by zero"), rfl, by decide, by decide⟩

/-- C8, amended. When the worker answers a call with an error frame that
carries the id of the call and the message `m` (and no decodable frame with
that id comes before it), `PluginManager.CallFunction` returns an error whose message
is `m` verbatim behind the two fixed prefixes: the text
`调用函数 <function> 失败: ` of the manager and the text `插件返回错误: ` of
the instance. -/
theorem ManagerCallFunction_plugin_error (j : Codec) (kind : CommunicationType)
    (env : PoolCallEnv) (pm : PluginManager) (pluginName functionName : String)
    (params : List (String × JValue)) (pool pool1 : PluginPool) (ptr : Ptr)
    (inst : PluginInstance) (conn0 conn1 : Conn) (callData : List Byte)
    (before : List (List Byte)) (payload : List Byte) (msg : Message) (m : String)
    (hpool : pm.Pools.lookup pluginName = some pool) (hrun : pm.IsRunning = true)
    (hget : pool.GetInstance j kind env.create env.pick = (.returns (.ok (some ptr)), pool1))
    (hinst : pool1.heap[ptr]? = some inst)
    (hw : pool1.waitQueue.closed = false) (ha : pool1.Available.closed = false)
    (hcon : inst.IsConnected = true) (hfn : functionName ∈ inst.Functions)
    (hc0 : inst.Conn = some conn0)
    (henc : EncodeMessage j
      { Type_ := MessageTypeCall, ID := "call-" ++ toString env.now, Function := functionName,
        Params := params } = .ok callData)
    (hsend : MessageProtocol.SendMessage conn0 callData = (none, conn1))
    (hframes : incomingFrames conn1.script (before ++ [payload]))
    (hbefore : ∀ b ∈ before, ∀ m', DecodeMessage j b = .ok m' →
      m'.ID ≠ "call-" ++ toString env.now)
    (hdec : DecodeMessage j payload = .ok msg) (hid : msg.ID = "call-" ++ toString env.now)
    (htype : msg.Type_ = MessageTypeError) (hm : msg.Error = m) :
    ∃ (e : GoError) (pm' : PluginManager),
      pm.CallFunction j kind env pluginName functionName params = (.returns (.error e), pm') ∧
      e = .wrapf ("调用函数 " ++ functionName ++ " 失败: ") (.errorf ("插件返回错误: " ++ m)) ∧
      e.Error = "调用函数 " ++ functionName ++ " 失败: " ++ ("插件返回错误: " ++ m) := by
  have hcall := CallFunction_error_frame j env.now env.later inst functionName params conn0 conn1
    callData before payload msg hcon hfn hc0 henc hsend hframes hbefore hdec hid htype
  rw [hm] at hcall
  obtain ⟨pp', hp⟩ := PoolCallFunction_error j kind env pool pool1 functionName params ptr inst
    _ hget hinst hcall hw ha
  refine ⟨_, { pm with Pools := setPool pm.Pools pluginName pp' }, ?_, rfl, rfl⟩
  unfold PluginManager.CallFunction
  simp only [hpool, hrun, Bool.not_true, Bool.false_eq_true, if_false, hp]

/-- Witness for C8 (amended): the example manager, whose worker answers the
call `call-5` with the error frame `divide by zero`. -/
theorem ManagerCallFunction_plugin_error_witness :
    ∃ (e : GoError) (pm' : PluginManager),
      (sampleManager [sampleFrame
          { Type_ := MessageTypeError, ID := "call-5", Error := "divide by zero" }]).CallFunction
        (sampleCodec sampleKnown) .unix samplePoolCallEnv "math" "add" [] =
        (.returns (.error e), pm') ∧
      e = .wrapf ("调用函数 " ++ "add" ++ " 失败: ") (.errorf ("插件返回错误: " ++ "divide by zero")) ∧
      e.Error = "调用函数 " ++ "add" ++ " 失败: " ++ ("插件返回错误: " ++ "divide by zero") :=
  ManagerCallFunction_plugin_error (sampleCodec sampleKnown) .unix samplePoolCallEnv
    (sampleManager [sampleFrame
      { Type_ := MessageTypeError, ID := "call-5", Error := "divide by zero" }])
    "math" "add" []
    (samplePool [sampleFrame
      { Type_ := MessageTypeError, ID := "call-5", Error := "divide by zero" }])
    { samplePool [sampleFrame
        { Type_ := MessageTypeError, ID := "call-5", Error := "divide by zero" }] with
      Available := { cap := 10 } }
    0
    (sampleInstance [sampleFrame
      { Type_ := MessageTypeError, ID := "call-5", Error := "divide by zero" }])
    ⟨[sampleFrame { Type_ := MessageTypeError, ID := "call-5", Error := "divide by zero" }],
      [], [], false⟩
    ⟨[sampleFrame { Type_ := MessageTypeError, ID := "call-5", Error := "divide by zero" }],
      [], [⟨frameOf (asciiBytes
        "\x7b\"type\":\"call\",\"id\":\"call-5\",\"function\":\"add\"\x7d"), true⟩], false⟩
    (asciiBytes "\x7b\"type\":\"call\",\"id\":\"call-5\",\"function\":\"add\"\x7d")
    []
    (asciiBytes "\x7b\"type\":\"error\",\"id\":\"call-5\",\"error\":\"divide by zero\"\x7d")
    { Type_ := MessageTypeError, ID := "call-5", Error := "divide by zero" }
    "divide by zero"
    rfl rfl rfl rfl rfl rfl rfl (by decide) rfl rfl rfl
    ⟨[], rfl, trivial⟩ (fun b hb => by cases hb) rfl rfl rfl rfl

/-! ### Plugin instance: start and stop -/

theorem sendMessage_process (j : Codec) (pi : PluginInstance) (msg : Message) :
    (pi.sendMessage j msg).2.Process = pi.Process :=
  (sendMessage_frame j pi msg).2.2.2.1

theorem waitForRegistration_process (j : Codec) :
    ∀ (rounds : Nat) (pi : PluginInstance),
      (pi.waitForRegistration j rounds).2.Process = pi.Process := by
  intro rounds
  induction rounds with
  | zero => intro pi; rfl
  | succ rounds ih =>
    intro pi
    rw [PluginInstance.waitForRegistration]
    cases pi.Conn with
    | none => rfl
    | some conn =>
      simp only
      rcases MessageProtocol.ReceiveMessage conn with ⟨res, conn'⟩
      cases res with
      | error err =>
        simp only
        split
        · exact ih _
        · rfl
      | ok data =>
        simp only
        cases DecodeMessage j data with
        | error e => exact ih _
        | ok msg =>
          simp only
          split
          · split
            · exact ih _
            · split
              · generalize hpi2 : PluginInstance.RegisterFunctions _ _ = pi2
                have hproc2 : pi2.Process = pi.Process := by rw [← hpi2]; rfl
                have hf := sendMessage_process j pi2 { Type_ := MessageTypeRegisterAck }
                rcases hs : PluginInstance.sendMessage j pi2 { Type_ := MessageTypeRegisterAck } with
                  ⟨e, p3⟩
                rw [hs] at hf
                cases e <;> exact hf.trans hproc2
              · exact ih _
            · exact ih _
          · exact ih _

/-- C11, the code on a failing input. The worker of a new instance is spawned
and accepts the connection, but closes the stream without registering.
`Start` returns an error with both flags false, the connection closed and the
child sent the kill signal; but the child is not waited for (it is never
reaped) and `Cleanup` was called on no address, so the socket file of the
minted address stays. Nothing releases them later: `Stop` on the failed instance
returns at once and changes nothing, and `createNewInstance` returns the error
and keeps no reference to the instance. The sibling `Stop` does both on an
instance that has started: it waits for the child and calls `Cleanup` on the
address. -/
theorem Start_failure_leaves_child_and_socket :
    ((NewPluginInstance .unix 0 "math" sampleConfig "math1").Start
      (sampleCodec sampleKnown) sampleFailingStartEnv).1.isSome = true ∧
    ((NewPluginInstance .unix 0 "math" sampleConfig "math1").Start
      (sampleCodec sampleKnown) sampleFailingStartEnv).2.IsRunning = false ∧
    ((NewPluginInstance .unix 0 "math" sampleConfig "math1").Start
      (sampleCodec sampleKnown) sampleFailingStartEnv).2.IsConnected = false ∧
    ((NewPluginInstance .unix 0 "math" sampleConfig "math1").Start
      (sampleCodec sampleKnown) sampleFailingStartEnv).2.Conn.map (fun c => c.closed) =
        some true ∧
    ((NewPluginInstance .unix 0 "math" sampleConfig "math1").Start
      (sampleCodec sampleKnown) sampleFailingStartEnv).2.Process.map
        (fun cmd => (cmd.started, cmd.killed, cmd.waited)) = some (true, true, false) ∧
    ((NewPluginInstance .unix 0 "math" sampleConfig "math1").Start
      (sampleCodec sampleKnown) sampleFailingStartEnv).2.Address =
        "/tmp/goproc_sockets/math-math1.sock" ∧
    ((NewPluginInstance .unix 0 "math" sampleConfig "math1").Start
      (sampleCodec sampleKnown) sampleFailingStartEnv).2.Communication.cleaned = [] ∧
    (((NewPluginInstance .unix 0 "math" sampleConfig "math1").Start
      (sampleCodec sampleKnown) sampleFailingStartEnv).2.Stop (sampleCodec sampleKnown)
        (sampleStopEnvs 0)).2 =
      ((NewPluginInstance .unix 0 "math" sampleConfig "math1").Start
        (sampleCodec sampleKnown) sampleFailingStartEnv).2 ∧
    ((NewPluginPool "math" sampleConfig).createNewInstance (sampleCodec sampleKnown) .unix
      (sampleFailingCreateEnvs 0)).1.succeeded = false ∧
    ((NewPluginPool "math" sampleConfig).createNewInstance (sampleCodec sampleKnown) .unix
      (sampleFailingCreateEnvs 0)).2 = NewPluginPool "math" sampleConfig ∧
    ((NewPluginInstance .unix 0 "math" sampleConfig "math1").run (sampleCodec sampleKnown)
      [.start sampleStartEnv, .stop (sampleStopEnvs 0)]).Process.map
        (fun cmd => (cmd.started, cmd.waited)) = some (true, true) ∧
    ((NewPluginInstance .unix 0 "math" sampleConfig "math1").run (sampleCodec sampleKnown)
      [.start sampleStartEnv, .stop (sampleStopEnvs 0)]).Communication.cleaned =
        ["/tmp/goproc_sockets/math-math1.sock"] := by
  decide

/-- The guard of `Start`: on an instance that is running it returns an error and
leaves both flags true. -/
theorem Start_on_running_instance :
    ((sampleInstance []).Start (sampleCodec sampleKnown) sampleStartEnv).1.isSome = true ∧
    ((sampleInstance []).Start (sampleCodec sampleKnown) sampleStartEnv).2.IsRunning = true ∧
    ((sampleInstance []).Start (sampleCodec sampleKnown) sampleStartEnv).2.IsConnected = true := by
  decide

/-- What the failure paths of `Start` do release. Whenever `PluginInstance.Start`
returns an error on an instance that was not running, `IsRunning` and `IsConnected` are false, the connection
(if one was opened) is closed, and the child process (if one was spawned) has
been sent the kill signal. -/
theorem Start_failure_releases (j : Codec) (env : StartEnv) (pi pi' : PluginInstance)
    (err : GoError) (hr : pi.IsRunning = false) (hc : pi.IsConnected = false)
    (h : pi.Start j env = (some err, pi')) :
    pi'.IsRunning = false ∧ pi'.IsConnected = false ∧
    ((pi'.Conn = pi.Conn ∧ pi'.retired = pi.retired) ∨
      ∃ c : Conn, pi'.Conn = some c ∧ c.closed = true) ∧
    ∃ cmd : Cmd, pi'.Process = some cmd ∧
      (cmd.started = true ↔ env.spawnError = none) ∧ (cmd.started = true → cmd.killed = true) := by
  unfold PluginInstance.Start at h
  rw [if_neg (by simp [hr])] at h
  dsimp only at h
  generalize hp0 : ({ pi with Address := pi.Communication.GenerateAddress pi.PluginName pi.ID } :
    PluginInstance) = pi0 at h
  have h0 : pi0.IsRunning = false ∧ pi0.IsConnected = false ∧ pi0.Conn = pi.Conn ∧
      pi0.retired = pi.retired := by
    rw [← hp0]
    exact ⟨hr, hc, rfl, rfl⟩
  obtain ⟨h0r, h0c, h0conn, h0ret⟩ := h0
  cases hsp : env.spawnError with
  | some text =>
    simp only [PluginInstance.startProcess, hsp, Prod.mk.injEq, Option.some.injEq] at h
    obtain ⟨_, h⟩ := h
    subst h
    exact ⟨h0r, h0c, Or.inl ⟨h0conn, h0ret⟩, _, rfl, by simp, by simp⟩
  | none =>
    simp only [PluginInstance.startProcess, hsp] at h
    generalize hp1 : ({ pi0 with Process := some _ } : PluginInstance) = pi1 at h
    have h1 : pi1.IsRunning = false ∧ pi1.IsConnected = false ∧ pi1.Conn = pi.Conn ∧
        pi1.retired = pi.retired ∧ ∃ cmd : Cmd, pi1.Process = some cmd ∧ cmd.started = true := by
      rw [← hp1]
      exact ⟨h0r, h0c, h0conn, h0ret, _, rfl, rfl⟩
    obtain ⟨h1r, h1c, h1conn, h1ret, cmd, h1p, h1s⟩ := h1
    have hkill : ∀ p : PluginInstance, p.Process = some cmd →
        ∃ cmd' : Cmd, p.kill.Process = some cmd' ∧
          (cmd'.started = true ↔ (none : Option String) = none) ∧
          (cmd'.started = true → cmd'.killed = true) := by
      intro p hp
      exact ⟨{ cmd with killed := true }, by simp [PluginInstance.kill, hp], by simp [h1s],
        fun _ => rfl⟩
    split at h
    · simp only [Prod.mk.injEq, Option.some.injEq] at h
      obtain ⟨_, h⟩ := h
      subst h
      exact ⟨h1r, h1c, Or.inl ⟨h1conn, h1ret⟩, hkill pi1 h1p⟩
    · unfold PluginInstance.connectToPlugin at h
      cases hdial : env.dial with
      | none =>
        simp only [hdial, Prod.mk.injEq, Option.some.injEq] at h
        obtain ⟨_, h⟩ := h
        subst h
        exact ⟨h1r, h1c, Or.inl ⟨h1conn, h1ret⟩, hkill pi1 h1p⟩
      | some d =>
        rcases d with ⟨script, wscript⟩
        simp only [hdial] at h
        generalize hp2 : ({ pi1 with
          Conn := some { script := script, wscript := wscript, writes := [], closed := false },
          retired := pi1.retired ++ pi1.Conn.toList } : PluginInstance) = pi2 at h
        have hconn2 : pi2.Conn =
            some { script := script, wscript := wscript, writes := [], closed := false } := by
          rw [← hp2]
        have h2 : pi2.IsRunning = false ∧ pi2.IsConnected = false ∧ pi2.Process = some cmd := by
          rw [← hp2]
          exact ⟨h1r, h1c, h1p⟩
        obtain ⟨c', w1, _, w3, w4, _⟩ := waitForRegistration_log j env.regRounds pi2 _ hconn2
        have w5 := waitForRegistration_process j env.regRounds pi2
        rcases hreg : pi2.waitForRegistration j env.regRounds with ⟨e3, pi3⟩
        rw [hreg] at w1 w3 w4 w5 h
        simp only at w1 w3 w4 w5 h
        cases e3 with
        | none => simp at h
        | some e =>
          simp only [Prod.mk.injEq, Option.some.injEq] at h
          obtain ⟨_, h⟩ := h
          subst h
          refine ⟨by rw [← h2.1, ← w3]; rfl, by rw [← h2.2.1, ← w4]; rfl, Or.inr ⟨c'.Close, ?_, rfl⟩,
            hkill pi3.closeConn ?_⟩
          · simp [PluginInstance.kill, PluginInstance.closeConn, w1]
          · simp [PluginInstance.closeConn, w5, h2.2.2]

/-- Witness for `Start_failure_releases`: the failing start of the examples. -/
theorem Start_failure_releases_witness :
    ((NewPluginInstance .unix 0 "math" sampleConfig "math1").Start
        (sampleCodec sampleKnown) sampleFailingStartEnv).2.IsRunning = false ∧
    ((NewPluginInstance .unix 0 "math" sampleConfig "math1").Start
        (sampleCodec sampleKnown) sampleFailingStartEnv).2.IsConnected = false :=
  ⟨(Start_failure_releases (sampleCodec sampleKnown) sampleFailingStartEnv
      (NewPluginInstance .unix 0 "math" sampleConfig "math1")
      ((NewPluginInstance .unix 0 "math" sampleConfig "math1").Start
        (sampleCodec sampleKnown) sampleFailingStartEnv).2
      (.wrapf "等待插件注册失败: " (.io .eof)) rfl rfl rfl).1,
    (Start_failure_releases (sampleCodec sampleKnown) sampleFailingStartEnv
      (NewPluginInstance .unix 0 "math" sampleConfig "math1")
      ((NewPluginInstance .unix 0 "math" sampleConfig "math1").Start
        (sampleCodec sampleKnown) sampleFailingStartEnv).2
      (.wrapf "等待插件注册失败: " (.io .eof)) rfl rfl rfl).2.1⟩

theorem Stop_not_running (j : Codec) (env : StopEnv) (pi : PluginInstance)
    (h : pi.IsRunning = false) : pi.Stop j env = (none, pi) := by
  simp [PluginInstance.Stop, h]

/-- What `Stop` does to a running instance: no error, both flags cleared, one
`Cleanup` call, on the address of the instance. -/
theorem Stop_running (j : Codec) (env : StopEnv) (pi : PluginInstance)
    (h : pi.IsRunning = true) :
    (pi.Stop j env).1 = none ∧ (pi.Stop j env).2.IsRunning = false ∧
      (pi.Stop j env).2.IsConnected = false ∧
      (pi.Stop j env).2.Communication.cleaned = pi.Communication.cleaned ++ [pi.Address] ∧
      (pi.Stop j env).2.Address = pi.Address := by
  unfold PluginInstance.Stop
  rw [if_neg (by simp [h])]
  dsimp only
  generalize hp1 : (if (pi.IsConnected && pi.Conn.isSome) = true then
    (pi.sendMessage j { Type_ := MessageTypeStop, ID := "stop-" ++ toString env.now }).2
    else pi) = pi1
  have h1 : pi1.Communication = pi.Communication ∧ pi1.Address = pi.Address := by
    rw [← hp1]
    split
    · obtain ⟨_, _, _, _, ha, _, _, _, hc, _⟩ := sendMessage_frame j pi
        { Type_ := MessageTypeStop, ID := "stop-" ++ toString env.now }
      exact ⟨hc, ha⟩
    · exact ⟨rfl, rfl⟩
  obtain ⟨hcomm, haddr⟩ := h1
  have key : ∀ p : PluginInstance, p.Communication = pi1.Communication →
      p.Address = pi1.Address →
      (p.Communication.Cleanup p.Address).cleaned = pi.Communication.cleaned ++ [pi.Address] ∧
        p.Address = pi.Address := by
    intro p hc ha
    rw [hc, ha, hcomm, haddr]
    exact ⟨rfl, rfl⟩
  split
  · split
    · exact ⟨rfl, rfl, rfl, key pi1.reap rfl rfl⟩
    · exact ⟨rfl, rfl, rfl, key pi1 rfl rfl⟩
  · split
    · split
      · exact ⟨rfl, rfl, rfl, key pi1.closeConn.kill.reap rfl rfl⟩
      · exact ⟨rfl, rfl, rfl, key pi1.closeConn.kill rfl rfl⟩
    · exact ⟨rfl, rfl, rfl, key pi1 rfl rfl⟩

/-- C12. Instance stop. For every state an instance reaches from
`NewPluginInstance` by `Start`, `CallFunction`, `HealthCheck` and `Stop`
operations: `Stop` returns nil and afterwards `IsRunning` and `IsConnected` are
false; if the instance was running, `Cleanup` was called exactly once, on the
address of the instance; if it was not running, `Stop` changes nothing at all
(no field, no write, no signal). Hence a second `Stop` returns nil and leaves
the state of the first. -/
theorem Stop_idempotent (j : Codec) (kind : CommunicationType) (now : Nat)
    (pluginName : String) (config : PluginConfig) (instanceID : String)
    (ops : List InstanceOp) (env env2 : StopEnv) :
    (((NewPluginInstance kind now pluginName config instanceID).run j ops).Stop j env).1 = none ∧
    (((NewPluginInstance kind now pluginName config instanceID).run j ops).Stop j env).2.IsRunning =
      false ∧
    (((NewPluginInstance kind now pluginName config instanceID).run j ops).Stop j
      env).2.IsConnected = false ∧
    (((NewPluginInstance kind now pluginName config instanceID).run j ops).IsRunning = true →
      (((NewPluginInstance kind now pluginName config instanceID).run j ops).Stop j
          env).2.Communication.cleaned =
        ((NewPluginInstance kind now pluginName config instanceID).run j
          ops).Communication.cleaned ++
          [((NewPluginInstance kind now pluginName config instanceID).run j ops).Address]) ∧
    (((NewPluginInstance kind now pluginName config instanceID).run j ops).IsRunning = false →
      ((NewPluginInstance kind now pluginName config instanceID).run j ops).Stop j env =
        (none, (NewPluginInstance kind now pluginName config instanceID).run j ops)) ∧
    ((((NewPluginInstance kind now pluginName config instanceID).run j ops).Stop j env).2.Stop j
        env2 =
      (none, (((NewPluginInstance kind now pluginName config instanceID).run j ops).Stop j
        env).2)) := by
  generalize hpi : (NewPluginInstance kind now pluginName config instanceID).run j ops = pi
  have hinv : pi.handshakeInv j := by
    rw [← hpi]
    exact run_handshakeInv j ops _
      (NewPluginInstance_handshakeInv j kind now pluginName config instanceID)
  cases hr : pi.IsRunning with
  | false =>
    have hs := Stop_not_running j env pi hr
    rw [hs]
    exact ⟨rfl, hr, hinv.2.2 hr, (fun h => by cases h), fun _ => rfl,
      Stop_not_running j env2 pi hr⟩
  | true =>
    obtain ⟨h1, h2, h3, h4, _⟩ := Stop_running j env pi hr
    exact ⟨h1, h2, h3, fun _ => h4, (fun h => by cases h), Stop_not_running j env2 _ h2⟩

/-- Witness for `Stop_idempotent`: the example instance, once started, is
running, and its `Stop` records exactly one `Cleanup`, of its own address. -/
theorem Stop_idempotent_witness :
    ((NewPluginInstance .unix 0 "math" sampleConfig "math1").run (sampleCodec sampleKnown)
      [.start sampleStartEnv]).IsRunning = true ∧
    (((NewPluginInstance .unix 0 "math" sampleConfig "math1").run (sampleCodec sampleKnown)
        [.start sampleStartEnv]).Stop (sampleCodec sampleKnown)
        { now := 9, exitsInTime := true, reapedInTime := true }).2.Communication.cleaned =
      ((NewPluginInstance .unix 0 "math" sampleConfig "math1").run (sampleCodec sampleKnown)
        [.start sampleStartEnv]).Communication.cleaned ++
        [((NewPluginInstance .unix 0 "math" sampleConfig "math1").run (sampleCodec sampleKnown)
          [.start sampleStartEnv]).Address] :=
  ⟨by decide,
    (Stop_idempotent (sampleCodec sampleKnown) .unix 0 "math" sampleConfig "math1"
      [.start sampleStartEnv] { now := 9, exitsInTime := true, reapedInTime := true }
      { now := 10, exitsInTime := true, reapedInTime := true }).2.2.2.1 (by decide)⟩

/-! ### Plugin pool: returning an instance -/

/-- C15, counterexample. The one instance of the example pool is checked
out and nobody waits for an instance (`waitQueue` is empty and there is no
other goroutine). `ReturnInstance` puts the instance into `waitQueue`, not
into `Available`; the next `GetInstance` does not find it: it sees `Available`
empty and the pool below its ceiling, and starts a second instance. -/
theorem ReturnInstance_routing_counterexample :
    sampleBusyPool.waitQueue.buf = [] ∧
    (sampleBusyPool.ReturnInstance 0).2.waitQueue.buf = [0] ∧
    (sampleBusyPool.ReturnInstance 0).2.Available.buf = [] ∧
    ((sampleBusyPool.ReturnInstance 0).2.GetInstance (sampleCodec sampleKnown) .unix
        samplePoolCallEnv.create true).1.void = .returns () ∧
    ((sampleBusyPool.ReturnInstance 0).2.GetInstance (sampleCodec sampleKnown) .unix
        samplePoolCallEnv.create true).2.Available.buf = [1] ∧
    ((sampleBusyPool.ReturnInstance 0).2.GetInstance (sampleCodec sampleKnown) .unix
        samplePoolCallEnv.create true).2.waitQueue.buf = [0] ∧
    ((sampleBusyPool.ReturnInstance 0).2.GetInstance (sampleCodec sampleKnown) .unix
        samplePoolCallEnv.create true).2.heap.length = 2 := by
  refine ⟨rfl, rfl, rfl, rfl, ?_, ?_, ?_⟩ <;> decide

/-- C15, amended. On a running pool whose channels are open, an instance
that is still in the map is routed by the free capacity of `waitQueue` alone:
it goes into `waitQueue` whenever `waitQueue` is not full, whether or not an
acquirer waits; into `Available` only when `waitQueue` is full and `Available` is
not; and it is dropped when both are full. -/
theorem ReturnInstance_routing (pp : PluginPool) (ptr : Ptr) (inst : PluginInstance)
    (hrun : pp.IsRunning = true) (hinst : pp.heap[ptr]? = some inst)
    (hfound : (pp.Instances.lookup inst.ID).isSome = true)
    (hw : pp.waitQueue.closed = false) (ha : pp.Available.closed = false) :
    (pp.waitQueue.buf.length < pp.waitQueue.cap →
      pp.ReturnInstance ptr =
        (.returns (),
          { pp with waitQueue := { pp.waitQueue with buf := pp.waitQueue.buf ++ [ptr] } })) ∧
    (¬ pp.waitQueue.buf.length < pp.waitQueue.cap →
      pp.Available.buf.length < pp.Available.cap →
      pp.ReturnInstance ptr =
        (.returns (),
          { pp with Available := { pp.Available with buf := pp.Available.buf ++ [ptr] } })) ∧
    (¬ pp.waitQueue.buf.length < pp.waitQueue.cap →
      ¬ pp.Available.buf.length < pp.Available.cap →
      pp.ReturnInstance ptr = (.returns (), pp)) := by
  refine ⟨fun h1 => ?_, fun h1 h2 => ?_, fun h1 h2 => ?_⟩
  · simp [PluginPool.ReturnInstance, hrun, hinst, hfound, hw, h1]
  · simp [PluginPool.ReturnInstance, hrun, hinst, hfound, hw, ha, h1, h2]
  · simp [PluginPool.ReturnInstance, hrun, hinst, hfound, hw, ha, h1, h2]

/-- Witness for `ReturnInstance_routing`: the checked-out instance of the
example pool goes into the empty `waitQueue`. -/
theorem ReturnInstance_routing_witness :
    sampleBusyPool.ReturnInstance 0 =
      (.returns (),
        { sampleBusyPool with
          waitQueue := { sampleBusyPool.waitQueue with
                         buf := sampleBusyPool.waitQueue.buf ++ [0] } }) :=
  (ReturnInstance_routing sampleBusyPool 0 (sampleInstance []) rfl rfl rfl rfl rfl).1
    (by decide)

/-! ### Plugin pool: what a creation does -/

/-- Every call of `createNewInstance` either returns an error and leaves the pool as it
was, or it has started an instance below the ceiling, has stored it in the heap
and in the map, and ends at the send into `Available`. -/
theorem createNewInstance_spec (j : Codec) (kind : CommunicationType) (env : CreateEnv)
    (pp : PluginPool) :
    (∃ e, pp.createNewInstance j kind env = (.returns (.error e), pp)) ∨
    (∃ u inst, env.uuid = .ok u ∧ (pp.Instances.length : Int) < pp.MaxInstances ∧
      (NewPluginInstance kind env.now pp.PluginName pp.Config
        (pp.PluginName ++ stripHyphens u)).Start j env.start = (none, inst) ∧
      pp.createNewInstance j kind env =
        (if pp.Available.closed then
          (.panics "send on closed channel",
            { pp with heap := pp.heap ++ [inst],
                      Instances := mapInsert pp.Instances (pp.PluginName ++ stripHyphens u)
                        pp.heap.length })
        else if pp.Available.buf.length < pp.Available.cap then
          (.returns (.ok pp.heap.length),
            { pp with heap := pp.heap ++ [inst],
                      Instances := mapInsert pp.Instances (pp.PluginName ++ stripHyphens u)
                        pp.heap.length,
                      Available := { pp.Available with
                                     buf := pp.Available.buf ++ [pp.heap.length] } })
        else
          (.blocks,
            { pp with heap := pp.heap ++ [inst],
                      Instances := mapInsert pp.Instances (pp.PluginName ++ stripHyphens u)
                        pp.heap.length }))) := by
  unfold PluginPool.createNewInstance
  by_cases hc : (pp.Instances.length : Int) ≥ pp.MaxInstances
  · left
    rw [if_pos hc]
    exact ⟨_, rfl⟩
  · rw [if_neg hc]
    cases hu : env.uuid with
    | error text => left; exact ⟨_, rfl⟩
    | ok u =>
      simp only
      rcases hs : (NewPluginInstance kind env.now pp.PluginName pp.Config
        (pp.PluginName ++ stripHyphens u)).Start j env.start with ⟨e, inst⟩
      cases e with
      | some err => left; exact ⟨_, rfl⟩
      | none =>
        right
        refine ⟨u, inst, rfl, by omega, hs, ?_⟩
        split_ifs <;> rfl

/-! ### Plugin pool: what holds at every moment of a run -/

theorem mapInsert_length (m : List (String × Ptr)) (key : String) (p : Ptr) :
    (mapInsert m key p).length ≤ m.length + 1 := by
  unfold mapInsert
  split <;> simp

theorem mapInsert_fresh (m : List (String × Ptr)) (key : String) (p : Ptr)
    (h : (m.lookup key).isNone = true) : mapInsert m key p = m ++ [(key, p)] := by
  have hany : m.any (fun kv => kv.1 == key) = false := by
    induction m with
    | nil => rfl
    | cons kv rest ih =>
      obtain ⟨k, v⟩ := kv
      rw [List.lookup_cons] at h
      by_cases hk : key = k
      · subst hk
        simp at h
      · have hk2 : (key == k) = false := by simpa using hk
        rw [hk2] at h
        have hk3 : (k == key) = false := by simpa using fun h2 => hk h2.symm
        simp only [List.any_cons, hk3, Bool.false_or]
        exact ih h
  unfold mapInsert
  rw [hany]
  rfl

theorem refl_sameShape (pp : PluginPool) : pp.sameShape pp := ⟨rfl, rfl, rfl, rfl, rfl⟩
theorem refl_sameFlags (pp : PluginPool) : pp.sameFlags pp := ⟨rfl, rfl, rfl⟩

theorem createNewInstance_inv (j : Codec) (kind : CommunicationType) (env : CreateEnv)
    (pp : PluginPool) (h : pp.inv) :
    (pp.createNewInstance j kind env).2.inv ∧
    pp.sameShape (pp.createNewInstance j kind env).2 ∧
    pp.sameFlags (pp.createNewInstance j kind env).2 ∧
    pp.heap.length ≤ (pp.createNewInstance j kind env).2.heap.length ∧
    (pp.createNewInstance j kind env).2.waitQueue = pp.waitQueue ∧
    (pp.freshEnv env = true → pp.allMapped → (pp.createNewInstance j kind env).2.allMapped) ∧
    (∀ ptr, (pp.createNewInstance j kind env).1 = .returns (.ok ptr) →
      pp.Available.closed = false ∧ ptr < (pp.createNewInstance j kind env).2.heap.length) ∧
    (∀ e, (pp.createNewInstance j kind env).1 = .returns (.error e) →
      (pp.createNewInstance j kind env).2 = pp) := by
  rcases createNewInstance_spec j kind env pp with ⟨e, he⟩ | ⟨u, inst, hu, hlt, -, heq⟩
  · rw [he]
    exact ⟨h, refl_sameShape pp, refl_sameFlags pp, le_refl _, rfl, fun _ hm => hm,
      (fun ptr hp => by cases hp), fun _ _ => rfl⟩
  · obtain ⟨h1, h2, h3, h4, h5⟩ := h
    have hlen := mapInsert_length pp.Instances (pp.PluginName ++ stripHyphens u) pp.heap.length
    have hmapped : pp.freshEnv env = true → pp.allMapped → pp.Available.closed = false →
        ∀ i, i < (pp.heap ++ [inst]).length →
          i ∈ (mapInsert pp.Instances (pp.PluginName ++ stripHyphens u)
            pp.heap.length).map Prod.snd := by
      intro hf hm hcl i hi
      unfold PluginPool.freshEnv at hf
      rw [hu] at hf
      rw [mapInsert_fresh _ _ _ hf]
      simp only [List.length_append, List.length_singleton] at hi
      simp only [List.map_append, List.map_cons, List.map_nil, List.mem_append,
        List.mem_singleton]
      rcases Nat.lt_succ_iff_lt_or_eq.mp hi with hlt2 | heq2
      · exact Or.inl (hm hcl i hlt2)
      · exact Or.inr heq2
    have hbound : ∀ p, p < pp.heap.length → p < (pp.heap ++ [inst]).length := by
      intro p hp
      simp only [List.length_append, List.length_singleton]
      omega
    have hceil :
        ((mapInsert pp.Instances (pp.PluginName ++ stripHyphens u) pp.heap.length).length : Int) ≤
          max pp.MaxInstances 0 :=
      le_trans (by omega) (le_max_left _ _)
    rw [heq]
    split_ifs with hc hcap
    · refine ⟨⟨hceil, h2, h3, fun p hp => hbound p (h4 p hp), fun p hp => hbound p (h5 p hp)⟩,
        ⟨rfl, rfl, rfl, rfl, rfl⟩, ⟨rfl, rfl, rfl⟩, ?_, rfl, ?_, ?_, ?_⟩
      · simp
      · intro _ _ hcl
        rw [hc] at hcl
        cases hcl
      · intro ptr hp
        cases hp
      · intro e hp
        cases hp
    · have hc2 : pp.Available.closed = false := by simpa using hc
      refine ⟨⟨hceil, h2, h3, ?_, fun p hp => hbound p (h5 p hp)⟩,
        ⟨rfl, rfl, rfl, rfl, rfl⟩, ⟨rfl, rfl, rfl⟩, ?_, rfl, ?_, ?_, ?_⟩
      · intro p hp
        simp only [List.mem_append, List.mem_singleton] at hp
        rcases hp with hp | hp
        · exact hbound p (h4 p hp)
        · subst hp
          simp
      · simp
      · intro hf hm _
        exact hmapped hf hm hc2
      · intro ptr hp
        cases hp
        exact ⟨hc2, by simp⟩
      · intro e hp
        cases hp
    · have hc2 : pp.Available.closed = false := by simpa using hc
      refine ⟨⟨hceil, h2, h3, fun p hp => hbound p (h4 p hp), fun p hp => hbound p (h5 p hp)⟩,
        ⟨rfl, rfl, rfl, rfl, rfl⟩, ⟨rfl, rfl, rfl⟩, ?_, rfl, ?_, ?_, ?_⟩
      · simp
      · intro hf hm _
        exact hmapped hf hm hc2
      · intro ptr hp
        cases hp
      · intro e hp
        cases hp

theorem trans_sameShape {a b c : PluginPool} (h1 : a.sameShape b) (h2 : b.sameShape c) :
    a.sameShape c :=
  ⟨h2.1.trans h1.1, h2.2.1.trans h1.2.1, h2.2.2.1.trans h1.2.2.1, h2.2.2.2.1.trans h1.2.2.2.1,
    h2.2.2.2.2.trans h1.2.2.2.2⟩

theorem trans_sameFlags {a b c : PluginPool} (h1 : a.sameFlags b) (h2 : b.sameFlags c) :
    a.sameFlags c :=
  ⟨h2.1.trans h1.1, h2.2.1.trans h1.2.1, h2.2.2.trans h1.2.2⟩

theorem startLoop_inv (j : Codec) (kind : CommunicationType) (envs : Nat → CreateEnv) :
    ∀ (n i : Nat) (pp : PluginPool) (sc : Nat), pp.inv →
      (pp.startLoop j kind envs n i sc).2.inv ∧
      pp.sameShape (pp.startLoop j kind envs n i sc).2 ∧
      pp.sameFlags (pp.startLoop j kind envs n i sc).2 ∧
      pp.heap.length ≤ (pp.startLoop j kind envs n i sc).2.heap.length ∧
      (pp.startLoop j kind envs n i sc).2.waitQueue = pp.waitQueue ∧
      (pp.freshLoop j kind envs n i = true → pp.allMapped →
        (pp.startLoop j kind envs n i sc).2.allMapped) ∧
      (∀ c, (pp.startLoop j kind envs n i sc).1 = .returns c →
        sc ≤ c ∧ (sc < c → pp.Available.closed = false) ∧
        (c = sc → (pp.startLoop j kind envs n i sc).2 = pp)) := by
  intro n
  induction n with
  | zero =>
    intro i pp sc h
    refine ⟨h, refl_sameShape pp, refl_sameFlags pp, le_refl _, rfl, fun _ hm => hm, ?_⟩
    intro c hc
    simp only [PluginPool.startLoop, Outcome.returns.injEq] at hc
    subst hc
    exact ⟨le_refl _, fun hlt => absurd hlt (lt_irrefl _), fun _ => rfl⟩
  | succ n ih =>
    intro i pp sc h
    obtain ⟨c1, c2, c3, c4, c5, c6, c7, c8⟩ := createNewInstance_inv j kind (envs i) pp h
    have hfresh : pp.freshLoop j kind envs (n + 1) i = true →
        pp.freshEnv (envs i) = true ∧
        (pp.createNewInstance j kind (envs i)).2.freshLoop j kind envs n (i + 1) = true := by
      intro hf
      simpa [PluginPool.freshLoop] using hf
    rcases hc : pp.createNewInstance j kind (envs i) with ⟨o, pp1⟩
    rw [hc] at c1 c2 c3 c4 c5 c6 c7 c8 hfresh
    simp only at c1 c2 c3 c4 c5 c6 c7 c8 hfresh
    cases o with
    | returns r =>
      cases r with
      | ok p =>
        simp only [PluginPool.startLoop, hc]
        obtain ⟨d1, d2, d3, d4, d5, d6, d7⟩ := ih (i + 1) pp1 (sc + 1) c1
        refine ⟨d1, trans_sameShape c2 d2, trans_sameFlags c3 d3, le_trans c4 d4, d5.trans c5,
          fun hf hm => d6 (hfresh hf).2 (c6 (hfresh hf).1 hm), ?_⟩
        intro c hcc
        have := d7 c hcc
        exact ⟨by omega, fun _ => (c7 p rfl).1, fun hcs => by omega⟩
      | error e =>
        simp only [PluginPool.startLoop, hc]
        obtain ⟨d1, d2, d3, d4, d5, d6, d7⟩ := ih (i + 1) pp1 sc c1
        refine ⟨d1, trans_sameShape c2 d2, trans_sameFlags c3 d3, le_trans c4 d4, d5.trans c5,
          fun hf hm => d6 (hfresh hf).2 (c6 (hfresh hf).1 hm), ?_⟩
        intro c hcc
        have := d7 c hcc
        have hpp : pp1 = pp := c8 e rfl
        subst hpp
        exact ⟨this.1, this.2.1, this.2.2⟩
    | panics text =>
      simp only [PluginPool.startLoop, hc]
      exact ⟨c1, c2, c3, c4, c5, fun hf hm => c6 (hfresh hf).1 hm, fun c hcc => by cases hcc⟩
    | blocks =>
      simp only [PluginPool.startLoop, hc]
      exact ⟨c1, c2, c3, c4, c5, fun hf hm => c6 (hfresh hf).1 hm, fun c hcc => by cases hcc⟩

theorem PoolStart_inv (j : Codec) (kind : CommunicationType) (envs : Nat → CreateEnv)
    (pp : PluginPool) (h : pp.inv) :
    (pp.Start j kind envs).2.inv ∧ pp.sameShape (pp.Start j kind envs).2 ∧
    pp.heap.length ≤ (pp.Start j kind envs).2.heap.length ∧
    (pp.freshOp j kind (.start envs) = true → pp.allMapped →
      (pp.Start j kind envs).2.allMapped) := by
  unfold PluginPool.Start
  cases hr : pp.IsRunning with
  | true =>
    simp only [if_true]
    exact ⟨h, refl_sameShape pp, le_refl _, fun _ hm => hm⟩
  | false =>
    simp only [Bool.false_eq_true, if_false]
    obtain ⟨d1, d2, d3, d4, d5, d6, d7⟩ :=
      startLoop_inv j kind envs pp.Config.PoolSize.toNat 0 pp 0 h
    have hfresh : pp.freshOp j kind (.start envs) = true →
        pp.freshLoop j kind envs pp.Config.PoolSize.toNat 0 = true := by
      intro hf
      simpa [PluginPool.freshOp, hr] using hf
    rcases hl : pp.startLoop j kind envs pp.Config.PoolSize.toNat 0 0 with ⟨o, pp1⟩
    rw [hl] at d1 d2 d3 d4 d5 d6 d7
    simp only at d1 d2 d3 d4 d5 d6 d7
    cases o with
    | returns c =>
      simp only
      by_cases hc0 : c = 0
      · rw [if_pos hc0]
        exact ⟨d1, d2, d4, fun hf hm => d6 (hfresh hf) hm⟩
      · rw [if_neg hc0]
        have hopen : pp.Available.closed = false := (d7 c rfl).2.1 (Nat.pos_of_ne_zero hc0)
        obtain ⟨e1, e2, e3, e4, e5⟩ := d1
        refine ⟨⟨e1, e2, fun _ => d3.2.1.trans hopen, e4, e5⟩, d2, d4, ?_⟩
        intro hf hm
        exact d6 (hfresh hf) hm
    | panics text => exact ⟨d1, d2, d4, fun hf hm => d6 (hfresh hf) hm⟩
    | blocks => exact ⟨d1, d2, d4, fun hf hm => d6 (hfresh hf) hm⟩

theorem tryRecv_spec (ch ch' : Chan) (x : Option Ptr) (h : ch.tryRecv = some (x, ch')) :
    ch'.cap = ch.cap ∧ ch'.closed = ch.closed ∧
    (∀ q, x = some q → ch.buf = q :: ch'.buf) ∧
    (x = none → ch' = ch ∧ ch.closed = true ∧ ch.buf = []) := by
  unfold Chan.tryRecv at h
  split at h
  · rename_i p rest hb
    simp only [Option.some.injEq, Prod.mk.injEq] at h
    obtain ⟨rfl, rfl⟩ := h
    refine ⟨rfl, rfl, ?_, fun hx => by cases hx⟩
    intro q hq
    cases hq
    exact hb
  · rename_i hb
    split at h
    · rename_i hc
      simp only [Option.some.injEq, Prod.mk.injEq] at h
      obtain ⟨rfl, rfl⟩ := h
      exact ⟨rfl, rfl, (fun q hq => by cases hq), fun _ => ⟨rfl, hc, hb⟩⟩
    · cases h

theorem tryRecv_none (ch : Chan) (h : ch.tryRecv = none) : ch.buf = [] ∧ ch.closed = false := by
  unfold Chan.tryRecv at h
  split at h
  · cases h
  · rename_i hb
    split at h
    · cases h
    · rename_i hc
      exact ⟨hb, by simpa using hc⟩

theorem inv_of_frame (pp pp' : PluginPool) (h : pp.inv) (hI : pp'.Instances = pp.Instances)
    (hS : pp.sameShape pp') (hF : pp.sameFlags pp') (hH : pp'.heap.length = pp.heap.length)
    (hA : ∀ p ∈ pp'.Available.buf, p ∈ pp.Available.buf ∨ p < pp.heap.length)
    (hW : ∀ p ∈ pp'.waitQueue.buf, p ∈ pp.waitQueue.buf ∨ p < pp.heap.length) :
    pp'.inv ∧ (pp.allMapped → pp'.allMapped) := by
  obtain ⟨h1, h2, h3, h4, h5⟩ := h
  obtain ⟨-, -, s3, -, -⟩ := hS
  obtain ⟨f1, f2, f3⟩ := hF
  refine ⟨⟨?_, ?_, ?_, ?_, ?_⟩, ?_⟩
  · rw [hI, s3]
    exact h1
  · rw [f2, f3]
    exact h2
  · rw [f1, f2]
    exact h3
  · intro p hp
    rw [hH]
    rcases hA p hp with hp | hp
    · exact h4 p hp
    · exact hp
  · intro p hp
    rw [hH]
    rcases hW p hp with hp | hp
    · exact h5 p hp
    · exact hp
  · intro hm hcl i hi
    rw [hI]
    rw [f2] at hcl
    rw [hH] at hi
    exact hm hcl i hi

theorem waitForAvailableInstance_inv (pick : Bool) (pp : PluginPool) (h : pp.inv) :
    (pp.waitForAvailableInstance pick).2.inv ∧
    pp.sameShape (pp.waitForAvailableInstance pick).2 ∧
    pp.sameFlags (pp.waitForAvailableInstance pick).2 ∧
    (pp.waitForAvailableInstance pick).2.heap = pp.heap ∧
    (pp.waitForAvailableInstance pick).2.Instances = pp.Instances ∧
    (pp.allMapped → (pp.waitForAvailableInstance pick).2.allMapped) ∧
    (∃ r, (pp.waitForAvailableInstance pick).1 = .returns r ∧
      (∀ ptr, r = .ok (some ptr) →
        ptr < pp.heap.length ∧
        (pp.waitForAvailableInstance pick).2.Available.buf.length +
          (pp.waitForAvailableInstance pick).2.waitQueue.buf.length + 1 =
          pp.Available.buf.length + pp.waitQueue.buf.length) ∧
      (r = .ok none → pp.Available.closed = true)) := by
  have key : ∀ (o : Except GoError (Option Ptr)) (pp' : PluginPool),
      pp'.Instances = pp.Instances → pp.sameShape pp' → pp.sameFlags pp' → pp'.heap = pp.heap →
      (∀ p ∈ pp'.Available.buf, p ∈ pp.Available.buf) →
      (∀ p ∈ pp'.waitQueue.buf, p ∈ pp.waitQueue.buf) →
      (∀ ptr, o = .ok (some ptr) →
        ptr < pp.heap.length ∧
        pp'.Available.buf.length + pp'.waitQueue.buf.length + 1 =
          pp.Available.buf.length + pp.waitQueue.buf.length) →
      (o = .ok none → pp.Available.closed = true) →
      pp'.inv ∧ pp.sameShape pp' ∧ pp.sameFlags pp' ∧ pp'.heap = pp.heap ∧
      pp'.Instances = pp.Instances ∧ (pp.allMapped → pp'.allMapped) ∧
      (∃ r, (Outcome.returns o : Outcome (Except GoError (Option Ptr))) = .returns r ∧
        (∀ ptr, r = .ok (some ptr) →
          ptr < pp.heap.length ∧
          pp'.Available.buf.length + pp'.waitQueue.buf.length + 1 =
            pp.Available.buf.length + pp.waitQueue.buf.length) ∧
        (r = .ok none → pp.Available.closed = true)) := by
    intro o pp' hI hS hF hH hA hW h7 h8
    have := inv_of_frame pp pp' h hI hS hF (congrArg List.length hH)
      (fun p hp => Or.inl (hA p hp)) (fun p hp => Or.inl (hW p hp))
    exact ⟨this.1, hS, hF, hH, hI, this.2, o, rfl, h7, h8⟩
  obtain ⟨h1, h2, h3, h4, h5⟩ := h
  unfold PluginPool.waitForAvailableInstance
  rcases ha : pp.Available.tryRecv with _ | ⟨x, ch⟩ <;>
    rcases hw : pp.waitQueue.tryRecv with _ | ⟨y, ch'⟩
  · exact key (.error (.errorf "等待可用实例超时")) pp rfl (refl_sameShape pp) (refl_sameFlags pp) rfl (fun p hp => hp)
      (fun p hp => hp) (fun ptr hp => by cases hp) (fun hp => by cases hp)
  · obtain ⟨t1, t2, t3, t4⟩ := tryRecv_spec _ _ _ hw
    refine key (.ok y) { pp with waitQueue := ch' } rfl ⟨rfl, rfl, rfl, rfl, t1⟩ ⟨rfl, rfl, t2⟩ rfl
      (fun p hp => hp) ?_ ?_ ?_
    · intro p hp
      cases y with
      | none => rw [(t4 rfl).1] at hp; exact hp
      | some q => rw [t3 q rfl]; exact List.mem_cons_of_mem _ hp
    · intro ptr hp
      cases hp
      have hb := t3 ptr rfl
      refine ⟨h5 ptr (by rw [hb]; exact List.mem_cons_self _ _), ?_⟩
      simp only [hb, List.length_cons]
      omega
    · intro hp
      cases hp
      rw [h2]
      exact (t4 rfl).2.1
  · obtain ⟨t1, t2, t3, t4⟩ := tryRecv_spec _ _ _ ha
    refine key (.ok x) { pp with Available := ch } rfl ⟨rfl, rfl, rfl, t1, rfl⟩ ⟨rfl, t2, rfl⟩ rfl
      ?_ (fun p hp => hp) ?_ ?_
    · intro p hp
      cases x with
      | none => rw [(t4 rfl).1] at hp; exact hp
      | some q => rw [t3 q rfl]; exact List.mem_cons_of_mem _ hp
    · intro ptr hp
      cases hp
      have hb := t3 ptr rfl
      refine ⟨h4 ptr (by rw [hb]; exact List.mem_cons_self _ _), ?_⟩
      simp only [hb, List.length_cons]
      omega
    · intro hp
      cases hp
      exact (t4 rfl).2.1
  · obtain ⟨t1, t2, t3, t4⟩ := tryRecv_spec _ _ _ ha
    obtain ⟨u1, u2, u3, u4⟩ := tryRecv_spec _ _ _ hw
    cases pick with
    | true =>
      refine key (.ok x) { pp with Available := ch } rfl ⟨rfl, rfl, rfl, t1, rfl⟩ ⟨rfl, t2, rfl⟩ rfl
        ?_ (fun p hp => hp) ?_ ?_
      · intro p hp
        cases x with
        | none => rw [(t4 rfl).1] at hp; exact hp
        | some q => rw [t3 q rfl]; exact List.mem_cons_of_mem _ hp
      · intro ptr hp
        cases hp
        have hb := t3 ptr rfl
        refine ⟨h4 ptr (by rw [hb]; exact List.mem_cons_self _ _), ?_⟩
        simp only [hb, List.length_cons]
        omega
      · intro hp
        cases hp
        exact (t4 rfl).2.1
    | false =>
      refine key (.ok y) { pp with waitQueue := ch' } rfl ⟨rfl, rfl, rfl, rfl, u1⟩ ⟨rfl, rfl, u2⟩
        rfl (fun p hp => hp) ?_ ?_ ?_
      · intro p hp
        cases y with
        | none => rw [(u4 rfl).1] at hp; exact hp
        | some q => rw [u3 q rfl]; exact List.mem_cons_of_mem _ hp
      · intro ptr hp
        cases hp
        have hb := u3 ptr rfl
        refine ⟨h5 ptr (by rw [hb]; exact List.mem_cons_self _ _), ?_⟩
        simp only [hb, List.length_cons]
        omega
      · intro hp
        cases hp
        rw [h2]
        exact (u4 rfl).2.1

theorem GetInstance_inv (j : Codec) (kind : CommunicationType) (env : CreateEnv) (pick : Bool)
    (pp : PluginPool) (h : pp.inv) :
    (pp.GetInstance j kind env pick).2.inv ∧
    pp.sameShape (pp.GetInstance j kind env pick).2 ∧
    pp.sameFlags (pp.GetInstance j kind env pick).2 ∧
    pp.heap.length ≤ (pp.GetInstance j kind env pick).2.heap.length ∧
    (pp.freshEnv env = true → pp.allMapped → (pp.GetInstance j kind env pick).2.allMapped) ∧
    (∀ ptr, (pp.GetInstance j kind env pick).1 = .returns (.ok (some ptr)) →
      ptr < (pp.GetInstance j kind env pick).2.heap.length) := by
  unfold PluginPool.GetInstance
  by_cases hr : (!pp.IsRunning) = true
  · rw [if_pos hr]
    exact ⟨h, refl_sameShape pp, refl_sameFlags pp, le_refl _, fun _ hm => hm,
      fun ptr hp => by cases hp⟩
  · rw [if_neg hr]
    rcases ha : pp.Available.tryRecv with _ | ⟨x, ch⟩
    · dsimp only
      split_ifs with hcount
      · obtain ⟨c1, c2, c3, c4, c5, c6, c7, -⟩ := createNewInstance_inv j kind env pp h
        rcases hc : pp.createNewInstance j kind env with ⟨o, pp1⟩
        rw [hc] at c1 c2 c3 c4 c5 c6 c7
        simp only at c1 c2 c3 c4 c5 c6 c7
        cases o with
        | returns r =>
          cases r with
          | ok p =>
            refine ⟨c1, c2, c3, c4, c6, ?_⟩
            intro ptr hp
            cases hp
            exact (c7 p rfl).2
          | error e => exact ⟨c1, c2, c3, c4, c6, fun ptr hp => by cases hp⟩
        | panics text => exact ⟨c1, c2, c3, c4, c6, fun ptr hp => by cases hp⟩
        | blocks => exact ⟨c1, c2, c3, c4, c6, fun ptr hp => by cases hp⟩
      · obtain ⟨w1, w2, w3, w4, w5, w6, r, w7, w8, w9⟩ := waitForAvailableInstance_inv pick pp h
        refine ⟨w1, w2, w3, le_of_eq (congrArg List.length w4.symm), fun _ hm => w6 hm, ?_⟩
        intro ptr hp
        rw [w7] at hp
        cases hp
        rw [w4]
        exact (w8 ptr rfl).1
    · obtain ⟨t1, t2, t3, t4⟩ := tryRecv_spec _ _ _ ha
      have hsub : ∀ p ∈ ch.buf, p ∈ pp.Available.buf := by
        intro p hp
        cases x with
        | none => rw [(t4 rfl).1] at hp; exact hp
        | some q => rw [t3 q rfl]; exact List.mem_cons_of_mem _ hp
      have := inv_of_frame pp { pp with Available := ch } h rfl ⟨rfl, rfl, rfl, t1, rfl⟩
        ⟨rfl, t2, rfl⟩ rfl (fun p hp => Or.inl (hsub p hp)) (fun p hp => Or.inl hp)
      refine ⟨this.1, ⟨rfl, rfl, rfl, t1, rfl⟩, ⟨rfl, t2, rfl⟩, le_refl _, fun _ hm => this.2 hm,
        ?_⟩
      intro ptr hp
      cases hp
      exact h.2.2.2.1 ptr (by rw [t3 ptr rfl]; exact List.mem_cons_self _ _)

theorem ReturnInstance_inv (pp : PluginPool) (ptr : Ptr) (h : pp.inv) :
    (pp.ReturnInstance ptr).2.inv ∧
    pp.sameShape (pp.ReturnInstance ptr).2 ∧
    pp.sameFlags (pp.ReturnInstance ptr).2 ∧
    (pp.ReturnInstance ptr).2.heap = pp.heap ∧
    (pp.ReturnInstance ptr).2.Instances = pp.Instances ∧
    (pp.allMapped → (pp.ReturnInstance ptr).2.allMapped) ∧
    (ptr < pp.heap.length → (pp.ReturnInstance ptr).1 = .returns ()) := by
  have same : pp.inv ∧ pp.sameShape pp ∧ pp.sameFlags pp ∧ pp.heap = pp.heap ∧
      pp.Instances = pp.Instances ∧ (pp.allMapped → pp.allMapped) :=
    ⟨h, refl_sameShape pp, refl_sameFlags pp, rfl, rfl, fun hm => hm⟩
  unfold PluginPool.ReturnInstance
  by_cases hr : (!pp.IsRunning) = true
  · rw [if_pos hr]
    obtain ⟨s1, s2, s3, s4, s5, s6⟩ := same
    exact ⟨s1, s2, s3, s4, s5, s6, fun _ => rfl⟩
  · rw [if_neg hr]
    have hao : pp.Available.closed = false := h.2.2.1 (by simpa using hr)
    have hwo : pp.waitQueue.closed = false := h.2.1 ▸ hao
    rcases hi : pp.heap[ptr]? with _ | inst
    · obtain ⟨s1, s2, s3, s4, s5, s6⟩ := same
      refine ⟨s1, s2, s3, s4, s5, s6, ?_⟩
      intro hlt
      rw [List.getElem?_eq_getElem hlt] at hi
      cases hi
    · have hlt : ptr < pp.heap.length := by
        by_contra hge
        rw [List.getElem?_eq_none (Nat.le_of_not_lt hge)] at hi
        cases hi
      dsimp only
      split_ifs with hf hw1 hw2 ha1 ha2
      · obtain ⟨s1, s2, s3, s4, s5, s6⟩ := same
        exact ⟨s1, s2, s3, s4, s5, s6, fun _ => rfl⟩
      · rw [hwo] at hw1
        cases hw1
      · have := inv_of_frame pp
          { pp with waitQueue := { pp.waitQueue with buf := pp.waitQueue.buf ++ [ptr] } } h rfl
          ⟨rfl, rfl, rfl, rfl, rfl⟩ ⟨rfl, rfl, rfl⟩ rfl (fun p hp => Or.inl hp)
          (fun p hp => by
            simp only [List.mem_append, List.mem_singleton] at hp
            rcases hp with hp | hp
            · exact Or.inl hp
            · exact Or.inr (hp ▸ hlt))
        exact ⟨this.1, ⟨rfl, rfl, rfl, rfl, rfl⟩, ⟨rfl, rfl, rfl⟩, rfl, rfl, this.2, fun _ => rfl⟩
      · rw [hao] at ha1
        cases ha1
      · have := inv_of_frame pp
          { pp with Available := { pp.Available with buf := pp.Available.buf ++ [ptr] } } h rfl
          ⟨rfl, rfl, rfl, rfl, rfl⟩ ⟨rfl, rfl, rfl⟩ rfl
          (fun p hp => by
            simp only [List.mem_append, List.mem_singleton] at hp
            rcases hp with hp | hp
            · exact Or.inl hp
            · exact Or.inr (hp ▸ hlt))
          (fun p hp => Or.inl hp)
        exact ⟨this.1, ⟨rfl, rfl, rfl, rfl, rfl⟩, ⟨rfl, rfl, rfl⟩, rfl, rfl, this.2, fun _ => rfl⟩
      · obtain ⟨s1, s2, s3, s4, s5, s6⟩ := same
        exact ⟨s1, s2, s3, s4, s5, s6, fun _ => rfl⟩

theorem PoolCallFunction_inv (j : Codec) (kind : CommunicationType) (env : PoolCallEnv)
    (pp : PluginPool) (functionName : String) (params : List (String × JValue)) (h : pp.inv) :
    (pp.CallFunction j kind env functionName params).2.inv ∧
    pp.sameShape (pp.CallFunction j kind env functionName params).2 ∧
    pp.sameFlags (pp.CallFunction j kind env functionName params).2 ∧
    pp.heap.length ≤ (pp.CallFunction j kind env functionName params).2.heap.length ∧
    (pp.freshEnv env.create = true → pp.allMapped →
      (pp.CallFunction j kind env functionName params).2.allMapped) := by
  unfold PluginPool.CallFunction
  obtain ⟨g1, g2, g3, g4, g5, g6⟩ := GetInstance_inv j kind env.create env.pick pp h
  rcases hg : pp.GetInstance j kind env.create env.pick with ⟨o, pp1⟩
  rw [hg] at g1 g2 g3 g4 g5 g6
  simp only at g1 g2 g3 g4 g5 g6
  cases o with
  | panics text => exact ⟨g1, g2, g3, g4, g5⟩
  | blocks => exact ⟨g1, g2, g3, g4, g5⟩
  | returns r =>
    cases r with
    | error err => exact ⟨g1, g2, g3, g4, g5⟩
    | ok x =>
      cases x with
      | none => exact ⟨g1, g2, g3, g4, g5⟩
      | some ptr =>
        dsimp only
        rcases hi : pp1.heap[ptr]? with _ | inst
        · exact ⟨g1, g2, g3, g4, g5⟩
        · dsimp only
          rcases hcall : inst.CallFunction j env.now env.later functionName params with
            ⟨result, inst2⟩
          dsimp only
          have hlen : (pp1.heap.set ptr inst2).length = pp1.heap.length := List.length_set _ _ _
          have hf := inv_of_frame pp1 { pp1 with heap := pp1.heap.set ptr inst2 } g1 rfl
            ⟨rfl, rfl, rfl, rfl, rfl⟩ ⟨rfl, rfl, rfl⟩ hlen (fun p hp => Or.inl hp)
            (fun p hp => Or.inl hp)
          obtain ⟨r1, r2, r3, r4, r5, r6, r7⟩ :=
            ReturnInstance_inv { pp1 with heap := pp1.heap.set ptr inst2 } ptr hf.1
          rcases hret : ({ pp1 with heap := pp1.heap.set ptr inst2 }).ReturnInstance ptr with
            ⟨o2, pp3⟩
          rw [hret] at r1 r2 r3 r4 r5 r6 r7
          simp only at r1 r2 r3 r4 r5 r6 r7
          have h3 : pp3.inv ∧ pp.sameShape pp3 ∧ pp.sameFlags pp3 ∧
              pp.heap.length ≤ pp3.heap.length ∧
              (pp.freshEnv env.create = true → pp.allMapped → pp3.allMapped) := by
            refine ⟨r1, trans_sameShape g2 r2, trans_sameFlags g3 r3, ?_,
              fun hfr hm => r6 (hf.2 (g5 hfr hm))⟩
            rw [r4]
            exact le_trans g4 (le_of_eq hlen.symm)
          rw [hret]
          cases o2 <;> exact h3

theorem stopInstances_length (j : Codec) (envs : Ptr → StopEnv) :
    ∀ (m : List (String × Ptr)) (heap : List PluginInstance),
      (stopInstances j envs m heap).length = heap.length := by
  intro m
  induction m with
  | nil => intro heap; rfl
  | cons kv rest ih =>
    intro heap
    obtain ⟨k, p⟩ := kv
    unfold stopInstances
    split
    · rw [ih, List.length_set]
    · exact ih heap

theorem PoolStop_inv (j : Codec) (envs : Ptr → StopEnv) (pp : PluginPool) (h : pp.inv) :
    (pp.Stop j envs).2.inv ∧ pp.sameShape (pp.Stop j envs).2 ∧
    (pp.Stop j envs).2.heap.length = pp.heap.length ∧
    (pp.allMapped → (pp.Stop j envs).2.allMapped) ∧
    (pp.Stop j envs).1 = .returns () ∧
    (pp.Stop j envs).2.IsRunning = false ∧
    (pp.IsRunning = true → (pp.Stop j envs).2.Instances = []) ∧
    (pp.IsRunning = false → pp.Stop j envs = (.returns (), pp)) := by
  unfold PluginPool.Stop
  by_cases hr : (!pp.IsRunning) = true
  · rw [if_pos hr]
    have hr2 : pp.IsRunning = false := by simpa using hr
    exact ⟨h, refl_sameShape pp, rfl, fun hm => hm, rfl, hr2,
      (fun h2 => by rw [hr2] at h2; cases h2), fun _ => rfl⟩
  · rw [if_neg hr]
    have hr2 : pp.IsRunning = true := by simpa using hr
    obtain ⟨h1, h2, h3, h4, h5⟩ := h
    have hao : pp.Available.closed = false := h3 hr2
    have hwo : pp.waitQueue.closed = false := h2 ▸ hao
    have hlen := stopInstances_length j envs pp.Instances pp.heap
    have e1 : ¬ (pp.waitQueue.closed = true) := by simp [hwo]
    have e2 : ¬ (pp.Available.closed = true) := by simp [hao]
    dsimp only
    rw [if_neg e1, if_neg e2]
    refine ⟨⟨?_, rfl, (fun hx => by cases hx), ?_, ?_⟩, ⟨rfl, rfl, rfl, rfl, rfl⟩, hlen, ?_, rfl,
      rfl, fun _ => rfl, (fun hx => by rw [hr2] at hx; cases hx)⟩
    · simp
    · intro p hp
      rw [hlen]
      exact h4 p hp
    · intro p hp
      rw [hlen]
      exact h5 p hp
    · intro _ hcl
      cases hcl

theorem poolStep_inv (j : Codec) (kind : CommunicationType) (pp : PluginPool) (op : PoolOp)
    (h : pp.inv) :
    (pp.step j kind op).2.inv ∧ pp.sameShape (pp.step j kind op).2 ∧
    pp.heap.length ≤ (pp.step j kind op).2.heap.length ∧
    (pp.freshOp j kind op = true → pp.allMapped → (pp.step j kind op).2.allMapped) := by
  cases op with
  | start envs =>
    exact PoolStart_inv j kind envs pp h
  | getInstance env pick =>
    obtain ⟨g1, g2, g3, g4, g5, g6⟩ := GetInstance_inv j kind env pick pp h
    exact ⟨g1, g2, g4, g5⟩
  | returnInstance ptr =>
    obtain ⟨r1, r2, r3, r4, r5, r6, r7⟩ := ReturnInstance_inv pp ptr h
    exact ⟨r1, r2, le_of_eq (congrArg List.length r4.symm), fun _ hm => r6 hm⟩
  | callFunction env functionName params =>
    obtain ⟨c1, c2, c3, c4, c5⟩ := PoolCallFunction_inv j kind env pp functionName params h
    exact ⟨c1, c2, c4, c5⟩
  | stop envs =>
    obtain ⟨s1, s2, s3, s4, s5⟩ := PoolStop_inv j envs pp h
    exact ⟨s1, s2, le_of_eq s3.symm, fun _ hm => s4 hm⟩

theorem poolRun_inv (j : Codec) (kind : CommunicationType) (ops : List PoolOp) :
    ∀ pp : PluginPool, pp.inv →
      (pp.run j kind ops).2.inv ∧ pp.sameShape (pp.run j kind ops).2 ∧
      pp.heap.length ≤ (pp.run j kind ops).2.heap.length ∧
      (pp.freshRun j kind ops = true → pp.allMapped → (pp.run j kind ops).2.allMapped) := by
  induction ops with
  | nil =>
    intro pp h
    exact ⟨h, refl_sameShape pp, le_refl _, fun _ hm => hm⟩
  | cons op ops ih =>
    intro pp h
    obtain ⟨s1, s2, s3, s4⟩ := poolStep_inv j kind pp op h
    have hfresh : pp.freshRun j kind (op :: ops) = true →
        pp.freshOp j kind op = true ∧ (pp.step j kind op).2.freshRun j kind ops = true := by
      intro hf
      simpa [PluginPool.freshRun] using hf
    rcases hs : pp.step j kind op with ⟨o, pp1⟩
    rw [hs] at s1 s2 s3 s4 hfresh
    simp only at s1 s2 s3 s4 hfresh
    cases o with
    | returns u =>
      simp only [PluginPool.run, hs]
      obtain ⟨i1, i2, i3, i4⟩ := ih pp1 s1
      exact ⟨i1, trans_sameShape s2 i2, le_trans s3 i3,
        fun hf hm => i4 (hfresh hf).2 (s4 (hfresh hf).1 hm)⟩
    | panics text =>
      simp only [PluginPool.run, hs]
      exact ⟨s1, s2, s3, fun hf hm => s4 (hfresh hf).1 hm⟩
    | blocks =>
      simp only [PluginPool.run, hs]
      exact ⟨s1, s2, s3, fun hf hm => s4 (hfresh hf).1 hm⟩

theorem NewPluginPool_inv (pluginName : String) (config : PluginConfig) :
    (NewPluginPool pluginName config).inv ∧ (NewPluginPool pluginName config).allMapped := by
  refine ⟨⟨?_, rfl, fun _ => rfl, ?_, ?_⟩, ?_⟩
  · exact le_max_right _ _
  · intro p hp
    cases hp
  · intro p hp
    cases hp
  · intro _ i hi
    cases hi

theorem GetInstance_not_running (j : Codec) (kind : CommunicationType) (env : CreateEnv)
    (pick : Bool) (pp : PluginPool) (hr : pp.IsRunning = false) :
    (pp.GetInstance j kind env pick).2 = pp := by
  unfold PluginPool.GetInstance
  rw [if_pos (by simp [hr])]

theorem ReturnInstance_not_running (pp : PluginPool) (ptr : Ptr) (hr : pp.IsRunning = false) :
    (pp.ReturnInstance ptr).2 = pp := by
  unfold PluginPool.ReturnInstance
  rw [if_pos (by simp [hr])]

theorem PoolCallFunction_not_running (j : Codec) (kind : CommunicationType) (env : PoolCallEnv)
    (pp : PluginPool) (functionName : String) (params : List (String × JValue))
    (hr : pp.IsRunning = false) : (pp.CallFunction j kind env functionName params).2 = pp := by
  unfold PluginPool.CallFunction PluginPool.GetInstance
  rw [if_pos (by simp [hr])]

theorem void_returns {α : Type} (o : Outcome α) (u : Unit) (h : o.void = .returns u) :
    ∃ a, o = .returns a := by
  cases o with
  | returns a => exact ⟨a, rfl⟩
  | panics text => cases h
  | blocks => cases h

theorem poolStep_settled (j : Codec) (kind : CommunicationType) (pp : PluginPool) (op : PoolOp)
    (h : pp.inv) (hs : pp.IsRunning = false → pp.Instances = []) (u : Unit)
    (hret : (pp.step j kind op).1 = .returns u) :
    (pp.step j kind op).2.IsRunning = false → (pp.step j kind op).2.Instances = [] := by
  cases op with
  | start envs =>
    obtain ⟨r, hr⟩ := void_returns _ u hret
    intro hnr
    change (pp.Start j kind envs).2.IsRunning = false at hnr
    change (pp.Start j kind envs).2.Instances = []
    unfold PluginPool.Start at hr hnr ⊢
    by_cases hrun : pp.IsRunning = true
    · rw [if_pos hrun] at hnr ⊢
      exact hs hnr
    · rw [if_neg hrun] at hr hnr ⊢
      obtain ⟨-, -, -, -, -, -, d7⟩ :=
        startLoop_inv j kind envs pp.Config.PoolSize.toNat 0 pp 0 h
      rcases hl : pp.startLoop j kind envs pp.Config.PoolSize.toNat 0 0 with ⟨o, pp1⟩
      rw [hl] at hr hnr d7
      cases o with
      | returns c =>
        dsimp only at hr hnr d7 ⊢
        by_cases hc0 : c = 0
        · rw [if_pos hc0] at hnr ⊢
          have hpp : pp1 = pp := (d7 c rfl).2.2 hc0
          subst hpp
          exact hs hnr
        · rw [if_neg hc0] at hnr
          cases hnr
      | panics text => cases hr
      | blocks => cases hr
  | getInstance env pick =>
    intro hnr
    change (pp.GetInstance j kind env pick).2.IsRunning = false at hnr
    change (pp.GetInstance j kind env pick).2.Instances = []
    have hflag := (GetInstance_inv j kind env pick pp h).2.2.1.1
    have hr0 : pp.IsRunning = false := hflag ▸ hnr
    rw [GetInstance_not_running j kind env pick pp hr0]
    exact hs hr0
  | returnInstance ptr =>
    intro hnr
    change (pp.ReturnInstance ptr).2.IsRunning = false at hnr
    change (pp.ReturnInstance ptr).2.Instances = []
    have hflag := (ReturnInstance_inv pp ptr h).2.2.1.1
    have hr0 : pp.IsRunning = false := hflag ▸ hnr
    rw [ReturnInstance_not_running pp ptr hr0]
    exact hs hr0
  | callFunction env functionName params =>
    intro hnr
    change (pp.CallFunction j kind env functionName params).2.IsRunning = false at hnr
    change (pp.CallFunction j kind env functionName params).2.Instances = []
    have hflag := (PoolCallFunction_inv j kind env pp functionName params h).2.2.1.1
    have hr0 : pp.IsRunning = false := hflag ▸ hnr
    rw [PoolCallFunction_not_running j kind env pp functionName params hr0]
    exact hs hr0
  | stop envs =>
    intro _
    change (pp.Stop j envs).2.Instances = []
    obtain ⟨-, -, -, -, -, -, s7, s8⟩ := PoolStop_inv j envs pp h
    by_cases hrun : pp.IsRunning = true
    · exact s7 hrun
    · have hr0 : pp.IsRunning = false := by simpa using hrun
      rw [s8 hr0]
      exact hs hr0

theorem poolRun_settled (j : Codec) (kind : CommunicationType) (ops : List PoolOp) :
    ∀ pp : PluginPool, pp.inv → (pp.IsRunning = false → pp.Instances = []) →
      ∀ u : Unit, (pp.run j kind ops).1 = .returns u →
        (pp.run j kind ops).2.IsRunning = false → (pp.run j kind ops).2.Instances = [] := by
  induction ops with
  | nil =>
    intro pp _ hs _ _
    exact hs
  | cons op ops ih =>
    intro pp h hs u hret
    have hinv := (poolStep_inv j kind pp op h).1
    have hset := poolStep_settled j kind pp op h hs
    rcases hstep : pp.step j kind op with ⟨o, pp1⟩
    rw [hstep] at hinv hset
    cases o with
    | returns v =>
      simp only [PluginPool.run, hstep] at hret ⊢
      exact ih pp1 hinv (hset v rfl) u hret
    | panics text =>
      simp only [PluginPool.run, hstep] at hret
      cases hret
    | blocks =>
      simp only [PluginPool.run, hstep] at hret
      cases hret

/-- A negative ceiling. A pool built by `NewPluginPool` from a configuration
whose `MaxInstances` is `-1` has an empty map, and already `0` exceeds its
`MaxInstances`: `NewPluginPool` stores the number as it is. -/
theorem negative_ceiling_below_empty_map :
    (NewPluginPool "math" { sampleConfig with MaxInstances := -1 }).MaxInstances = -1 ∧
    ((NewPluginPool "math" { sampleConfig with MaxInstances := -1 }).Instances.length : Int) >
      (NewPluginPool "math" { sampleConfig with MaxInstances := -1 }).MaxInstances := by
  decide

/-- One caller at a time. For every pool built by `NewPluginPool` and every
sequence of `Start`, `GetInstance`, `ReturnInstance`, `CallFunction` and `Stop` steps, each
run to its end before the next begins (the pool as an aborted step leaves it
included), the number of entries of
the map is at most `MaxInstances` when `MaxInstances` is not negative, and zero
when it is negative; `MaxInstances` itself never changes. -/
theorem pool_ceiling_one_caller (j : Codec) (kind : CommunicationType) (pluginName : String)
    (config : PluginConfig) (ops : List PoolOp) :
    (((NewPluginPool pluginName config).run j kind ops).2.Instances.length : Int) ≤
      max config.MaxInstances 0 ∧
    ((NewPluginPool pluginName config).run j kind ops).2.MaxInstances = config.MaxInstances ∧
    (0 ≤ config.MaxInstances →
      (((NewPluginPool pluginName config).run j kind ops).2.Instances.length : Int) ≤
        ((NewPluginPool pluginName config).run j kind ops).2.MaxInstances) := by
  obtain ⟨i1, i2, -, -⟩ := poolRun_inv j kind ops (NewPluginPool pluginName config)
    (NewPluginPool_inv pluginName config).1
  have hM : ((NewPluginPool pluginName config).run j kind ops).2.MaxInstances =
      config.MaxInstances := i2.2.2.1
  have h1 := i1.1
  rw [hM] at h1
  refine ⟨h1, hM, fun h0 => ?_⟩
  rw [hM]
  rwa [max_eq_left h0] at h1

/-- Witness for `pool_ceiling_one_caller`: the example pool after its start. -/
theorem pool_ceiling_one_caller_witness :
    (0 : Int) ≤ sampleConfig.MaxInstances ∧
    (((NewPluginPool "math" sampleConfig).run (sampleCodec sampleKnown) .unix
        [.start sampleCreateEnvs]).2.Instances.length : Int) ≤
      ((NewPluginPool "math" sampleConfig).run (sampleCodec sampleKnown) .unix
        [.start sampleCreateEnvs]).2.MaxInstances :=
  ⟨by decide,
    (pool_ceiling_one_caller (sampleCodec sampleKnown) .unix "math" sampleConfig
      [.start sampleCreateEnvs]).2.2 (by decide)⟩

/-! ### Plugin pool: the map, the channel Available and Stop -/

/-- C14, counterexample. The example pool is started (one instance, which
goes into `Available`) and stopped. Both operations return; afterwards the
buffer of the closed channel `Available` still holds the instance, and the map
is empty: `Stop` clears the map and closes the channel without draining it. -/
theorem Available_subset_counterexample :
    ((NewPluginPool "math" sampleConfig).run (sampleCodec sampleKnown) .unix
      [.start sampleCreateEnvs, .stop sampleStopEnvs]).1.void = .returns () ∧
    ((NewPluginPool "math" sampleConfig).run (sampleCodec sampleKnown) .unix
      [.start sampleCreateEnvs, .stop sampleStopEnvs]).2.Available.buf = [0] ∧
    ((NewPluginPool "math" sampleConfig).run (sampleCodec sampleKnown) .unix
      [.start sampleCreateEnvs, .stop sampleStopEnvs]).2.Instances = [] ∧
    ¬ (0 ∈ (((NewPluginPool "math" sampleConfig).run (sampleCodec sampleKnown) .unix
      [.start sampleCreateEnvs, .stop sampleStopEnvs]).2.Instances.map Prod.snd)) := by
  refine ⟨rfl, ?_, ?_, ?_⟩ <;> decide

/-- C14, amended. For every pool built by `NewPluginPool` and every sequence of
`Start`, `GetInstance`, `ReturnInstance`, `CallFunction` and `Stop` steps of one caller in
which `uuid.NewRandom` never repeats an identifier: as long as `Available` has not
been closed (no `Stop` of a running pool has taken place), every instance held
in `Available` is a value of the map. -/
theorem Available_subset_until_stop (j : Codec) (kind : CommunicationType)
    (pluginName : String) (config : PluginConfig) (ops : List PoolOp)
    (hfresh : (NewPluginPool pluginName config).freshRun j kind ops = true)
    (hopen : ((NewPluginPool pluginName config).run j kind ops).2.Available.closed = false) :
    ∀ p ∈ ((NewPluginPool pluginName config).run j kind ops).2.Available.buf,
      p ∈ ((NewPluginPool pluginName config).run j kind ops).2.Instances.map Prod.snd := by
  obtain ⟨i1, -, -, i4⟩ := poolRun_inv j kind ops (NewPluginPool pluginName config)
    (NewPluginPool_inv pluginName config).1
  intro p hp
  exact i4 hfresh (NewPluginPool_inv pluginName config).2 hopen p (i1.2.2.2.1 p hp)

/-- Witness for `Available_subset_until_stop`: the example pool after its start
holds instance `0` in `Available` and in the map. -/
theorem Available_subset_until_stop_witness :
    ((NewPluginPool "math" sampleConfig).run (sampleCodec sampleKnown) .unix
      [.start sampleCreateEnvs]).2.Available.buf = [0] ∧
    ∀ p ∈ ((NewPluginPool "math" sampleConfig).run (sampleCodec sampleKnown) .unix
        [.start sampleCreateEnvs]).2.Available.buf,
      p ∈ ((NewPluginPool "math" sampleConfig).run (sampleCodec sampleKnown) .unix
        [.start sampleCreateEnvs]).2.Instances.map Prod.snd :=
  ⟨by decide,
    Available_subset_until_stop (sampleCodec sampleKnown) .unix "math" sampleConfig
      [.start sampleCreateEnvs] (by decide) (by decide)⟩

/-- C18. For every pool reached from `NewPluginPool` by `Start`, `GetInstance`,
`ReturnInstance`, `CallFunction` and `Stop` steps of one caller: `Stop` returns (it does
not panic, no channel is closed twice) and leaves `IsRunning` false; a second
`Stop` returns as well and changes nothing, so the state is that of a single
`Stop`; when the steps before all returned, the map is empty after `Stop`. `Stop`
on a pool that was never started changes nothing. -/
theorem PoolStop_idempotent (j : Codec) (kind : CommunicationType) (pluginName : String)
    (config : PluginConfig) (ops : List PoolOp) (envs envs2 : Ptr → StopEnv) :
    ((((NewPluginPool pluginName config).run j kind ops).2.Stop j envs).1 = .returns ()) ∧
    ((((NewPluginPool pluginName config).run j kind ops).2.Stop j envs).2.IsRunning = false) ∧
    ((((NewPluginPool pluginName config).run j kind ops).2.Stop j envs).2.Stop j envs2 =
      (.returns (), (((NewPluginPool pluginName config).run j kind ops).2.Stop j envs).2)) ∧
    (((NewPluginPool pluginName config).run j kind ops).1 = .returns () →
      (((NewPluginPool pluginName config).run j kind ops).2.Stop j envs).2.Instances = []) ∧
    ((NewPluginPool pluginName config).Stop j envs =
      (.returns (), NewPluginPool pluginName config)) := by
  have h0 := (NewPluginPool_inv pluginName config).1
  obtain ⟨i1, -, -, -⟩ := poolRun_inv j kind ops (NewPluginPool pluginName config) h0
  have hset := poolRun_settled j kind ops (NewPluginPool pluginName config) h0 (fun _ => rfl)
  generalize (NewPluginPool pluginName config).run j kind ops = res at i1 hset
  obtain ⟨s1, -, -, -, s5, s6, s7, s8⟩ := PoolStop_inv j envs res.2 i1
  obtain ⟨-, -, -, -, -, -, -, t8⟩ := PoolStop_inv j envs2 (res.2.Stop j envs).2 s1
  refine ⟨s5, s6, t8 s6, ?_, ?_⟩
  · intro hret
    by_cases hrun : res.2.IsRunning = true
    · exact s7 hrun
    · have hr0 : res.2.IsRunning = false := by simpa using hrun
      rw [s8 hr0]
      exact hset () hret hr0
  · exact (PoolStop_inv j envs (NewPluginPool pluginName config) h0).2.2.2.2.2.2.2 rfl

/-- Witness for `PoolStop_idempotent`: the example pool is started; its `Stop`
leaves the map empty. -/
theorem PoolStop_idempotent_witness :
    ((NewPluginPool "math" sampleConfig).run (sampleCodec sampleKnown) .unix
      [.start sampleCreateEnvs]).2.Instances = [("math123e4567e89b12d3a456426614174000", 0)] ∧
    (((NewPluginPool "math" sampleConfig).run (sampleCodec sampleKnown) .unix
      [.start sampleCreateEnvs]).2.Stop (sampleCodec sampleKnown) sampleStopEnvs).2.Instances =
      [] :=
  ⟨by decide,
    (PoolStop_idempotent (sampleCodec sampleKnown) .unix "math" sampleConfig
      [.start sampleCreateEnvs] sampleStopEnvs sampleStopEnvs).2.2.2.1 rfl⟩

/-! ### Plugin pool: the start of a pool -/

theorem Start_ok_running (j : Codec) (env : StartEnv) (pi pi' : PluginInstance)
    (hr : pi.IsRunning = false) (h : pi.Start j env = (none, pi')) :
    pi'.IsRunning = true ∧ pi'.IsConnected = true := by
  unfold PluginInstance.Start at h
  rw [if_neg (by simp [hr])] at h
  dsimp only at h
  split at h
  · cases h
  · split at h
    · cases h
    · split at h
      · cases h
      · split at h
        · cases h
        · simp only [Prod.mk.injEq, true_and] at h
          subst h
          exact ⟨rfl, rfl⟩

theorem createNewInstance_ok (j : Codec) (kind : CommunicationType) (env : CreateEnv)
    (pp pp1 : PluginPool) (ptr : Ptr)
    (h : pp.createNewInstance j kind env = (.returns (.ok ptr), pp1)) :
    ∃ u inst, env.uuid = .ok u ∧ inst.IsRunning = true ∧ inst.IsConnected = true ∧
      (pp.Instances.length : Int) < pp.MaxInstances ∧ pp.Available.closed = false ∧
      pp.Available.buf.length < pp.Available.cap ∧ ptr = pp.heap.length ∧
      pp1 = { pp with heap := pp.heap ++ [inst],
                      Instances := mapInsert pp.Instances (pp.PluginName ++ stripHyphens u)
                        pp.heap.length,
                      Available := { pp.Available with
                                     buf := pp.Available.buf ++ [pp.heap.length] } } := by
  rcases createNewInstance_spec j kind env pp with ⟨e, he⟩ | ⟨u, inst, hu, hlt, hst, heq⟩
  · rw [he] at h
    cases h
  · rw [heq] at h
    have hrun := Start_ok_running j env.start _ inst rfl hst
    split_ifs at h with hc hcap
    · cases h
    · simp only [Prod.mk.injEq, Outcome.returns.injEq, Except.ok.injEq] at h
      exact ⟨u, inst, hu, hrun.1, hrun.2, hlt, by simpa using hc, hcap, h.1.symm, h.2.symm⟩
    · cases h

theorem createNewInstance_error (j : Codec) (kind : CommunicationType) (env : CreateEnv)
    (pp pp1 : PluginPool) (e : GoError)
    (h : pp.createNewInstance j kind env = (.returns (.error e), pp1)) : pp1 = pp := by
  rcases createNewInstance_spec j kind env pp with ⟨e2, he⟩ | ⟨u, inst, hu, hlt, hst, heq⟩
  · rw [he] at h
    simp only [Prod.mk.injEq] at h
    exact h.2.symm
  · rw [heq] at h
    split_ifs at h <;> cases h

theorem createNewInstance_returns (j : Codec) (kind : CommunicationType) (env : CreateEnv)
    (pp : PluginPool) (hopen : pp.Available.closed = false)
    (hcap : (pp.Instances.length : Int) < pp.MaxInstances →
      pp.Available.buf.length < pp.Available.cap) :
    ∃ r, (pp.createNewInstance j kind env).1 = .returns r := by
  rcases createNewInstance_spec j kind env pp with ⟨e, he⟩ | ⟨u, inst, hu, hlt, hst, heq⟩
  · rw [he]
    exact ⟨_, rfl⟩
  · rw [heq, if_neg (by simp [hopen]), if_pos (hcap hlt)]
    exact ⟨_, rfl⟩

/-- What a loop of `Start` that returns has done: its count went up by the
number of attempts that returned an instance, these instances are the new
entries of the heap, in order, and `Available` received exactly them. -/
theorem startLoop_created (j : Codec) (kind : CommunicationType) (envs : Nat → CreateEnv) :
    ∀ (n i : Nat) (pp : PluginPool) (sc c : Nat) (pp' : PluginPool),
      pp.startLoop j kind envs n i sc = (.returns c, pp') →
      c = sc + ((pp.creationAttempts j kind envs n i).filterMap createdBy).length ∧
      pp'.Available.buf =
        pp.Available.buf ++ (pp.creationAttempts j kind envs n i).filterMap createdBy ∧
      (pp.creationAttempts j kind envs n i).filterMap createdBy =
        List.range' pp.heap.length
          ((pp.creationAttempts j kind envs n i).filterMap createdBy).length ∧
      ((pp.creationAttempts j kind envs n i).filterMap createdBy = [] → pp' = pp) ∧
      pp'.IsRunning = pp.IsRunning ∧
      (∃ insts, pp'.heap = pp.heap ++ insts ∧
        insts.length = ((pp.creationAttempts j kind envs n i).filterMap createdBy).length ∧
        ∀ inst ∈ insts, inst.IsRunning = true ∧ inst.IsConnected = true) := by
  intro n
  induction n with
  | zero =>
    intro i pp sc c pp' h
    simp only [PluginPool.startLoop, Prod.mk.injEq, Outcome.returns.injEq] at h
    obtain ⟨rfl, rfl⟩ := h
    simp [PluginPool.creationAttempts]
  | succ n ih =>
    intro i pp sc c pp' h
    rcases hc : pp.createNewInstance j kind (envs i) with ⟨o, pp1⟩
    simp only [PluginPool.startLoop, hc] at h
    simp only [PluginPool.creationAttempts, hc]
    cases o with
    | returns r =>
      cases r with
      | ok p =>
        obtain ⟨u, inst, -, hrun, hcon, -, -, -, hp, hpp1⟩ :=
          createNewInstance_ok j kind (envs i) pp pp1 p hc
        obtain ⟨d1, d2, d3, d4, d5, insts, d6, d7, d8⟩ := ih (i + 1) pp1 (sc + 1) c pp' h
        have hheap : pp1.heap.length = pp.heap.length + 1 := by
          rw [hpp1]
          simp
        have hbuf : pp1.Available.buf = pp.Available.buf ++ [p] := by
          rw [hpp1, hp]
        have hh : pp1.heap = pp.heap ++ [inst] := by
          rw [hpp1]
        have hrn : pp1.IsRunning = pp.IsRunning := by
          rw [hpp1]
        simp only [List.filterMap_cons, createdBy, List.length_cons]
        refine ⟨by omega, ?_, ?_, (fun hnil => by cases hnil), d5.trans hrn, inst :: insts, ?_, ?_,
          ?_⟩
        · rw [d2, hbuf, List.append_assoc]
          rfl
        · rw [List.range'_succ, ← hp]
          congr 1
          rw [d3, hheap, hp]
          simp
        · rw [d6, hh, List.append_assoc]
          rfl
        · simp [d7]
        · intro x hx
          rcases List.mem_cons.mp hx with hx | hx
          · subst hx
            exact ⟨hrun, hcon⟩
          · exact d8 x hx
      | error e =>
        have hpp1 := createNewInstance_error j kind (envs i) pp pp1 e hc
        subst hpp1
        simp only [List.filterMap_cons, createdBy]
        exact ih (i + 1) pp1 sc c pp' h
    | panics text => cases h
    | blocks => cases h

/-- A loop of `Start` in which no identifier repeats returns, when `Available` is
open, holds no more instances than the map, and has room up to the
ceiling. -/
theorem startLoop_returns (j : Codec) (kind : CommunicationType) (envs : Nat → CreateEnv) :
    ∀ (n i : Nat) (pp : PluginPool) (sc : Nat),
      pp.Available.closed = false → pp.Available.buf.length ≤ pp.Instances.length →
      pp.MaxInstances ≤ (pp.Available.cap : Int) → pp.freshLoop j kind envs n i = true →
      ∃ c, (pp.startLoop j kind envs n i sc).1 = .returns c := by
  intro n
  induction n with
  | zero =>
    intro i pp sc _ _ _ _
    exact ⟨sc, rfl⟩
  | succ n ih =>
    intro i pp sc hopen hlen hcap hfresh
    have hf : pp.freshEnv (envs i) = true ∧
        (pp.createNewInstance j kind (envs i)).2.freshLoop j kind envs n (i + 1) = true := by
      simpa [PluginPool.freshLoop] using hfresh
    obtain ⟨r, hr⟩ := createNewInstance_returns j kind (envs i) pp hopen (fun hlt => by omega)
    rcases hc : pp.createNewInstance j kind (envs i) with ⟨o, pp1⟩
    rw [hc] at hr hf
    simp only at hr hf
    subst hr
    simp only [PluginPool.startLoop, hc]
    cases r with
    | ok p =>
      obtain ⟨u, inst, hu, -, -, -, -, -, hp, hpp1⟩ :=
        createNewInstance_ok j kind (envs i) pp pp1 p hc
      have hfr : (pp.Instances.lookup (pp.PluginName ++ stripHyphens u)).isNone = true := by
        have := hf.1
        unfold PluginPool.freshEnv at this
        rw [hu] at this
        exact this
      apply ih (i + 1) pp1 (sc + 1) _ _ _ hf.2
      · rw [hpp1]
        exact hopen
      · rw [hpp1]
        simp only [mapInsert_fresh _ _ _ hfr, List.length_append, List.length_singleton]
        omega
      · rw [hpp1]
        exact hcap
    | error e =>
      have hpp1 := createNewInstance_error j kind (envs i) pp pp1 e hc
      subst hpp1
      exact ih (i + 1) pp1 sc hopen hlen hcap hf.2

theorem NewPluginPool_cap (pluginName : String) (config : PluginConfig) :
    (NewPluginPool pluginName config).MaxInstances ≤
      ((NewPluginPool pluginName config).Available.cap : Int) ∧
    (NewPluginPool pluginName config).MaxInstances ≤
      ((NewPluginPool pluginName config).waitQueue.cap : Int) := by
  unfold NewPluginPool
  dsimp only
  constructor <;> split_ifs <;> simp <;> omega

/-- C17. `Start` on a pool built by `NewPluginPool`, for every configuration and
every outcome of the instance starts. It returns (when no identifier
repeats); it returns nil exactly when one of its `PoolSize` creation attempts
returned an instance. On success `IsRunning` is true and `Available` holds exactly
the instances the attempts returned, in order and each once, every one of
them started. On failure `IsRunning` is false and the map is empty. -/
theorem PoolStart_result (j : Codec) (kind : CommunicationType) (pluginName : String)
    (config : PluginConfig) (envs : Nat → CreateEnv) :
    ((NewPluginPool pluginName config).freshLoop j kind envs config.PoolSize.toNat 0 = true →
      ∃ r, ((NewPluginPool pluginName config).Start j kind envs).1 = .returns r) ∧
    (∀ r, ((NewPluginPool pluginName config).Start j kind envs).1 = .returns r →
      (r = none ↔
        ∃ p, p ∈ ((NewPluginPool pluginName config).creationAttempts j kind envs
          config.PoolSize.toNat 0).filterMap createdBy) ∧
      (r = none →
        ((NewPluginPool pluginName config).Start j kind envs).2.IsRunning = true ∧
        ((NewPluginPool pluginName config).Start j kind envs).2.Available.buf =
          ((NewPluginPool pluginName config).creationAttempts j kind envs
            config.PoolSize.toNat 0).filterMap createdBy ∧
        (((NewPluginPool pluginName config).creationAttempts j kind envs
          config.PoolSize.toNat 0).filterMap createdBy).Nodup ∧
        ∀ p ∈ ((NewPluginPool pluginName config).creationAttempts j kind envs
            config.PoolSize.toNat 0).filterMap createdBy,
          ∃ inst, ((NewPluginPool pluginName config).Start j kind envs).2.heap[p]? = some inst ∧
            inst.IsRunning = true ∧ inst.IsConnected = true) ∧
      (r ≠ none →
        ((NewPluginPool pluginName config).Start j kind envs).2.IsRunning = false ∧
        ((NewPluginPool pluginName config).Start j kind envs).2.Instances = [])) := by
  have hstart : (NewPluginPool pluginName config).Start j kind envs =
      match (NewPluginPool pluginName config).startLoop j kind envs config.PoolSize.toNat 0 0 with
      | (.returns successCount, pp) =>
        if successCount = 0 then
          (.returns (some (.errorf
            ("插件池 " ++ pp.PluginName ++ " 启动失败：无法创建任何插件实例"))), pp)
        else (.returns none, { pp with IsRunning := true })
      | (.panics text, pp) => (.panics text, pp)
      | (.blocks, pp) => (.blocks, pp) := rfl
  rw [hstart]
  generalize hcr : ((NewPluginPool pluginName config).creationAttempts j kind envs
    config.PoolSize.toNat 0).filterMap createdBy = created
  constructor
  · intro hfresh
    obtain ⟨c, hc⟩ := startLoop_returns j kind envs config.PoolSize.toNat 0
      (NewPluginPool pluginName config) 0 rfl (le_refl _) (NewPluginPool_cap pluginName config).1
      hfresh
    rcases hl : (NewPluginPool pluginName config).startLoop j kind envs
      config.PoolSize.toNat 0 0 with ⟨o, pp1⟩
    rw [hl] at hc
    simp only at hc
    subst hc
    dsimp only
    split_ifs <;> exact ⟨_, rfl⟩
  · intro r hr
    rcases hl : (NewPluginPool pluginName config).startLoop j kind envs
      config.PoolSize.toNat 0 0 with ⟨o, pp1⟩
    rw [hl] at hr
    cases o with
    | panics text => cases hr
    | blocks => cases hr
    | returns c =>
      obtain ⟨d1, d2, d3, d4, d5, insts, d6, d7, d8⟩ := startLoop_created j kind envs
        config.PoolSize.toNat 0 (NewPluginPool pluginName config) 0 c pp1 hl
      rw [hcr] at d1 d2 d3 d4 d7
      have hbuf : pp1.Available.buf = created := by
        rw [d2]
        rfl
      have hheap : pp1.heap = insts := by
        rw [d6]
        rfl
      dsimp only at hr ⊢
      by_cases hc0 : c = 0
      · rw [if_pos hc0] at hr ⊢
        simp only [Outcome.returns.injEq] at hr
        subst hr
        have hnil : created = [] := List.eq_nil_of_length_eq_zero (by omega)
        have hpp : pp1 = NewPluginPool pluginName config := d4 hnil
        refine ⟨⟨(fun h => by cases h), ?_⟩, (fun h => by cases h), fun _ => ?_⟩
        · rintro ⟨p, hp⟩
          rw [hnil] at hp
          cases hp
        · rw [hpp]
          exact ⟨rfl, rfl⟩
      · rw [if_neg hc0] at hr ⊢
        simp only [Outcome.returns.injEq] at hr
        subst hr
        have hpos : 0 < created.length := by omega
        refine ⟨⟨fun _ => ?_, fun _ => rfl⟩, fun _ => ⟨rfl, hbuf, ?_, ?_⟩,
          fun h => absurd rfl h⟩
        · cases hcre : created with
          | nil => rw [hcre] at hpos; cases hpos
          | cons p rest => exact ⟨p, List.mem_cons_self _ _⟩
        · rw [d3]
          exact List.nodup_range' _ _
        · intro p hp
          rw [d3] at hp
          have hlt : p < insts.length := by
            have := (List.mem_range'_1.mp hp).2
            rw [d7]
            simpa [NewPluginPool] using this
          refine ⟨insts[p], ?_, d8 _ (List.getElem_mem _)⟩
          show pp1.heap[p]? = some insts[p]
          rw [List.getElem?_eq_some_iff]
          exact ⟨by rw [hheap]; exact hlt, by simp [hheap]⟩

/-- Witness for `PoolStart_result`: the start of the example pool returns nil
and leaves the pool running. -/
theorem PoolStart_result_witness :
    (NewPluginPool "math" sampleConfig).freshLoop (sampleCodec sampleKnown) .unix sampleCreateEnvs
      sampleConfig.PoolSize.toNat 0 = true ∧
    (∃ r, ((NewPluginPool "math" sampleConfig).Start (sampleCodec sampleKnown) .unix
      sampleCreateEnvs).1 = .returns r) ∧
    ((NewPluginPool "math" sampleConfig).Start (sampleCodec sampleKnown) .unix
      sampleCreateEnvs).2.IsRunning = true :=
  ⟨by decide,
    (PoolStart_result (sampleCodec sampleKnown) .unix "math" sampleConfig sampleCreateEnvs).1
      (by decide),
    (((PoolStart_result (sampleCodec sampleKnown) .unix "math" sampleConfig sampleCreateEnvs).2
      none rfl).2.1 rfl).1⟩

/-! ### Plugin pool: room in the channels for one caller at a time -/

theorem waitForAvailableInstance_error (pick : Bool) (pp : PluginPool) (e : GoError)
    (h : (pp.waitForAvailableInstance pick).1 = .returns (.error e)) :
    (pp.waitForAvailableInstance pick).2 = pp := by
  unfold PluginPool.waitForAvailableInstance at h ⊢
  rcases ha : pp.Available.tryRecv with _ | ⟨x, ch⟩ <;>
    rcases hw : pp.waitQueue.tryRecv with _ | ⟨y, ch'⟩
  · rfl
  · rw [ha, hw] at h
    cases h
  · rw [ha, hw] at h
    cases h
  · rw [ha, hw] at h
    dsimp only at h
    split_ifs at h <;> cases h

theorem lent_not_full (pp : PluginPool) (h : pp.lent) :
    pp.waitQueue.buf.length < pp.waitQueue.cap ∨ pp.Available.buf.length < pp.Available.cap := by
  obtain ⟨hinv, -, hA, hW, hlt⟩ := h
  have h1 := hinv.1
  by_contra hfull
  rw [not_or] at hfull
  have hM : (pp.Instances.length : Int) ≤ pp.MaxInstances := by
    rcases le_max_iff.mp h1 with h2 | h2
    · exact h2
    · omega
  omega

theorem GetInstance_served (j : Codec) (kind : CommunicationType) (env : CreateEnv) (pick : Bool)
    (pp : PluginPool) (h : pp.served) (hfresh : pp.freshEnv env = true) :
    ∃ r, (pp.GetInstance j kind env pick).1 = .returns r ∧
      (∀ e, r = .error e → (pp.GetInstance j kind env pick).2 = pp) ∧
      r ≠ .ok none ∧
      (∀ ptr, r = .ok (some ptr) → (pp.GetInstance j kind env pick).2.lent) := by
  obtain ⟨hinv, hrun, hA, hW, hlt⟩ := h
  have hao : pp.Available.closed = false := hinv.2.2.1 hrun
  obtain ⟨g1, g2, g3, -, -, -⟩ := GetInstance_inv j kind env pick pp hinv
  have hlent : ∀ pp1 : PluginPool, pp1 = (pp.GetInstance j kind env pick).2 →
      pp1.Available.buf.length + pp1.waitQueue.buf.length + 1 < 2 * pp1.Instances.length →
      pp1.lent := by
    intro pp1 h1 h2
    subst h1
    refine ⟨g1, g3.1.trans hrun, ?_, ?_, h2⟩
    · rw [g2.2.2.1, g2.2.2.2.1]
      exact hA
    · rw [g2.2.2.1, g2.2.2.2.2]
      exact hW
  revert hlent
  unfold PluginPool.GetInstance
  rw [if_neg (by simp [hrun])]
  rcases ha : pp.Available.tryRecv with _ | ⟨x, ch⟩
  · obtain ⟨hbuf, -⟩ := tryRecv_none _ ha
    dsimp only
    split_ifs with hcount
    · intro hlent
      have hpos : 0 < pp.Available.cap := by omega
      obtain ⟨r, hr⟩ := createNewInstance_returns j kind env pp hao
        (fun _ => by rw [hbuf]; exact hpos)
      rcases hc : pp.createNewInstance j kind env with ⟨o, pp1⟩
      rw [hc] at hr hlent
      simp only at hr
      subst hr
      cases r with
      | ok p =>
        obtain ⟨u, inst, hu, -, -, -, -, -, hp, hpp1⟩ :=
          createNewInstance_ok j kind env pp pp1 p hc
        have hfr : (pp.Instances.lookup (pp.PluginName ++ stripHyphens u)).isNone = true := by
          unfold PluginPool.freshEnv at hfresh
          rw [hu] at hfresh
          exact hfresh
        refine ⟨_, rfl, (fun e he => by cases he), (fun he => by cases he), fun ptr _ => ?_⟩
        apply hlent pp1 rfl
        rw [hpp1]
        simp only [mapInsert_fresh _ _ _ hfr, List.length_append, List.length_singleton, hbuf,
          List.length_nil]
        rw [hbuf] at hlt
        simp only [List.length_nil] at hlt
        omega
      | error e =>
        have hpp1 := createNewInstance_error j kind env pp pp1 e hc
        exact ⟨_, rfl, fun _ _ => hpp1, (fun he => by cases he), (fun ptr he => by cases he)⟩
    · intro hlent
      obtain ⟨-, -, -, -, w5, -, r, w7, w8, w9⟩ := waitForAvailableInstance_inv pick pp hinv
      refine ⟨r, w7, ?_, ?_, ?_⟩
      · intro e he
        subst he
        exact waitForAvailableInstance_error pick pp e w7
      · intro he
        have := w9 he
        rw [hao] at this
        cases this
      · intro ptr he
        apply hlent _ rfl
        have := (w8 ptr he).2
        rw [w5]
        omega
  · obtain ⟨t1, t2, t3, t4⟩ := tryRecv_spec _ _ _ ha
    intro hlent
    cases x with
    | none =>
      have := (t4 rfl).2.1
      rw [hao] at this
      cases this
    | some q =>
      refine ⟨_, rfl, (fun e he => by cases he), (fun he => by cases he), fun ptr _ => ?_⟩
      apply hlent _ rfl
      have hb := t3 q rfl
      rw [hb] at hlt
      simp only [List.length_cons] at hlt
      show ch.buf.length + pp.waitQueue.buf.length + 1 < 2 * pp.Instances.length
      omega

theorem ReturnInstance_count (pp : PluginPool) (ptr : Ptr) :
    (pp.ReturnInstance ptr).2.Available.buf.length +
        (pp.ReturnInstance ptr).2.waitQueue.buf.length ≤
      pp.Available.buf.length + pp.waitQueue.buf.length + 1 := by
  unfold PluginPool.ReturnInstance
  by_cases hr : (!pp.IsRunning) = true
  · rw [if_pos hr]
    exact Nat.le_succ _
  · rw [if_neg hr]
    rcases hi : pp.heap[ptr]? with _ | inst
    · exact Nat.le_succ _
    · dsimp only
      split_ifs <;> simp <;> omega

theorem ReturnInstance_lent (pp : PluginPool) (ptr : Ptr) (h : pp.lent)
    (hp : ptr < pp.heap.length) :
    (pp.ReturnInstance ptr).1 = .returns () ∧ (pp.ReturnInstance ptr).2.served := by
  obtain ⟨hinv, hrun, hA, hW, hlt⟩ := h
  obtain ⟨r1, r2, r3, -, r5, -, r7⟩ := ReturnInstance_inv pp ptr hinv
  have hcount := ReturnInstance_count pp ptr
  refine ⟨r7 hp, r1, r3.1.trans hrun, ?_, ?_, ?_⟩
  · rw [r2.2.2.1, r2.2.2.2.1]
    exact hA
  · rw [r2.2.2.1, r2.2.2.2.2]
    exact hW
  · rw [r5]
    omega

theorem PoolCallFunction_served (j : Codec) (kind : CommunicationType) (env : PoolCallEnv)
    (pp : PluginPool) (functionName : String) (params : List (String × JValue))
    (h : pp.served) (hfresh : pp.freshEnv env.create = true) :
    (∃ r, (pp.CallFunction j kind env functionName params).1 = .returns r) ∧
    (pp.CallFunction j kind env functionName params).2.served := by
  obtain ⟨r, g1, g2, g3, g4⟩ := GetInstance_served j kind env.create env.pick pp h hfresh
  have g6 := (GetInstance_inv j kind env.create env.pick pp h.1).2.2.2.2.2
  unfold PluginPool.CallFunction
  rcases hg : pp.GetInstance j kind env.create env.pick with ⟨o, pp1⟩
  rw [hg] at g1 g2 g4 g6
  simp only at g1 g2 g4 g6
  subst g1
  cases r with
  | error e =>
    have hpp1 : pp1 = pp := g2 e rfl
    subst hpp1
    exact ⟨⟨_, rfl⟩, h⟩
  | ok x =>
    cases x with
    | none => exact absurd rfl g3
    | some ptr =>
      have hl := g4 ptr rfl
      have hlt : ptr < pp1.heap.length := g6 ptr rfl
      dsimp only
      rw [List.getElem?_eq_getElem hlt]
      dsimp only
      rcases hcall : (pp1.heap[ptr]).CallFunction j env.now env.later functionName params with
        ⟨result, inst2⟩
      dsimp only
      have hlen : (pp1.heap.set ptr inst2).length = pp1.heap.length := List.length_set _ _ _
      have hl2 : ({ pp1 with heap := pp1.heap.set ptr inst2 } : PluginPool).lent := by
        obtain ⟨l1, l2, l3, l4, l5⟩ := hl
        exact ⟨(inv_of_frame pp1 { pp1 with heap := pp1.heap.set ptr inst2 } l1 rfl
          ⟨rfl, rfl, rfl, rfl, rfl⟩ ⟨rfl, rfl, rfl⟩ hlen (fun p hp => Or.inl hp)
          (fun p hp => Or.inl hp)).1, l2, l3, l4, l5⟩
      obtain ⟨q1, q2⟩ := ReturnInstance_lent { pp1 with heap := pp1.heap.set ptr inst2 } ptr hl2
        (by rw [hlen]; exact hlt)
      rcases hret : ({ pp1 with heap := pp1.heap.set ptr inst2 } : PluginPool).ReturnInstance
        ptr with ⟨o2, pp3⟩
      rw [hret] at q1 q2
      simp only at q1 q2
      subst q1
      exact ⟨⟨_, rfl⟩, q2⟩

theorem startLoop_balance (j : Codec) (kind : CommunicationType) (envs : Nat → CreateEnv) :
    ∀ (n i : Nat) (pp : PluginPool) (sc c : Nat) (pp' : PluginPool),
      pp.startLoop j kind envs n i sc = (.returns c, pp') →
      pp.freshLoop j kind envs n i = true →
      pp.Available.buf.length + pp.waitQueue.buf.length ≤ pp.Instances.length →
      pp'.Available.buf.length + pp'.waitQueue.buf.length ≤ pp'.Instances.length := by
  intro n
  induction n with
  | zero =>
    intro i pp sc c pp' h _ hb
    simp only [PluginPool.startLoop, Prod.mk.injEq, Outcome.returns.injEq] at h
    obtain ⟨-, rfl⟩ := h
    exact hb
  | succ n ih =>
    intro i pp sc c pp' h hfresh hb
    have hf : pp.freshEnv (envs i) = true ∧
        (pp.createNewInstance j kind (envs i)).2.freshLoop j kind envs n (i + 1) = true := by
      simpa [PluginPool.freshLoop] using hfresh
    rcases hc : pp.createNewInstance j kind (envs i) with ⟨o, pp1⟩
    rw [hc] at hf
    simp only [PluginPool.startLoop, hc] at h
    cases o with
    | returns r =>
      cases r with
      | ok p =>
        obtain ⟨u, inst, hu, -, -, -, -, -, hp, hpp1⟩ :=
          createNewInstance_ok j kind (envs i) pp pp1 p hc
        have hfr : (pp.Instances.lookup (pp.PluginName ++ stripHyphens u)).isNone = true := by
          have := hf.1
          unfold PluginPool.freshEnv at this
          rw [hu] at this
          exact this
        apply ih (i + 1) pp1 (sc + 1) c pp' h hf.2
        rw [hpp1]
        simp only [mapInsert_fresh _ _ _ hfr, List.length_append, List.length_singleton]
        omega
      | error e =>
        have hpp1 := createNewInstance_error j kind (envs i) pp pp1 e hc
        subst hpp1
        exact ih (i + 1) pp1 sc c pp' h hf.2 hb
    | panics text => cases h
    | blocks => cases h

theorem PoolStart_served (j : Codec) (kind : CommunicationType) (pluginName : String)
    (config : PluginConfig) (envs : Nat → CreateEnv)
    (hfresh : (NewPluginPool pluginName config).freshLoop j kind envs config.PoolSize.toNat 0 =
      true)
    (hstart : ((NewPluginPool pluginName config).Start j kind envs).1 = .returns none) :
    ((NewPluginPool pluginName config).Start j kind envs).2.served := by
  obtain ⟨i1, i2, -, -⟩ := PoolStart_inv j kind envs (NewPluginPool pluginName config)
    (NewPluginPool_inv pluginName config).1
  have hcap := NewPluginPool_cap pluginName config
  have hstartEq : (NewPluginPool pluginName config).Start j kind envs =
      match (NewPluginPool pluginName config).startLoop j kind envs config.PoolSize.toNat 0 0 with
      | (.returns successCount, pp) =>
        if successCount = 0 then
          (.returns (some (.errorf
            ("插件池 " ++ pp.PluginName ++ " 启动失败：无法创建任何插件实例"))), pp)
        else (.returns none, { pp with IsRunning := true })
      | (.panics text, pp) => (.panics text, pp)
      | (.blocks, pp) => (.blocks, pp) := rfl
  refine ⟨i1, ?_, ?_, ?_, ?_⟩
  · rw [hstartEq] at hstart ⊢
    rcases hl : (NewPluginPool pluginName config).startLoop j kind envs
      config.PoolSize.toNat 0 0 with ⟨o, pp1⟩
    rw [hl] at hstart
    cases o with
    | returns c =>
      dsimp only at hstart ⊢
      split_ifs at hstart ⊢
      · cases hstart
      · rfl
    | panics text => cases hstart
    | blocks => cases hstart
  · rw [i2.2.2.1, i2.2.2.2.1]
    exact hcap.1
  · rw [i2.2.2.1, i2.2.2.2.2]
    exact hcap.2
  · rw [hstartEq] at hstart ⊢
    rcases hl : (NewPluginPool pluginName config).startLoop j kind envs
      config.PoolSize.toNat 0 0 with ⟨o, pp1⟩
    rw [hl] at hstart
    cases o with
    | returns c =>
      have hb := startLoop_balance j kind envs config.PoolSize.toNat 0
        (NewPluginPool pluginName config) 0 c pp1 hl hfresh (le_refl _)
      obtain ⟨d1, d2, -, -, -, -⟩ := startLoop_created j kind envs config.PoolSize.toNat 0
        (NewPluginPool pluginName config) 0 c pp1 hl
      dsimp only at hstart ⊢
      split_ifs at hstart ⊢ with hc0
      · cases hstart
      · have hA : 0 < pp1.Available.buf.length := by
          rw [d2]
          simp only [List.length_append]
          omega
        show pp1.Available.buf.length + pp1.waitQueue.buf.length < 2 * pp1.Instances.length
        omega
    | panics text => cases hstart
    | blocks => cases hstart

theorem callsRun_served (j : Codec) (kind : CommunicationType)
    (calls : List (PoolCallEnv × String × List (String × JValue))) :
    ∀ pp : PluginPool, pp.served → pp.freshRun j kind (calls.map callOp) = true →
      (pp.run j kind (calls.map callOp)).1 = .returns () ∧
      (pp.run j kind (calls.map callOp)).2.served := by
  induction calls with
  | nil =>
    intro pp h _
    exact ⟨rfl, h⟩
  | cons c calls ih =>
    intro pp h hfresh
    have hf : pp.freshEnv c.1.create = true ∧
        (pp.step j kind (callOp c)).2.freshRun j kind (calls.map callOp) = true := by
      simpa [PluginPool.freshRun, PluginPool.freshOp, callOp] using hfresh
    obtain ⟨⟨r, hr⟩, hs⟩ := PoolCallFunction_served j kind c.1 pp c.2.1 c.2.2 h hf.1
    have hstep : pp.step j kind (callOp c) =
        (.returns (), (pp.CallFunction j kind c.1 c.2.1 c.2.2).2) := by
      simp only [callOp, PluginPool.step, hr, Outcome.void]
    rw [hstep] at hf
    simp only [List.map_cons, PluginPool.run, hstep]
    exact ih _ hs hf.2

/-- One caller at a time. A pool built by `NewPluginPool` is started by `Start` and
then used only through `CallFunction`, each call run to its end before the next
begins, in a run in which `uuid.NewRandom` never repeats an identifier. Every
call returns. In every further call, `GetInstance` returns
(the send into `Available` in `createNewInstance` found free capacity: it neither
blocked nor panicked), and whenever it hands out an instance, `waitQueue` and
`Available` are not both full at that moment, which is the state of the two
channels when `ReturnInstance` runs; the call then returns. -/
theorem ReturnInstance_finds_room_one_caller (j : Codec) (kind : CommunicationType) (pluginName : String)
    (config : PluginConfig) (envs : Nat → CreateEnv)
    (calls : List (PoolCallEnv × String × List (String × JValue))) (env : PoolCallEnv)
    (functionName : String) (params : List (String × JValue))
    (hstart : ((NewPluginPool pluginName config).Start j kind envs).1 = .returns none)
    (hfresh : (NewPluginPool pluginName config).freshRun j kind
      (.start envs :: calls.map callOp) = true)
    (hnext : ((NewPluginPool pluginName config).run j kind
      (.start envs :: calls.map callOp)).2.freshEnv env.create = true) :
    ((NewPluginPool pluginName config).run j kind (.start envs :: calls.map callOp)).1 =
      .returns () ∧
    (∃ r, (((NewPluginPool pluginName config).run j kind
        (.start envs :: calls.map callOp)).2.GetInstance j kind env.create env.pick).1 =
          .returns r ∧
      ∀ ptr, r = .ok (some ptr) →
        ((((NewPluginPool pluginName config).run j kind
          (.start envs :: calls.map callOp)).2.GetInstance j kind env.create
            env.pick).2.waitQueue.buf.length <
          (((NewPluginPool pluginName config).run j kind
            (.start envs :: calls.map callOp)).2.GetInstance j kind env.create
              env.pick).2.waitQueue.cap ∨
        (((NewPluginPool pluginName config).run j kind
          (.start envs :: calls.map callOp)).2.GetInstance j kind env.create
            env.pick).2.Available.buf.length <
          (((NewPluginPool pluginName config).run j kind
            (.start envs :: calls.map callOp)).2.GetInstance j kind env.create
              env.pick).2.Available.cap)) ∧
    (∃ r, (((NewPluginPool pluginName config).run j kind
        (.start envs :: calls.map callOp)).2.CallFunction j kind env functionName params).1 =
          .returns r) := by
  have hstep : (NewPluginPool pluginName config).step j kind (.start envs) =
      (.returns (), ((NewPluginPool pluginName config).Start j kind envs).2) := by
    simp only [PluginPool.step, hstart, Outcome.void]
  have hf : (NewPluginPool pluginName config).freshLoop j kind envs config.PoolSize.toNat 0 =
        true ∧
      ((NewPluginPool pluginName config).Start j kind envs).2.freshRun j kind
        (calls.map callOp) = true := by
    have := hfresh
    simp only [PluginPool.freshRun, hstep, Bool.and_eq_true] at this
    refine ⟨?_, this.2⟩
    have h1 := this.1
    simp only [PluginPool.freshOp, Bool.or_eq_true] at h1
    rcases h1 with h1 | h1
    · cases h1
    · exact h1
  have hrun : (NewPluginPool pluginName config).run j kind (.start envs :: calls.map callOp) =
      ((NewPluginPool pluginName config).Start j kind envs).2.run j kind (calls.map callOp) := by
    simp only [PluginPool.run, hstep]
  rw [hrun] at hnext ⊢
  have hsv := PoolStart_served j kind pluginName config envs hf.1 hstart
  obtain ⟨c1, c2⟩ := callsRun_served j kind calls _ hsv hf.2
  obtain ⟨r, g1, -, -, g4⟩ := GetInstance_served j kind env.create env.pick _ c2 hnext
  exact ⟨c1, ⟨r, g1, fun ptr hp => lent_not_full _ (g4 ptr hp)⟩,
    (PoolCallFunction_served j kind env _ functionName params c2 hnext).1⟩

/-- Witness for `ReturnInstance_finds_room_one_caller`: the example pool is started and
serves one call; the next call finds room for the instance it returns. -/
theorem ReturnInstance_finds_room_one_caller_witness :
    ((NewPluginPool "math" sampleConfig).run (sampleCodec sampleKnown) .unix
      (.start sampleCreateEnvs :: [(sampleNextCallEnv, "add", [])].map callOp)).1 =
      .returns () ∧
    (∃ r, (((NewPluginPool "math" sampleConfig).run (sampleCodec sampleKnown) .unix
        (.start sampleCreateEnvs :: [(sampleNextCallEnv, "add", [])].map callOp)).2.CallFunction
          (sampleCodec sampleKnown) .unix sampleNextCallEnv "add" []).1 = .returns r) :=
  ⟨(ReturnInstance_finds_room_one_caller (sampleCodec sampleKnown) .unix "math" sampleConfig
      sampleCreateEnvs [(sampleNextCallEnv, "add", [])] sampleNextCallEnv "add" [] rfl
      (by decide) (by decide)).1,
    (ReturnInstance_finds_room_one_caller (sampleCodec sampleKnown) .unix "math" sampleConfig
      sampleCreateEnvs [(sampleNextCallEnv, "add", [])] sampleNextCallEnv "add" [] rfl
      (by decide) (by decide)).2.2⟩

/-! ### Plugin manager: the registry of pools -/

/-- C19, the code on a failing input. The manager of the examples is started
(the pool of `math` starts and is registered) and `RestartPlugin("math")` is
called while the worker fails to register. `RestartPlugin` stops the pool, the
start of the new pool fails, and the call returns its error with the stopped
pool still in `Pools`: the manager runs, `math` maps to a pool, and that pool
has `IsRunning` false. -/
theorem RestartPlugin_failure_keeps_stopped_pool :
    (((NewPluginManager sampleSystemConfig).run (sampleCodec sampleKnown) .unix
      [.start (fun _ => sampleCreateEnvs)]).2.Pools.map
        (fun kv => (kv.1, kv.2.IsRunning)) = [("math", true)]) ∧
    ((((NewPluginManager sampleSystemConfig).run (sampleCodec sampleKnown) .unix
      [.start (fun _ => sampleCreateEnvs)]).2.RestartPlugin (sampleCodec sampleKnown) .unix
        sampleStopEnvs sampleFailingCreateEnvs "math").1 =
      .returns (some (.wrapf "重启插件池 math 失败: "
        (.errorf "插件池 math 启动失败：无法创建任何插件实例")))) ∧
    (((NewPluginManager sampleSystemConfig).run (sampleCodec sampleKnown) .unix
      [.start (fun _ => sampleCreateEnvs),
        .restartPlugin "math" sampleStopEnvs sampleFailingCreateEnvs]).2.IsRunning = true) ∧
    (((NewPluginManager sampleSystemConfig).run (sampleCodec sampleKnown) .unix
      [.start (fun _ => sampleCreateEnvs),
        .restartPlugin "math" sampleStopEnvs sampleFailingCreateEnvs]).2.Pools.map
          (fun kv => (kv.1, kv.2.IsRunning)) = [("math", false)]) := by
  refine ⟨?_, rfl, ?_, ?_⟩ <;> decide

theorem RestartPlugin_flag (j : Codec) (kind : CommunicationType) (stop : Ptr → StopEnv)
    (create : Nat → CreateEnv) (pm : PluginManager) (pluginName : String) :
    (pm.RestartPlugin j kind stop create pluginName).2.IsRunning = pm.IsRunning ∧
    (pm.IsRunning = false → (pm.RestartPlugin j kind stop create pluginName).2 = pm) := by
  unfold PluginManager.RestartPlugin
  by_cases hr : (!pm.IsRunning) = true
  · rw [if_pos hr]
    exact ⟨rfl, fun _ => rfl⟩
  · rw [if_neg hr]
    have hrun : pm.IsRunning = true := by simpa using hr
    refine ⟨?_, fun h => by rw [hrun] at h; cases h⟩
    repeat' (first | rfl | split | dsimp only)

theorem AddPlugin_flag (j : Codec) (kind : CommunicationType) (create : Nat → CreateEnv)
    (pm : PluginManager) (pluginName : String) (pluginConfig : PluginConfig) :
    (pm.AddPlugin j kind create pluginName pluginConfig).2.IsRunning = pm.IsRunning ∧
    (pm.IsRunning = false → (pm.AddPlugin j kind create pluginName pluginConfig).2 = pm) := by
  unfold PluginManager.AddPlugin
  by_cases hr : (!pm.IsRunning) = true
  · rw [if_pos hr]
    exact ⟨rfl, fun _ => rfl⟩
  · rw [if_neg hr]
    have hrun : pm.IsRunning = true := by simpa using hr
    refine ⟨?_, fun h => by rw [hrun] at h; cases h⟩
    repeat' (first | rfl | split)

theorem RemovePlugin_flag (j : Codec) (stop : Ptr → StopEnv) (pm : PluginManager)
    (pluginName : String) :
    (pm.RemovePlugin j stop pluginName).2.IsRunning = pm.IsRunning ∧
    (pm.IsRunning = false → (pm.RemovePlugin j stop pluginName).2 = pm) := by
  unfold PluginManager.RemovePlugin
  by_cases hr : (!pm.IsRunning) = true
  · rw [if_pos hr]
    exact ⟨rfl, fun _ => rfl⟩
  · rw [if_neg hr]
    have hrun : pm.IsRunning = true := by simpa using hr
    refine ⟨?_, fun h => by rw [hrun] at h; cases h⟩
    repeat' (first | rfl | split)

theorem ManagerCallFunction_flag (j : Codec) (kind : CommunicationType) (env : PoolCallEnv)
    (pm : PluginManager) (pluginName functionName : String) (params : List (String × JValue)) :
    (pm.CallFunction j kind env pluginName functionName params).2.IsRunning = pm.IsRunning ∧
    (pm.IsRunning = false →
      (pm.CallFunction j kind env pluginName functionName params).2 = pm) := by
  unfold PluginManager.CallFunction
  rcases hl : pm.Pools.lookup pluginName with _ | pool
  · exact ⟨rfl, fun _ => rfl⟩
  · dsimp only
    by_cases hr : (!pm.IsRunning) = true
    · rw [if_pos hr]
      exact ⟨rfl, fun _ => rfl⟩
    · rw [if_neg hr]
      have hrun : pm.IsRunning = true := by simpa using hr
      refine ⟨?_, fun h => by rw [hrun] at h; cases h⟩
      repeat' (first | rfl | split)

theorem managerStep_settled (j : Codec) (kind : CommunicationType) (pm : PluginManager)
    (op : ManagerOp) (hs : pm.IsRunning = false → pm.Pools = []) (u : Unit)
    (hret : (pm.step j kind op).1 = .returns u) :
    (pm.step j kind op).2.IsRunning = false → (pm.step j kind op).2.Pools = [] := by
  cases op with
  | start create =>
    obtain ⟨r, hr⟩ := void_returns _ u hret
    intro hnr
    change (pm.Start j kind create).2.IsRunning = false at hnr
    change (pm.Start j kind create).2.Pools = []
    unfold PluginManager.Start at hr hnr ⊢
    by_cases hrun : pm.IsRunning = true
    · rw [if_pos hrun] at hnr ⊢
      exact hs hnr
    · rw [if_neg hrun] at hr hnr ⊢
      rcases hv : ValidateConfig pm.Config with _ | err
      · rw [hv] at hr hnr
        dsimp only at hr hnr ⊢
        rcases hl : startPools j kind create pm.Config.Plugins pm.Pools with ⟨o, pools⟩
        rw [hl] at hr hnr
        cases o with
        | returns v =>
          dsimp only at hr hnr ⊢
          by_cases hlen : pools.length = 0
          · rw [if_pos hlen]
            exact List.eq_nil_of_length_eq_zero hlen
          · rw [if_neg hlen] at hnr
            cases hnr
        | panics text => cases hr
        | blocks => cases hr
      · rw [hv] at hnr
        exact hs hnr
  | stop stop =>
    intro hnr
    change (pm.Stop j stop).2.IsRunning = false at hnr
    change (pm.Stop j stop).2.Pools = []
    change (pm.Stop j stop).1 = .returns u at hret
    unfold PluginManager.Stop at hret hnr ⊢
    by_cases hr : (!pm.IsRunning) = true
    · rw [if_pos hr] at hnr ⊢
      exact hs hnr
    · rw [if_neg hr] at hret hnr ⊢
      rcases hl : stopPools j stop pm.Pools with ⟨o, pools⟩
      rw [hl] at hret
      cases o with
      | returns v => rfl
      | panics text => cases hret
      | blocks => cases hret
  | restartPlugin pluginName stop create =>
    intro hnr
    obtain ⟨f1, f2⟩ := RestartPlugin_flag j kind stop create pm pluginName
    change (pm.RestartPlugin j kind stop create pluginName).2.IsRunning = false at hnr
    change (pm.RestartPlugin j kind stop create pluginName).2.Pools = []
    have hr0 : pm.IsRunning = false := f1 ▸ hnr
    rw [f2 hr0]
    exact hs hr0
  | addPlugin pluginName pluginConfig create =>
    intro hnr
    obtain ⟨f1, f2⟩ := AddPlugin_flag j kind create pm pluginName pluginConfig
    change (pm.AddPlugin j kind create pluginName pluginConfig).2.IsRunning = false at hnr
    change (pm.AddPlugin j kind create pluginName pluginConfig).2.Pools = []
    have hr0 : pm.IsRunning = false := f1 ▸ hnr
    rw [f2 hr0]
    exact hs hr0
  | removePlugin pluginName stop =>
    intro hnr
    obtain ⟨f1, f2⟩ := RemovePlugin_flag j stop pm pluginName
    change (pm.RemovePlugin j stop pluginName).2.IsRunning = false at hnr
    change (pm.RemovePlugin j stop pluginName).2.Pools = []
    have hr0 : pm.IsRunning = false := f1 ▸ hnr
    rw [f2 hr0]
    exact hs hr0
  | callFunction env pluginName functionName params =>
    intro hnr
    obtain ⟨f1, f2⟩ := ManagerCallFunction_flag j kind env pm pluginName functionName params
    change (pm.CallFunction j kind env pluginName functionName params).2.IsRunning = false
      at hnr
    change (pm.CallFunction j kind env pluginName functionName params).2.Pools = []
    have hr0 : pm.IsRunning = false := f1 ▸ hnr
    rw [f2 hr0]
    exact hs hr0

theorem managerRun_settled (j : Codec) (kind : CommunicationType) (ops : List ManagerOp) :
    ∀ pm : PluginManager, (pm.IsRunning = false → pm.Pools = []) →
      ∀ u : Unit, (pm.run j kind ops).1 = .returns u →
        (pm.run j kind ops).2.IsRunning = false → (pm.run j kind ops).2.Pools = [] := by
  induction ops with
  | nil =>
    intro pm hs _ _
    exact hs
  | cons op ops ih =>
    intro pm hs u hret
    have hset := managerStep_settled j kind pm op hs
    rcases hstep : pm.step j kind op with ⟨o, pm1⟩
    rw [hstep] at hset
    cases o with
    | returns v =>
      simp only [PluginManager.run, hstep] at hret ⊢
      exact ih pm1 (hset v rfl) u hret
    | panics text =>
      simp only [PluginManager.run, hstep] at hret
      cases hret
    | blocks =>
      simp only [PluginManager.run, hstep] at hret
      cases hret

theorem PoolStart_returns (j : Codec) (kind : CommunicationType) (pluginName : String)
    (config : PluginConfig) (envs : Nat → CreateEnv)
    (hfresh : (NewPluginPool pluginName config).freshLoop j kind envs config.PoolSize.toNat 0 =
      true) :
    ∃ r, ((NewPluginPool pluginName config).Start j kind envs).1 = .returns r := by
  have hstart : (NewPluginPool pluginName config).Start j kind envs =
      match (NewPluginPool pluginName config).startLoop j kind envs config.PoolSize.toNat 0 0 with
      | (.returns successCount, pp) =>
        if successCount = 0 then
          (.returns (some (.errorf
            ("插件池 " ++ pp.PluginName ++ " 启动失败：无法创建任何插件实例"))), pp)
        else (.returns none, { pp with IsRunning := true })
      | (.panics text, pp) => (.panics text, pp)
      | (.blocks, pp) => (.blocks, pp) := rfl
  rw [hstart]
  obtain ⟨c, hc⟩ := startLoop_returns j kind envs config.PoolSize.toNat 0
    (NewPluginPool pluginName config) 0 rfl (le_refl _) (NewPluginPool_cap pluginName config).1
    hfresh
  rcases hl : (NewPluginPool pluginName config).startLoop j kind envs
    config.PoolSize.toNat 0 0 with ⟨o, pp1⟩
  rw [hl] at hc
  simp only at hc
  subst hc
  dsimp only
  split_ifs <;> exact ⟨_, rfl⟩

theorem poolsInsert_new (pools : List (String × PluginPool)) (pluginName : String)
    (pool : PluginPool) (h : ∀ kv ∈ pools, kv.1 ≠ pluginName) :
    poolsInsert pools pluginName pool = pools ++ [(pluginName, pool)] := by
  unfold poolsInsert
  rw [if_neg]
  simp only [List.any_eq_true, beq_iff_eq, not_exists, not_and]
  exact h

theorem startPools_returns (j : Codec) (kind : CommunicationType)
    (create : String → Nat → CreateEnv) :
    ∀ (plugins : List (String × PluginConfig)) (pools pools' : List (String × PluginPool))
      (u : Unit),
      startPools j kind create plugins pools = (.returns u, pools') →
      (plugins.map Prod.fst).Nodup →
      (∀ kv ∈ plugins, ∀ kv' ∈ pools, kv'.1 ≠ kv.1) →
      pools' = pools ++ (plugins.filter (poolStarts j kind create)).map
        (startedPool j kind create) := by
  intro plugins
  induction plugins with
  | nil =>
    intro pools pools' u h _ _
    simp only [startPools, Prod.mk.injEq] at h
    simp [h.2]
  | cons kv rest ih =>
    intro pools pools' u h hnd hdis
    obtain ⟨name, cfg⟩ := kv
    have hnd2 : (rest.map Prod.fst).Nodup := (List.nodup_cons.mp hnd).2
    have hnotin : ∀ kv ∈ rest, kv.1 ≠ name := by
      intro kv hkv heq
      have hmem := List.mem_map_of_mem Prod.fst hkv
      rw [heq] at hmem
      exact (List.nodup_cons.mp hnd).1 hmem
    rcases hs : (NewPluginPool name cfg).Start j kind (create name) with ⟨o, pool⟩
    simp only [startPools, hs] at h
    cases o with
    | returns r =>
      cases r with
      | some err =>
        have hps : poolStarts j kind create (name, cfg) = false := by
          simp only [poolStarts, hs]
        rw [List.filter_cons_of_neg (by simp [hps])]
        exact ih pools pools' u h hnd2
          (fun kv hkv kv' hkv' => hdis kv (List.mem_cons_of_mem _ hkv) kv' hkv')
      | none =>
        have hps : poolStarts j kind create (name, cfg) = true := by
          simp only [poolStarts, hs]
        have hsp : startedPool j kind create (name, cfg) = (name, pool) := by
          simp only [startedPool, hs]
        rw [List.filter_cons_of_pos hps, List.map_cons, hsp]
        change startPools j kind create rest (poolsInsert pools name pool) = _ at h
        rw [poolsInsert_new pools name pool
          (fun kv' hkv' => hdis (name, cfg) (List.mem_cons_self _ _) kv' hkv')] at h
        have := ih (pools ++ [(name, pool)]) pools' u h hnd2 (by
          intro kv hkv kv' hkv'
          rcases List.mem_append.mp hkv' with hk | hk
          · exact hdis kv (List.mem_cons_of_mem _ hkv) kv' hk
          · rw [List.mem_singleton] at hk
            subst hk
            exact fun heq => hnotin kv hkv heq.symm)
        rw [this, List.append_assoc]
        rfl
    | panics text => cases h
    | blocks => cases h

theorem startPools_fresh (j : Codec) (kind : CommunicationType)
    (create : String → Nat → CreateEnv) :
    ∀ (plugins : List (String × PluginConfig)) (pools : List (String × PluginPool)),
      (∀ kv ∈ plugins, (NewPluginPool kv.1 kv.2).freshLoop j kind (create kv.1)
        kv.2.PoolSize.toNat 0 = true) →
      ∃ u, (startPools j kind create plugins pools).1 = .returns u := by
  intro plugins
  induction plugins with
  | nil =>
    intro pools _
    exact ⟨(), rfl⟩
  | cons kv rest ih =>
    intro pools hfresh
    obtain ⟨name, cfg⟩ := kv
    obtain ⟨r, hr⟩ := PoolStart_returns j kind name cfg (create name)
      (hfresh (name, cfg) (List.mem_cons_self _ _))
    rcases hs : (NewPluginPool name cfg).Start j kind (create name) with ⟨o, pool⟩
    rw [hs] at hr
    simp only at hr
    subst hr
    simp only [startPools, hs]
    cases r with
    | some err => exact ih pools (fun kv hkv => hfresh kv (List.mem_cons_of_mem _ hkv))
    | none => exact ih _ (fun kv hkv => hfresh kv (List.mem_cons_of_mem _ hkv))

/-- C20. A manager reached from `NewPluginManager` by operations that returned is
not running, its configuration is accepted by `ValidateConfig` and has one entry
for a name. Then `Start`, for every outcome of the pool starts: it returns
(when no pool start draws an identifier twice); it returns nil exactly when
the pool of one plugin started; on success `IsRunning` is true and `Pools` holds
exactly the plugins whose pool started, each with that pool; when no pool
starts it returns an error, `IsRunning` is false and `Pools` is empty. -/
theorem ManagerStart_result (j : Codec) (kind : CommunicationType) (config : SystemConfig)
    (ops : List ManagerOp) (pm : PluginManager) (create : String → Nat → CreateEnv)
    (hreach : (NewPluginManager config).run j kind ops = (.returns (), pm))
    (hnr : pm.IsRunning = false) (hvalid : ValidateConfig pm.Config = none)
    (hkeys : (pm.Config.Plugins.map Prod.fst).Nodup) :
    ((∀ kv ∈ pm.Config.Plugins, (NewPluginPool kv.1 kv.2).freshLoop j kind (create kv.1)
        kv.2.PoolSize.toNat 0 = true) →
      ∃ r, (pm.Start j kind create).1 = .returns r) ∧
    (∀ r, (pm.Start j kind create).1 = .returns r →
      (r = none ↔ ∃ kv ∈ pm.Config.Plugins, poolStarts j kind create kv = true) ∧
      (r = none →
        (pm.Start j kind create).2.IsRunning = true ∧
        (pm.Start j kind create).2.Pools =
          (pm.Config.Plugins.filter (poolStarts j kind create)).map
            (startedPool j kind create)) ∧
      (r ≠ none →
        (pm.Start j kind create).2.IsRunning = false ∧
        (pm.Start j kind create).2.Pools = [])) := by
  have hpools : pm.Pools = [] := by
    have := managerRun_settled j kind ops (NewPluginManager config) (fun _ => rfl) ()
    rw [hreach] at this
    exact this rfl hnr
  have hstart : pm.Start j kind create =
      match startPools j kind create pm.Config.Plugins [] with
      | (.returns _, pools) =>
        if pools.length = 0 then
          (.returns (some (.errorf "没有成功启动任何插件池")), { pm with Pools := pools })
        else (.returns none, { pm with Pools := pools, IsRunning := true })
      | (.panics text, pools) => (.panics text, { pm with Pools := pools })
      | (.blocks, pools) => (.blocks, { pm with Pools := pools }) := by
    unfold PluginManager.Start
    rw [if_neg (by simp [hnr]), hvalid, hpools]
  rw [hstart]
  constructor
  · intro hfresh
    obtain ⟨u, hu⟩ := startPools_fresh j kind create pm.Config.Plugins [] hfresh
    rcases hl : startPools j kind create pm.Config.Plugins [] with ⟨o, pools⟩
    rw [hl] at hu
    simp only at hu
    subst hu
    dsimp only
    split_ifs <;> exact ⟨_, rfl⟩
  · intro r hr
    rcases hl : startPools j kind create pm.Config.Plugins [] with ⟨o, pools⟩
    rw [hl] at hr
    cases o with
    | panics text => cases hr
    | blocks => cases hr
    | returns u =>
      have hp := startPools_returns j kind create pm.Config.Plugins [] pools u hl hkeys
        (fun _ _ kv' hkv' => by cases hkv')
      rw [List.nil_append] at hp
      dsimp only at hr ⊢
      by_cases hlen : pools.length = 0
      · rw [if_pos hlen] at hr ⊢
        simp only [Outcome.returns.injEq] at hr
        subst hr
        have hnil : pools = [] := List.eq_nil_of_length_eq_zero hlen
        refine ⟨⟨(fun h => by cases h), ?_⟩, (fun h => by cases h), fun _ => ⟨hnr, hnil⟩⟩
        rintro ⟨kv, hkv, hst⟩
        have hmem : startedPool j kind create kv ∈ pools := by
          rw [hp]
          exact List.mem_map_of_mem _ (List.mem_filter.mpr ⟨hkv, hst⟩)
        rw [hnil] at hmem
        cases hmem
      · rw [if_neg hlen] at hr ⊢
        simp only [Outcome.returns.injEq] at hr
        subst hr
        refine ⟨⟨fun _ => ?_, fun _ => rfl⟩, fun _ => ⟨rfl, hp⟩, fun h => absurd rfl h⟩
        cases hpl : pools with
        | nil => rw [hpl] at hlen; exact absurd rfl hlen
        | cons kv' rest =>
          have hmem : kv' ∈ (pm.Config.Plugins.filter (poolStarts j kind create)).map
              (startedPool j kind create) := by
            rw [← hp, hpl]
            exact List.mem_cons_self _ _
          obtain ⟨kv, hkv, -⟩ := List.mem_map.mp hmem
          exact ⟨kv, (List.mem_filter.mp hkv).1, (List.mem_filter.mp hkv).2⟩

/-- Witness for `ManagerStart_result`: the fresh manager of the examples starts;
its one pool is registered. -/
theorem ManagerStart_result_witness :
    (∃ r, ((NewPluginManager sampleSystemConfig).Start (sampleCodec sampleKnown) .unix
      (fun _ => sampleCreateEnvs)).1 = .returns r) ∧
    ((NewPluginManager sampleSystemConfig).Start (sampleCodec sampleKnown) .unix
      (fun _ => sampleCreateEnvs)).2.IsRunning = true :=
  ⟨(ManagerStart_result (sampleCodec sampleKnown) .unix sampleSystemConfig []
      (NewPluginManager sampleSystemConfig) (fun _ => sampleCreateEnvs) rfl rfl rfl
      (by decide)).1 (by decide),
    (((ManagerStart_result (sampleCodec sampleKnown) .unix sampleSystemConfig []
      (NewPluginManager sampleSystemConfig) (fun _ => sampleCreateEnvs) rfl rfl rfl
      (by decide)).2 none rfl).2.1 rfl).1⟩

/-! ### Configuration: what ValidateConfig accepts -/

theorem validatePlugin_error_iff (name : String) (c : PluginConfig) :
    (∃ e, validatePlugin name c = .error e) ↔ c.rejected := by
  have hne : PluginTypeBinary ≠ PluginTypeScript := by decide
  have tail : ∀ (x : Except GoError PluginConfig),
      (x = validatePlugin name c) →
      (c.Type_ = PluginTypeBinary ∧ c.Path ≠ "" ∨
        c.Type_ = PluginTypeScript ∧ c.Interpreter ≠ "" ∧ c.ScriptPath ≠ "") →
      ((∃ e, x = .error e) ↔ c.Functions = []) := by
    intro x hx hok
    subst hx
    unfold validatePlugin
    rcases hok with ⟨hb, hp⟩ | ⟨hs, hi, hsp⟩
    · simp only [hb, hp, if_true, if_false]
      split_ifs <;> ((try dsimp only at *); simp_all [List.length_eq_zero])
    · have hsb : ¬ (PluginTypeScript = PluginTypeBinary) := fun h => hne h.symm
      simp only [hs, hi, hsp, hsb, if_true, if_false]
      split_ifs <;> ((try dsimp only at *); simp_all [List.length_eq_zero])
  unfold PluginConfig.rejected
  by_cases hb : c.Type_ = PluginTypeBinary
  · have hs : c.Type_ ≠ PluginTypeScript := fun h => hne (hb.symm.trans h)
    by_cases hp : c.Path = ""
    · constructor
      · intro _
        exact Or.inr (Or.inl ⟨hb, hp⟩)
      · intro _
        unfold validatePlugin
        simp only [hb, hp, if_true]
        exact ⟨_, rfl⟩
    · rw [tail _ rfl (Or.inl ⟨hb, hp⟩)]
      constructor
      · intro h
        exact Or.inr (Or.inr (Or.inr h))
      · rintro (⟨h, -⟩ | ⟨-, h⟩ | ⟨h, -⟩ | h)
        · exact absurd hb h
        · exact absurd h hp
        · exact absurd h hs
        · exact h
  · by_cases hs : c.Type_ = PluginTypeScript
    · by_cases hi : c.Interpreter = ""
      · constructor
        · intro _
          exact Or.inr (Or.inr (Or.inl ⟨hs, Or.inl hi⟩))
        · intro _
          unfold validatePlugin
          simp only [hb, hs, hi, if_true, if_false]
          exact ⟨_, rfl⟩
      · by_cases hsp : c.ScriptPath = ""
        · constructor
          · intro _
            exact Or.inr (Or.inr (Or.inl ⟨hs, Or.inr hsp⟩))
          · intro _
            unfold validatePlugin
            simp only [hb, hs, hi, hsp, if_true, if_false]
            exact ⟨_, rfl⟩
        · rw [tail _ rfl (Or.inr ⟨hs, hi, hsp⟩)]
          constructor
          · intro h
            exact Or.inr (Or.inr (Or.inr h))
          · rintro (⟨-, h⟩ | ⟨h, -⟩ | ⟨-, h | h⟩ | h)
            · exact absurd hs h
            · exact absurd h hb
            · exact absurd h hi
            · exact absurd h hsp
            · exact h
    · constructor
      · intro _
        exact Or.inl ⟨hb, hs⟩
      · intro _
        unfold validatePlugin
        simp only [hb, hs, if_false]
        exact ⟨_, rfl⟩

theorem validatePlugins_isSome (plugins : List (String × PluginConfig)) :
    (validatePlugins plugins).isSome = true ↔ ∃ kv ∈ plugins, kv.2.rejected := by
  induction plugins with
  | nil => simp [validatePlugins]
  | cons kv rest ih =>
    obtain ⟨name, c⟩ := kv
    have hv := validatePlugin_error_iff name c
    unfold validatePlugins
    rcases hvp : validatePlugin name c with err | d
    · have hrej : c.rejected := hv.mp ⟨err, hvp⟩
      simp only [Option.isSome_some, true_iff]
      exact ⟨(name, c), List.mem_cons_self _ _, hrej⟩
    · have hrej : ¬ c.rejected := by
        intro h
        obtain ⟨e, he⟩ := hv.mpr h
        rw [hvp] at he
        cases he
      simp only
      rw [ih]
      constructor
      · rintro ⟨kv, hkv, hr⟩
        exact ⟨kv, List.mem_cons_of_mem _ hkv, hr⟩
      · rintro ⟨kv, hkv, hr⟩
        rcases List.mem_cons.mp hkv with h | h
        · subst h
          exact absurd hr hrej
        · exact ⟨kv, h, hr⟩

/-- C21. `ValidateConfig` returns an error exactly when the configuration has no
plugin or one of its plugins is rejected by the data model (a type other than
binary or script, a binary plugin with an empty `Path`, a script plugin with an
empty `Interpreter` or `ScriptPath`, an empty `Functions` list); and whether it
returns an error is the same for every order in which `range` visits the
plugins. -/
theorem ValidateConfig_rejects (config : SystemConfig) :
    ((ValidateConfig config).isSome = true ↔
      (config.Plugins = [] ∨ ∃ kv ∈ config.Plugins, kv.2.rejected)) ∧
    (∀ visited : List (String × PluginConfig), visited.Perm config.Plugins →
      (ValidateConfig { config with Plugins := visited }).isSome =
        (ValidateConfig config).isSome) := by
  have key : ∀ c : SystemConfig, ((ValidateConfig c).isSome = true ↔
      (c.Plugins = [] ∨ ∃ kv ∈ c.Plugins, kv.2.rejected)) := by
    intro c
    unfold ValidateConfig
    by_cases h0 : c.Plugins.length = 0
    · rw [if_pos h0]
      simp [List.eq_nil_of_length_eq_zero h0]
    · rw [if_neg h0, validatePlugins_isSome]
      have hne : c.Plugins ≠ [] := fun h => h0 (by rw [h]; rfl)
      simp [hne]
  refine ⟨key config, fun visited hperm => ?_⟩
  rw [Bool.eq_iff_iff, key, key]
  dsimp only
  constructor
  · rintro (h | ⟨kv, hkv, hr⟩)
    · rw [h] at hperm
      exact Or.inl hperm.symm.eq_nil
    · exact Or.inr ⟨kv, hperm.mem_iff.mp hkv, hr⟩
  · rintro (h | ⟨kv, hkv, hr⟩)
    · rw [h] at hperm
      exact Or.inl hperm.eq_nil
    · exact Or.inr ⟨kv, hperm.mem_iff.mpr hkv, hr⟩

/-- Witness for `ValidateConfig_rejects`: the configuration of the examples is
accepted, also when its plugins are visited in reverse. -/
theorem ValidateConfig_rejects_witness :
    (ValidateConfig { sampleSystemConfig with
      Plugins := sampleSystemConfig.Plugins.reverse }).isSome =
      (ValidateConfig sampleSystemConfig).isSome :=
  (ValidateConfig_rejects sampleSystemConfig).2 sampleSystemConfig.Plugins.reverse
    (List.reverse_perm _)

/-- C22, the code on a failing input. The plugin `math` is configured with
`PoolSize` 0 and `MaxInstances` 0. `ValidateConfig` returns nil. The defaults 3 and 10
were written to the copy of the record that the loop works on, which the
round drops: the record stored in the configuration still has `PoolSize` 0 and
`MaxInstances` 0, and the pool `NewPluginPool` then builds from it has the ceiling 0.
A record with `PoolSize` 5 above `MaxInstances` 2 is accepted as well, no statement
compares the two. -/
theorem ValidateConfig_keeps_sizes :
    ValidateConfig { Plugins := [("math", sampleUnsizedConfig)] } = none ∧
    (∃ copy, validatePlugin "math" sampleUnsizedConfig = .ok copy ∧
      copy.PoolSize = 3 ∧ copy.MaxInstances = 10) ∧
    sampleUnsizedConfig.PoolSize = 0 ∧ sampleUnsizedConfig.MaxInstances = 0 ∧
    ((NewPluginManager { Plugins := [("math", sampleUnsizedConfig)] }).Start
      (sampleCodec sampleKnown) .unix (fun _ => sampleCreateEnvs)).2.Config.Plugins =
      [("math", sampleUnsizedConfig)] ∧
    (NewPluginPool "math" sampleUnsizedConfig).MaxInstances = 0 ∧
    ValidateConfig { Plugins := [("math", sampleOversizedConfig)] } = none ∧
    sampleOversizedConfig.MaxInstances < sampleOversizedConfig.PoolSize := by
  refine ⟨rfl, ⟨_, rfl, rfl, rfl⟩, rfl, rfl, ?_, rfl, rfl, ?_⟩ <;> decide

/-- C23, the code on failing inputs. The manager of the examples runs with the
pool of `math`. `AddPlugin("calc", c)` is called with a record `c` whose `Functions`
list is empty, a record that `ValidateConfig` rejects when `Start` meets it. `AddPlugin`
does not validate: it stores the record, builds and starts the pool (a
worker process is spawned), registers it and returns nil. The same happens
for a record whose `PoolSize` 2 is above its `MaxInstances` 1. -/
theorem AddPlugin_accepts_invalid_config :
    (ValidateConfig { Plugins := [("calc", sampleNoFunctionsConfig)] }).isSome = true ∧
    ((((NewPluginManager sampleSystemConfig).run (sampleCodec sampleKnown) .unix
      [.start (fun _ => sampleCreateEnvs)]).2.AddPlugin (sampleCodec sampleKnown) .unix
        sampleCreateEnvs "calc" sampleNoFunctionsConfig).1 = .returns none) ∧
    ((((NewPluginManager sampleSystemConfig).run (sampleCodec sampleKnown) .unix
      [.start (fun _ => sampleCreateEnvs)]).2.AddPlugin (sampleCodec sampleKnown) .unix
        sampleCreateEnvs "calc" sampleNoFunctionsConfig).2.Pools.map
          (fun kv => (kv.1, kv.2.IsRunning, kv.2.heap.map
            (fun inst => inst.Process.map (fun cmd => cmd.started)))) =
      [("math", true, [some true]), ("calc", true, [some true])]) ∧
    ((((NewPluginManager sampleSystemConfig).run (sampleCodec sampleKnown) .unix
      [.start (fun _ => sampleCreateEnvs)]).2.AddPlugin (sampleCodec sampleKnown) .unix
        sampleCreateEnvs "calc" sampleNoFunctionsConfig).2.Config.Plugins =
      [("math", sampleConfig), ("calc", sampleNoFunctionsConfig)]) ∧
    ((((NewPluginManager sampleSystemConfig).run (sampleCodec sampleKnown) .unix
      [.start (fun _ => sampleCreateEnvs)]).2.AddPlugin (sampleCodec sampleKnown) .unix
        sampleCreateEnvs "calc" sampleOverCeilingConfig).1 = .returns none) ∧
    ((((NewPluginManager sampleSystemConfig).run (sampleCodec sampleKnown) .unix
      [.start (fun _ => sampleCreateEnvs)]).2.AddPlugin (sampleCodec sampleKnown) .unix
        sampleCreateEnvs "calc" sampleOverCeilingConfig).2.Pools.map
          (fun kv => (kv.1, kv.2.IsRunning)) =
      [("math", true), ("calc", true)]) := by
  refine ⟨?_, rfl, ?_, ?_, rfl, ?_⟩ <;> decide

/-! ### Child environment and socket address -/

/-- C24, counterexample. The record of the plugin sets `GOPROC_PLUGIN_ADDRESS` in
its `Environment`. `startProcess` appends the entries of the record behind the
entry of the host, so the value in effect for the child is the one of the
record, not the address of the instance; the trailing argument is the
address. -/
theorem startProcess_env_counterexample :
    ((sampleOverridingInstance.startProcess sampleStartEnv).2.Process.map
      (fun cmd => cmd.Env)) =
      some ["PATH=/usr/bin", "GOPROC_PLUGIN_ADDRESS=/tmp/goproc_sockets/math-math1.sock",
        "GOPROC_PLUGIN_ADDRESS=/tmp/other.sock"] ∧
    ((sampleOverridingInstance.startProcess sampleStartEnv).2.Process.map
      (fun cmd => effectiveEnv cmd.Env "GOPROC_PLUGIN_ADDRESS")) =
      some (some "/tmp/other.sock") ∧
    ((sampleOverridingInstance.startProcess sampleStartEnv).2.Process.map
      (fun cmd => cmd.Args.getLast?)) = some (some sampleOverridingInstance.Address) ∧
    sampleOverridingInstance.Address ≠ "/tmp/other.sock" := by
  refine ⟨?_, ?_, ?_, ?_⟩ <;> decide

theorem foldl_entries (entries : List (String × String)) (init : List String) :
    entries.foldl (fun acc kv => acc ++ [kv.1 ++ "=" ++ kv.2]) init =
      init ++ entries.map (fun kv => kv.1 ++ "=" ++ kv.2) := by
  induction entries generalizing init with
  | nil => simp
  | cons kv rest ih => simp [ih]

theorem entryKey_address (address : String) :
    ("GOPROC_PLUGIN_ADDRESS=" ++ address).toList.contains '=' = true ∧
    entryKey ("GOPROC_PLUGIN_ADDRESS=" ++ address) = "GOPROC_PLUGIN_ADDRESS" ∧
    entryValue ("GOPROC_PLUGIN_ADDRESS=" ++ address) = address := by
  have hd : ("GOPROC_PLUGIN_ADDRESS=" ++ address).toList =
      "GOPROC_PLUGIN_ADDRESS".toList ++ '=' :: address.toList := by
    show ("GOPROC_PLUGIN_ADDRESS=" ++ address).data = _
    rw [String.data_append]
    rfl
  refine ⟨?_, ?_, ?_⟩
  · rw [hd]
    simp
  · unfold entryKey
    rw [hd]
    rfl
  · unfold entryValue
    rw [hd]
    rfl

/-- C24, amended. For every record and every parent environment the address of
the instance is the trailing command-line argument of the child; and when no
entry that the `Environment` of the record yields has the name
`GOPROC_PLUGIN_ADDRESS`, the value of `GOPROC_PLUGIN_ADDRESS` in effect for the child
(the last entry for that name in the list `startProcess` builds) is the address
of the instance. -/
theorem startProcess_env_address (env : StartEnv) (pi : PluginInstance) :
    ∃ cmd, (pi.startProcess env).2.Process = some cmd ∧
      cmd.Args.getLast? = some pi.Address ∧
      ((∀ kv ∈ pi.Config.Environment,
          entryKey (kv.1 ++ "=" ++ kv.2) ≠ "GOPROC_PLUGIN_ADDRESS") →
        effectiveEnv cmd.Env "GOPROC_PLUGIN_ADDRESS" = some pi.Address) := by
  obtain ⟨h1, h2, h3⟩ := entryKey_address pi.Address
  have henv : (∀ kv ∈ pi.Config.Environment,
        entryKey (kv.1 ++ "=" ++ kv.2) ≠ "GOPROC_PLUGIN_ADDRESS") →
      effectiveEnv
        (pi.Config.Environment.foldl (fun acc kv => acc ++ [kv.1 ++ "=" ++ kv.2])
          (env.environ ++ ["GOPROC_PLUGIN_ADDRESS=" ++ pi.Address]))
        "GOPROC_PLUGIN_ADDRESS" = some pi.Address := by
    intro hcfg
    unfold effectiveEnv
    rw [foldl_entries, List.reverse_append, List.reverse_append, List.find?_append]
    have hnone : List.find?
        (fun e => e.toList.contains '=' && entryKey e == "GOPROC_PLUGIN_ADDRESS")
        (pi.Config.Environment.map (fun kv => kv.1 ++ "=" ++ kv.2)).reverse = none := by
      rw [List.find?_eq_none]
      intro e he
      rw [List.mem_reverse, List.mem_map] at he
      obtain ⟨kv, hkv, rfl⟩ := he
      have := hcfg kv hkv
      simp [this]
    rw [hnone]
    simp only [List.reverse_cons, List.reverse_nil, List.nil_append, Option.none_or,
      List.singleton_append, List.find?_cons, h1, h2, beq_self_eq_true, Bool.and_self,
      Option.map_some', h3]
  have hargs : ∀ (xs : List String), (xs ++ [pi.Address]).getLast? = some pi.Address := by
    intro xs
    simp
  unfold PluginInstance.startProcess
  dsimp only
  rcases hsp : env.spawnError with _ | text
  · dsimp only
    split_ifs
    · exact ⟨_, rfl, hargs (_ :: _), henv⟩
    · exact ⟨_, rfl, hargs (_ :: _), henv⟩
  · dsimp only
    split_ifs
    · exact ⟨_, rfl, hargs (_ :: _), henv⟩
    · exact ⟨_, rfl, hargs (_ :: _), henv⟩

/-- Witness for `startProcess_env_address`: the instance of the examples, whose
record has no `Environment`. -/
theorem startProcess_env_address_witness :
    ∃ cmd, ((sampleInstance []).startProcess sampleStartEnv).2.Process = some cmd ∧
      cmd.Args.getLast? = some (sampleInstance []).Address ∧
      effectiveEnv cmd.Env "GOPROC_PLUGIN_ADDRESS" = some (sampleInstance []).Address :=
  (startProcess_env_address sampleStartEnv (sampleInstance [])).imp
    (fun _ h => ⟨h.1, h.2.1, h.2.2 (fun kv hkv => by cases hkv)⟩)

/-- C25, counterexample. For the plugin name `../x` and the instance id `1` the
address is `/tmp/x-1.sock`: `filepath.Join` cleans the `..` away, so the result is
not the concatenation and lies in `/tmp`, outside `/tmp/goproc_sockets`. For the
plugin name `a/b` the address is the concatenation, but the file lies in the
subdirectory `/tmp/goproc_sockets/a`. -/
theorem GenerateAddress_counterexample :
    UnixCommunication.GenerateAddress "../x" "1" = "/tmp/x-1.sock" ∧
    UnixCommunication.GenerateAddress "../x" "1" ≠
      "/tmp/goproc_sockets/" ++ "../x" ++ "-" ++ "1" ++ ".sock" ∧
    filepathDir (UnixCommunication.GenerateAddress "../x" "1") = "/tmp" ∧
    UnixCommunication.GenerateAddress "a/b" "1" = "/tmp/goproc_sockets/a/b-1.sock" ∧
    filepathDir (UnixCommunication.GenerateAddress "a/b" "1") = "/tmp/goproc_sockets/a" := by
  refine ⟨?_, ?_, ?_, ?_, ?_⟩ <;> decide

theorem splitSlash_cons (c : Char) (cs : List Char) :
    splitSlash (c :: cs) =
      if c = '/' then [] :: splitSlash cs
      else match splitSlash cs with
        | [] => [[c]]
        | e :: es => (c :: e) :: es := rfl

theorem splitSlash_noslash (e : List Char) (h : '/' ∉ e) : splitSlash e = [e] := by
  induction e with
  | nil => rfl
  | cons c cs ih =>
    have hc : c ≠ '/' := fun hc => h (hc ▸ List.mem_cons_self _ _)
    have hcs : '/' ∉ cs := fun hm => h (List.mem_cons_of_mem _ hm)
    rw [splitSlash_cons, if_neg hc, ih hcs]

theorem splitSlash_socketsDir (e : List Char) (h : '/' ∉ e) :
    splitSlash ("/tmp/goproc_sockets/".toList ++ e) =
      [[], "tmp".toList, "goproc_sockets".toList, e] := by
  have happ : ∀ pre : List Char, splitSlash (pre ++ e) =
      pre.foldr (fun c acc =>
        if c = '/' then [] :: acc
        else match acc with
          | [] => [[c]]
          | e :: es => (c :: e) :: es) (splitSlash e) := by
    intro pre
    unfold splitSlash
    rw [List.foldr_append]
    try rfl
  rw [happ, splitSlash_noslash e h]
  rfl

theorem dropWhile_append_all {α : Type} (p : α → Bool) (l1 l2 : List α)
    (h : ∀ x ∈ l1, p x = true) : (l1 ++ l2).dropWhile p = l2.dropWhile p := by
  induction l1 with
  | nil => rfl
  | cons a rest ih =>
    rw [List.cons_append, List.dropWhile_cons, h a (List.mem_cons_self _ _)]
    exact ih (fun x hx => h x (List.mem_cons_of_mem _ hx))

theorem filepathClean_of_split (cs e : List Char) (hhead : cs.head? = some '/')
    (hsplit : splitSlash cs = [[], "tmp".toList, "goproc_sockets".toList, e])
    (h0 : e ≠ []) (h1 : e ≠ ['.']) (h2 : e ≠ ['.', '.']) :
    filepathClean (String.mk cs) = "/tmp/goproc_sockets/" ++ String.mk e := by
  have hcs : (String.mk cs).toList = cs := rfl
  have s1 : cleanStep True [] [] = [] := by decide
  have s2 : cleanStep True [] "tmp".toList = ["tmp".toList] := by decide
  have s3 : cleanStep True ["tmp".toList] "goproc_sockets".toList =
      ["goproc_sockets".toList, "tmp".toList] := by decide
  have s4 : cleanStep True ["goproc_sockets".toList, "tmp".toList] e =
      [e, "goproc_sockets".toList, "tmp".toList] := by
    unfold cleanStep
    rw [if_neg (by simp [h0, h1]), if_neg h2]
  unfold filepathClean
  simp only [hcs, hhead, hsplit, List.foldl_cons, List.foldl_nil, s1, s2, s3, s4, if_true]
  apply String.ext
  simp [String.intercalate, String.intercalate.go, String.data_append]

/-- C25, amended. For every plugin name and instance id that contain no `/`,
`GenerateAddress` returns the path `/tmp/goproc_sockets/<plugin>-<instance>.sock`, and
that path denotes a file directly inside `/tmp/goproc_sockets`: its directory is
`/tmp/goproc_sockets`. -/
theorem GenerateAddress_flat (pluginName instanceID : String)
    (hp : '/' ∉ pluginName.toList) (hi : '/' ∉ instanceID.toList) :
    UnixCommunication.GenerateAddress pluginName instanceID =
      "/tmp/goproc_sockets/" ++ pluginName ++ "-" ++ instanceID ++ ".sock" ∧
    filepathDir (UnixCommunication.GenerateAddress pluginName instanceID) =
      "/tmp/goproc_sockets" := by
  have helem : (pluginName ++ "-" ++ instanceID ++ ".sock").toList =
      pluginName.toList ++ '-' :: (instanceID.toList ++ ".sock".toList) := by
    show (pluginName ++ "-" ++ instanceID ++ ".sock").data = _
    simp only [String.data_append, List.append_assoc]
    rfl
  generalize he : (pluginName ++ "-" ++ instanceID ++ ".sock").toList = e at helem
  have hdash : '-' ∈ e := by
    rw [helem]
    exact List.mem_append_right _ (List.mem_cons_self _ _)
  have hs : '/' ∉ e := by
    rw [helem]
    intro hm
    rcases List.mem_append.mp hm with hm | hm
    · exact hp hm
    · rcases List.mem_cons.mp hm with hm | hm
      · exact absurd hm (by decide)
      · rcases List.mem_append.mp hm with hm | hm
        · exact hi hm
        · exact absurd hm (by decide)
  have h0 : e ≠ [] := fun h => by rw [h] at hdash; cases hdash
  have h1 : e ≠ ['.'] := fun h => by rw [h] at hdash; exact absurd hdash (by decide)
  have h2 : e ≠ ['.', '.'] := fun h => by rw [h] at hdash; exact absurd hdash (by decide)
  have hne : ¬ (pluginName ++ "-" ++ instanceID ++ ".sock" = "") := by
    intro h
    apply h0
    rw [← he, h]
    rfl
  have hjoin : "/tmp/goproc_sockets" ++ "/" ++ (pluginName ++ "-" ++ instanceID ++ ".sock") =
      String.mk ("/tmp/goproc_sockets/".toList ++ e) := by
    apply String.ext
    rw [← he]
    simp [String.data_append]
  have haddr : UnixCommunication.GenerateAddress pluginName instanceID =
      "/tmp/goproc_sockets/" ++ String.mk e := by
    unfold UnixCommunication.GenerateAddress filepathJoin
    dsimp only
    rw [if_neg hne, hjoin]
    exact filepathClean_of_split _ e (by simp) (splitSlash_socketsDir e hs) h0 h1 h2
  have htext : "/tmp/goproc_sockets/" ++ String.mk e =
      "/tmp/goproc_sockets/" ++ pluginName ++ "-" ++ instanceID ++ ".sock" := by
    apply String.ext
    rw [← he]
    simp [String.data_append]
  refine ⟨haddr.trans htext, ?_⟩
  rw [haddr]
  unfold filepathDir
  have hl : ("/tmp/goproc_sockets/" ++ String.mk e).toList =
      "/tmp/goproc_sockets/".toList ++ e := by
    show ("/tmp/goproc_sockets/" ++ String.mk e).data = _
    rw [String.data_append]
    rfl
  have hdrop : (e.reverse ++ "/tmp/goproc_sockets/".toList.reverse).dropWhile
      (fun c => c ≠ '/') = "/tmp/goproc_sockets/".toList.reverse := by
    rw [dropWhile_append_all]
    · rfl
    · intro x hx
      rw [List.mem_reverse] at hx
      have : x ≠ '/' := fun h => hs (h ▸ hx)
      simpa using this
  rw [hl, List.reverse_append, hdrop]
  decide

/-- Witness for `GenerateAddress_flat`: the address of the instance `math1` of the
plugin `math`. -/
theorem GenerateAddress_flat_witness :
    UnixCommunication.GenerateAddress "math" "math1" =
      "/tmp/goproc_sockets/" ++ "math" ++ "-" ++ "math1" ++ ".sock" ∧
    filepathDir (UnixCommunication.GenerateAddress "math" "math1") = "/tmp/goproc_sockets" :=
  GenerateAddress_flat "math" "math1" (by decide) (by decide)

/-! ### Worker SDK: replies and framing -/

theorem sendMessage_repliedWith (j : Codec) (sdk : PluginSDK) (reply : Message) :
    PluginSDK.repliedWith j sdk
      { sdk with conn := (PluginSDK.sendMessage j sdk.conn reply).2 } reply := by
  refine ⟨rfl, rfl, fun data h => (PluginSDK_sendMessage_frame j sdk.conn reply data h).2,
    fun err h => ?_⟩
  show (PluginSDK.sendMessage j sdk.conn reply).2 = sdk.conn
  unfold PluginSDK.sendMessage
  rw [h]

/-- The round counter of the inner loop of `messageLoop` is never what ends it:
from the length of the buffer on, one more round changes nothing. -/
theorem handleFrames_fuel (j : Codec) :
    ∀ (fuel : Nat) (sdk : PluginSDK) (messageBuffer : List Byte),
      messageBuffer.length ≤ fuel →
      PluginSDK.handleFrames j (fuel + 1) sdk messageBuffer =
        PluginSDK.handleFrames j fuel sdk messageBuffer := by
  intro fuel
  induction fuel with
  | zero =>
    intro sdk messageBuffer h
    have hnil : messageBuffer = [] := List.eq_nil_of_length_eq_zero (Nat.le_zero.mp h)
    subst hnil
    rfl
  | succ fuel ih =>
    intro sdk messageBuffer h
    rw [PluginSDK.handleFrames]
    conv_rhs => rw [PluginSDK.handleFrames]
    by_cases h4 : messageBuffer.length ≥ 4
    · rw [if_pos h4, if_pos h4]
      dsimp only
      by_cases hlen : messageBuffer.length < 4 + headerLength messageBuffer
      · rw [if_pos hlen, if_pos hlen]
      · rw [if_neg hlen, if_neg hlen]
        apply ih
        rw [List.length_drop]
        omega
    · rw [if_neg h4, if_neg h4]

/-- C26. For every call envelope the worker SDK handles, with id `x`: the SDK
makes one reply, an envelope with id `x`; it is a `result` with the value of the
handler when the function is registered and its handler returns a value, and
an `error` when the function is not registered or its handler fails. For every
ping envelope with id `x` the one reply is a `pong` with id `x`. The reply is
sent as one frame (no frame when `encoding/json` cannot encode it). -/
theorem SDK_replies_echo_id (j : Codec) (sdk : PluginSDK) (data : List Byte) (msg : Message)
    (hdec : DecodeMessage j data = .ok msg) :
    (msg.Type_ = MessageTypeCall →
      ∃ reply : Message,
        PluginSDK.repliedWith j sdk (sdk.handleMessage j data) reply ∧ reply.ID = msg.ID ∧
        ((reply.Type_ = MessageTypeResult ∧
            ∃ handler, sdk.functions.lookup msg.Function = some handler ∧
              handler msg.Params = .ok reply.Result) ∨
          (reply.Type_ = MessageTypeError ∧
            (sdk.functions.lookup msg.Function = none ∨
              ∃ handler, sdk.functions.lookup msg.Function = some handler ∧
                handler msg.Params = .error reply.Error)))) ∧
    (msg.Type_ = MessageTypePing →
      PluginSDK.repliedWith j sdk (sdk.handleMessage j data)
        { Type_ := MessageTypePong, ID := msg.ID }) := by
  constructor
  · intro ht
    have hm : sdk.handleMessage j data = sdk.handleCallMessage j msg := by
      unfold PluginSDK.handleMessage
      rw [hdec]
      dsimp only
      rw [if_pos ht]
    rw [hm]
    unfold PluginSDK.handleCallMessage
    rcases hl : sdk.functions.lookup msg.Function with _ | handler
    · exact ⟨_, sendMessage_repliedWith j sdk _, rfl, Or.inr ⟨rfl, Or.inl rfl⟩⟩
    · dsimp only
      rcases hh : handler msg.Params with text | result
      · exact ⟨_, sendMessage_repliedWith j sdk _, rfl, Or.inr ⟨rfl, Or.inr ⟨handler, rfl, hh⟩⟩⟩
      · exact ⟨_, sendMessage_repliedWith j sdk _, rfl, Or.inl ⟨rfl, handler, rfl, hh⟩⟩
  · intro ht
    have hne : ¬ (msg.Type_ = MessageTypeCall) := by
      rw [ht]
      decide
    have hm : sdk.handleMessage j data = sdk.handlePingMessage j msg := by
      unfold PluginSDK.handleMessage
      rw [hdec]
      dsimp only
      rw [if_neg hne, if_pos ht]
    rw [hm]
    exact sendMessage_repliedWith j sdk _

/-- Witness for `SDK_replies_echo_id`: the worker of the examples answers the ping
`hb-1` with one frame, the pong `hb-1`. -/
theorem SDK_replies_echo_id_witness :
    PluginSDK.repliedWith (sampleCodec sampleKnown) (sampleSDK [])
      ((sampleSDK []).handleMessage (sampleCodec sampleKnown)
        ((sampleText { Type_ := MessageTypePing, ID := "hb-1" }).getD []))
      { Type_ := MessageTypePong, ID := "hb-1" } :=
  (SDK_replies_echo_id (sampleCodec sampleKnown) (sampleSDK [])
    ((sampleText { Type_ := MessageTypePing, ID := "hb-1" }).getD [])
    { Type_ := MessageTypePing, ID := "hb-1" } rfl).2 rfl

/-- C29, the code on a failing input. The stream of the host is the frame of
`register_ack` followed by the frame of the ping `hb-1`. When the two frames come
in two reads, the worker answers the ping: it writes its register frame and
the pong `hb-1`. When they come in one read, `sendRegisterMessageAndWait` takes both
into its `messageBuffer`, returns at `register_ack` and drops the buffer with the
ping in it; `messageLoop` starts with an empty buffer, meets the end of the
stream and handles no frame: `Start` returns nil and the only write is the
register frame. -/
theorem SDK_drops_frame_read_with_ack :
    (((sampleSDK [.data (sampleFrameBytes { Type_ := MessageTypeRegisterAck }),
        .data (sampleFrameBytes { Type_ := MessageTypePing, ID := "hb-1" })]).Start
      (sampleCodec sampleKnown)).2.conn.writes.map (fun w => w.data) =
      [sampleFrameBytes sampleSDKRegister,
        sampleFrameBytes { Type_ := MessageTypePong, ID := "hb-1" }]) ∧
    (((sampleSDK [.data (sampleFrameBytes { Type_ := MessageTypeRegisterAck } ++
        sampleFrameBytes { Type_ := MessageTypePing, ID := "hb-1" })]).Start
      (sampleCodec sampleKnown)).1.isNone = true) ∧
    (((sampleSDK [.data (sampleFrameBytes { Type_ := MessageTypeRegisterAck } ++
        sampleFrameBytes { Type_ := MessageTypePing, ID := "hb-1" })]).Start
      (sampleCodec sampleKnown)).2.conn.writes.map (fun w => w.data) =
      [sampleFrameBytes sampleSDKRegister]) ∧
    (((sampleSDK [.data (sampleFrameBytes { Type_ := MessageTypeRegisterAck } ++
        sampleFrameBytes { Type_ := MessageTypePing, ID := "hb-1" })]).Start
      (sampleCodec sampleKnown)).2.conn.script = []) := by
  refine ⟨?_, ?_, ?_, ?_⟩ <;> decide

/-! ### Locks of an instance: concurrent use of the connection -/

/-- C27, the code on a failing input. One goroutine runs `CallFunction` and
another `HealthCheck` on the same connected instance. `CallFunction` gives the
read lock back and takes `ConnMutex`; `HealthCheck` takes the read lock and never
asks for `ConnMutex`. After the schedule below both are inside an operation on
the connection. The same happens with `Stop`, which holds the write lock but
not `ConnMutex`, in place of `HealthCheck`. -/
theorem concurrent_io_on_connection :
    (({ threads := [(CallFunctionSteps, false), (HealthCheckSteps, false)] } : LockState).run
      [0, 0, 0, 0, 1, 1]).map LockState.usingConn = some 2 ∧
    (({ threads := [(CallFunctionSteps, false), (StopSteps, false)] } : LockState).run
      [0, 0, 0, 0, 1, 1]).map LockState.usingConn = some 2 ∧
    (({ threads := [(HealthCheckSteps, false), (HealthCheckSteps, false)] } : LockState).run
      [0, 0, 1, 1]).map LockState.usingConn = some 2 := by
  decide

/-! ### Plugin pool: growth and the entries of the channels -/

theorem waitForAvailableInstance_queues (pick : Bool) (pp : PluginPool) :
    (pp.waitForAvailableInstance pick).2.heap = pp.heap ∧
    (pp.waitForAvailableInstance pick).2.Instances = pp.Instances ∧
    (pp.waitForAvailableInstance pick).2.MaxInstances = pp.MaxInstances ∧
    (∀ ptr, (pp.waitForAvailableInstance pick).1 = .returns (.ok (some ptr)) →
      (ptr :: ((pp.waitForAvailableInstance pick).2.Available.buf ++
        (pp.waitForAvailableInstance pick).2.waitQueue.buf)).Perm
        (pp.Available.buf ++ pp.waitQueue.buf)) ∧
    ((∀ ptr, (pp.waitForAvailableInstance pick).1 ≠ .returns (.ok (some ptr))) →
      (pp.waitForAvailableInstance pick).2.Available.buf = pp.Available.buf ∧
      (pp.waitForAvailableInstance pick).2.waitQueue.buf = pp.waitQueue.buf) := by
  have fromA : ∀ (x : Option Ptr) (ch : Chan), pp.Available.tryRecv = some (x, ch) →
      (∀ ptr, (Outcome.returns (Except.ok x) : Outcome (Except GoError (Option Ptr))) =
          .returns (.ok (some ptr)) →
        (ptr :: (ch.buf ++ pp.waitQueue.buf)).Perm (pp.Available.buf ++ pp.waitQueue.buf)) ∧
      ((∀ ptr, (Outcome.returns (Except.ok x) : Outcome (Except GoError (Option Ptr))) ≠
          .returns (.ok (some ptr))) →
        ch.buf = pp.Available.buf ∧ pp.waitQueue.buf = pp.waitQueue.buf) := by
    intro x ch ha
    obtain ⟨-, -, t3, t4⟩ := tryRecv_spec _ _ _ ha
    cases x with
    | none =>
      refine ⟨(fun ptr hp => by cases hp), fun _ => ⟨?_, rfl⟩⟩
      rw [(t4 rfl).1]
    | some q =>
      refine ⟨fun ptr hp => ?_, fun hn => absurd rfl (hn q)⟩
      cases hp
      rw [t3 q rfl]
      exact List.Perm.refl _
  have fromW : ∀ (x : Option Ptr) (ch : Chan), pp.waitQueue.tryRecv = some (x, ch) →
      (∀ ptr, (Outcome.returns (Except.ok x) : Outcome (Except GoError (Option Ptr))) =
          .returns (.ok (some ptr)) →
        (ptr :: (pp.Available.buf ++ ch.buf)).Perm (pp.Available.buf ++ pp.waitQueue.buf)) ∧
      ((∀ ptr, (Outcome.returns (Except.ok x) : Outcome (Except GoError (Option Ptr))) ≠
          .returns (.ok (some ptr))) →
        pp.Available.buf = pp.Available.buf ∧ ch.buf = pp.waitQueue.buf) := by
    intro x ch hw
    obtain ⟨-, -, t3, t4⟩ := tryRecv_spec _ _ _ hw
    cases x with
    | none =>
      refine ⟨(fun ptr hp => by cases hp), fun _ => ⟨rfl, ?_⟩⟩
      rw [(t4 rfl).1]
    | some q =>
      refine ⟨fun ptr hp => ?_, fun hn => absurd rfl (hn q)⟩
      cases hp
      rw [t3 q rfl]
      exact List.perm_middle.symm
  unfold PluginPool.waitForAvailableInstance
  rcases ha : pp.Available.tryRecv with _ | ⟨x, ch⟩ <;>
    rcases hw : pp.waitQueue.tryRecv with _ | ⟨y, ch'⟩
  · exact ⟨rfl, rfl, rfl, (fun ptr hp => by cases hp), fun _ => ⟨rfl, rfl⟩⟩
  · exact ⟨rfl, rfl, rfl, (fromW y ch' hw).1, (fromW y ch' hw).2⟩
  · exact ⟨rfl, rfl, rfl, (fromA x ch ha).1, (fromA x ch ha).2⟩
  · dsimp only
    split_ifs
    · exact ⟨rfl, rfl, rfl, (fromA x ch ha).1, (fromA x ch ha).2⟩
    · exact ⟨rfl, rfl, rfl, (fromW y ch' hw).1, (fromW y ch' hw).2⟩

theorem GetInstance_cases (j : Codec) (kind : CommunicationType) (env : CreateEnv) (pick : Bool)
    (pp : PluginPool) :
    ((pp.GetInstance j kind env pick).2.heap = pp.heap ∧
      (pp.GetInstance j kind env pick).2.Instances = pp.Instances ∧
      (pp.GetInstance j kind env pick).2.MaxInstances = pp.MaxInstances ∧
      (∀ ptr, (pp.GetInstance j kind env pick).1 = .returns (.ok (some ptr)) →
        (ptr :: ((pp.GetInstance j kind env pick).2.Available.buf ++
          (pp.GetInstance j kind env pick).2.waitQueue.buf)).Perm
          (pp.Available.buf ++ pp.waitQueue.buf)) ∧
      ((∀ ptr, (pp.GetInstance j kind env pick).1 ≠ .returns (.ok (some ptr))) →
        (pp.GetInstance j kind env pick).2.Available.buf = pp.Available.buf ∧
        (pp.GetInstance j kind env pick).2.waitQueue.buf = pp.waitQueue.buf)) ∨
    (pp.IsRunning = true ∧ pp.Available.buf = [] ∧
      (pp.Instances.length : Int) < pp.MaxInstances ∧
      (pp.GetInstance j kind env pick).2.heap.length = pp.heap.length + 1) := by
  unfold PluginPool.GetInstance
  by_cases hr : (!pp.IsRunning) = true
  · rw [if_pos hr]
    exact Or.inl ⟨rfl, rfl, rfl, (fun ptr hp => by cases hp), fun _ => ⟨rfl, rfl⟩⟩
  · rw [if_neg hr]
    have hrun : pp.IsRunning = true := by simpa using hr
    rcases ha : pp.Available.tryRecv with _ | ⟨x, ch⟩
    · obtain ⟨hbuf, -⟩ := tryRecv_none _ ha
      dsimp only
      by_cases hcount : (pp.Instances.length : Int) < pp.MaxInstances
      · rw [if_pos hcount]
        rcases createNewInstance_spec j kind env pp with ⟨e, he⟩ | ⟨u, inst, -, -, -, heq⟩
        · rw [he]
          exact Or.inl ⟨rfl, rfl, rfl, (fun ptr hp => by cases hp), fun _ => ⟨rfl, rfl⟩⟩
        · right
          rw [heq]
          refine ⟨hrun, hbuf, hcount, ?_⟩
          split_ifs <;> simp
      · rw [if_neg hcount]
        exact Or.inl (waitForAvailableInstance_queues pick pp)
    · left
      obtain ⟨-, -, t3, t4⟩ := tryRecv_spec _ _ _ ha
      refine ⟨rfl, rfl, rfl, ?_, ?_⟩
      · intro ptr hp
        cases hp
        show (ptr :: (ch.buf ++ pp.waitQueue.buf)).Perm (pp.Available.buf ++ pp.waitQueue.buf)
        rw [t3 ptr rfl]
        exact List.Perm.refl _
      · intro hn
        cases x with
        | none =>
          refine ⟨?_, rfl⟩
          show ch.buf = pp.Available.buf
          rw [(t4 rfl).1]
        | some q => exact absurd rfl (hn q)

theorem ReturnInstance_queues (pp : PluginPool) (ptr : Ptr) :
    (pp.ReturnInstance ptr).2.heap = pp.heap ∧
    (pp.ReturnInstance ptr).2.Instances = pp.Instances ∧
    (pp.ReturnInstance ptr).2.MaxInstances = pp.MaxInstances ∧
    (((pp.ReturnInstance ptr).2.Available.buf = pp.Available.buf ∧
        (pp.ReturnInstance ptr).2.waitQueue.buf = pp.waitQueue.buf) ∨
      ((pp.ReturnInstance ptr).2.Available.buf = pp.Available.buf ∧
        (pp.ReturnInstance ptr).2.waitQueue.buf = pp.waitQueue.buf ++ [ptr]) ∨
      ((pp.ReturnInstance ptr).2.Available.buf = pp.Available.buf ++ [ptr] ∧
        (pp.ReturnInstance ptr).2.waitQueue.buf = pp.waitQueue.buf)) := by
  unfold PluginPool.ReturnInstance
  by_cases hr : (!pp.IsRunning) = true
  · rw [if_pos hr]
    exact ⟨rfl, rfl, rfl, Or.inl ⟨rfl, rfl⟩⟩
  · rw [if_neg hr]
    rcases hi : pp.heap[ptr]? with _ | inst
    · exact ⟨rfl, rfl, rfl, Or.inl ⟨rfl, rfl⟩⟩
    · dsimp only
      split_ifs
      · exact ⟨rfl, rfl, rfl, Or.inl ⟨rfl, rfl⟩⟩
      · exact ⟨rfl, rfl, rfl, Or.inl ⟨rfl, rfl⟩⟩
      · exact ⟨rfl, rfl, rfl, Or.inr (Or.inl ⟨rfl, rfl⟩)⟩
      · exact ⟨rfl, rfl, rfl, Or.inl ⟨rfl, rfl⟩⟩
      · exact ⟨rfl, rfl, rfl, Or.inr (Or.inr ⟨rfl, rfl⟩)⟩
      · exact ⟨rfl, rfl, rfl, Or.inl ⟨rfl, rfl⟩⟩

theorem PoolCallFunction_cases (j : Codec) (kind : CommunicationType) (env : PoolCallEnv)
    (pp : PluginPool) (functionName : String) (params : List (String × JValue)) :
    ((pp.CallFunction j kind env functionName params).2.heap.length = pp.heap.length ∧
      (pp.CallFunction j kind env functionName params).2.Instances = pp.Instances ∧
      (pp.CallFunction j kind env functionName params).2.MaxInstances = pp.MaxInstances ∧
      ((pp.Available.buf ++ pp.waitQueue.buf).Nodup →
        ((pp.CallFunction j kind env functionName params).2.Available.buf ++
          (pp.CallFunction j kind env functionName params).2.waitQueue.buf).Nodup)) ∨
    (pp.IsRunning = true ∧ pp.Available.buf = [] ∧
      (pp.Instances.length : Int) < pp.MaxInstances ∧
      (pp.CallFunction j kind env functionName params).2.heap.length = pp.heap.length + 1) := by
  have hget := GetInstance_cases j kind env.create env.pick pp
  unfold PluginPool.CallFunction
  rcases hg : pp.GetInstance j kind env.create env.pick with ⟨o, pp1⟩
  rw [hg] at hget
  simp only at hget
  have tail : ∀ (ptr : Ptr) (inst2 : PluginInstance),
      (({ pp1 with heap := pp1.heap.set ptr inst2 } : PluginPool).ReturnInstance ptr).2.heap.length =
        pp1.heap.length := by
    intro ptr inst2
    rw [(ReturnInstance_queues _ ptr).1]
    exact List.length_set _ _ _
  rcases hget with ⟨g1, g2, g3, g4, g5⟩ | ⟨c1, c2, c3, c4⟩
  · left
    have hsame : (∀ ptr, o ≠ .returns (.ok (some ptr))) →
        pp1.heap.length = pp.heap.length ∧ pp1.Instances = pp.Instances ∧
        pp1.MaxInstances = pp.MaxInstances ∧
        ((pp.Available.buf ++ pp.waitQueue.buf).Nodup →
          (pp1.Available.buf ++ pp1.waitQueue.buf).Nodup) := by
      intro hn
      refine ⟨congrArg List.length g1, g2, g3, fun hnd => ?_⟩
      rw [(g5 hn).1, (g5 hn).2]
      exact hnd
    cases o with
    | panics text => exact hsame (fun ptr hp => by cases hp)
    | blocks => exact hsame (fun ptr hp => by cases hp)
    | returns r =>
      cases r with
      | error err => exact hsame (fun ptr hp => by cases hp)
      | ok x =>
        cases x with
        | none => exact hsame (fun ptr hp => by cases hp)
        | some ptr =>
          have hperm := g4 ptr rfl
          dsimp only
          rcases hi : pp1.heap[ptr]? with _ | inst
          · refine ⟨congrArg List.length g1, g2, g3, fun hnd => ?_⟩
            exact (List.nodup_cons.mp (hperm.nodup_iff.mpr hnd)).2
          · dsimp only
            rcases hcall : inst.CallFunction j env.now env.later functionName params with
              ⟨result, inst2⟩
            dsimp only
            have hlen := tail ptr inst2
            obtain ⟨-, r2, r3, r4⟩ :=
              ReturnInstance_queues { pp1 with heap := pp1.heap.set ptr inst2 } ptr
            rcases hret : ({ pp1 with heap := pp1.heap.set ptr inst2 } : PluginPool).ReturnInstance
              ptr with ⟨o2, pp3⟩
            rw [hret] at hlen r2 r3 r4
            simp only at hlen r2 r3 r4
            have h3 : pp3.heap.length = pp.heap.length ∧ pp3.Instances = pp.Instances ∧
                pp3.MaxInstances = pp.MaxInstances ∧
                ((pp.Available.buf ++ pp.waitQueue.buf).Nodup →
                  (pp3.Available.buf ++ pp3.waitQueue.buf).Nodup) := by
              refine ⟨hlen.trans (congrArg List.length g1), r2.trans g2, r3.trans g3,
                fun hnd => ?_⟩
              have hcons := hperm.nodup_iff.mpr hnd
              rcases r4 with ⟨a, w⟩ | ⟨a, w⟩ | ⟨a, w⟩
              · rw [a, w]
                exact (List.nodup_cons.mp hcons).2
              · rw [a, w, ← List.append_assoc]
                exact (List.perm_append_singleton ptr _).nodup_iff.mpr hcons
              · rw [a, w, List.append_assoc, List.singleton_append]
                exact List.perm_middle.nodup_iff.mpr hcons
            cases o2 <;> exact h3
  · right
    refine ⟨c1, c2, c3, ?_⟩
    cases o with
    | panics text => exact c4
    | blocks => exact c4
    | returns r =>
      cases r with
      | error err => exact c4
      | ok x =>
        cases x with
        | none => exact c4
        | some ptr =>
          dsimp only
          rcases hi : pp1.heap[ptr]? with _ | inst
          · exact c4
          · dsimp only
            rcases hcall : inst.CallFunction j env.now env.later functionName params with
              ⟨result, inst2⟩
            dsimp only
            have hlen := tail ptr inst2
            rcases hret : ({ pp1 with heap := pp1.heap.set ptr inst2 } : PluginPool).ReturnInstance
              ptr with ⟨o2, pp3⟩
            rw [hret] at hlen
            simp only at hlen
            cases o2 <;> exact hlen.trans c4

theorem callsRun_at_ceiling (j : Codec) (kind : CommunicationType)
    (calls : List (PoolCallEnv × String × List (String × JValue))) :
    ∀ pp : PluginPool, pp.MaxInstances ≤ (pp.Instances.length : Int) →
      (pp.run j kind (calls.map callOp)).2.heap.length = pp.heap.length ∧
      (pp.run j kind (calls.map callOp)).2.Instances = pp.Instances ∧
      (pp.run j kind (calls.map callOp)).2.MaxInstances = pp.MaxInstances ∧
      ((pp.Available.buf ++ pp.waitQueue.buf).Nodup →
        ((pp.run j kind (calls.map callOp)).2.Available.buf ++
          (pp.run j kind (calls.map callOp)).2.waitQueue.buf).Nodup) := by
  induction calls with
  | nil =>
    intro pp _
    exact ⟨rfl, rfl, rfl, fun h => h⟩
  | cons c calls ih =>
    intro pp hceil
    rcases PoolCallFunction_cases j kind c.1 pp c.2.1 c.2.2 with ⟨h1, h2, h3, h4⟩ | ⟨-, -, hlt, -⟩
    · rcases hcf : pp.CallFunction j kind c.1 c.2.1 c.2.2 with ⟨o, pp1⟩
      rw [hcf] at h1 h2 h3 h4
      simp only at h1 h2 h3 h4
      cases o with
      | returns r =>
        have hrun : pp.run j kind ((c :: calls).map callOp) = pp1.run j kind (calls.map callOp) := by
          simp only [List.map_cons, PluginPool.run, callOp, PluginPool.step, hcf, Outcome.void]
        rw [hrun]
        obtain ⟨i1, i2, i3, i4⟩ := ih pp1 (by rw [h2, h3]; exact hceil)
        exact ⟨i1.trans h1, i2.trans h2, i3.trans h3, fun hnd => i4 (h4 hnd)⟩
      | panics text =>
        have hrun : pp.run j kind ((c :: calls).map callOp) = (.panics text, pp1) := by
          simp only [List.map_cons, PluginPool.run, callOp, PluginPool.step, hcf, Outcome.void]
        rw [hrun]
        exact ⟨h1, h2, h3, h4⟩
      | blocks =>
        have hrun : pp.run j kind ((c :: calls).map callOp) = (.blocks, pp1) := by
          simp only [List.map_cons, PluginPool.run, callOp, PluginPool.step, hcf, Outcome.void]
        rw [hrun]
        exact ⟨h1, h2, h3, h4⟩
    · omega

theorem PoolStart_queues (j : Codec) (kind : CommunicationType) (pluginName : String)
    (config : PluginConfig) (envs : Nat → CreateEnv)
    (hstart : ((NewPluginPool pluginName config).Start j kind envs).1 = .returns none) :
    (((NewPluginPool pluginName config).Start j kind envs).2.Available.buf ++
      ((NewPluginPool pluginName config).Start j kind envs).2.waitQueue.buf).Nodup ∧
    ((NewPluginPool pluginName config).Start j kind envs).2.MaxInstances = config.MaxInstances := by
  have hstartEq : (NewPluginPool pluginName config).Start j kind envs =
      match (NewPluginPool pluginName config).startLoop j kind envs config.PoolSize.toNat 0 0 with
      | (.returns successCount, pp) =>
        if successCount = 0 then
          (.returns (some (.errorf
            ("插件池 " ++ pp.PluginName ++ " 启动失败：无法创建任何插件实例"))), pp)
        else (.returns none, { pp with IsRunning := true })
      | (.panics text, pp) => (.panics text, pp)
      | (.blocks, pp) => (.blocks, pp) := rfl
  obtain ⟨-, s2, -, -, s5, -, -⟩ := startLoop_inv j kind envs config.PoolSize.toNat 0
    (NewPluginPool pluginName config) 0 (NewPluginPool_inv pluginName config).1
  rw [hstartEq] at hstart ⊢
  rcases hl : (NewPluginPool pluginName config).startLoop j kind envs
    config.PoolSize.toNat 0 0 with ⟨o, pp1⟩
  rw [hl] at hstart s2 s5
  simp only at s2 s5
  cases o with
  | returns c =>
    obtain ⟨-, d2, d3, -, -, -⟩ := startLoop_created j kind envs config.PoolSize.toNat 0
      (NewPluginPool pluginName config) 0 c pp1 hl
    dsimp only at hstart ⊢
    split_ifs at hstart ⊢ with hc0
    · cases hstart
    · refine ⟨?_, s2.2.2.1⟩
      show (pp1.Available.buf ++ pp1.waitQueue.buf).Nodup
      rw [s5, d2, d3]
      show (([] : List Ptr) ++ List.range' _ _ ++ []).Nodup
      rw [List.append_nil, List.nil_append]
      exact List.nodup_range' _ _
  | panics text => cases hstart
  | blocks => cases hstart

/-- C30, counterexample. The elastic pool of the examples (`PoolSize` 1,
`MaxInstances` 2) is used by one caller. `Start` creates one instance and the
first call succeeds on it; when it has returned, the instance lies in
`waitQueue` and `Available` is empty. The next call begins after that, finds
`Available` empty and the map below the ceiling, and starts a second instance
although the first one is idle: the map and the heap hold two instances. -/
theorem growth_on_demand_counterexample :
    ((NewPluginPool "math" sampleElasticConfig).Start (sampleCodec sampleKnown) .unix
      sampleCreateEnvs).1 = .returns none ∧
    ((NewPluginPool "math" sampleElasticConfig).Start (sampleCodec sampleKnown) .unix
      sampleCreateEnvs).2.Instances.length = 1 ∧
    (((NewPluginPool "math" sampleElasticConfig).Start (sampleCodec sampleKnown) .unix
      sampleCreateEnvs).2.CallFunction (sampleCodec sampleKnown) .unix sampleNextCallEnv "add"
        []).1.succeeded = true ∧
    sampleServedPool.Instances.length = 1 ∧
    sampleServedPool.heap.length = 1 ∧
    sampleServedPool.Available.buf = [] ∧
    sampleServedPool.waitQueue.buf = [0] ∧
    (sampleServedPool.CallFunction (sampleCodec sampleKnown) .unix sampleNextCallEnv "add"
        []).1.succeeded = true ∧
    (sampleServedPool.CallFunction (sampleCodec sampleKnown) .unix sampleNextCallEnv "add"
        []).2.Instances.length = 2 ∧
    (sampleServedPool.CallFunction (sampleCodec sampleKnown) .unix sampleNextCallEnv "add"
        []).2.heap.length = 2 := by
  refine ⟨rfl, ?_, ?_, ?_, ?_, ?_, ?_, ?_, ?_, ?_⟩ <;> decide

/-- C30, amended. A `CallFunction` either leaves the map and the number of
instances as they were, or it has started exactly one instance, and then the
pool was running, `Available` was empty and the map was below `MaxInstances`
when the call began; instances that lie idle in `waitQueue` do not enter the
test. Hence the calls of one caller never start an instance on a pool whose map
has reached `MaxInstances`: after any sequence of such calls the map and the
number of instances are those before the first call. -/
theorem CallFunction_growth (j : Codec) (kind : CommunicationType) (pp : PluginPool)
    (env : PoolCallEnv) (functionName : String) (params : List (String × JValue))
    (calls : List (PoolCallEnv × String × List (String × JValue))) :
    (((pp.CallFunction j kind env functionName params).2.heap.length = pp.heap.length ∧
        (pp.CallFunction j kind env functionName params).2.Instances = pp.Instances) ∨
      ((pp.CallFunction j kind env functionName params).2.heap.length = pp.heap.length + 1 ∧
        pp.IsRunning = true ∧ pp.Available.buf = [] ∧
        (pp.Instances.length : Int) < pp.MaxInstances)) ∧
    (pp.MaxInstances ≤ (pp.Instances.length : Int) →
      (pp.run j kind (calls.map callOp)).2.heap.length = pp.heap.length ∧
      (pp.run j kind (calls.map callOp)).2.Instances = pp.Instances) := by
  refine ⟨?_, fun hceil => ?_⟩
  · rcases PoolCallFunction_cases j kind env pp functionName params with
      ⟨h1, h2, -, -⟩ | ⟨c1, c2, c3, c4⟩
    · exact Or.inl ⟨h1, h2⟩
    · exact Or.inr ⟨c4, c1, c2, c3⟩
  · obtain ⟨i1, i2, -, -⟩ := callsRun_at_ceiling j kind calls pp hceil
    exact ⟨i1, i2⟩

/-- Witness for `CallFunction_growth`: the example pool with `PoolSize` 1 and
`MaxInstances` 1 is at its ceiling after `Start`, and two calls of one caller
leave it with its one instance. -/
theorem CallFunction_growth_witness :
    (((NewPluginPool "math" sampleConfig).Start (sampleCodec sampleKnown) .unix
      sampleCreateEnvs).2.run (sampleCodec sampleKnown) .unix
        ([(sampleNextCallEnv, "add", []), (sampleNextCallEnv, "add", [])].map callOp)).2.heap.length
      = 1 ∧
    (((NewPluginPool "math" sampleConfig).Start (sampleCodec sampleKnown) .unix
      sampleCreateEnvs).2.run (sampleCodec sampleKnown) .unix
        ([(sampleNextCallEnv, "add", []), (sampleNextCallEnv, "add", [])].map callOp)).2.Instances
      = ((NewPluginPool "math" sampleConfig).Start (sampleCodec sampleKnown) .unix
          sampleCreateEnvs).2.Instances :=
  (CallFunction_growth (sampleCodec sampleKnown) .unix
    ((NewPluginPool "math" sampleConfig).Start (sampleCodec sampleKnown) .unix sampleCreateEnvs).2
    sampleNextCallEnv "add" []
    [(sampleNextCallEnv, "add", []), (sampleNextCallEnv, "add", [])]).2 (by decide)

/-- C28, the code on a failing input. The elastic pool of the examples
(built by `NewPluginPool`, `PoolSize` 1, `MaxInstances` 2) has served one call and
holds its first instance in `waitQueue`. The `GetInstance` of the next call
starts a second instance, which `createNewInstance` sends into `Available` and
also returns to the caller: the instance is buffered while the caller holds
it. When that call returns the instance, `ReturnInstance` sends it into
`waitQueue` as well: the second instance occurs twice among the buffered
entries, against the comment of `NewPluginPool` that the capacity of the queue
is chosen to avoid repeated instances in it. -/
theorem created_instance_buffered_twice :
    sampleServedPool.Available.buf = [] ∧
    sampleServedPool.waitQueue.buf = [0] ∧
    (sampleServedPool.GetInstance (sampleCodec sampleKnown) .unix sampleNextCallEnv.create
      true).1 = .returns (.ok (some 1)) ∧
    (sampleServedPool.GetInstance (sampleCodec sampleKnown) .unix sampleNextCallEnv.create
      true).2.Available.buf = [1] ∧
    (sampleServedPool.CallFunction (sampleCodec sampleKnown) .unix sampleNextCallEnv "add"
      []).1.succeeded = true ∧
    (sampleServedPool.CallFunction (sampleCodec sampleKnown) .unix sampleNextCallEnv "add"
      []).2.Available.buf = [1] ∧
    (sampleServedPool.CallFunction (sampleCodec sampleKnown) .unix sampleNextCallEnv "add"
      []).2.waitQueue.buf = [0, 1] := by
  refine ⟨?_, ?_, rfl, ?_, ?_, ?_, ?_⟩ <;> decide

/-- At the ceiling. A pool built by `NewPluginPool` whose `Start` returned nil with
the map filled up to `MaxInstances` is used through `CallFunction` by one caller.
After every sequence of calls no instance occurs more than once among the
entries buffered in `Available` and `waitQueue` together, and the instance that
the `GetInstance` of a further call hands out is in neither channel while the
caller holds it. -/
theorem queues_nodup_at_ceiling (j : Codec) (kind : CommunicationType) (pluginName : String)
    (config : PluginConfig) (envs : Nat → CreateEnv)
    (calls : List (PoolCallEnv × String × List (String × JValue))) (env : CreateEnv)
    (pick : Bool)
    (hstart : ((NewPluginPool pluginName config).Start j kind envs).1 = .returns none)
    (hceil : config.MaxInstances ≤
      (((NewPluginPool pluginName config).Start j kind envs).2.Instances.length : Int)) :
    (((NewPluginPool pluginName config).run j kind
        (.start envs :: calls.map callOp)).2.Available.buf ++
      ((NewPluginPool pluginName config).run j kind
        (.start envs :: calls.map callOp)).2.waitQueue.buf).Nodup ∧
    ∀ ptr, (((NewPluginPool pluginName config).run j kind
        (.start envs :: calls.map callOp)).2.GetInstance j kind env pick).1 =
          .returns (.ok (some ptr)) →
      ptr ∉ (((NewPluginPool pluginName config).run j kind
        (.start envs :: calls.map callOp)).2.GetInstance j kind env pick).2.Available.buf ∧
      ptr ∉ (((NewPluginPool pluginName config).run j kind
        (.start envs :: calls.map callOp)).2.GetInstance j kind env pick).2.waitQueue.buf := by
  have hstep : (NewPluginPool pluginName config).step j kind (.start envs) =
      (.returns (), ((NewPluginPool pluginName config).Start j kind envs).2) := by
    simp only [PluginPool.step, hstart, Outcome.void]
  have hrun : (NewPluginPool pluginName config).run j kind (.start envs :: calls.map callOp) =
      ((NewPluginPool pluginName config).Start j kind envs).2.run j kind (calls.map callOp) := by
    simp only [PluginPool.run, hstep]
  rw [hrun]
  obtain ⟨q1, q2⟩ := PoolStart_queues j kind pluginName config envs hstart
  obtain ⟨-, i2, i3, i4⟩ := callsRun_at_ceiling j kind calls
    ((NewPluginPool pluginName config).Start j kind envs).2 (by rw [q2]; exact hceil)
  have hnd := i4 q1
  refine ⟨hnd, fun ptr hp => ?_⟩
  rcases GetInstance_cases j kind env pick
    (((NewPluginPool pluginName config).Start j kind envs).2.run j kind (calls.map callOp)).2 with
    ⟨-, -, -, g4, -⟩ | ⟨-, -, hlt, -⟩
  · have hcons := (g4 ptr hp).nodup_iff.mpr hnd
    have hnot := (List.nodup_cons.mp hcons).1
    rw [List.mem_append, not_or] at hnot
    exact hnot
  · rw [i2, i3, q2] at hlt
    omega

/-- Witness for `queues_nodup_at_ceiling`: the example pool with `PoolSize` 1 and
`MaxInstances` 1 has served one call; its one instance is buffered once, and the
next `GetInstance` takes it out of the channels. -/
theorem queues_nodup_at_ceiling_witness :
    (((NewPluginPool "math" sampleConfig).run (sampleCodec sampleKnown) .unix
        (.start sampleCreateEnvs :: [(sampleNextCallEnv, "add", [])].map callOp)).2.Available.buf ++
      ((NewPluginPool "math" sampleConfig).run (sampleCodec sampleKnown) .unix
        (.start sampleCreateEnvs :: [(sampleNextCallEnv, "add", [])].map callOp)).2.waitQueue.buf).Nodup ∧
    (0 ∉ (((NewPluginPool "math" sampleConfig).run (sampleCodec sampleKnown) .unix
        (.start sampleCreateEnvs :: [(sampleNextCallEnv, "add", [])].map callOp)).2.GetInstance
          (sampleCodec sampleKnown) .unix sampleNextCallEnv.create true).2.Available.buf ∧
      0 ∉ (((NewPluginPool "math" sampleConfig).run (sampleCodec sampleKnown) .unix
        (.start sampleCreateEnvs :: [(sampleNextCallEnv, "add", [])].map callOp)).2.GetInstance
          (sampleCodec sampleKnown) .unix sampleNextCallEnv.create true).2.waitQueue.buf) :=
  ⟨(queues_nodup_at_ceiling (sampleCodec sampleKnown) .unix "math" sampleConfig sampleCreateEnvs
      [(sampleNextCallEnv, "add", [])] sampleNextCallEnv.create true rfl (by decide)).1,
    (queues_nodup_at_ceiling (sampleCodec sampleKnown) .unix "math" sampleConfig sampleCreateEnvs
      [(sampleNextCallEnv, "add", [])] sampleNextCallEnv.create true rfl (by decide)).2 0 rfl⟩

/-! ### Plugin pool: callers side by side -/

theorem callerRun_succ (j : Codec) (kind : CommunicationType) (n : Nat) (pp : PluginPool)
    (c : Caller) :
    pp.callerRun j kind (n + 1) c =
      (pp.callerStep j kind c).1.callerRun j kind n (pp.callerStep j kind c).2 := rfl

theorem callerRun_fixed (j : Codec) (kind : CommunicationType) (pp : PluginPool) (c : Caller)
    (h : pp.callerStep j kind c = (pp, c)) : ∀ n, pp.callerRun j kind n c = (pp, c) := by
  intro n
  induction n with
  | zero => rfl
  | succ n ih => rw [callerRun_succ, h]; exact ih

theorem callerRun_atReturn (j : Codec) (kind : CommunicationType) (n : Nat) (pp : PluginPool)
    (env : PoolCallEnv) (functionName : String) (params : List (String × JValue)) (ptr : Ptr)
    (result : Except GoError JValue) :
    (pp.callerRun j kind (n + 2)
      { env := env, functionName := functionName, params := params,
        point := .atReturn ptr result }).1 = (pp.ReturnInstance ptr).2 ∧
    (pp.callerRun j kind (n + 2)
      { env := env, functionName := functionName, params := params,
        point := .atReturn ptr result }).2.point.outcome =
      some (match (pp.ReturnInstance ptr).1 with
        | .returns _ => .returns result
        | .panics text => .panics text
        | .blocks => .blocks) := by
  have done : ∀ (pp1 : PluginPool) (r : Except GoError JValue) (d : Bool) (m : Nat),
      pp1.callerRun j kind m
        { env := env, functionName := functionName, params := params, point := .returned r d } =
        (pp1, { env := env, functionName := functionName, params := params,
                point := .returned r d }) :=
    fun pp1 r d m => callerRun_fixed j kind pp1
      { env := env, functionName := functionName, params := params, point := .returned r d }
      rfl m
  have dead : ∀ (pp1 : PluginPool) (text : String) (m : Nat),
      pp1.callerRun j kind m
        { env := env, functionName := functionName, params := params, point := .panicked text } =
        (pp1, { env := env, functionName := functionName, params := params,
                point := .panicked text }) :=
    fun pp1 text m => callerRun_fixed j kind pp1
      { env := env, functionName := functionName, params := params, point := .panicked text }
      rfl m
  rw [callerRun_succ]
  unfold PluginPool.ReturnInstance
  by_cases hr : (!pp.IsRunning) = true
  · have hs : pp.callerStep j kind
        { env := env, functionName := functionName, params := params,
          point := .atReturn ptr result } =
        (pp, { env := env, functionName := functionName, params := params,
               point := .returned result false }) := by
      simp only [PluginPool.callerStep, if_pos hr, Caller.moveTo]
    rw [hs, done, if_pos hr]
    exact ⟨rfl, rfl⟩
  · rw [if_neg hr]
    rcases hi : pp.heap[ptr]? with _ | inst
    · have hs : pp.callerStep j kind
          { env := env, functionName := functionName, params := params,
            point := .atReturn ptr result } =
          (pp, { env := env, functionName := functionName, params := params,
                 point := .panicked "invalid memory address or nil pointer dereference" }) := by
        simp only [PluginPool.callerStep, if_neg hr, hi, Caller.moveTo]
      rw [hs, dead]
      exact ⟨rfl, rfl⟩
    · dsimp only
      by_cases hf : (!(pp.Instances.lookup inst.ID).isSome) = true
      · have hs : pp.callerStep j kind
            { env := env, functionName := functionName, params := params,
              point := .atReturn ptr result } =
            (pp, { env := env, functionName := functionName, params := params,
                   point := .returned result false }) := by
          simp only [PluginPool.callerStep, if_neg hr, hi, if_pos hf, Caller.moveTo]
        rw [hs, done, if_pos hf]
        exact ⟨rfl, rfl⟩
      · have hs : pp.callerStep j kind
            { env := env, functionName := functionName, params := params,
              point := .atReturn ptr result } =
            (pp, { env := env, functionName := functionName, params := params,
                   point := .atOffer ptr result }) := by
          simp only [PluginPool.callerStep, if_neg hr, hi, if_neg hf, Caller.moveTo]
        rw [hs, if_neg hf, callerRun_succ]
        by_cases hw : pp.waitQueue.closed = true
        · have hs2 : pp.callerStep j kind
              { env := env, functionName := functionName, params := params,
                point := .atOffer ptr result } =
              (pp, { env := env, functionName := functionName, params := params,
                     point := .panicked "send on closed channel" }) := by
            simp only [PluginPool.callerStep, if_pos hw, Caller.moveTo]
          rw [hs2, dead, if_pos hw]
          exact ⟨rfl, rfl⟩
        · rw [if_neg hw]
          by_cases hwr : pp.waitQueue.buf.length < pp.waitQueue.cap
          · have hs2 : pp.callerStep j kind
                { env := env, functionName := functionName, params := params,
                  point := .atOffer ptr result } =
                ({ pp with waitQueue := { pp.waitQueue with buf := pp.waitQueue.buf ++ [ptr] } },
                  { env := env, functionName := functionName, params := params,
                    point := .returned result false }) := by
              simp only [PluginPool.callerStep, if_neg hw, if_pos hwr, Caller.moveTo]
            rw [hs2, done, if_pos hwr]
            exact ⟨rfl, rfl⟩
          · rw [if_neg hwr]
            by_cases ha : pp.Available.closed = true
            · have hs2 : pp.callerStep j kind
                  { env := env, functionName := functionName, params := params,
                    point := .atOffer ptr result } =
                  (pp, { env := env, functionName := functionName, params := params,
                         point := .panicked "send on closed channel" }) := by
                simp only [PluginPool.callerStep, if_neg hw, if_neg hwr, if_pos ha, Caller.moveTo]
              rw [hs2, dead, if_pos ha]
              exact ⟨rfl, rfl⟩
            · rw [if_neg ha]
              by_cases har : pp.Available.buf.length < pp.Available.cap
              · have hs2 : pp.callerStep j kind
                    { env := env, functionName := functionName, params := params,
                      point := .atOffer ptr result } =
                    ({ pp with
                        Available := { pp.Available with buf := pp.Available.buf ++ [ptr] } },
                      { env := env, functionName := functionName, params := params,
                        point := .returned result false }) := by
                  simp only [PluginPool.callerStep, if_neg hw, if_neg hwr, if_neg ha, if_pos har,
                    Caller.moveTo]
                rw [hs2, done, if_pos har]
                exact ⟨rfl, rfl⟩
              · have hs2 : pp.callerStep j kind
                    { env := env, functionName := functionName, params := params,
                      point := .atOffer ptr result } =
                    (pp, { env := env, functionName := functionName, params := params,
                           point := .returned result true }) := by
                  simp only [PluginPool.callerStep, if_neg hw, if_neg hwr, if_neg ha, if_neg har,
                    Caller.moveTo]
                rw [hs2, done, if_neg har]
                exact ⟨rfl, rfl⟩

theorem callerRun_atCall (j : Codec) (kind : CommunicationType) (n : Nat) (pp : PluginPool)
    (env : PoolCallEnv) (functionName : String) (params : List (String × JValue)) (ptr : Ptr) :
    (pp.callerRun j kind (n + 3)
      { env := env, functionName := functionName, params := params, point := .atCall ptr }).1 =
      (match pp.heap[ptr]? with
        | none =>
          ((.panics "invalid memory address or nil pointer dereference", pp) :
            Outcome (Except GoError JValue) × PluginPool)
        | some inst =>
          let (result, inst) := inst.CallFunction j env.now env.later functionName params
          let pp := { pp with heap := pp.heap.set ptr inst }
          match pp.ReturnInstance ptr with
          | (.returns _, pp) => (.returns result, pp)
          | (.panics text, pp) => (.panics text, pp)
          | (.blocks, pp) => (.blocks, pp)).2 ∧
    (pp.callerRun j kind (n + 3)
      { env := env, functionName := functionName, params := params,
        point := .atCall ptr }).2.point.outcome =
      some (match pp.heap[ptr]? with
        | none =>
          ((.panics "invalid memory address or nil pointer dereference", pp) :
            Outcome (Except GoError JValue) × PluginPool)
        | some inst =>
          let (result, inst) := inst.CallFunction j env.now env.later functionName params
          let pp := { pp with heap := pp.heap.set ptr inst }
          match pp.ReturnInstance ptr with
          | (.returns _, pp) => (.returns result, pp)
          | (.panics text, pp) => (.panics text, pp)
          | (.blocks, pp) => (.blocks, pp)).1 := by
  rw [callerRun_succ]
  rcases hi : pp.heap[ptr]? with _ | inst
  · have hs : pp.callerStep j kind
        { env := env, functionName := functionName, params := params, point := .atCall ptr } =
        (pp, { env := env, functionName := functionName, params := params,
               point := .panicked "invalid memory address or nil pointer dereference" }) := by
      simp only [PluginPool.callerStep, hi, Caller.moveTo]
    rw [hs, callerRun_fixed j kind pp
      { env := env, functionName := functionName, params := params,
        point := .panicked "invalid memory address or nil pointer dereference" } rfl]
    exact ⟨rfl, rfl⟩
  · rcases hcall : inst.CallFunction j env.now env.later functionName params with
      ⟨result, inst2⟩
    have hs : pp.callerStep j kind
        { env := env, functionName := functionName, params := params, point := .atCall ptr } =
        ({ pp with heap := pp.heap.set ptr inst2 },
          { env := env, functionName := functionName, params := params,
            point := .atReturn ptr result }) := by
      simp only [PluginPool.callerStep, hi, hcall, Caller.moveTo]
    rw [hs]
    dsimp only
    rw [hcall]
    obtain ⟨r1, r2⟩ := callerRun_atReturn j kind n { pp with heap := pp.heap.set ptr inst2 } env
      functionName params ptr result
    rw [r1, r2]
    rcases hret : ({ pp with heap := pp.heap.set ptr inst2 } : PluginPool).ReturnInstance ptr with
      ⟨o2, pp3⟩
    cases o2 <;> exact ⟨rfl, rfl⟩

theorem waitForAvailableInstance_returns (pick : Bool) (pp : PluginPool) :
    ∃ r, (pp.waitForAvailableInstance pick).1 = .returns r := by
  unfold PluginPool.waitForAvailableInstance
  rcases ha : pp.Available.tryRecv with _ | ⟨x, ch⟩ <;>
    rcases hw : pp.waitQueue.tryRecv with _ | ⟨y, ch'⟩
  · exact ⟨_, rfl⟩
  · exact ⟨_, rfl⟩
  · exact ⟨_, rfl⟩
  · dsimp only
    split_ifs
    · exact ⟨_, rfl⟩
    · exact ⟨_, rfl⟩

/-- One goroutine that moves with no other goroutine at work does what the
method `PluginPool.CallFunction` does as a whole: after nine moves the pool is the
pool that `CallFunction` leaves, and the call has ended as `CallFunction` ends. -/
theorem callerRun_alone (j : Codec) (kind : CommunicationType) (pp : PluginPool)
    (env : PoolCallEnv) (functionName : String) (params : List (String × JValue)) :
    (pp.callerRun j kind 9
      { env := env, functionName := functionName, params := params }).1 =
      (pp.CallFunction j kind env functionName params).2 ∧
    (pp.callerRun j kind 9
      { env := env, functionName := functionName, params := params }).2.point.outcome =
      some (pp.CallFunction j kind env functionName params).1 := by
  have failed : ∀ (pp1 : PluginPool) (err : GoError) (m : Nat),
      pp1.callerRun j kind m
        { env := env, functionName := functionName, params := params,
          point := .returned (.error err) false } =
        (pp1, { env := env, functionName := functionName, params := params,
                point := .returned (.error err) false }) :=
    fun pp1 err m => callerRun_fixed j kind pp1
      { env := env, functionName := functionName, params := params,
        point := .returned (.error err) false } rfl m
  have dead : ∀ (pp1 : PluginPool) (text : String) (m : Nat),
      pp1.callerRun j kind m
        { env := env, functionName := functionName, params := params, point := .panicked text } =
        (pp1, { env := env, functionName := functionName, params := params,
                point := .panicked text }) :=
    fun pp1 text m => callerRun_fixed j kind pp1
      { env := env, functionName := functionName, params := params, point := .panicked text }
      rfl m
  rw [callerRun_succ]
  unfold PluginPool.CallFunction PluginPool.GetInstance
  by_cases hr : (!pp.IsRunning) = true
  · have hs : pp.callerStep j kind
        { env := env, functionName := functionName, params := params } =
        (pp, { env := env, functionName := functionName, params := params,
               point := .returned (.error (.errorf ("插件池 " ++ pp.PluginName ++ " 未运行")))
                 false }) := by
      simp only [PluginPool.callerStep, if_pos hr, Caller.moveTo, Caller.fails]
    rw [hs, failed, if_pos hr]
    exact ⟨rfl, rfl⟩
  · rw [if_neg hr]
    rcases ha : pp.Available.tryRecv with _ | ⟨x, ch⟩
    · have hs : pp.callerStep j kind
          { env := env, functionName := functionName, params := params } =
          (pp, { env := env, functionName := functionName, params := params,
                 point := .atCount }) := by
        simp only [PluginPool.callerStep, if_neg hr, ha, Caller.moveTo]
      rw [hs, callerRun_succ]
      dsimp only
      by_cases hcount : (pp.Instances.length : Int) < pp.MaxInstances
      · have hs2 : pp.callerStep j kind
            { env := env, functionName := functionName, params := params, point := .atCount } =
            (pp, { env := env, functionName := functionName, params := params,
                   point := .atCreate }) := by
          simp only [PluginPool.callerStep, if_pos hcount, Caller.moveTo]
        have hc : ¬ ((pp.Instances.length : Int) ≥ pp.MaxInstances) := by omega
        have hs3 : pp.callerStep j kind
            { env := env, functionName := functionName, params := params, point := .atCreate } =
            (pp, { env := env, functionName := functionName, params := params,
                   point := .atStart }) := by
          simp only [PluginPool.callerStep, if_neg hc, Caller.moveTo]
        rw [hs2, callerRun_succ, hs3, callerRun_succ, if_pos hcount]
        unfold PluginPool.createNewInstance
        rw [if_neg hc]
        cases hu : env.create.uuid with
        | error text =>
          have hs4 : pp.callerStep j kind
              { env := env, functionName := functionName, params := params,
                point := .atStart } =
              (pp, { env := env, functionName := functionName, params := params,
                     point := .returned (.error (.wrapf "生成实例ID失败: " (.errorf text)))
                       false }) := by
            simp only [PluginPool.callerStep, hu, Caller.moveTo, Caller.fails]
          rw [hs4, failed]
          exact ⟨rfl, rfl⟩
        | ok u =>
          dsimp only
          rcases hst : (NewPluginInstance kind env.create.now pp.PluginName pp.Config
            (pp.PluginName ++ stripHyphens u)).Start j env.create.start with ⟨e, inst⟩
          cases e with
          | some err =>
            have hs4 : pp.callerStep j kind
                { env := env, functionName := functionName, params := params,
                  point := .atStart } =
                (pp, { env := env, functionName := functionName, params := params,
                       point := .returned (.error (.wrapf
                         ("启动实例 " ++ (pp.PluginName ++ stripHyphens u) ++ " 失败: ") err))
                         false }) := by
              simp only [PluginPool.callerStep, hu, hst, Caller.moveTo, Caller.fails]
            rw [hs4, failed]
            exact ⟨rfl, rfl⟩
          | none =>
            have hs4 : pp.callerStep j kind
                { env := env, functionName := functionName, params := params,
                  point := .atStart } =
                (pp, { env := env, functionName := functionName, params := params,
                       point := .atInsert (pp.PluginName ++ stripHyphens u) inst }) := by
              simp only [PluginPool.callerStep, hu, hst, Caller.moveTo]
            rw [hs4, callerRun_succ]
            have hs5 : pp.callerStep j kind
                { env := env, functionName := functionName, params := params,
                  point := .atInsert (pp.PluginName ++ stripHyphens u) inst } =
                ({ pp with heap := pp.heap ++ [inst],
                           Instances := mapInsert pp.Instances
                             (pp.PluginName ++ stripHyphens u) pp.heap.length },
                  { env := env, functionName := functionName, params := params,
                    point := .atSend pp.heap.length }) := by
              simp only [PluginPool.callerStep, Caller.moveTo]
            rw [hs5, callerRun_succ]
            dsimp only
            by_cases hcl : pp.Available.closed = true
            · have hs6 : ({ pp with heap := pp.heap ++ [inst],
                                    Instances := mapInsert pp.Instances
                                      (pp.PluginName ++ stripHyphens u) pp.heap.length } :
                  PluginPool).callerStep j kind
                  { env := env, functionName := functionName, params := params,
                    point := .atSend pp.heap.length } =
                  ({ pp with heap := pp.heap ++ [inst],
                             Instances := mapInsert pp.Instances
                               (pp.PluginName ++ stripHyphens u) pp.heap.length },
                    { env := env, functionName := functionName, params := params,
                      point := .panicked "send on closed channel" }) := by
                simp only [PluginPool.callerStep, if_pos hcl, Caller.moveTo]
              rw [hs6, dead, if_pos hcl]
              exact ⟨rfl, rfl⟩
            · rw [if_neg hcl]
              by_cases hroom : pp.Available.buf.length < pp.Available.cap
              · have hs6 : ({ pp with heap := pp.heap ++ [inst],
                                      Instances := mapInsert pp.Instances
                                        (pp.PluginName ++ stripHyphens u) pp.heap.length } :
                    PluginPool).callerStep j kind
                    { env := env, functionName := functionName, params := params,
                      point := .atSend pp.heap.length } =
                    ({ pp with heap := pp.heap ++ [inst],
                               Instances := mapInsert pp.Instances
                                 (pp.PluginName ++ stripHyphens u) pp.heap.length,
                               Available := { pp.Available with
                                              buf := pp.Available.buf ++ [pp.heap.length] } },
                      { env := env, functionName := functionName, params := params,
                        point := .atCall pp.heap.length }) := by
                  simp only [PluginPool.callerStep, if_neg hcl, if_pos hroom, Caller.moveTo]
                rw [hs6, if_pos hroom]
                exact callerRun_atCall j kind 0 _ env functionName params pp.heap.length
              · have hs6 : ({ pp with heap := pp.heap ++ [inst],
                                      Instances := mapInsert pp.Instances
                                        (pp.PluginName ++ stripHyphens u) pp.heap.length } :
                    PluginPool).callerStep j kind
                    { env := env, functionName := functionName, params := params,
                      point := .atSend pp.heap.length } =
                    ({ pp with heap := pp.heap ++ [inst],
                               Instances := mapInsert pp.Instances
                                 (pp.PluginName ++ stripHyphens u) pp.heap.length },
                      { env := env, functionName := functionName, params := params,
                        point := .atSend pp.heap.length }) := by
                  simp only [PluginPool.callerStep, if_neg hcl, if_neg hroom]
                rw [hs6, callerRun_fixed j kind _ _ hs6, if_neg hroom]
                exact ⟨rfl, rfl⟩
      · have hs2 : pp.callerStep j kind
            { env := env, functionName := functionName, params := params, point := .atCount } =
            (pp, { env := env, functionName := functionName, params := params,
                   point := .atWait }) := by
          simp only [PluginPool.callerStep, if_neg hcount, Caller.moveTo]
        rw [hs2, callerRun_succ, if_neg hcount]
        obtain ⟨r, hret⟩ := waitForAvailableInstance_returns env.pick pp
        rcases hwt : pp.waitForAvailableInstance env.pick with ⟨o, pp1⟩
        rw [hwt] at hret
        simp only at hret
        subst hret
        cases r with
        | error err =>
          have hs3 : pp.callerStep j kind
              { env := env, functionName := functionName, params := params, point := .atWait } =
              (pp1, { env := env, functionName := functionName, params := params,
                      point := .returned (.error err) false }) := by
            simp only [PluginPool.callerStep, hwt, Caller.moveTo, Caller.fails]
          rw [hs3, failed]
          exact ⟨rfl, rfl⟩
        | ok x =>
          cases x with
          | none =>
            have hs3 : pp.callerStep j kind
                { env := env, functionName := functionName, params := params,
                  point := .atWait } =
                (pp1, { env := env, functionName := functionName, params := params,
                        point := .returned (.error (.errorf "获取到的插件实例为nil")) false }) := by
              simp only [PluginPool.callerStep, hwt, Caller.moveTo, Caller.fails]
            rw [hs3, failed]
            exact ⟨rfl, rfl⟩
          | some ptr =>
            have hs3 : pp.callerStep j kind
                { env := env, functionName := functionName, params := params,
                  point := .atWait } =
                (pp1, { env := env, functionName := functionName, params := params,
                        point := .atCall ptr }) := by
              simp only [PluginPool.callerStep, hwt, Caller.moveTo]
            rw [hs3]
            exact callerRun_atCall j kind 3 pp1 env functionName params ptr
    · cases x with
      | none =>
        have hs : pp.callerStep j kind
            { env := env, functionName := functionName, params := params } =
            ({ pp with Available := ch },
              { env := env, functionName := functionName, params := params,
                point := .returned (.error (.errorf "获取到的插件实例为nil")) false }) := by
          simp only [PluginPool.callerStep, if_neg hr, ha, Caller.moveTo, Caller.fails]
        rw [hs, failed]
        exact ⟨rfl, rfl⟩
      | some ptr =>
        have hs : pp.callerStep j kind
            { env := env, functionName := functionName, params := params } =
            ({ pp with Available := ch },
              { env := env, functionName := functionName, params := params,
                point := .atCall ptr }) := by
          simp only [PluginPool.callerStep, if_neg hr, ha, Caller.moveTo]
        rw [hs]
        exact callerRun_atCall j kind 5 _ env functionName params ptr

/-- C13, the code on a failing input. The elastic pool of the examples
(`MaxInstances` 2) has started with one instance and three goroutines call
`CallFunction`. Caller 0 receives the instance from `Available`. Callers 1 and 2 find
`Available` empty and each passes the test `len(pp.Instances) < pp.MaxInstances` in
`GetInstance` and the test in `createNewInstance` while the map holds one entry:
the lock is released after the test, and `instance.Start()` runs under no lock.
Each then starts its instance and inserts it: the map holds three entries
under a ceiling of two, and it still does when all three calls have
returned. No goroutine panicked. -/
theorem concurrent_callers_exceed_ceiling :
    sampleElasticSystem.pool.IsRunning = true ∧
    sampleElasticSystem.pool.MaxInstances = 2 ∧
    sampleElasticSystem.pool.Instances.length = 1 ∧
    (sampleElasticSystem.run (sampleCodec sampleKnown) .unix
      [0, 1, 1, 1, 2, 2, 2]).callers.map (fun c => c.point.isAdmitted) = [false, true, true] ∧
    (sampleElasticSystem.run (sampleCodec sampleKnown) .unix
      [0, 1, 1, 1, 2, 2, 2]).pool.Instances.length = 1 ∧
    (sampleElasticSystem.run (sampleCodec sampleKnown) .unix
      sampleElasticSchedule).callers.map (fun c => c.point.held) = [some 0, some 1, some 2] ∧
    (sampleElasticSystem.run (sampleCodec sampleKnown) .unix
      sampleElasticSchedule).pool.Instances.map Prod.snd = [0, 1, 2] ∧
    (sampleElasticSystem.run (sampleCodec sampleKnown) .unix
      sampleElasticSchedule).pool.MaxInstances = 2 ∧
    (sampleElasticSystem.run (sampleCodec sampleKnown) .unix
      (sampleElasticSchedule ++ [0, 0, 0, 1, 1, 1, 2, 2, 2])).callers.map
        (fun c => c.point.isReturned) = [true, true, true] ∧
    (sampleElasticSystem.run (sampleCodec sampleKnown) .unix
      (sampleElasticSchedule ++ [0, 0, 0, 1, 1, 1, 2, 2, 2])).pool.Instances.length = 3 := by
  decide

set_option maxRecDepth 100000 in
/-- C16, the code on a failing input. A pool built by `NewPluginPool` with
`PoolSize` 1 and `MaxInstances` 10 (both channels have capacity 10) has started
and is used through `CallFunction` by nineteen goroutines. Callers 0 to 16 go
through `GetInstance` one after the other: every second one creates an instance,
which the next one also receives from `Available`, so the map holds nine
entries. Callers 17 and 18 both pass the tests against `MaxInstances` at nine
entries and both insert and send: the map holds eleven entries and `Available`
two. Then the callers return their instances in turn. Ten go into `waitQueue`
and eight into `Available`; when caller 18 returns its instance, `waitQueue` and
`Available` are both full and `ReturnInstance` takes its innermost `default`
branch. No goroutine panicked and every call has returned. -/
theorem concurrent_callers_reach_drop_branch :
    sampleRaceSystem.pool.IsRunning = true ∧
    sampleRaceSystem.pool.MaxInstances = 10 ∧
    sampleRaceSystem.pool.Available.cap = 10 ∧
    sampleRaceSystem.pool.waitQueue.cap = 10 ∧
    (sampleRaceSystem.run (sampleCodec sampleKnown) .unix sampleAcquireSchedule).pool.Instances.length
      = 9 ∧
    (sampleRaceSystem.run (sampleCodec sampleKnown) .unix
      (sampleAcquireSchedule ++ sampleCeilingRaceSchedule)).callers.map (fun c => c.point.held) =
      [some 0, some 1, some 1, some 2, some 2, some 3, some 3, some 4, some 4, some 5, some 5,
        some 6, some 6, some 7, some 7, some 8, some 8, some 9, some 10] ∧
    (sampleRaceSystem.run (sampleCodec sampleKnown) .unix
      (sampleAcquireSchedule ++ sampleCeilingRaceSchedule)).pool.Instances.length = 11 ∧
    (sampleRaceSystem.run (sampleCodec sampleKnown) .unix
      (sampleAcquireSchedule ++ sampleCeilingRaceSchedule)).pool.Available.buf = [9, 10] ∧
    (sampleRaceSystem.run (sampleCodec sampleKnown) .unix
      (sampleAcquireSchedule ++ sampleCeilingRaceSchedule)).pool.waitQueue.buf = [] ∧
    (sampleRaceSystem.run (sampleCodec sampleKnown) .unix
      (sampleAcquireSchedule ++ sampleCeilingRaceSchedule ++
        sampleReturnSchedule.dropLast)).pool.waitQueue.buf = [0, 1, 1, 2, 2, 3, 3, 4, 4, 5] ∧
    (sampleRaceSystem.run (sampleCodec sampleKnown) .unix
      (sampleAcquireSchedule ++ sampleCeilingRaceSchedule ++
        sampleReturnSchedule.dropLast)).pool.Available.buf = [9, 10, 5, 6, 6, 7, 7, 8, 8, 9] ∧
    ((sampleRaceSystem.run (sampleCodec sampleKnown) .unix
      (sampleAcquireSchedule ++ sampleCeilingRaceSchedule ++
        sampleReturnSchedule.dropLast)).callers.map (fun c => c.point.held)).getLast? =
      some (some 10) ∧
    (sampleRaceSystem.run (sampleCodec sampleKnown) .unix
      (sampleAcquireSchedule ++ sampleCeilingRaceSchedule ++
        sampleReturnSchedule)).callers.map (fun c => c.point.isReturned) =
      List.replicate 19 true ∧
    (sampleRaceSystem.run (sampleCodec sampleKnown) .unix
      (sampleAcquireSchedule ++ sampleCeilingRaceSchedule ++
        sampleReturnSchedule)).callers.map (fun c => c.point.isDropped) =
      List.replicate 18 false ++ [true] := by
  decide

end Goproc
